import Mathlib

/-! # Rogue 5.4: save files, score file, pack, daemons, armor, rings, potions, scrolls

A shallow embedding of the routines of `save.c`, `pack.c`, `daemons.c`, `armor.c`,
`rings.c`, `init.c`, `potions.c`, `scrolls.c` and `command.c` that the properties below
are about, followed by the properties themselves.

Conventions of the embedding.
* A C `char` is kept as its bit pattern, a natural number below 256; a store into a
  `char` is written `% 256`.
* A `THING *` is an address (a natural number) into the object store `Game.heap`, `none`
  for `NULL`; every object holds its links `l_next` and `l_prev`, `pack` and `lvl_obj`
  are the head pointers of their lists, and `chain` follows the links from a head.
* Arithmetic on a `char` is done in C on the sign- or zero-extended value; only the low
  eight bits are ever stored, and those are the same either way.
* Screen output (`msg`, `addmsg`, `endmsg`, `mvaddch`, `look`) changes none of the
  variables kept here and is left out: a message is taken to find the top line free, so
  that it does not wait for a key, except in `gethand`, which asks again over its own
  message and waits for a space first.  The routines of `potions.c` and `scrolls.c` and the
  callbacks they start keep their calls of `msg`, `status`, `show_win` and `look`, as
  calls of routines of `Lib`.
* The values `rnd` returns come from the seed kept in the state (`rnd`), or, where a
  property speaks of every sequence of values, from a sequence given from outside
  (`rnd_at`).
* A routine whose C text can run outside its arrays or wait for a key that never comes
  returns `Option`; `none` is that case.
* An `int` is an integer.  The counters of the game stay far inside the range of `int`;
  where a routine adds numbers it is handed from outside (`sumprobs`), a sum that is no
  `int` is the case `none`.
* A routine of the game whose text is not among the sources is a field of `Env`, `Lib` or
  `Terminal`, a parameter of the routine that calls it, or a definition that says it is
  written from the specification; what a property needs of a parameter is a hypothesis of
  the property.
-/

namespace Rogue

/-! ## Definitions: `save.c`, the stream cipher -/

/-- Read through a `char *` that points `i` bytes into the NUL-terminated array `key`:
the bytes of `key`, then the terminating zero; nothing is readable past the terminator. -/
def deref (key : List Nat) (i : Nat) : Option Nat :=
  (key ++ [0])[i]?

/-- The `while(size)` loop of `encwrite`.  `i1` and `i2` are the offsets of `e1` in
`encstr` and of `e2` in `statlist`, `fb` the feedback byte; the result is the sequence of
bytes handed to `putc` (the stream takes every byte, so the `EOF` exit is never taken). -/
def encwrite_loop (encstr statlist : List Nat) :
    List Nat → Nat → Nat → Nat → Option (List Nat)
  | [], _, _, _ => some []
  | c :: start, i1, i2, fb =>
    match deref encstr i1, deref statlist i2 with
    | some k1, some k2 =>
      let out := (c ^^^ k1 ^^^ k2 ^^^ fb) % 256
      let temp := k1
      let fb1 := (fb + (temp * k2) % 256) % 256
      match deref encstr (i1 + 1), deref statlist (i2 + 1) with
      | some n1, some n2 =>
        let j1 := if n1 = 0 then 0 else i1 + 1
        let j2 := if n2 = 0 then 0 else i2 + 1
        match encwrite_loop encstr statlist start j1 j2 fb1 with
        | some tl => some (out :: tl)
        | none => none
      | _, _ => none
    | _, _ => none

/-- Encrypted write, `encwrite(start, size, outf)`: `start` is the `size` bytes to write.
Returns the bytes appended to `outf` and the function's return value `o_size - size`. -/
def encwrite (encstr statlist : List Nat) (start : List Nat) : Option (List Nat × Nat) :=
  match encwrite_loop encstr statlist start 0 0 0 with
  | some out => some (out, out.length)
  | none => none

/-- The `while (size--)` loop of `encread`, run over the first `size` cells of the buffer:
each cell is replaced by itself xor the two key bytes and the feedback byte. -/
def encread_loop (encstr statlist : List Nat) :
    List Nat → Nat → Nat → Nat → Option (List Nat)
  | [], _, _, _ => some []
  | c :: start, i1, i2, fb =>
    match deref encstr i1, deref statlist i2 with
    | some k1, some k2 =>
      let cell := (c ^^^ (k1 ^^^ k2 ^^^ fb)) % 256
      let temp := k1
      let fb1 := (fb + (temp * k2) % 256) % 256
      match deref encstr (i1 + 1), deref statlist (i2 + 1) with
      | some n1, some n2 =>
        let j1 := if n1 = 0 then 0 else i1 + 1
        let j2 := if n2 = 0 then 0 else i2 + 1
        match encread_loop encstr statlist start j1 j2 fb1 with
        | some tl => some (cell :: tl)
        | none => none
      | _, _ => none
    | _, _ => none

/-- Encrypted read, `encread(start, size, inf)`.  `start` is the caller's buffer as it is
before the call, `inf` the unread bytes of the stream.  `fread` moves up to `size` bytes
into the buffer; when it moved none the function returns at once, otherwise all `size`
cells of the buffer are decrypted.  Returns the return value `read_size`, the buffer
afterwards and the bytes still unread.  A buffer shorter than `size` is overrun: `none`. -/
def encread (encstr statlist : List Nat) (start : List Nat) (size : Nat) (inf : List Nat) :
    Option (Nat × List Nat × List Nat) :=
  if start.length < size then none
  else
    let read_size := min size inf.length
    let filled := inf.take read_size ++ start.drop read_size
    if read_size = 0 then some (read_size, start, inf)
    else
      match encread_loop encstr statlist (filled.take size) 0 0 0 with
      | some plain => some (read_size, plain ++ filled.drop size, inf.drop read_size)
      | none => none


/-- The feedback byte as the specification words it: `fb(0) = 0` and
`fb(i+1) = (fb(i) + k1[i mod n1] * k2[i mod n2]) mod 256`. -/
def fb_spec (k1 k2 : List Nat) : Nat → Nat
  | 0 => 0
  | i + 1 => (fb_spec k1 k2 i + k1.getD (i % k1.length) 0 * k2.getD (i % k2.length) 0) % 256

/-- The keystream byte of the specification at position `i`: the two key bytes of that
position and the feedback byte, combined by exclusive or. -/
def keystream_spec (k1 k2 : List Nat) (i : Nat) : Nat :=
  k1.getD (i % k1.length) 0 ^^^ k2.getD (i % k2.length) 0 ^^^ fb_spec k1 k2 i
/-! ## Definitions: `save.c`, the score file -/

/-- Value of `MAXSTR` (`extern.h`). -/
def MAXSTR : Nat := 1024

/-- Size of the static buffer `scoreline` (`save.c`). -/
def SCORELINE : Nat := 100

/-- Modelled from the spec: the score record, whose declaration (`score.h`) is not among the
sources: player name (`MAXSTR` bytes), numeric user identity (`unsigned int`),
score value (`int`), a bit-flag word (`unsigned int`), the killing monster code
(`unsigned short`), the dungeon level reached (`int`) and a time value (printed with
`%x`, so `unsigned int`). -/
structure SCORE where
  sc_uid : Nat
  sc_score : Int
  sc_flags : Nat
  sc_monster : Nat
  sc_name : List Nat
  sc_level : Int
  sc_time : Nat
deriving DecidableEq, Repr

/-- Every field of the record holds a value of its C type. -/
def SCORE.wf (t : SCORE) : Prop :=
  t.sc_uid < 2 ^ 32 ∧ -(2 ^ 31) ≤ t.sc_score ∧ t.sc_score < 2 ^ 31 ∧
  t.sc_flags < 2 ^ 32 ∧ t.sc_monster < 2 ^ 16 ∧
  t.sc_name.length = MAXSTR ∧ (∀ b ∈ t.sc_name, b < 256) ∧
  -(2 ^ 31) ≤ t.sc_level ∧ t.sc_level < 2 ^ 31 ∧ t.sc_time < 2 ^ 32

instance (t : SCORE) : Decidable t.wf := by
  unfold SCORE.wf; exact inferInstance

/-- The character `printf` writes for the digit `d`: `'0'..'9'`, then `'a'..'f'`. -/
def digit_char (d : Nat) : Nat :=
  if d < 10 then 48 + d else 87 + d

/-- Digits of `n` in `base`, most significant first (`fuel` bounds the number of
divisions; `n` itself is always enough). -/
def digits_ms (base : Nat) : Nat → Nat → List Nat
  | 0, n => [n]
  | fuel + 1, n => if n < base then [n] else digits_ms base fuel (n / base) ++ [n % base]

/-- What `printf` writes for `%u` (`base` 10) and `%x` (`base` 16). -/
def fmt_unsigned (base n : Nat) : List Nat :=
  (digits_ms base n n).map digit_char

/-- What `printf` writes for `%d`. -/
def fmt_d (v : Int) : List Nat :=
  if v < 0 then 45 :: fmt_unsigned 10 v.natAbs else fmt_unsigned 10 v.natAbs

/-- The text `sprintf(scoreline, " %u %d %u %hu %d %x \n", ...)` produces for a record. -/
def score_text (t : SCORE) : List Nat :=
  [32] ++ fmt_unsigned 10 t.sc_uid ++ [32] ++ fmt_d t.sc_score ++ [32] ++
  fmt_unsigned 10 t.sc_flags ++ [32] ++ fmt_unsigned 10 t.sc_monster ++ [32] ++
  fmt_d t.sc_level ++ [32] ++ fmt_unsigned 16 t.sc_time ++ [32, 10]

/-- The buffer `scoreline` after `memset(scoreline,0,100)` and the `sprintf`: the text, its
terminating NUL, and the zeros left by `memset`.  A text that does not fit with its NUL
overruns the buffer: `none`. -/
def sprintf_score (t : SCORE) : Option (List Nat) :=
  if (score_text t).length + 1 ≤ SCORELINE then
    some (score_text t ++ List.replicate (SCORELINE - (score_text t).length) 0)
  else none

/-- C `isspace` in the "C" locale. -/
def isspace (c : Nat) : Bool :=
  c == 32 || (9 ≤ c && c ≤ 13)

/-- A white-space directive of `scanf`, and the white space a conversion skips first. -/
def skip_space : List Nat → List Nat
  | [] => []
  | c :: cs => if isspace c then skip_space cs else c :: cs

/-- Value of the character `c` as a digit of `base`, if it is one. -/
def digit_val (base c : Nat) : Option Nat :=
  let v : Option Nat :=
    if 48 ≤ c ∧ c ≤ 57 then some (c - 48)
    else if 97 ≤ c ∧ c ≤ 122 then some (c - 87)
    else if 65 ≤ c ∧ c ≤ 90 then some (c - 55)
    else none
  match v with
  | some d => if d < base then some d else none
  | none => none

/-- Consume the longest run of digits of `base`, accumulating their value. -/
def scan_digits (base : Nat) : List Nat → Nat → Nat × List Nat
  | [], acc => (acc, [])
  | c :: cs, acc =>
    match digit_val base c with
    | some d => scan_digits base cs (acc * base + d)
    | none => (acc, c :: cs)

/-- The digits of an integer conversion of `scanf`, after the sign: for `%x` an optional
`0x` before a hex digit, then at least one digit of `base`.  `none` is a matching
failure; otherwise the magnitude read and the input left. -/
def scan_magnitude (base : Nat) (s : List Nat) : Option (Nat × List Nat) :=
  let s1 := match s with
    | 48 :: x :: d :: r =>
      if base = 16 ∧ (x = 120 ∨ x = 88) ∧ (digit_val 16 d).isSome then d :: r else s
    | _ => s
  match s1 with
  | [] => none
  | c :: _ => if (digit_val base c).isSome then some (scan_digits base s1 0) else none

/-- An integer conversion of `scanf` (`%d`, `%u`, `%hu` with `base` 10, `%x` with `base`
16): skip white space, take an optional sign, then the digits.  `none` is a matching
failure; otherwise the value read and the input left. -/
def scan_number (base : Nat) (s : List Nat) : Option (Int × List Nat) :=
  match skip_space s with
  | 45 :: r =>
    match scan_magnitude base r with
    | some (v, rest) => some (-(v : Int), rest)
    | none => none
  | 43 :: r =>
    match scan_magnitude base r with
    | some (v, rest) => some ((v : Int), rest)
    | none => none
  | s1 =>
    match scan_magnitude base s1 with
    | some (v, rest) => some ((v : Int), rest)
    | none => none

/-- Store of a converted value into an `unsigned` object of `bits` bits: the value
modulo `2 ^ bits` when its magnitude fits, undefined (`none`) otherwise. -/
def store_unsigned (bits : Nat) (v : Int) : Option Nat :=
  if v.natAbs < 2 ^ bits then some (v % (2 ^ bits : Int)).toNat else none

/-- Store of a converted value into an `int`: undefined (`none`) when out of range. -/
def store_int (v : Int) : Option Int :=
  if -(2 ^ 31) ≤ v ∧ v < 2 ^ 31 then some v else none

/-- The string held in a buffer: the bytes before the first NUL. -/
def cstr (buf : List Nat) : List Nat :=
  buf.takeWhile (fun c => c != 0)

/-- The call `sscanf(scoreline, " %u %d %u %hu %d %x \n", &sc_uid, &sc_score, &sc_flags,
&sc_monster, &sc_level, &sc_time)` on the record `t`: the conversions are made in order
and assigned; at the first matching failure the call stops and the remaining fields keep
their values.  `none` only when a value read does not fit its field. -/
def sscanf_score (scoreline : List Nat) (t : SCORE) : Option SCORE :=
  match scan_number 10 (skip_space (cstr scoreline)) with
  | none => some t
  | some (v1, r1) =>
  match store_unsigned 32 v1 with
  | none => none
  | some uid =>
  let t1 := { t with sc_uid := uid }
  match scan_number 10 (skip_space r1) with
  | none => some t1
  | some (v2, r2) =>
  match store_int v2 with
  | none => none
  | some score =>
  let t2 := { t1 with sc_score := score }
  match scan_number 10 (skip_space r2) with
  | none => some t2
  | some (v3, r3) =>
  match store_unsigned 32 v3 with
  | none => none
  | some flags =>
  let t3 := { t2 with sc_flags := flags }
  match scan_number 10 (skip_space r3) with
  | none => some t3
  | some (v4, r4) =>
  match store_unsigned 16 v4 with
  | none => none
  | some monster =>
  let t4 := { t3 with sc_monster := monster }
  match scan_number 10 (skip_space r4) with
  | none => some t4
  | some (v5, r5) =>
  match store_int v5 with
  | none => none
  | some lvl =>
  let t5 := { t4 with sc_level := lvl }
  match scan_number 16 (skip_space r5) with
  | none => some t5
  | some (v6, _) =>
  match store_unsigned 32 v6 with
  | none => none
  | some time => some { t5 with sc_time := time }

/-- The `for` loop of `wr_score` over the records still to write; returns the bytes
written to `scoreboard`. -/
def wr_score_loop (encstr statlist : List Nat) : List SCORE → Option (List Nat)
  | [] => some []
  | t :: ts =>
    match encwrite encstr statlist (t.sc_name.take MAXSTR) with
    | none => none
    | some (name_bytes, _) =>
    match sprintf_score t with
    | none => none
    | some scoreline =>
    match encwrite encstr statlist scoreline with
    | none => none
    | some (line_bytes, _) =>
    match wr_score_loop encstr statlist ts with
    | none => none
    | some tl => some (name_bytes ++ line_bytes ++ tl)

/-- The function `wr_score(top_ten)`.  `scoreboard` is the content of the score file, or
`none` for a null handle (the function then returns at once); the file is rewound, the
first `numscores` records of `top_ten` are written over its beginning, and it is rewound
again.  Returns the file afterwards.  An array shorter than `numscores` is overrun. -/
def wr_score (encstr statlist : List Nat) (scoreboard : Option (List Nat)) (numscores : Nat)
    (top_ten : List SCORE) : Option (Option (List Nat)) :=
  match scoreboard with
  | none => some none
  | some file =>
    if top_ten.length < numscores then none
    else
      match wr_score_loop encstr statlist (top_ten.take numscores) with
      | none => none
      | some written => some (some (written ++ file.drop written.length))

/-- The `for` loop of `rd_score` over the records still to fill: `scoreline` is the
static buffer, `inf` the unread part of the file.  Returns the records, the buffer and
the unread bytes. -/
def rd_score_loop (encstr statlist : List Nat) :
    List SCORE → List Nat → List Nat → Option (List SCORE × List Nat × List Nat)
  | [], scoreline, inf => some ([], scoreline, inf)
  | t :: ts, scoreline, inf =>
    match encread encstr statlist t.sc_name MAXSTR inf with
    | none => none
    | some (_, name, inf1) =>
    match encread encstr statlist scoreline SCORELINE inf1 with
    | none => none
    | some (_, scoreline1, inf2) =>
    match sscanf_score scoreline1 { t with sc_name := name } with
    | none => none
    | some t1 =>
    match rd_score_loop encstr statlist ts scoreline1 inf2 with
    | none => none
    | some (ts1, scoreline2, inf3) => some (t1 :: ts1, scoreline2, inf3)

/-- The function `rd_score(top_ten)`: with a null `scoreboard` nothing is read; otherwise
the file is rewound and the first `numscores` records of `top_ten` are filled from it.
Returns the array and the buffer `scoreline` afterwards. -/
def rd_score (encstr statlist : List Nat) (scoreboard : Option (List Nat)) (numscores : Nat)
    (top_ten : List SCORE) (scoreline : List Nat) : Option (List SCORE × List Nat) :=
  match scoreboard with
  | none => some (top_ten, scoreline)
  | some file =>
    if top_ten.length < numscores then none
    else
      match rd_score_loop encstr statlist (top_ten.take numscores) scoreline file with
      | none => none
      | some (filled, scoreline1, _) => some (filled ++ top_ten.drop numscores, scoreline1)

/-! ## Definitions: `rogue.h`, constants and the global state -/

def MAXPACK : Int := 23
def MORETIME : Int := 150
def STARVETIME : Int := 850
def HUNGERTIME : Int := 1300
def ESCAPE : Nat := 27
def LEFT : Nat := 0
def RIGHT : Nat := 1

def PASSAGE : Nat := 35
def DOOR : Nat := 43
def FLOOR : Nat := 46
def TRAP : Nat := 94
def STAIRS : Nat := 37
def GOLD : Int := 42
def POTION : Int := 33
def SCROLL : Int := 63
def FOOD : Int := 58
def WEAPON : Int := 41
def ARMOR : Int := 93
def AMULET : Int := 44
def RING : Int := 61
def STICK : Int := 47

/- flags for rooms -/
def ISGONE : Nat := 0o2
/- flags for objects -/
def ISCURSED : Nat := 0o1
def ISKNOW : Nat := 0o2
def ISMANY : Nat := 0o10
def ISPROT : Nat := 0o40
/- flags for creatures (`ISFOUND` is used for objects too) -/
def CANSEE : Nat := 0o2
def ISBLIND : Nat := 0o4
def ISLEVIT : Nat := 0o10
def ISFOUND : Nat := 0o20
def ISHALU : Nat := 0o4000
def ISRUN : Nat := 0o20000
/- flags for the level map -/
def F_SEEN : Nat := 0x40
def F_REAL : Nat := 0x10
def F_TMASK : Nat := 0x07
def NTRAPS : Nat := 8

def S_SCARE : Int := 10
def R_ADDSTR : Int := 1
def R_SEEINVIS : Int := 4
def R_AGGR : Int := 6
def R_REGEN : Int := 9
def R_DIGEST : Int := 10
def MACE : Int := 0
def BOW : Int := 2
def ARROW : Int := 3
def RING_MAIL : Int := 1

/-- The macro `ISMULT(type)`. -/
def ISMULT (type : Int) : Bool :=
  type == POTION || type == SCROLL || type == FOOD

/-- The type `coord`. -/
structure coord where
  x : Int
  y : Int
deriving DecidableEq, Repr

/-- The object half of `union thing`, with its two list links; a pointer is the address of
the object in the store, `none` for `NULL`.  The string fields (`o_text`, `o_damage`,
`o_hurldmg`, `o_label`) are not kept. -/
structure THING where
  l_next : Option Nat
  l_prev : Option Nat
  o_type : Int
  o_pos : coord
  o_launch : Int
  o_packch : Nat
  o_count : Int
  o_which : Int
  o_hplus : Int
  o_dplus : Int
  o_arm : Int
  o_flags : Nat
  o_group : Int
deriving DecidableEq, Repr

/-- What `calloc` hands out: every field zero. -/
def THING.zero : THING :=
  { l_next := none, l_prev := none, o_type := 0, o_pos := ⟨0, 0⟩, o_launch := 0,
    o_packch := 0, o_count := 0, o_which := 0, o_hplus := 0, o_dplus := 0, o_arm := 0,
    o_flags := 0, o_group := 0 }

/-- The type `struct stats`, without the damage string `s_dmg`. -/
structure stats where
  s_str : Nat
  s_exp : Int
  s_lvl : Int
  s_arm : Int
  s_hpt : Int
  s_maxhp : Int
deriving DecidableEq, Repr

/-- The type `PLACE`, without the monster pointer. -/
structure PLACE where
  p_ch : Nat
  p_flags : Nat
deriving DecidableEq, Repr

/-- Where the `t_dest` of a monster points: nowhere, at `hero`, at the `o_pos` of the
object at an address, or at some other coordinate. -/
inductive Dest where
  | null
  | hero
  | obj_pos (a : Nat)
  | other (n : Nat)
deriving DecidableEq, Repr

/-- The global variables of the game that the routines below read or write.  `heap` is
the store of objects, `nthings` the number of objects handed out so far by `new_item`
(their addresses are `0 .. nthings - 1`), `freed` the objects given to `discard`;
`mlist` keeps of every monster only its `t_dest`; `t_flags` is `player.t_flags`;
`proom_flags` is `proom->r_flags`; `keys` are the characters still to come from
`readchar`; `pstats` is `player.t_stats`; `quiet` is the counter of `doctor`, `countch`
and `newcount` are the static variables of `command`. -/
structure Game where
  heap : Nat → THING
  nthings : Nat
  freed : List Nat
  pack : Option Nat
  lvl_obj : Option Nat
  inpack : Int
  pack_used : List Bool
  last_pick : Option Nat
  amulet : Bool
  hero : coord
  proom_flags : Nat
  places : Int → PLACE
  mlist : List Dest
  t_flags : Nat
  cur_armor : Option Nat
  cur_weapon : Option Nat
  cur_ring : Nat → Option Nat
  after : Bool
  food_left : Int
  hungry_state : Int
  no_command : Int
  count : Int
  running : Bool
  to_death : Bool
  seed : Nat
  keys : List Nat
  pstats : stats
  quiet : Int
  level : Int
  seenstairs : Bool
  countch : Nat
  newcount : Bool

/-- A state to build examples from: nothing allocated, nothing carried, an empty map. -/
def Game.init : Game :=
  { heap := fun _ => THING.zero, nthings := 0, freed := [], pack := none, lvl_obj := none,
    inpack := 0, pack_used := List.replicate 26 false, last_pick := none, amulet := false,
    hero := ⟨0, 0⟩, proom_flags := 0, places := fun _ => ⟨32, 0⟩, mlist := [], t_flags := 0,
    cur_armor := none, cur_weapon := none, cur_ring := fun _ => none, after := true,
    food_left := 1300, hungry_state := 0, no_command := 0, count := 0, running := false,
    to_death := false, seed := 0, keys := [],
    pstats := { s_str := 16, s_exp := 0, s_lvl := 1, s_arm := 10, s_hpt := 12, s_maxhp := 12 },
    quiet := 0, level := 1, seenstairs := false, countch := 0, newcount := false }

/-- Assignment through a pointer: `a->field = ...`, as a change of the object at `a`. -/
def Game.poke (g : Game) (a : Nat) (f : THING → THING) : Game :=
  { g with heap := Function.update g.heap a (f (g.heap a)) }

/-- The macro `on(player, flag)`. -/
def Game.on (g : Game) (flag : Nat) : Bool :=
  g.t_flags &&& flag != 0

/-- The macro `chat(y, x)`, that is `places[(x << 5) + y].p_ch`, as an index. -/
def place_index (y x : Int) : Int :=
  x * 32 + y

/-- The nodes of the list that starts at `head`, following `l_next` up to `NULL`; `none`
when more than `fuel` nodes are met (the links do not end). -/
def chain (heap : Nat → THING) : Nat → Option Nat → Option (List Nat)
  | _, none => some []
  | 0, some _ => none
  | fuel + 1, some a =>
    match chain heap fuel (heap a).l_next with
    | some l => some (a :: l)
    | none => none

/-- The macro `RN`: `((seed = seed*11109+13849) >> 16) & 0xffff`, with `seed` kept as the
32-bit pattern of the `int`. -/
def RN (g : Game) : Nat × Game :=
  let s := (g.seed * 11109 + 13849) % 2 ^ 32
  ((s / 2 ^ 16) % 2 ^ 16, { g with seed := s })

/-- Modelled from the spec: `rnd(range)`, whose text is not among the sources,
"is understood to reduce that 16-bit value modulo `range`". -/
def rnd (range : Nat) (g : Game) : Nat × Game :=
  ((RN g).1 % range, (RN g).2)

/-- Modelled from the spec: `_detach(&list, item)` (`list.c` is not among the
sources) takes `item` out of the doubly linked list whose head is `list`: the head moves
on when `item` is the head, the neighbours of `item` are linked to each other, and the
links of `item` are cleared.  Returns the new head and the store. -/
def _detach (heap : Nat → THING) (list : Option Nat) (item : Nat) :
    Option Nat × (Nat → THING) :=
  let nx := (heap item).l_next
  let pv := (heap item).l_prev
  let head := if list = some item then nx else list
  let h1 := match pv with
    | some p => Function.update heap p { heap p with l_next := nx }
    | none => heap
  let h2 := match nx with
    | some n => Function.update h1 n { h1 n with l_prev := pv }
    | none => h1
  (head, Function.update h2 item { h2 item with l_next := none, l_prev := none })

/-- Modelled from the spec: `find_obj(y, x)` (not among the sources) is the object
of the level list that lies at that position, `NULL` when there is none. -/
def find_obj (g : Game) (y x : Int) : Option Nat :=
  match chain g.heap g.nthings g.lvl_obj with
  | some l => l.find? (fun a => (g.heap a).o_pos.y == y && (g.heap a).o_pos.x == x)
  | none => none

/-- Modelled from the spec: `discard(item)` (not among the sources) gives the
object back to the allocator. -/
def discard (item : Nat) (g : Game) : Game :=
  { g with freed := item :: g.freed }

/-- Modelled from the spec: `new_item()` (not among the sources) hands out a fresh
object with every field zero. -/
def new_item (g : Game) : Nat × Game :=
  (g.nthings, { g with heap := Function.update g.heap g.nthings THING.zero,
                       nthings := g.nthings + 1 })


/-- The list that starts at `head` consists of the nodes `l`, in this order, each linked
to the next by `l_next` and the last one to `NULL`. -/
def linked (heap : Nat → THING) : Option Nat → List Nat → Prop
  | none, [] => True
  | some a, b :: tl => a = b ∧ linked heap (heap a).l_next tl
  | none, _ :: _ => False
  | some _, [] => False
/-! ## Definitions: `pack.c` -/

/-- The function `pack_char()`: the first slot of `pack_used` that is not set is set and
its letter returned.  With all 26 slots set the loop leaves the array: `none`. -/
def pack_char (g : Game) : Option (Nat × Game) :=
  let i := g.pack_used.findIdx (fun b => !b)
  if i < g.pack_used.length then
    some (i + 97, { g with pack_used := g.pack_used.set i true })
  else none

/-- The function `pack_room(from_floor, obj)`. -/
def pack_room (from_floor : Bool) (obj : Nat) (g : Game) : Bool × Game :=
  let g1 := { g with inpack := g.inpack + 1 }
  if g1.inpack > MAXPACK then
    (false, { g1 with inpack := MAXPACK })
  else if from_floor then
    let d := _detach g1.heap g1.lvl_obj obj
    (true, { g1 with
      heap := d.2, lvl_obj := d.1,
      places := Function.update g1.places (place_index g1.hero.y g1.hero.x)
        { g1.places (place_index g1.hero.y g1.hero.x) with
          p_ch := if g1.proom_flags &&& ISGONE != 0 then PASSAGE else FLOOR } })
  else (true, g1)

/-- The first inner loop of `add_pack`:
`while (op->o_type == obj->o_type && op->o_which != obj->o_which)`, which moves `op`
along the list, `lp` behind it.  `rest` is the list after `op`.  Returns `op`, `lp` and
the list after `op` when the loop is left. -/
def walk_which (heap : Nat → THING) (obj : THING) :
    Nat → Option Nat → List Nat → Nat × Option Nat × List Nat
  | op, lp, [] =>
    if (heap op).o_type = obj.o_type ∧ (heap op).o_which ≠ obj.o_which then (op, some op, [])
    else (op, lp, [])
  | op, lp, n :: rest =>
    if (heap op).o_type = obj.o_type ∧ (heap op).o_which ≠ obj.o_which then
      walk_which heap obj n (some op) rest
    else (op, lp, n :: rest)

/-- The second inner loop of `add_pack`: `while (op->o_type == obj->o_type &&
op->o_which == obj->o_which && op->o_group != obj->o_group)`. -/
def walk_group (heap : Nat → THING) (obj : THING) :
    Nat → Option Nat → List Nat → Nat × Option Nat × List Nat
  | op, lp, [] =>
    if (heap op).o_type = obj.o_type ∧ (heap op).o_which = obj.o_which ∧
        (heap op).o_group ≠ obj.o_group then (op, some op, [])
    else (op, lp, [])
  | op, lp, n :: rest =>
    if (heap op).o_type = obj.o_type ∧ (heap op).o_which = obj.o_which ∧
        (heap op).o_group ≠ obj.o_group then
      walk_group heap obj n (some op) rest
    else (op, lp, n :: rest)

/-- What the search of the pack in `add_pack` decides: the item goes onto the stackable
entry `op` (`ISMULT`), onto the entry `op` of its own group, or is linked in behind `lp`
(`lp` is `NULL` only for an empty list). -/
inductive Scan where
  | stack (op : Nat)
  | group (op : Nat)
  | insert (lp : Option Nat)
deriving DecidableEq, Repr

/-- The body of the `for` loop of `add_pack` once an entry `op` of the type of `obj` is
met (it ends with `break`). -/
def scan_same_type (heap : Nat → THING) (obj : THING) (op : Nat) (lp : Option Nat)
    (rest : List Nat) : Scan :=
  let w := walk_which heap obj op lp rest
  let op1 := w.1
  if (heap op1).o_type = obj.o_type ∧ (heap op1).o_which = obj.o_which then
    if ISMULT (heap op1).o_type then Scan.stack op1
    else if obj.o_group ≠ 0 then
      let v := walk_group heap obj op1 (some op1) w.2.2
      let op2 := v.1
      if (heap op2).o_type = obj.o_type ∧ (heap op2).o_which = obj.o_which ∧
          (heap op2).o_group = obj.o_group then Scan.group op2
      else Scan.insert v.2.1
    else Scan.insert (some op1)
  else Scan.insert w.2.1

/-- The `for (op = pack; op != NULL; op = next(op))` loop of `add_pack` over the nodes
of the pack still ahead. -/
def scan_pack (heap : Nat → THING) (obj : THING) : Option Nat → List Nat → Scan
  | lp, [] => Scan.insert lp
  | lp, op :: rest =>
    if (heap op).o_type ≠ obj.o_type then scan_pack heap obj (some op) rest
    else scan_same_type heap obj op lp rest

/-- The end of `add_pack`, from `obj->o_flags |= ISFOUND` on, for the object `obj` that
is now in the pack: the flag, the monsters that were after it, the amulet. -/
def add_pack_finish (obj : Nat) (g : Game) : Game :=
  let g1 := g.poke obj (fun t => { t with o_flags := t.o_flags ||| ISFOUND })
  let g2 := { g1 with
    mlist := g1.mlist.map (fun d => if d = Dest.obj_pos obj then Dest.hero else d) }
  if (g2.heap obj).o_type = AMULET then { g2 with amulet := true } else g2

/-- The label `dump_it` of `add_pack`: the item is discarded and the entry `op` takes its
place for the rest of the function. -/
def dump_it (obj op : Nat) (g : Game) : Game :=
  add_pack_finish op (discard obj g)

/-- The function `add_pack(obj, silent)`; `obj = none` is the call with `NULL`, which
takes the object lying where the hero stands.  `none` as result: the pack list does not
end, or `pack_char` ran off its table. -/
def add_pack (obj : Option Nat) (_silent : Bool) (g : Game) : Option Game :=
  let from_floor := obj.isNone
  let found := match obj with
    | some o => some o
    | none => find_obj g g.hero.y g.hero.x
  match found with
  | none => some g
  | some obj =>
    if (g.heap obj).o_type = SCROLL ∧ (g.heap obj).o_which = S_SCARE ∧
        (g.heap obj).o_flags &&& ISFOUND ≠ 0 then
      let d := _detach g.heap g.lvl_obj obj
      some (discard obj { g with
        heap := d.2, lvl_obj := d.1,
        places := Function.update g.places (place_index g.hero.y g.hero.x)
          { g.places (place_index g.hero.y g.hero.x) with
            p_ch := if g.proom_flags &&& ISGONE != 0 then PASSAGE else FLOOR } })
    else
      match g.pack with
      | none =>
        match pack_char { g with pack := some obj } with
        | none => none
        | some (ch, g1) =>
          let g2 := g1.poke obj (fun t => { t with o_packch := ch })
          some (add_pack_finish obj { g2 with inpack := g2.inpack + 1 })
      | some head =>
        match chain g.heap g.nthings (some head) with
        | none => none
        | some l =>
          match scan_pack g.heap (g.heap obj) none l with
          | Scan.stack op =>
            let r := pack_room from_floor obj g
            if !r.1 then some r.2
            else
              let g1 := r.2.poke op (fun t => { t with o_count := t.o_count + 1 })
              some (dump_it obj op g1)
          | Scan.group op =>
            let g1 := g.poke op (fun t => { t with o_count := t.o_count + (g.heap obj).o_count })
            let g2 := { g1 with inpack := g1.inpack - 1 }
            let r := pack_room from_floor obj g2
            if !r.1 then some r.2
            else some (dump_it obj op r.2)
          | Scan.insert none => some (add_pack_finish obj g)
          | Scan.insert (some lp) =>
            let r := pack_room from_floor obj g
            if !r.1 then some r.2
            else
              match pack_char r.2 with
              | none => none
              | some (ch, g1) =>
                let g2 := g1.poke obj (fun t => { t with o_packch := ch })
                let nx := (g2.heap lp).l_next
                let g3 := g2.poke obj (fun t => { t with l_next := nx })
                let g4 := g3.poke obj (fun t => { t with l_prev := some lp })
                let g5 := match (g4.heap lp).l_next with
                  | some n => g4.poke n (fun t => { t with l_prev := some obj })
                  | none => g4
                let g6 := g5.poke lp (fun t => { t with l_next := some obj })
                some (add_pack_finish obj g6)

/-- The branch `obj->o_count > 1 && !all` of `leave_pack` up to the test of `newobj`,
entered after `inpack--`. -/
def leave_one (obj : Nat) (g1 : Game) : Game :=
  let g2 := { g1 with last_pick := some obj }
  let g3 := g2.poke obj (fun t => { t with o_count := t.o_count - 1 })
  if (g3.heap obj).o_group ≠ 0 then { g3 with inpack := g3.inpack + 1 } else g3

/-- The block `if (newobj)` of `leave_pack`: a new object that is a copy of `obj`, with
no links and the count 1. -/
def copy_item (obj : Nat) (g4 : Game) : Nat × Game :=
  let a := new_item g4
  let nobj := a.1
  let g5 := a.2.poke nobj (fun _ => a.2.heap obj)
  let g6 := g5.poke nobj (fun t => { t with l_next := none })
  let g7 := g6.poke nobj (fun t => { t with l_prev := none })
  (nobj, g7.poke nobj (fun t => { t with o_count := 1 }))

/-- The `else` branch of `leave_pack`, entered after `inpack--`.  `none` when
`obj->o_packch - 'a'` is no index of `pack_used`. -/
def leave_all (obj : Nat) (g1 : Game) : Option Game :=
  let g2 := { g1 with last_pick := none }
  let ch := (g2.heap obj).o_packch
  if ch < 97 ∨ 97 + g2.pack_used.length ≤ ch then none
  else
    let g3 := { g2 with pack_used := g2.pack_used.set (ch - 97) false }
    let d := _detach g3.heap g3.pack obj
    some { g3 with heap := d.2, pack := d.1 }

/-- The function `leave_pack(obj, newobj, all)`; returns `nobj` and the state. -/
def leave_pack (obj : Nat) (newobj all : Bool) (g : Game) : Option (Nat × Game) :=
  let g1 := { g with inpack := g.inpack - 1 }
  if (g1.heap obj).o_count > 1 ∧ !all then
    if newobj then some (copy_item obj (leave_one obj g1))
    else some (obj, leave_one obj g1)
  else
    match leave_all obj g1 with
    | none => none
    | some g2 => some (obj, g2)
/-! ## Definitions: `rings.c` (`ring_eat`) and `daemons.c` (`stomach`) -/

/-- The table `uses` of `ring_eat`, indexed by ring kind. -/
def ring_eat_uses : List Int :=
  [1, 1, 1, -3, -5, 0, 0, -3, -3, 2, -2, 0, 1, 1]

/-- The function `ring_eat(hand)`.  `none` when the kind of the ring is no index of the
table `uses`. -/
def ring_eat (hand : Nat) (g : Game) : Option (Int × Game) :=
  match g.cur_ring hand with
  | none => some (0, g)
  | some ring =>
    let which := (g.heap ring).o_which
    if which < 0 ∨ (ring_eat_uses.length : Int) ≤ which then none
    else
      let eat := ring_eat_uses.getD which.toNat 0
      let r := if eat < 0 then
          ((if (rnd (-eat).toNat g).1 = 0 then (1 : Int) else 0), (rnd (-eat).toNat g).2)
        else (eat, g)
      if which = R_DIGEST then some (-r.1, r.2) else some r

/-- The ring worn on `hand`, if any, is of one of the 14 kinds. -/
def ring_kind_ok (g : Game) (hand : Nat) : Prop :=
  ∀ r, g.cur_ring hand = some r → 0 ≤ (g.heap r).o_which ∧ (g.heap r).o_which < 14

/-- How a call of a daemon ends: the game goes on in a state, or `death(monst)` was called,
which does not return. -/
inductive Tick where
  | alive (g : Game)
  | died (monst : Nat) (g : Game)

/-- The state in which the call ended. -/
def Tick.game : Tick → Game
  | Tick.alive g => g
  | Tick.died _ g => g

/-- Whether the call ended in `death`. -/
def Tick.dead : Tick → Bool
  | Tick.alive _ => false
  | Tick.died _ _ => true

/-- The end of `stomach`: a change of `hungry_state` stops running and counting. -/
def stomach_finish (orig_hungry : Int) (g : Game) : Game :=
  if g.hungry_state ≠ orig_hungry then
    { g with t_flags := g.t_flags &&& (0xFFFF ^^^ ISRUN), running := false,
             to_death := false, count := 0 }
  else g

/-- The two tests of `stomach` on the food left after digestion, `oldfood` being the food
left before: below `MORETIME` from at least `MORETIME` sets `hungry_state` to 2, else
below `2 * MORETIME` from at least `2 * MORETIME` sets it to 1. -/
def stomach_hunger (oldfood : Int) (g : Game) : Game :=
  if g.food_left < MORETIME ∧ oldfood ≥ MORETIME then { g with hungry_state := 2 }
  else if g.food_left < 2 * MORETIME ∧ oldfood ≥ 2 * MORETIME then
    { g with hungry_state := 1 }
  else g

/-- The daemon `stomach()`.  In `ring_eat(LEFT) + ring_eat(RIGHT) + 1 - amulet` the left
hand is evaluated first. -/
def stomach (g : Game) : Option Tick :=
  let orig_hungry := g.hungry_state
  if g.food_left ≤ 0 then
    let g1 := { g with food_left := g.food_left - 1 }
    if g.food_left < -STARVETIME then some (Tick.died 115 g1)
    else if g1.no_command ≠ 0 then some (Tick.alive g1)
    else
      let r := rnd 5 g1
      if r.1 ≠ 0 then some (Tick.alive r.2)
      else
        let r2 := rnd 8 r.2
        let g2 := { r2.2 with no_command := r2.2.no_command + ((r2.1 : Int) + 4) }
        let g3 := { g2 with hungry_state := 3 }
        some (Tick.alive (stomach_finish orig_hungry g3))
  else
    let oldfood := g.food_left
    match ring_eat LEFT g with
    | none => none
    | some (e1, g1) =>
      match ring_eat RIGHT g1 with
      | none => none
      | some (e2, g2) =>
        let g3 := { g2 with
          food_left := g2.food_left - (e1 + e2 + 1 - (if g2.amulet then 1 else 0)) }
        some (Tick.alive (stomach_finish orig_hungry (stomach_hunger oldfood g3)))


/-- The food a ring of kind `which` uses in a turn as the specification words it, `draw n`
standing for the value `rnd(n)` gives: 1 for protection, add-strength, sustain-strength,
stealth and sustain-armor, 2 for regeneration, 0 for the no-op, aggravate and teleport
rings; 1 if `rnd(n) == 0` and 0 otherwise with `n = 3` for search, add-hit and add-damage
and `n = 5` for see-invisible; for digestion the 0/1 result with `n = 2`, negated. -/
def ring_eat_spec (which : Int) (draw : Nat → Nat) : Int :=
  if which = 0 ∨ which = 1 ∨ which = 2 ∨ which = 12 ∨ which = 13 then 1
  else if which = 9 then 2
  else if which = 5 ∨ which = 6 ∨ which = 11 then 0
  else if which = 3 ∨ which = 7 ∨ which = 8 then (if draw 3 = 0 then 1 else 0)
  else if which = 4 then (if draw 5 = 0 then 1 else 0)
  else if which = 10 then -(if draw 2 = 0 then 1 else 0)
  else 0

/-- The macro `ISRING(h, r)`. -/
def ISRING (g : Game) (h : Nat) (r : Int) : Bool :=
  match g.cur_ring h with
  | some ring => (g.heap ring).o_which == r
  | none => false

/-- The statement `pstats.s_hpt += n`. -/
def heal (n : Int) (g : Game) : Game :=
  { g with pstats := { g.pstats with s_hpt := g.pstats.s_hpt + n } }

/-- The statement `if (lv < 8) ... else ...` of `doctor`, run after `quiet++`.  The level
is not negative, so `lv << 1` is `lv * 2`. -/
def doctor_rest (g1 : Game) : Game :=
  let lv := g1.pstats.s_lvl
  if lv < 8 then
    if g1.quiet + lv * 2 > 20 then heal 1 g1 else g1
  else if g1.quiet ≥ 3 then
    heal ((rnd (lv - 7).toNat g1).1 + 1) (rnd (lv - 7).toNat g1).2
  else g1

/-- The two statements `if (ISRING(hand, R_REGEN)) pstats.s_hpt++;` of `doctor`. -/
def doctor_rings (g2 : Game) : Game :=
  let g3 := if ISRING g2 LEFT R_REGEN then heal 1 g2 else g2
  if ISRING g3 RIGHT R_REGEN then heal 1 g3 else g3

/-- The function `doctor()`. -/
def doctor (g : Game) : Game :=
  let ohp := g.pstats.s_hpt
  let g1 := { g with quiet := g.quiet + 1 }
  let g4 := doctor_rings (doctor_rest g1)
  if ohp ≠ g4.pstats.s_hpt then
    let g5 := if g4.pstats.s_hpt > g4.pstats.s_maxhp then
        { g4 with pstats := { g4.pstats with s_hpt := g4.pstats.s_maxhp } }
      else g4
    { g5 with quiet := 0 }
  else g4

/-- The healing `h` of one call of `doctor` as the specification words it, `q` being the
quiet counter after its increment: 1 if the level is below 8 and `q + 2 * level > 20`,
`rnd(level - 7) + 1` if the level is 8 or more and `q >= 3`, and 0 otherwise. -/
def doctor_h (g : Game) : Int :=
  let q := g.quiet + 1
  let level := g.pstats.s_lvl
  if level < 8 ∧ q + 2 * level > 20 then 1
  else if level ≥ 8 ∧ q ≥ 3 then (rnd (level - 7).toNat g).1 + 1
  else 0

/-- The number `r` of hands that wear a regeneration ring. -/
def doctor_r (g : Game) : Int :=
  (if ISRING g LEFT R_REGEN then 1 else 0) + (if ISRING g RIGHT R_REGEN then 1 else 0)
/-! ## Definitions: `armor.c` and `rings.c` -/

/-- The routines the code below calls whose text is not among the sources, and the
dialogue `get_item` of `pack.c`, of which only the outcome matters here.
* `get_item type g`: the object the player chose from the pack (`NULL` when they gave up)
  and the state the dialogue leaves; `none` when the dialogue never ends.
* `do_daemons flag g`, `do_fuses flag g`: the scheduler; `none` when the game ended
  inside.
* `BEFORE`, `AFTER`: the values of the macros `spread(1)` and `spread(2)`.
* `stuck obj g`: the item cannot be removed now; `release obj g`: what `dropcheck` does to
  an item it lets go.
* `is_current obj g`: the object is in use.
* `chg_str amt g`, `aggravate g`: the effects of the strength and aggravation rings. -/
structure Env where
  get_item : Int → Game → Option (Option Nat × Game)
  do_daemons : Int → Game → Option Game
  do_fuses : Int → Game → Option Game
  BEFORE : Int
  AFTER : Int
  stuck : Nat → Game → Bool
  release : Nat → Game → Option Game
  is_current : Nat → Game → Bool
  chg_str : Int → Game → Game
  aggravate : Game → Game

/-- Modelled from the spec: `dropcheck(obj)`, the shared drop-check whose text is not in
the sources: "return false and do nothing further if the item cannot currently
be removed, e.g. cursed"; otherwise it lets the item go and returns true. -/
def dropcheck (env : Env) (obj : Nat) (g : Game) : Option (Bool × Game) :=
  if env.stuck obj g then some (false, g)
  else
    match env.release obj g with
    | some g1 => some (true, g1)
    | none => none

/-- The function `waste_time()`. -/
def waste_time (env : Env) (g : Game) : Option Game :=
  match env.do_daemons env.BEFORE g with
  | none => none
  | some g1 =>
    match env.do_fuses env.BEFORE g1 with
    | none => none
    | some g2 =>
      match env.do_daemons env.AFTER g2 with
      | none => none
      | some g3 => env.do_fuses env.AFTER g3

/-- The function `wear()`. -/
def wear (env : Env) (g : Game) : Option Game :=
  match env.get_item ARMOR g with
  | none => none
  | some (none, g1) => some g1
  | some (some obj, g1) =>
    if g1.cur_armor ≠ none then some { g1 with after := false }
    else if (g1.heap obj).o_type ≠ ARMOR then some g1
    else
      match waste_time env g1 with
      | none => none
      | some g2 =>
        let g3 := g2.poke obj (fun t => { t with o_flags := t.o_flags ||| ISKNOW })
        some { g3 with cur_armor := some obj }

/-- The function `take_off()`. -/
def take_off (env : Env) (g : Game) : Option Game :=
  match g.cur_armor with
  | none => some { g with after := false }
  | some obj =>
    match dropcheck env obj g with
    | none => none
    | some (false, g1) => some g1
    | some (true, g1) => some { g1 with cur_armor := none }

/-- The loop of `gethand()` over the characters its calls of `readchar` return, in order:
the hand chosen (`-1` after `ESCAPE`) and the characters left.  `more` says that the
message `please type L or R` stands on the top line (`mpos != 0`): `msg` then writes
`--More--` and `wait_for(' ')` reads up to a space before the question is asked again.
`none` when the characters run out before an answer. -/
def gethand_loop : Bool → List Nat → Option (Int × List Nat)
  | _, [] => none
  | true, c :: rest =>
    if c = 32 then gethand_loop false rest else gethand_loop true rest
  | false, c :: rest =>
    if c = ESCAPE then some (-1, rest)
    else if c = 108 ∨ c = 76 then some ((LEFT : Int), rest)
    else if c = 114 ∨ c = 82 then some ((RIGHT : Int), rest)
    else gethand_loop true rest

/-- The function `gethand()`, called with no message on the top line. -/
def gethand (keys : List Nat) : Option (Int × List Nat) :=
  gethand_loop false keys

/-- The function `invis_on()` (`potions.c`). -/
def invis_on (g : Game) : Game :=
  { g with t_flags := g.t_flags ||| CANSEE }

/-- The end of `ring_on`, from `cur_ring[ring] = obj` on. -/
def ring_on_hand (env : Env) (obj ring : Nat) (g : Game) : Game :=
  let g1 := { g with cur_ring := Function.update g.cur_ring ring (some obj) }
  if (g1.heap obj).o_which = R_ADDSTR then env.chg_str (g1.heap obj).o_arm g1
  else if (g1.heap obj).o_which = R_SEEINVIS then invis_on g1
  else if (g1.heap obj).o_which = R_AGGR then env.aggravate g1
  else g1

/-- The function `ring_on()`. -/
def ring_on (env : Env) (g : Game) : Option Game :=
  match env.get_item RING g with
  | none => none
  | some (none, g1) => some g1
  | some (some obj, g1) =>
    if (g1.heap obj).o_type ≠ RING then some g1
    else if env.is_current obj g1 then some g1
    else if g1.cur_ring LEFT = none ∧ g1.cur_ring RIGHT = none then
      match gethand g1.keys with
      | none => none
      | some (ring, keys) =>
        if ring < 0 then some { g1 with keys := keys }
        else some (ring_on_hand env obj ring.toNat { g1 with keys := keys })
    else if g1.cur_ring LEFT = none then some (ring_on_hand env obj LEFT g1)
    else if g1.cur_ring RIGHT = none then some (ring_on_hand env obj RIGHT g1)
    else some g1

/-! ## Definitions: `command.c`, `search` -/

/-- The bonus `probinc` of `search`: 3 when hallucinating plus 2 when blind. -/
def probinc (g : Game) : Nat :=
  (if g.on ISHALU then 3 else 0) + (if g.on ISBLIND then 2 else 0)

/-- The argument `search` gives to `rnd` for a place next to the hero: `5 + probinc` for a
wall, `2 + probinc` for floor, `3 + probinc` for blank; `none` when no number is drawn
for the place (it is real already, or of another kind). -/
def search_range (inc : Nat) (p : PLACE) : Option Nat :=
  if p.p_flags &&& F_REAL ≠ 0 then none
  else if p.p_ch = 124 ∨ p.p_ch = 45 then some (5 + inc)
  else if p.p_ch = FLOOR then some (2 + inc)
  else if p.p_ch = 32 then some (3 + inc)
  else none

/-- What `search` does to a place for which `rnd` returned `r`: `none` when nothing is
found there (`break`), otherwise the place as revealed: a door, a trap (marked seen
unless hallucinating) or a passage, now real. -/
def search_place (halu : Bool) (p : PLACE) (r : Nat) : Option PLACE :=
  if p.p_flags &&& F_REAL ≠ 0 then none
  else if p.p_ch = 124 ∨ p.p_ch = 45 then
    if r ≠ 0 then none
    else some { p_ch := DOOR, p_flags := p.p_flags ||| F_REAL }
  else if p.p_ch = FLOOR then
    if r ≠ 0 then none
    else some { p_ch := TRAP,
                p_flags := (if halu then p.p_flags else p.p_flags ||| F_SEEN) ||| F_REAL }
  else if p.p_ch = 32 then
    if r ≠ 0 then none
    else some { p_ch := PASSAGE, p_flags := p.p_flags ||| F_REAL }
  else none

/-- The body of the two `for` loops of `search` for the place `(y, x)`; the flag returned
is `found`. -/
def search_at (inc : Nat) (y x : Int) (found : Bool) (g : Game) : Bool × Game :=
  if y = g.hero.y ∧ x = g.hero.x then (found, g)
  else
    let i := place_index y x
    match search_range inc (g.places i) with
    | none => (found, g)
    | some range =>
      let r := rnd range g
      match search_place (g.on ISHALU) (g.places i) r.1 with
      | none => (found, r.2)
      | some p =>
        let g1 := if (g.places i).p_ch = FLOOR ∧ g.on ISHALU then (rnd NTRAPS r.2).2 else r.2
        (true, { g1 with places := Function.update g1.places i p, count := 0,
                         running := false })

/-- The function `search()`: the eight places around the hero, row by row. -/
def search (g : Game) : Game :=
  let inc := probinc g
  let ys := [g.hero.y - 1, g.hero.y, g.hero.y + 1]
  let xs := [g.hero.x - 1, g.hero.x, g.hero.x + 1]
  (ys.foldl (fun acc y => xs.foldl (fun a x => search_at inc y x a.1 a.2) acc) (false, g)).2

def NUMTHINGS : Nat := 7
def MAXPOTIONS : Nat := 14
def MAXSCROLLS : Nat := 18
def MAXWEAPONS : Nat := 9
def MAXARMORS : Nat := 8
def MAXRINGS : Nat := 14
def MAXSTICKS : Nat := 14

/-- The type `struct obj_info`; the two strings are kept as their characters, the guess
may be `NULL`. -/
structure obj_info where
  oi_name : List Nat
  oi_prob : Int
  oi_worth : Int
  oi_guess : Option (List Nat)
  oi_know : Bool
deriving DecidableEq, Repr

/-- The value is one an `int` holds. -/
def fits_int (v : Int) : Prop :=
  -2147483648 ≤ v ∧ v ≤ 2147483647

instance (v : Int) : Decidable (fits_int v) := by
  unfold fits_int; exact inferInstance

/-- The loop `while (++info < endp) info->oi_prob += (info - 1)->oi_prob;` of `sumprobs`:
`i` is the offset of `info` in the table after the increment and the first argument counts
the entries from there up to `endp`.  `none` when an entry lies outside the table or the
sum is no `int`. -/
def sumprobs_loop : Nat → Nat → List obj_info → Option (List obj_info)
  | 0, _, info => some info
  | n + 1, i, info =>
    match info[i]?, info[i - 1]? with
    | some cur, some prev =>
      let s := cur.oi_prob + prev.oi_prob
      if fits_int s then sumprobs_loop n (i + 1) (info.set i { cur with oi_prob := s })
      else none
    | _, _ => none

/-- The function `sumprobs(info, bound)` (the `MASTER` build also checks the result; that
part is compiled out).  The first test `++info < endp` is made at offset 1, so the body
runs for the offsets `1 .. bound - 1`. -/
def sumprobs (info : List obj_info) (bound : Nat) : Option (List obj_info) :=
  sumprobs_loop (bound - 1) 1 info

/-- The seven generation tables of `extern.c`, whose contents are not among the sources. -/
structure Tables where
  things : List obj_info
  pot_info : List obj_info
  scr_info : List obj_info
  ring_info : List obj_info
  ws_info : List obj_info
  weap_info : List obj_info
  arm_info : List obj_info
deriving DecidableEq, Repr

/-- The function `init_probs()`. -/
def init_probs (t : Tables) : Option Tables :=
  match sumprobs t.things NUMTHINGS with
  | none => none
  | some things =>
  match sumprobs t.pot_info MAXPOTIONS with
  | none => none
  | some pot_info =>
  match sumprobs t.scr_info MAXSCROLLS with
  | none => none
  | some scr_info =>
  match sumprobs t.ring_info MAXRINGS with
  | none => none
  | some ring_info =>
  match sumprobs t.ws_info MAXSTICKS with
  | none => none
  | some ws_info =>
  match sumprobs t.weap_info MAXWEAPONS with
  | none => none
  | some weap_info =>
  match sumprobs t.arm_info MAXARMORS with
  | none => none
  | some arm_info =>
    some { things := things, pot_info := pot_info, scr_info := scr_info,
           ring_info := ring_info, ws_info := ws_info, weap_info := weap_info,
           arm_info := arm_info }

/-- The tables in the order in which `init_probs` sums them, each with the bound it is
summed to. -/
def Tables.all (t : Tables) : List (List obj_info × Nat) :=
  [(t.things, NUMTHINGS), (t.pot_info, MAXPOTIONS), (t.scr_info, MAXSCROLLS),
   (t.ring_info, MAXRINGS), (t.ws_info, MAXSTICKS), (t.weap_info, MAXWEAPONS),
   (t.arm_info, MAXARMORS)]

/-- The sum of the flat probabilities of the entries `0 .. i` of a table. -/
def prefix_sum (info : List obj_info) (i : Nat) : Int :=
  ((info.take (i + 1)).map obj_info.oi_prob).sum

/-- The total of the flat probabilities of the first `bound` entries of a table. -/
def total_prob (info : List obj_info) (bound : Nat) : Int :=
  ((info.take bound).map obj_info.oi_prob).sum

/-- Entry `j` of a table whose entries below `i` hold their running sums. -/
def summed (info : List obj_info) (i j : Nat) : Option obj_info :=
  (info[j]?).map (fun e => if j < i then { e with oi_prob := prefix_sum info j } else e)

/-- The probability a table of `bound` entries ends at: that of its last entry. -/
def last_prob (info : List obj_info) (bound : Nat) : Option Int :=
  (info[bound - 1]?).map obj_info.oi_prob

/-- The probabilities the seven tables end at. -/
def Tables.ends (t : Tables) : List (Option Int) :=
  t.all.map (fun p => last_prob p.1 p.2)

/-- The totals of the flat probabilities of the seven tables. -/
def Tables.totals (t : Tables) : List Int :=
  t.all.map (fun p => total_prob p.1 p.2)
/-! ## Definitions: `potions.c` (`is_magic`) and `command.c` (levels, the repeat count) -/

/-- The function `is_magic(obj)`.  `a_class` is the table of the base armor classes of
`extern.c`, which is not among the sources.  C evaluates `||` from the left, so the table
is read only for armor without `ISPROT`; `none` when `obj->o_which` is then no index of
the table. -/
def is_magic (a_class : List Int) (obj : THING) : Option Bool :=
  if obj.o_type = ARMOR then
    if obj.o_flags &&& ISPROT ≠ 0 then some true
    else if obj.o_which < 0 ∨ (a_class.length : Int) ≤ obj.o_which then none
    else some (decide (obj.o_arm ≠ a_class.getD obj.o_which.toNat 0))
  else if obj.o_type = WEAPON then
    some (decide (obj.o_hplus ≠ 0) || decide (obj.o_dplus ≠ 0))
  else if obj.o_type = POTION ∨ obj.o_type = SCROLL ∨ obj.o_type = STICK ∨
      obj.o_type = RING ∨ obj.o_type = AMULET then some true
  else some false

/-- The specification's words for `is_magic`: a potion, scroll, wand or staff, ring or
the amulet; or armor that has the `ISPROT` flag or whose `o_arm` differs from
`a_class[o_which]`; or a weapon with a non-zero `o_hplus` or `o_dplus`. -/
def is_magic_spec (a_class : List Int) (obj : THING) : Prop :=
  (obj.o_type = POTION ∨ obj.o_type = SCROLL ∨ obj.o_type = STICK ∨ obj.o_type = RING ∨
    obj.o_type = AMULET) ∨
  (obj.o_type = ARMOR ∧
    (obj.o_flags &&& ISPROT ≠ 0 ∨ obj.o_arm ≠ a_class.getD obj.o_which.toNat 0)) ∨
  (obj.o_type = WEAPON ∧ (obj.o_hplus ≠ 0 ∨ obj.o_dplus ≠ 0))

/-- The macro `chat(y, x)`. -/
def chat (g : Game) (y x : Int) : Nat :=
  (g.places (place_index y x)).p_ch

/-- The function `levit_check()`. -/
def levit_check (g : Game) : Bool :=
  g.on ISLEVIT

/-- The function `d_level()`.  `new_level` is the generator of levels of `new_level.c`,
which is not among the sources. -/
def d_level (new_level : Game → Game) (g : Game) : Game :=
  if levit_check g then g
  else if chat g g.hero.y g.hero.x ≠ STAIRS then g
  else new_level { g with level := g.level + 1, seenstairs := false }

/-- How `u_level` ends: the game goes on in a state, or `total_winner()` was called in a
state; that routine (`rip.c`, not among the sources) is the winning ending and does not
come back. -/
inductive Climb where
  | on (g : Game)
  | won (g : Game)

def Climb.game : Climb → Game
  | Climb.on g => g
  | Climb.won g => g

def Climb.winner : Climb → Bool
  | Climb.on _ => false
  | Climb.won _ => true

/-- The function `u_level()`. -/
def u_level (new_level : Game → Game) (g : Game) : Climb :=
  if levit_check g then Climb.on g
  else if chat g g.hero.y g.hero.x = STAIRS then
    if g.amulet then
      let g1 := { g with level := g.level - 1 }
      if g1.level = 0 then Climb.won g1
      else Climb.on (new_level g1)
    else Climb.on g
  else Climb.on g

/-- The function `isdigit` on a character. -/
def isdigit (ch : Nat) : Bool :=
  decide (48 ≤ ch ∧ ch ≤ 57)

/-- The loop `while (isdigit(ch))` of `command`, with `ch` and `count` as they are at the
test and the keys `readchar` has still to give.  Returns `ch`, `count` and the keys left
when the loop is left; `none` when the keys run out inside it. -/
def count_loop : List Nat → Nat → Int → Option (Nat × Int × List Nat)
  | [], ch, count => if isdigit ch then none else some (ch, count, [])
  | k :: keys, ch, count =>
    if isdigit ch then
      let c1 := count * 10 + ((ch : Int) - 48)
      let c2 := if c1 > 255 then 255 else c1
      count_loop keys k c2
    else some (ch, count, k :: keys)

/-- The commands a count is kept for, the `case` labels of the `switch (ch)` in `command`:
the control characters B, H, J, K, L, N, U, Y, then `.` and the letters listed. -/
def repeatable : List Nat :=
  [2, 8, 10, 11, 12, 14, 21, 25,
   46, 97, 98, 104, 106, 107, 108, 109, 110, 113, 114, 115, 116, 117, 121, 122,
   66, 67, 72, 73, 74, 75, 76, 78, 85, 89]

/-- The part "check for prefixes" of `command`, entered with the command character `ch`
just obtained: the repeat count is read, and dropped again for a command that is not
repeated.  Returns the command character and the state. -/
def command_count (ch : Nat) (g : Game) : Option (Nat × Game) :=
  let g1 := { g with newcount := false }
  if isdigit ch then
    match count_loop g1.keys ch 0 with
    | none => none
    | some (ch1, count, keys) =>
      let g2 := { g1 with count := count, newcount := true, keys := keys, countch := ch1 }
      if ch1 ∈ repeatable then some (ch1, g2)
      else some (ch1, { g2 with count := 0 })
  else some (ch, g1)

/-- The decimal value of a string of digit characters. -/
def decimal_value (digits : List Nat) : Nat :=
  digits.foldl (fun n d => n * 10 + (d - 48)) 0
/-! ## Definitions: `init.c` (`init_player`) -/

/-- "Give him some food", the first block of `init_player`, up to the call of `add_pack`:
the object made and the state. -/
def make_food (g : Game) : Nat × Game :=
  let a := new_item g
  let obj := a.1
  let g1 := a.2.poke obj (fun t => { t with o_type := FOOD })
  (obj, g1.poke obj (fun t => { t with o_count := 1 }))

/-- "Give him some food". -/
def give_food (g : Game) : Option Game :=
  add_pack (some (make_food g).1) true (make_food g).2

/-- "And his suit of armor", up to the call of `add_pack`.  `a_class` is the table of
base armor classes of `extern.c`, not among the sources; `none` when it has no entry
`RING_MAIL`. -/
def make_armor (a_class : List Int) (g : Game) : Option (Nat × Game) :=
  let a := new_item g
  let obj := a.1
  let g1 := a.2.poke obj (fun t => { t with o_type := ARMOR })
  let g2 := g1.poke obj (fun t => { t with o_which := RING_MAIL })
  match a_class[RING_MAIL.toNat]? with
  | none => none
  | some ac =>
    let g3 := g2.poke obj (fun t => { t with o_arm := ac - 1 })
    let g4 := g3.poke obj (fun t => { t with o_flags := t.o_flags ||| ISKNOW })
    let g5 := g4.poke obj (fun t => { t with o_count := 1 })
    some (obj, { g5 with cur_armor := some obj })

/-- "And his suit of armor". -/
def give_armor (a_class : List Int) (g : Game) : Option Game :=
  match make_armor a_class g with
  | none => none
  | some r => add_pack (some r.1) true r.2

/-- "Give him his weaponry.  First a mace.", up to the call of `add_pack`.  `init_weapon`
is the routine of `weapons.c`, not among the sources, that fills in a weapon of the kind
given. -/
def make_mace (init_weapon : Nat → Int → Game → Game) (g : Game) : Nat × Game :=
  let a := new_item g
  let obj := a.1
  let g1 := init_weapon obj MACE a.2
  let g2 := g1.poke obj (fun t => { t with o_hplus := 1 })
  let g3 := g2.poke obj (fun t => { t with o_dplus := 1 })
  (obj, g3.poke obj (fun t => { t with o_flags := t.o_flags ||| ISKNOW }))

/-- "Give him his weaponry.  First a mace." -/
def give_mace (init_weapon : Nat → Int → Game → Game) (g : Game) : Option Game :=
  match add_pack (some (make_mace init_weapon g).1) true (make_mace init_weapon g).2 with
  | none => none
  | some g5 => some { g5 with cur_weapon := some (make_mace init_weapon g).1 }

/-- "Now a +1 bow", up to the call of `add_pack`. -/
def make_bow (init_weapon : Nat → Int → Game → Game) (g : Game) : Nat × Game :=
  let a := new_item g
  let obj := a.1
  let g1 := init_weapon obj BOW a.2
  let g2 := g1.poke obj (fun t => { t with o_hplus := 1 })
  (obj, g2.poke obj (fun t => { t with o_flags := t.o_flags ||| ISKNOW }))

/-- "Now a +1 bow". -/
def give_bow (init_weapon : Nat → Int → Game → Game) (g : Game) : Option Game :=
  add_pack (some (make_bow init_weapon g).1) true (make_bow init_weapon g).2

/-- "Now some arrows", up to the call of `add_pack`. -/
def make_arrows (init_weapon : Nat → Int → Game → Game) (g : Game) : Nat × Game :=
  let a := new_item g
  let obj := a.1
  let g1 := init_weapon obj ARROW a.2
  let r := rnd 15 g1
  let g2 := r.2.poke obj (fun t => { t with o_count := (r.1 : Int) + 25 })
  (obj, g2.poke obj (fun t => { t with o_flags := t.o_flags ||| ISKNOW }))

/-- "Now some arrows". -/
def give_arrows (init_weapon : Nat → Int → Game → Game) (g : Game) : Option Game :=
  add_pack (some (make_arrows init_weapon g).1) true (make_arrows init_weapon g).2

/-- The function `init_player()`; `max_stats` is the starting stat block of `extern.c`. -/
def init_player (max_stats : stats) (a_class : List Int)
    (init_weapon : Nat → Int → Game → Game) (g : Game) : Option Game :=
  let g0 := { g with pstats := max_stats, food_left := HUNGERTIME }
  match give_food g0 with
  | none => none
  | some g1 =>
  match give_armor a_class g1 with
  | none => none
  | some g2 =>
  match give_mace init_weapon g2 with
  | none => none
  | some g3 =>
  match give_bow init_weapon g3 with
  | none => none
  | some g4 => give_arrows init_weapon g4

/-- What is assumed of `init_weapon(weap, which)`: it writes the object `weap`, which it
makes a weapon of the kind `which`, it may draw random numbers, and it changes nothing
else of the state kept here. -/
def init_weapon_ok (init_weapon : Nat → Int → Game → Game) : Prop :=
  ∀ weap which g,
    init_weapon weap which g =
      { g with heap := Function.update g.heap weap ((init_weapon weap which g).heap weap)
               seed := (init_weapon weap which g).seed } ∧
    ((init_weapon weap which g).heap weap).o_type = WEAPON ∧
    ((init_weapon weap which g).heap weap).o_which = which

/-- The pack holds the objects at the addresses `0 .. n - 1`, in this order and under the
first `n` letters, and no other object has been made. -/
def starting_pack (n : Nat) (g : Game) : Prop :=
  g.nthings = n ∧ g.pack = some 0 ∧
  chain g.heap g.nthings g.pack = some (List.range n) ∧
  g.inpack = n ∧
  g.pack_used = List.replicate n true ++ List.replicate (26 - n) false

/-- The state `gp` comes from `g` by making the object at the address `n` and writing
it: the pack and the other objects are those of `g`. -/
def fresh_at (n : Nat) (g gp : Game) : Prop :=
  gp.nthings = n + 1 ∧ gp.pack = g.pack ∧ gp.inpack = g.inpack ∧
  gp.pack_used = g.pack_used ∧ ∀ a, a ≠ n → gp.heap a = g.heap a
/-! ## Definitions: `init.c`, the colours of the potions and the names of the scrolls -/

/-- Modelled from the spec: `rnd(range)`, whose text is not among the sources, as it is
"understood to reduce that 16-bit value modulo `range`", over the sequence `draw` of the
values the macro `RN` gives, `k` being the number of values used so far.  Returns the
value and the new count. -/
def rnd_at (draw : Nat → Nat) (range k : Nat) : Nat × Nat :=
  (draw k % range, k + 1)

/-- The seed after `n` uses of the macro `RN`, from `seed`. -/
def seed_after (seed : Nat) : Nat → Nat
  | 0 => seed
  | n + 1 => (seed_after seed n * 11109 + 13849) % 2 ^ 32

/-- The sequence of values the macro `RN` gives from `seed` on. -/
def RN_values (seed k : Nat) : Nat :=
  (seed_after seed (k + 1) / 2 ^ 16) % 2 ^ 16

/-- The table `rainbow`. -/
def rainbow : List String :=
  ["amber", "aquamarine", "black", "blue", "brown", "clear", "crimson", "cyan", "ecru",
   "gold", "green", "grey", "magenta", "orange", "pink", "plaid", "purple", "red",
   "silver", "tan", "tangerine", "topaz", "turquoise", "vermilion", "violet", "white",
   "yellow"]

/-- The macro `NCOLORS`, `sizeof rainbow / sizeof (char *)`. -/
def NCOLORS : Nat := rainbow.length

/-- The loop `do j = rnd(NCOLORS); until (!used[j]);` of `init_colors`.  `fuel` bounds
the number of draws: `none` when that many draws all gave a colour in use.  Returns `j`
and the count of values used. -/
def unused_color (draw : Nat → Nat) (used : List Bool) : Nat → Nat → Option (Nat × Nat)
  | 0, _ => none
  | fuel + 1, k =>
    let r := rnd_at draw NCOLORS k
    if used.getD r.1 false then unused_color draw used fuel r.2 else some r

/-- The loop `for (i = 0; i < MAXPOTIONS; i++)` of `init_colors` with `n` rounds to go:
`used` is the array of that name, `p_colors` the names given out so far, in the order of
the potion kinds. -/
def init_colors_loop (draw : Nat → Nat) (fuel : Nat) :
    Nat → List Bool → List String → Nat → Option (List String × Nat)
  | 0, _, p_colors, k => some (p_colors, k)
  | n + 1, used, p_colors, k =>
    match unused_color draw used fuel k with
    | none => none
    | some (j, k1) =>
      init_colors_loop draw fuel n (used.set j true) (p_colors ++ [rainbow.getD j ""]) k1

/-- The function `init_colors()`: the array `p_colors` it leaves and the count of values
used.  Of the array `used` only the `NCOLORS` entries the function resets and reads are
kept. -/
def init_colors (draw : Nat → Nat) (fuel k : Nat) : Option (List String × Nat) :=
  init_colors_loop draw fuel MAXPOTIONS (List.replicate NCOLORS false) [] k

/-- The table `sylls`. -/
def sylls : List String :=
  ["a", "ab", "ag", "aks", "ala", "an", "app", "arg", "arze", "ash", "bek", "bie", "bit",
   "bjor", "blu", "bot", "bu", "byt", "comp", "con", "cos", "cre", "dalf", "dan", "den",
   "do", "e", "eep", "el", "eng", "er", "ere", "erk", "esh", "evs", "fa", "fid", "fri",
   "fu", "gan", "gar", "glen", "gop", "gre", "ha", "hyd", "i", "ing", "ip", "ish", "it",
   "ite", "iv", "jo", "kho", "kli", "klis", "la", "lech", "mar", "me", "mi", "mic",
   "mik", "mon", "mung", "mur", "nej", "nelg", "nep", "ner", "nes", "nes", "nih", "nin",
   "o", "od", "ood", "org", "orn", "ox", "oxy", "pay", "ple", "plu", "po", "pot", "prok",
   "re", "rea", "rhov", "ri", "ro", "rog", "rok", "rol", "sa", "san", "sat", "sef",
   "seh", "shu", "ski", "sna", "sne", "snik", "sno", "so", "sol", "sri", "sta", "sun",
   "ta", "tab", "tem", "ther", "ti", "tox", "trol", "tue", "turs", "u", "ulk", "um",
   "un", "uni", "ur", "val", "viv", "vly", "vom", "wah", "wed", "werg", "wex", "whon",
   "wun", "xo", "y", "yot", "yu", "zant", "zeb", "zim", "zok", "zon", "zum"]

/-- The macro `MAXNAME`. -/
def MAXNAME : Nat := 40

/-- The characters of the entry `i` of `sylls`. -/
def syllable (i : Nat) : List Nat :=
  (sylls.getD i "").toList.map Char.toNat

/-- The loop `while (nsyl--)` of `init_names`.  `buf` holds the characters of `prbuf`
before `cp`, so that `cp - prbuf` is its length. -/
def name_sylls (draw : Nat → Nat) : Nat → List Nat → Nat → List Nat × Nat
  | 0, buf, k => (buf, k)
  | nsyl + 1, buf, k =>
    let r := rnd_at draw sylls.length k
    let sp := syllable r.1
    if buf.length + sp.length > MAXNAME then (buf, r.2)
    else name_sylls draw nsyl (buf ++ sp) r.2

/-- The loop `while (nwords--)` of `init_names`. -/
def name_words (draw : Nat → Nat) : Nat → List Nat → Nat → List Nat × Nat
  | 0, buf, k => (buf, k)
  | nwords + 1, buf, k =>
    let r := rnd_at draw 3 k
    let w := name_sylls draw (r.1 + 1) buf r.2
    name_words draw nwords (w.1 ++ [32]) w.2

/-- The body of the loop `for (i = 0; i < MAXSCROLLS; i++)` of `init_names`: the name
copied from `prbuf` to `s_names[i]`, and the count of values used.  The statement
`*--cp = 0` takes the last character written off the name. -/
def make_name (draw : Nat → Nat) (k : Nat) : List Nat × Nat :=
  let r := rnd_at draw 3 k
  let w := name_words draw (r.1 + 2) [] r.2
  (w.1.dropLast, w.2)

/-- The loop of `init_names` with `n` names to go. -/
def init_names_loop (draw : Nat → Nat) : Nat → List (List Nat) → Nat → List (List Nat) × Nat
  | 0, s_names, k => (s_names, k)
  | n + 1, s_names, k =>
    let r := make_name draw k
    init_names_loop draw n (s_names ++ [r.1]) r.2

/-- The function `init_names()`: the array `s_names` and the count of values used. -/
def init_names (draw : Nat → Nat) (k : Nat) : List (List Nat) × Nat :=
  init_names_loop draw MAXSCROLLS [] k

/-! ## Definitions: `pack.c`, the inventory -/

/-- The macro `CALLABLE`. -/
def CALLABLE : Int := -1

/-- The macro `R_OR_S`. -/
def R_OR_S : Int := -2

/-- The test of `inventory` whose branch is `continue`: an entry of the type `o_type` is
passed over when listing for `type`. -/
def inventory_skip (type o_type : Int) : Bool :=
  type != 0 && type != o_type &&
  !(type == CALLABLE && o_type != FOOD && o_type != AMULET) &&
  !(type == R_OR_S && (o_type == RING || o_type == STICK))

/-- The loop of `inventory` over the nodes of the list still ahead, and its end.
`listed` are the entries a line was written for so far, so that `n_objs` is its length.
`add_line listed a` tells whether the call of `add_line` (not among the sources) for the
entry `a` returns `ESCAPE`.  Returns the entries listed and the value returned. -/
def inventory_loop (heap : Nat → THING) (add_line : List Nat → Nat → Bool) (type : Int) :
    List Nat → List Nat → List Nat × Bool
  | [], listed => (listed, listed.length != 0)
  | a :: rest, listed =>
    if inventory_skip type (heap a).o_type then
      inventory_loop heap add_line type rest listed
    else if add_line listed a then (listed ++ [a], true)
    else inventory_loop heap add_line type rest (listed ++ [a])

/-- The function `inventory(list, type)`: the entries it lists, in order, and the value
it returns.  `none` when the list does not end within `fuel` nodes. -/
def inventory (heap : Nat → THING) (add_line : List Nat → Nat → Bool) (fuel : Nat)
    (list : Option Nat) (type : Int) : Option (List Nat × Bool) :=
  match chain heap fuel list with
  | none => none
  | some nodes => some (inventory_loop heap add_line type nodes [])

/-- The kinds the specification gives for the filter "callable": food, amulet, ring,
potion, scroll, wand or staff. -/
def callable_spec (o_type : Int) : Bool :=
  o_type == FOOD || o_type == AMULET || o_type == RING || o_type == POTION ||
  o_type == SCROLL || o_type == STICK

/-! ## Definitions: `save.c`, saving and restoring a game -/

/-- The function `strlen` on a character array. -/
def strlen (s : List Nat) : Nat :=
  (cstr s).length

/-- The text `sprintf(buf, "%d x %d\n", LINES, COLS)` produces. -/
def size_text (LINES COLS : Int) : List Nat :=
  fmt_d LINES ++ [32, 120, 32] ++ fmt_d COLS ++ [10]

/-- The array `buf` of `save_file` after that `sprintf`: the text, its terminating NUL,
and behind it what the array held before.  A text that does not fit with its NUL overruns
the array: `none`. -/
def sprintf_size (buf : List Nat) (LINES COLS : Int) : Option (List Nat) :=
  if (size_text LINES COLS).length + 1 ≤ buf.length then
    some (size_text LINES COLS ++ [0] ++ buf.drop ((size_text LINES COLS).length + 1))
  else none

/-- The function `save_file(savef)` up to `exit`: the bytes written to the file.
`version` is the array of that name with its terminating NUL, `buf` the 80 bytes the
local array holds on entry, `rs_save_file` the bytes the routine of that name (not among
the sources) writes.  `none` when an array is overrun. -/
def save_file (encstr statlist version buf : List Nat) (LINES COLS : Int)
    (rs_save_file : List Nat) : Option (List Nat) :=
  if version.length < strlen version + 1 ∨ buf.length ≠ 80 then none
  else
    match encwrite encstr statlist (version.take (strlen version + 1)) with
    | none => none
    | some (out1, _) =>
      match sprintf_size buf LINES COLS with
      | none => none
      | some buf1 =>
        match encwrite encstr statlist buf1 with
        | none => none
        | some (out2, _) => some (out1 ++ out2 ++ rs_save_file)

/-- The call `sscanf(buf, "%d x %d\n", &lines, &cols)`: the conversions are made in order
and assigned; at the first matching failure the call stops and the variables not yet
assigned keep their values.  `none` when `buf` holds no NUL or a value read does not fit
an `int`. -/
def sscanf_size (buf : List Nat) (lines cols : Int) : Option (Int × Int) :=
  if 0 ∉ buf then none
  else
    match scan_number 10 (cstr buf) with
    | none => some (lines, cols)
    | some (v1, r1) =>
    match store_int v1 with
    | none => none
    | some l =>
    match skip_space r1 with
    | 120 :: r2 =>
      match scan_number 10 (skip_space r2) with
      | none => some (l, cols)
      | some (v2, _) =>
        match store_int v2 with
        | none => none
        | some c => some (l, c)
    | _ => some (l, cols)

/-- What `restore` needs from outside the game: `LINES` and `COLS` as `initscr` sets
them, the routine `rs_restore_file` (not among the sources), which fills the game state
from the rest of the file, whether `md_unlink_open_file` succeeds, the link count of the
file and whether it is a symbolic link. -/
structure Terminal where
  LINES : Int
  COLS : Int
  rs_restore_file : List Nat → Game → Game
  unlinked : Bool
  st_nlink : Nat
  syml : Bool

/-- How a call of `restore` ends: it returns `FALSE`, or it enters play with `playit()`,
which does not return. -/
inductive Restored where
  | refused (g : Game)
  | play (g : Game)

/-- The function `restore`, from `hw = newwin(LINES, COLS, 0, 0)` on, `inf` being the
unread part of the file. -/
def restore_game (term : Terminal) (inf : List Nat) (g : Game) : Restored :=
  let g1 := term.rs_restore_file inf g
  if !term.unlinked then Restored.refused g1
  else if term.st_nlink ≠ 1 ∨ term.syml then Restored.refused g1
  else if g1.pstats.s_hpt ≤ 0 then Restored.refused g1
  else Restored.play g1

/-- The function `restore(file, envp)`.  `version` is the array of that name, `file` the
content of the file, `none` when `fopen` fails; `buf`, `lines` and `cols` are what the
local variables of these names hold on entry.  `none` when an array is overrun or a value
read does not fit. -/
def restore (term : Terminal) (encstr statlist version : List Nat)
    (file : Option (List Nat)) (buf : List Nat) (lines cols : Int) (g : Game) :
    Option Restored :=
  match file with
  | none => some (Restored.refused g)
  | some inf =>
    if version.length < strlen version + 1 then none
    else
    match encread encstr statlist buf (strlen version + 1) inf with
    | none => none
    | some (_, buf1, inf1) =>
      if cstr buf1 ≠ cstr version then some (Restored.refused g)
      else
        match encread encstr statlist buf1 80 inf1 with
        | none => none
        | some (_, buf2, inf2) =>
          match sscanf_size buf2 lines cols with
          | none => none
          | some (l, c) =>
            if l > term.LINES then some (Restored.refused g)
            else if c > term.COLS then some (Restored.refused g)
            else some (restore_game term inf2 g)

/-! ## Definitions: `potions.c`, `scrolls.c` and the callbacks of `daemons.c`

`player.t_flags` is a `short`, kept as its 16-bit pattern; `flags &= ~F` is written
`flags &&& (0xFFFF ^^^ F)`.  The tables `pot_info` and `scr_info` and the records of the
monsters are not kept in the state, so the statements that only write to them, or to the
screen through curses, are left out; the calls of `msg`, `status`, `show_win` and `look`
are kept here, as calls of routines of `Lib`. -/

/- more flags for creatures -/
def CANHUH : Nat := 0o1
def ISGREED : Nat := 0o40
def ISHASTE : Nat := 0o100
def ISTARGET : Nat := 0o200
def ISHELD : Nat := 0o400
def ISHUH : Nat := 0o1000
def ISINVIS : Nat := 0o2000
def ISREGEN : Nat := 0o10000
def SEEMONST : Nat := 0o40000
def ISSLOW : Nat := 0o100000
def F_PASS : Nat := 0x80

def HEALTIME : Int := 30
def HUHDURATION : Int := 20
def SEEDURATION : Int := 850
def NUMLINES : Int := 24
def NUMCOLS : Int := 80
def R_SUSTSTR : Int := 2

def P_CONFUSE : Int := 0
def P_LSD : Int := 1
def P_POISON : Int := 2
def P_STRENGTH : Int := 3
def P_SEEINVIS : Int := 4
def P_HEALING : Int := 5
def P_MFIND : Int := 6
def P_TFIND : Int := 7
def P_RAISE : Int := 8
def P_XHEAL : Int := 9
def P_HASTE : Int := 10
def P_RESTORE : Int := 11
def P_BLIND : Int := 12
def P_LEVIT : Int := 13

def S_CONFUSE : Int := 0
def S_MAP : Int := 1
def S_HOLD : Int := 2
def S_SLEEP : Int := 3
def S_ARMOR : Int := 4
def S_ID_POTION : Int := 5
def S_ID_SCROLL : Int := 6
def S_ID_WEAPON : Int := 7
def S_ID_ARMOR : Int := 8
def S_ID_R_OR_S : Int := 9
def S_FDET : Int := 11
def S_TELEP : Int := 12
def S_ENCH : Int := 13
def S_CREATE : Int := 14
def S_REMOVE : Int := 15
def S_AGGR : Int := 16
def S_PROTECT : Int := 17

/-- The functions a fuse or a daemon is started with in the routines below. -/
inductive Callback where
  | null
  | unconfuse
  | come_down
  | unsee
  | sight
  | land
  | turn_see
  | visuals
deriving DecidableEq, Repr

/-- A `char *` of the table `p_actions`: `NULL`, a string constant, or the buffer
`prbuf`. -/
inductive Text where
  | null
  | str (s : String)
  | prbuf
deriving DecidableEq, Repr

/-- The type `PACT` of `potions.c`. -/
structure PACT where
  pa_flags : Nat
  pa_daemon : Callback
  pa_time : Int
  pa_high : Text
  pa_straight : Text
deriving DecidableEq, Repr

/-- The table `p_actions`; the messages an entry does not give are `NULL`. -/
def p_actions : List PACT :=
  [⟨ISHUH, Callback.unconfuse, HUHDURATION,
      Text.str "what a tripy feeling!",
      Text.str "wait, what's going on here. Huh? What? Who?"⟩,
   ⟨ISHALU, Callback.come_down, SEEDURATION,
      Text.str "Oh, wow!  Everything seems so cosmic!",
      Text.str "Oh, wow!  Everything seems so cosmic!"⟩,
   ⟨0, Callback.null, 0, Text.null, Text.null⟩,
   ⟨0, Callback.null, 0, Text.null, Text.null⟩,
   ⟨CANSEE, Callback.unsee, SEEDURATION, Text.prbuf, Text.prbuf⟩,
   ⟨0, Callback.null, 0, Text.null, Text.null⟩,
   ⟨0, Callback.null, 0, Text.null, Text.null⟩,
   ⟨0, Callback.null, 0, Text.null, Text.null⟩,
   ⟨0, Callback.null, 0, Text.null, Text.null⟩,
   ⟨0, Callback.null, 0, Text.null, Text.null⟩,
   ⟨0, Callback.null, 0, Text.null, Text.null⟩,
   ⟨0, Callback.null, 0, Text.null, Text.null⟩,
   ⟨ISBLIND, Callback.sight, SEEDURATION,
      Text.str "oh, bummer!  Everything is dark!  Help!",
      Text.str "a cloak of darkness falls around you"⟩,
   ⟨ISLEVIT, Callback.land, HEALTIME,
      Text.str "oh, wow!  You're floating in the air!",
      Text.str "you start to float in the air"⟩]

/-- The routines that `potions.c`, `scrolls.c` and the callbacks call and whose text is
not among the sources, the output routines of `io.c`, and what these files read of the
screen and of the monsters, which the state does not keep.
* `msg`, `status`, `show_win`: the routines of `io.c` of these names (`msg` also for
  `addmsg` followed by `endmsg`); they write to the screen, may wait for a key and call
  `look`.
* `look wakeup`, `call_it type which` (for `call_it(&pot_info[which])` with `type`
  `POTION` and `call_it(&scr_info[which])` with `type` `SCROLL`), `enter_room`,
  `check_level`, `teleport`, `whatis insist type`, `new_monster tp type cp`.
* `roll number sides`, `spread nm`, `randmonster wander`, `add_haste potion`: the value
  returned and the state left.
* `fuse func arg time type`, `lengthen func xtime`, `start_daemon func arg type`,
  `kill_daemon func`, `extinguish func`: the scheduler.
* `add_str s amt`: the strength `add_str(&s, amt)` leaves in `s`.
* `see_monst i`: the value of `see_monst` for the monster number `i` of `mlist`;
  `seen_stairs`: the value of the function of that name of `potions.c`, a test of the
  screen and of the monster on the stairs; `monster_magic`: some monster carries an object
  for which `is_magic` holds; `winat y x`: the value of the macro.
* `e_levels`, `a_class`, `max_stats`: the tables and the variable of these names. -/
structure Lib where
  msg : Game → Game
  status : Game → Game
  show_win : Game → Game
  look : Bool → Game → Game
  call_it : Int → Int → Game → Game
  enter_room : Game → Game
  check_level : Game → Game
  teleport : Game → Game
  whatis : Bool → Int → Game → Game
  new_monster : Nat → Int → coord → Game → Game
  roll : Int → Int → Game → Int × Game
  spread : Int → Game → Int × Game
  randmonster : Bool → Game → Int × Game
  add_haste : Bool → Game → Bool × Game
  fuse : Callback → Int → Int → Int → Game → Game
  lengthen : Callback → Int → Game → Game
  start_daemon : Callback → Int → Int → Game → Game
  kill_daemon : Callback → Game → Game
  extinguish : Callback → Game → Game
  add_str : Nat → Int → Nat
  see_monst : Nat → Game → Bool
  seen_stairs : Game → Bool
  monster_magic : Game → Bool
  winat : Int → Int → Game → Int
  e_levels : List Int
  a_class : List Int
  max_stats : stats

/-- Every routine of `lib` that takes the game from one state to another takes a state
with the property `P` to a state with `P`. -/
def Lib.keeps (lib : Lib) (P : Game → Prop) : Prop :=
  (∀ g, P g → P (lib.msg g)) ∧ (∀ g, P g → P (lib.status g)) ∧
  (∀ g, P g → P (lib.show_win g)) ∧ (∀ w g, P g → P (lib.look w g)) ∧
  (∀ t w g, P g → P (lib.call_it t w g)) ∧ (∀ g, P g → P (lib.enter_room g)) ∧
  (∀ g, P g → P (lib.check_level g)) ∧ (∀ g, P g → P (lib.teleport g)) ∧
  (∀ i t g, P g → P (lib.whatis i t g)) ∧
  (∀ tp t cp g, P g → P (lib.new_monster tp t cp g)) ∧
  (∀ n s g, P g → P (lib.roll n s g).2) ∧ (∀ nm g, P g → P (lib.spread nm g).2) ∧
  (∀ w g, P g → P (lib.randmonster w g).2) ∧ (∀ p g, P g → P (lib.add_haste p g).2) ∧
  (∀ f a t ty g, P g → P (lib.fuse f a t ty g)) ∧
  (∀ f x g, P g → P (lib.lengthen f x g)) ∧
  (∀ f a ty g, P g → P (lib.start_daemon f a ty g)) ∧
  (∀ f g, P g → P (lib.kill_daemon f g)) ∧ (∀ f g, P g → P (lib.extinguish f g))

/-- The selection dialogue and the ring effects of `env` take a state with the property
`P` to a state with `P`. -/
def Env.keeps (env : Env) (P : Game → Prop) : Prop :=
  (∀ t g r g1, P g → env.get_item t g = some (r, g1) → P g1) ∧
  (∀ a g, P g → P (env.chg_str a g)) ∧ (∀ g, P g → P (env.aggravate g))

/-- The routines met while a potion of healing or of extra healing is quaffed leave the
stats of the player alone: the output routines, `call_it`, `roll`, and what `sight` and
`come_down` call. -/
def Lib.keeps_stats (lib : Lib) : Prop :=
  (∀ g, (lib.msg g).pstats = g.pstats) ∧ (∀ g, (lib.status g).pstats = g.pstats) ∧
  (∀ t w g, (lib.call_it t w g).pstats = g.pstats) ∧
  (∀ g, (lib.enter_room g).pstats = g.pstats) ∧
  (∀ n s g, (lib.roll n s g).2.pstats = g.pstats) ∧
  (∀ f g, (lib.kill_daemon f g).pstats = g.pstats) ∧
  (∀ f g, (lib.extinguish f g).pstats = g.pstats)

/-- The macro `ISWEARING(r)`. -/
def ISWEARING (g : Game) (r : Int) : Bool :=
  ISRING g LEFT r || ISRING g RIGHT r

/-- The statement `player.t_flags &= ~flag`. -/
def flag_off (flag : Nat) (g : Game) : Game :=
  { g with t_flags := g.t_flags &&& (0xFFFF ^^^ flag) }

/-- The statement `player.t_flags |= flag`. -/
def flag_on (flag : Nat) (g : Game) : Game :=
  { g with t_flags := g.t_flags ||| flag }

/-- The function `pick_color(col)` of `init.c`: the colour and the state left. -/
def pick_color (col : String) (g : Game) : String × Game :=
  if g.on ISHALU then (rainbow.getD (rnd NCOLORS g).1 "", (rnd NCOLORS g).2) else (col, g)

/-- The function `unconfuse()`. -/
def unconfuse (lib : Lib) (g : Game) : Game :=
  lib.msg (flag_off ISHUH g)

/-- The function `unsee()`; its loop only writes to the screen. -/
def unsee (g : Game) : Game :=
  flag_off CANSEE g

/-- The function `sight()`. -/
def sight (lib : Lib) (g : Game) : Game :=
  if g.on ISBLIND then
    let g1 := flag_off ISBLIND (lib.extinguish Callback.sight g)
    let g2 := if g1.proom_flags &&& ISGONE = 0 then lib.enter_room g1 else g1
    lib.msg g2
  else g

/-- The function `nohaste()`. -/
def nohaste (lib : Lib) (g : Game) : Game :=
  lib.msg (flag_off ISHASTE g)

/-- The function `come_down()`; its loops only write to the screen. -/
def come_down (lib : Lib) (g : Game) : Game :=
  if !g.on ISHALU then g
  else
    let g1 := flag_off ISHALU (lib.kill_daemon Callback.visuals g)
    if g1.on ISBLIND then g1 else lib.msg g1

/-- The function `land()`. -/
def land (lib : Lib) (g : Game) : Game :=
  lib.msg (flag_off ISLEVIT g)

/-- The body of the loop of `turn_see` for the monster number `i`: `s.1` is `add_new`.
With `turn_off` it only writes to the screen; otherwise a hallucinating player is shown
the letter `rnd(26) + 'A'`, and a monster that cannot be seen counts. -/
def turn_see_step (lib : Lib) (turn_off : Bool) (s : Nat × Game) (i : Nat) : Nat × Game :=
  if turn_off then s
  else
    let g1 := if !s.2.on ISHALU then s.2 else (rnd 26 s.2).2
    (if !lib.see_monst i s.2 then s.1 + 1 else s.1, g1)

/-- The function `turn_see(turn_off)`: the value returned and the state left. -/
def turn_see (lib : Lib) (turn_off : Bool) (g : Game) : Bool × Game :=
  let r := (List.range g.mlist.length).foldl (turn_see_step lib turn_off) (0, g)
  (decide (r.1 ≠ 0), if turn_off then flag_off SEEMONST r.2 else flag_on SEEMONST r.2)

/-- Modelled from the spec: the function `choose_str(ts, ns)`, whose text is not among the
sources, gives the message for the state of the player, `ts` to one who is hallucinating
and `ns` otherwise. -/
def choose_str (g : Game) (ts ns : Text) : Text :=
  if g.on ISHALU then ts else ns

/-- The function `do_pot(type, knowit)`.  `none` when `type` is no index of `p_actions`,
and when the message of the entry is `NULL`: `msg` reads `*fmt`.  The macro `AFTER` is
`spread(2)`. -/
def do_pot (lib : Lib) (type : Int) (_knowit : Bool) (g : Game) : Option Game :=
  if type < 0 ∨ (p_actions.length : Int) ≤ type then none
  else
    let pp := p_actions.getD type.toNat ⟨0, Callback.null, 0, Text.null, Text.null⟩
    let t := lib.spread pp.pa_time g
    let g1 :=
      if !t.2.on pp.pa_flags then
        let a := lib.spread 2 (flag_on pp.pa_flags t.2)
        lib.look false (lib.fuse pp.pa_daemon 0 t.1 a.1 a.2)
      else lib.lengthen pp.pa_daemon t.1 t.2
    if choose_str g1 pp.pa_high pp.pa_straight = Text.null then none
    else some (lib.msg g1)

/-- The function `raise_level()`.  `none` when `pstats.s_lvl - 1` is no index of
`e_levels`. -/
def raise_level (lib : Lib) (g : Game) : Option Game :=
  if g.pstats.s_lvl - 1 < 0 ∨ (lib.e_levels.length : Int) ≤ g.pstats.s_lvl - 1 then none
  else
    some (lib.check_level { g with pstats := { g.pstats with
      s_exp := lib.e_levels.getD (g.pstats.s_lvl - 1).toNat 0 + 1 } })

/-- The case `P_HEALING` of `quaff` up to `sight()`:
`if ((pstats.s_hpt += roll(pstats.s_lvl, 4)) > max_hp) pstats.s_hpt = ++max_hp;`. -/
def quaff_healing (lib : Lib) (g : Game) : Game :=
  let r := lib.roll g.pstats.s_lvl 4 g
  let g1 := heal r.1 r.2
  if g1.pstats.s_hpt > g1.pstats.s_maxhp then
    { g1 with pstats := { g1.pstats with
      s_maxhp := g1.pstats.s_maxhp + 1, s_hpt := g1.pstats.s_maxhp + 1 } }
  else g1

/-- The case `P_XHEAL` of `quaff` up to `sight()`. -/
def quaff_xheal (lib : Lib) (g : Game) : Game :=
  let r := lib.roll g.pstats.s_lvl 8 g
  let g1 := heal r.1 r.2
  if g1.pstats.s_hpt > g1.pstats.s_maxhp then
    let g2 := if g1.pstats.s_hpt > g1.pstats.s_maxhp + g1.pstats.s_lvl + 1 then
        { g1 with pstats := { g1.pstats with s_maxhp := g1.pstats.s_maxhp + 1 } }
      else g1
    { g2 with pstats := { g2.pstats with
      s_maxhp := g2.pstats.s_maxhp + 1, s_hpt := g2.pstats.s_maxhp + 1 } }
  else g1

/-- The value `cur_ring[hand]->o_arm`, for a hand that wears a ring. -/
def ring_arm (g : Game) (hand : Nat) : Int :=
  match g.cur_ring hand with
  | some r => (g.heap r).o_arm
  | none => 0

/-- The statement `add_str(&pstats.s_str, amt)`. -/
def add_str_pstats (lib : Lib) (amt : Int) (g : Game) : Game :=
  { g with pstats := { g.pstats with s_str := lib.add_str g.pstats.s_str amt } }

/-- The statement `if (ISRING(hand, R_ADDSTR)) add_str(&pstats.s_str,
-cur_ring[hand]->o_arm);`. -/
def str_less_ring (lib : Lib) (hand : Nat) (g : Game) : Game :=
  if ISRING g hand R_ADDSTR then add_str_pstats lib (-(ring_arm g hand)) g else g

/-- The statement `if (ISRING(hand, R_ADDSTR)) add_str(&pstats.s_str,
cur_ring[hand]->o_arm);`. -/
def str_with_ring (lib : Lib) (hand : Nat) (g : Game) : Game :=
  if ISRING g hand R_ADDSTR then add_str_pstats lib (ring_arm g hand) g else g

/-- The statement `if (pstats.s_str < max_stats.s_str) pstats.s_str = max_stats.s_str;`. -/
def str_restored (lib : Lib) (g : Game) : Game :=
  if g.pstats.s_str < lib.max_stats.s_str then
    { g with pstats := { g.pstats with s_str := lib.max_stats.s_str } }
  else g

/-- The case `P_RESTORE` of `quaff` up to its message: the strength without the rings,
left hand first, is brought back up, and the rings are counted in again. -/
def quaff_restore (lib : Lib) (g : Game) : Game :=
  str_with_ring lib RIGHT (str_with_ring lib LEFT (str_restored lib
    (str_less_ring lib RIGHT (str_less_ring lib LEFT g))))

/-- The value of `show` in the case `P_TFIND` of `quaff`.  `none` when the level list
does not end or `is_magic` reads outside `a_class`. -/
def magic_shown (lib : Lib) (g : Game) : Option Bool :=
  match g.lvl_obj with
  | none => some false
  | some head =>
    match chain g.heap g.nthings (some head) with
    | none => none
    | some l =>
      if l.any (fun a => (is_magic lib.a_class (g.heap a)).isNone) then none
      else some (l.any (fun a => is_magic lib.a_class (g.heap a) == some true)
        || lib.monster_magic g)

/-- The `switch (obj->o_which)` of `quaff`; `trip` is the value of that variable. -/
def quaff_switch (env : Env) (lib : Lib) (trip : Bool) (which : Int) (g : Game) :
    Option Game :=
  if which = P_CONFUSE then do_pot lib P_CONFUSE (!trip) g
  else if which = P_POISON then
    if ISWEARING g R_SUSTSTR then some (lib.msg g)
    else
      some (come_down lib (lib.msg (env.chg_str (-(((rnd 3 g).1 : Int) + 1)) (rnd 3 g).2)))
  else if which = P_HEALING then some (lib.msg (sight lib (quaff_healing lib g)))
  else if which = P_STRENGTH then some (lib.msg (env.chg_str 1 g))
  else if which = P_MFIND then
    let a := lib.spread 2 (flag_on SEEMONST g)
    let r := turn_see lib false (lib.fuse Callback.turn_see 1 HUHDURATION a.1 a.2)
    some (if !r.1 then lib.msg r.2 else r.2)
  else if which = P_TFIND then
    match magic_shown lib g with
    | none => none
    | some shown => some (if shown then lib.show_win g else lib.msg g)
  else if which = P_LSD then
    let g3 :=
      if !trip then
        let g1 := if g.on SEEMONST then (turn_see lib false g).2 else g
        let b := lib.spread 1 g1
        let g2 := lib.start_daemon Callback.visuals 0 b.1 b.2
        { g2 with seenstairs := lib.seen_stairs g2 }
      else g
    do_pot lib P_LSD true g3
  else if which = P_SEEINVIS then
    let shown := g.on CANSEE
    match do_pot lib P_SEEINVIS false g with
    | none => none
    | some g1 => some (sight lib (if !shown then invis_on g1 else g1))
  else if which = P_RAISE then raise_level lib (lib.msg g)
  else if which = P_XHEAL then some (lib.msg (come_down lib (sight lib (quaff_xheal lib g))))
  else if which = P_HASTE then
    let r := lib.add_haste true { g with after := false }
    some (if r.1 then lib.msg r.2 else r.2)
  else if which = P_RESTORE then some (lib.msg (quaff_restore lib g))
  else if which = P_BLIND then do_pot lib P_BLIND true g
  else if which = P_LEVIT then do_pot lib P_LEVIT true g
  else some g

/-- The function `quaff()`.  `none` when the selection dialogue does not end, the pack
cannot be followed, or a table is read outside its bounds. -/
def quaff (env : Env) (lib : Lib) (g : Game) : Option Game :=
  match env.get_item POTION g with
  | none => none
  | some (none, g1) => some g1
  | some (some obj, g1) =>
    if (g1.heap obj).o_type ≠ POTION then some (lib.msg g1)
    else
      let g2 := if g1.cur_weapon = some obj then { g1 with cur_weapon := none } else g1
      let trip := g2.on ISHALU
      let discardit := decide ((g2.heap obj).o_count = 1)
      match leave_pack obj false false g2 with
      | none => none
      | some (_, g3) =>
        match quaff_switch env lib trip (g3.heap obj).o_which g3 with
        | none => none
        | some g4 =>
          let g5 := lib.call_it POTION (g4.heap obj).o_which (lib.status g4)
          some (if discardit then discard obj g5 else g5)

/-- The statement `obj->o_flags &= ~ISCURSED`; `o_flags` is an `int`. -/
def uncurse_obj (obj : Nat) (g : Game) : Game :=
  g.poke obj (fun t => { t with o_flags := t.o_flags &&& (0xFFFFFFFF ^^^ ISCURSED) })

/-- The function `uncurse(obj)`. -/
def uncurse (obj : Option Nat) (g : Game) : Game :=
  match obj with
  | some o => uncurse_obj o g
  | none => g

/-- The label `pass` of the case `S_MAP` of `read_scroll`, for one place. -/
def map_pass (pp : PLACE) : PLACE :=
  let p1 := if pp.p_flags &&& F_REAL = 0 then { pp with p_ch := PASSAGE } else pp
  { p1 with p_flags := p1.p_flags ||| (F_SEEN ||| F_REAL) }

/-- The label `def` of the case `S_MAP`, for one place. -/
def map_default (pp : PLACE) : PLACE :=
  if pp.p_flags &&& F_PASS ≠ 0 then map_pass pp else pp

/-- The `switch (ch = pp->p_ch)` of the case `S_MAP`, for one place. -/
def map_place (pp : PLACE) : PLACE :=
  if pp.p_ch = DOOR ∨ pp.p_ch = STAIRS then pp
  else if pp.p_ch = 45 ∨ pp.p_ch = 124 then
    if pp.p_flags &&& F_REAL = 0 then
      { pp with p_ch := DOOR, p_flags := pp.p_flags ||| F_REAL }
    else pp
  else if pp.p_ch = 32 then
    if pp.p_flags &&& F_REAL ≠ 0 then map_default pp
    else map_pass { pp with p_flags := pp.p_flags ||| F_REAL, p_ch := PASSAGE }
  else if pp.p_ch = PASSAGE then map_pass pp
  else if pp.p_ch = FLOOR then
    if pp.p_flags &&& F_REAL ≠ 0 then pp
    else { pp with p_ch := TRAP, p_flags := pp.p_flags ||| (F_SEEN ||| F_REAL) }
  else map_default pp

/-- The two loops of the case `S_MAP`: every place `INDEX(y, x)` with `1 <= y <
NUMLINES - 1` and `0 <= x < NUMCOLS` goes through the `switch`, each one once. -/
def scroll_map (g : Game) : Game :=
  { g with places := fun i =>
      if 0 ≤ i ∧ 1 ≤ i % 32 ∧ i % 32 < NUMLINES - 1 ∧ i / 32 < NUMCOLS then
        map_place (g.places i)
      else g.places i }

/-- The function `step_ok(ch)` of `io.c`. -/
def step_ok (ch : Int) : Bool :=
  if ch = 32 ∨ ch = 124 ∨ ch = 45 then false
  else !((65 ≤ ch ∧ ch ≤ 90) ∨ (97 ≤ ch ∧ ch ≤ 122))

/-- The body of the two loops of the case `S_CREATE` for the place `(y, x)`: `s.1` is
`i`, `s.2.1` is `mp`.  `none` when `find_obj` gives `NULL` where the scroll is read. -/
def create_step (lib : Lib) (s : Option (Int × coord × Game)) (p : Int × Int) :
    Option (Int × coord × Game) :=
  match s with
  | none => none
  | some (i, mp, g) =>
    if p.1 = g.hero.y ∧ p.2 = g.hero.x then some (i, mp, g)
    else if step_ok (lib.winat p.1 p.2 g) then
      if lib.winat p.1 p.2 g = SCROLL then
        match find_obj g p.1 p.2 with
        | none => none
        | some o =>
          if (g.heap o).o_which = S_SCARE then some (i, mp, g)
          else
            let r := rnd (i + 1).toNat g
            some (i + 1, if r.1 = 0 then ⟨p.2, p.1⟩ else mp, r.2)
      else
        let r := rnd (i + 1).toNat g
        some (i + 1, if r.1 = 0 then ⟨p.2, p.1⟩ else mp, r.2)
    else some (i, mp, g)

/-- The case `S_CREATE` of `read_scroll`; `mp` is the static variable of that name. -/
def scroll_create (lib : Lib) (mp : coord) (g : Game) : Option Game :=
  let ys := [g.hero.y - 1, g.hero.y, g.hero.y + 1]
  let xs := [g.hero.x - 1, g.hero.x, g.hero.x + 1]
  let cells := ys.flatMap (fun y => xs.map (fun x => (y, x)))
  match cells.foldl (create_step lib) (some (0, mp, g)) with
  | none => none
  | some (i, mp1, g1) =>
    if i = 0 then some (lib.msg g1)
    else
      let a := new_item g1
      let m := lib.randmonster false a.2
      some (lib.new_monster a.1 m.1 mp1 m.2)

/-- The value of `ch` before `if (ch)` in the case `S_FDET`: food lies on the level.
`none` when the level list does not end. -/
def food_shown (g : Game) : Option Bool :=
  match chain g.heap g.nthings g.lvl_obj with
  | none => none
  | some l => some (l.any (fun a => (g.heap a).o_type == FOOD))

/-- The table `id_type` of `read_scroll`. -/
def id_type : List Int :=
  [0, 0, 0, 0, 0, POTION, SCROLL, WEAPON, ARMOR, R_OR_S]

/-- The `switch (obj->o_which)` of `read_scroll`; `mp` is the static variable. -/
def read_switch (env : Env) (lib : Lib) (mp : coord) (which : Int) (g : Game) :
    Option Game :=
  if which = S_CONFUSE then some (lib.msg (pick_color "red" (flag_on CANHUH g)).2)
  else if which = S_ARMOR then
    match g.cur_armor with
    | none => some g
    | some a =>
      let g1 := g.poke a (fun t => { t with o_arm := t.o_arm - 1 })
      some (lib.msg (pick_color "silver" (uncurse_obj a g1)).2)
  else if which = S_HOLD then some (lib.msg g)
  else if which = S_SLEEP then
    let t := lib.spread 5 g
    let r := rnd t.1.toNat t.2
    some (lib.msg (flag_off ISRUN
      { r.2 with no_command := r.2.no_command + ((r.1 : Int) + 4) }))
  else if which = S_CREATE then scroll_create lib mp g
  else if which = S_ID_POTION ∨ which = S_ID_SCROLL ∨ which = S_ID_WEAPON ∨
      which = S_ID_ARMOR ∨ which = S_ID_R_OR_S then
    some (lib.whatis true (id_type.getD which.toNat 0) (lib.msg g))
  else if which = S_MAP then some (scroll_map (lib.msg g))
  else if which = S_FDET then
    match food_shown g with
    | none => none
    | some ch => some (if ch then lib.show_win g else lib.msg g)
  else if which = S_TELEP then some (lib.teleport g)
  else if which = S_ENCH then
    match g.cur_weapon with
    | none => some (lib.msg g)
    | some w =>
      if (g.heap w).o_type ≠ WEAPON then some (lib.msg g)
      else
        let g1 := uncurse_obj w g
        let r := rnd 2 g1
        let g2 := if r.1 = 0 then r.2.poke w (fun t => { t with o_hplus := t.o_hplus + 1 })
          else r.2.poke w (fun t => { t with o_dplus := t.o_dplus + 1 })
        some (lib.msg (pick_color "blue" g2).2)
  else if which = S_SCARE then some (lib.msg g)
  else if which = S_REMOVE then
    some (lib.msg (uncurse (g.cur_ring RIGHT) (uncurse (g.cur_ring LEFT)
      (uncurse g.cur_weapon (uncurse g.cur_armor g)))))
  else if which = S_AGGR then some (lib.msg (env.aggravate g))
  else if which = S_PROTECT then
    match g.cur_armor with
    | none => some (lib.msg g)
    | some a =>
      let g1 := g.poke a (fun t => { t with o_flags := t.o_flags ||| ISPROT })
      some (lib.msg (pick_color "gold" g1).2)
  else some g

/-- The function `read_scroll()`; `mp` is what its static variable holds on entry.
`none` when the selection dialogue does not end, a list cannot be followed, or a pointer
that is `NULL` is read through. -/
def read_scroll (env : Env) (lib : Lib) (mp : coord) (g : Game) : Option Game :=
  match env.get_item SCROLL g with
  | none => none
  | some (none, g1) => some g1
  | some (some obj, g1) =>
    if (g1.heap obj).o_type ≠ SCROLL then some (lib.msg g1)
    else
      let g2 := if g1.cur_weapon = some obj then { g1 with cur_weapon := none } else g1
      let discardit := decide ((g2.heap obj).o_count = 1)
      match leave_pack obj false false g2 with
      | none => none
      | some (_, g3) =>
        match read_switch env lib mp (g3.heap obj).o_which g3 with
        | none => none
        | some g4 =>
          let g5 := lib.call_it SCROLL (g4.heap obj).o_which
            (lib.status (lib.look true g4))
          some (if discardit then discard obj g5 else g5)

/-- The test at the top of the loop of `command`:
`on(player, ISSLOW|ISGREED|ISINVIS|ISREGEN|ISTARGET)`, after which the program exits. -/
def corrupted (g : Game) : Bool :=
  g.on (ISSLOW ||| ISGREED ||| ISINVIS ||| ISREGEN ||| ISTARGET)

/-! ## Definitions: example states -/

/-- A pack of one entry, a food ration lettered `a` (address 0), and a food item of the
same sub-kind and count 2 that is not in the pack (address 1). -/
def ex_food : Game :=
  { Game.init with
    heap := fun a =>
      if a = 0 then
        { THING.zero with o_type := FOOD, o_count := 1, o_packch := 97, o_flags := ISFOUND }
      else if a = 1 then { THING.zero with o_type := FOOD, o_count := 2 }
      else THING.zero
    nthings := 2, pack := some 0, inpack := 1
    pack_used := true :: List.replicate 25 false }

/-- An empty pack after everything was dropped: the mace (address 1, letter `a`) was
dropped first and lies elsewhere, the suit of armor (address 0, letter `b`) was dropped
last, so it heads the level list, and the hero still stands on it.  No letter is in
use. -/
def ex_dropped : Game :=
  { Game.init with
    heap := fun a =>
      if a = 0 then
        { THING.zero with l_next := some 1, o_type := ARMOR, o_count := 1, o_which := 1,
                          o_packch := 98, o_flags := ISFOUND, o_pos := ⟨3, 4⟩ }
      else if a = 1 then
        { THING.zero with l_prev := some 0, o_type := WEAPON, o_count := 1,
                          o_packch := 97, o_flags := ISFOUND, o_pos := ⟨7, 4⟩ }
      else THING.zero
    nthings := 2, pack := none, lvl_obj := some 0, inpack := 0, hero := ⟨3, 4⟩ }

/-- A hero with 300 turns of food left who wears a ring of regeneration (address 0) on
the left hand. -/
def ex_hungry : Game :=
  { Game.init with
    heap := fun a =>
      if a = 0 then { THING.zero with o_type := RING, o_count := 1, o_which := 9 }
      else THING.zero
    nthings := 1, food_left := 300
    cur_ring := fun hand => if hand = 0 then some 0 else none }

/-- A hero who has been without food for 851 turns. -/
def ex_starved : Game :=
  { Game.init with food_left := -851, hungry_state := 3 }

/-- An instance of the routines that are not among the sources, for the examples:
the selection dialogue takes the next key as the answer, `ESCAPE` giving up and a letter
choosing the object at address letter minus `a`; the scheduler does nothing; an item is
stuck when it is cursed and is let go without further effect otherwise; an object is in
use when it is worn or wielded; the ring effects do nothing. -/
def ex_env : Env :=
  { get_item := fun _ g =>
      match g.keys with
      | [] => none
      | k :: ks =>
        if k = ESCAPE then some (none, { g with keys := ks, after := false })
        else some (some (k - 97), { g with keys := ks })
    do_daemons := fun _ g => some g
    do_fuses := fun _ g => some g
    BEFORE := 1
    AFTER := 2
    stuck := fun obj g => (g.heap obj).o_flags &&& ISCURSED != 0
    release := fun _ g => some g
    is_current := fun obj g =>
      decide (g.cur_armor = some obj ∨ g.cur_weapon = some obj ∨
        g.cur_ring LEFT = some obj ∨ g.cur_ring RIGHT = some obj)
    chg_str := fun _ g => g
    aggravate := fun g => g }

/-- Two suits of armor in the pack (addresses 0 and 1, letters `a` and `b`), the first
one cursed or not and worn or not, and keys waiting to be read. -/
def ex_armor (worn cursed : Bool) (keys : List Nat) : Game :=
  { Game.init with
    heap := fun a =>
      if a = 0 then
        { THING.zero with l_next := some 1, o_type := ARMOR, o_count := 1, o_which := 1,
                          o_packch := 97, o_flags := if cursed then ISCURSED else 0 }
      else if a = 1 then
        { THING.zero with l_prev := some 0, o_type := ARMOR, o_count := 1, o_which := 2,
                          o_packch := 98 }
      else THING.zero
    nthings := 2, pack := some 0, inpack := 2
    pack_used := true :: true :: List.replicate 24 false
    cur_armor := if worn then some 0 else none
    keys := keys }

/-- Three rings in the pack (addresses 0, 1, 2, letters `a`, `b`, `c`), the rings worn
on the two hands and keys waiting to be read. -/
def ex_rings (left right : Option Nat) (keys : List Nat) : Game :=
  { Game.init with
    heap := fun a =>
      if a = 0 then
        { THING.zero with l_next := some 1, o_type := RING, o_count := 1, o_which := 0,
                          o_packch := 97 }
      else if a = 1 then
        { THING.zero with l_next := some 2, l_prev := some 0, o_type := RING, o_count := 1,
                          o_which := 4, o_packch := 98 }
      else if a = 2 then
        { THING.zero with l_prev := some 1, o_type := RING, o_count := 1, o_which := 12,
                          o_packch := 99 }
      else THING.zero
    nthings := 3, pack := some 0, inpack := 3
    pack_used := true :: true :: true :: List.replicate 23 false
    cur_ring := fun hand => if hand = 0 then left else if hand = 1 then right else none
    keys := keys }

/-- The states of the run in which the three rings are put on one after the other, the
keys typed being `a`, `l`, `b`, `c`: after the first ring is on (`ex_rings_1`), after the
second selection (`ex_rings_h1`), after the second ring is on (`ex_rings_2`) and after the
third selection (`ex_rings_h2`). -/
def ex_rings_1 : Game :=
  ring_on_hand ex_env 0 LEFT { ex_rings none none [108, 98, 99] with keys := [98, 99] }

def ex_rings_h1 : Game :=
  { ex_rings_1 with keys := [99] }

def ex_rings_2 : Game :=
  ring_on_hand ex_env 1 RIGHT ex_rings_h1

def ex_rings_h2 : Game :=
  { ex_rings_2 with keys := [] }


/-- A table of three kinds with flat probabilities 50, 30 and 20. -/
def ex_info : List obj_info :=
  [⟨[97], 50, 5, none, false⟩, ⟨[98], 30, 10, some [120], true⟩, ⟨[99], 20, 0, none, false⟩]

/-- A table of `n` kinds whose flat probabilities total 100: the first kind has what the
others, with 1 each, leave. -/
def ex_flat (n : Nat) : List obj_info :=
  (List.range n).map (fun i => ⟨[97 + i], if i = 0 then 101 - (n : Int) else 1, 0, none, false⟩)

/-- Seven generation tables of the sizes of the game, each totalling 100. -/
def ex_tables : Tables :=
  { things := ex_flat NUMTHINGS, pot_info := ex_flat MAXPOTIONS,
    scr_info := ex_flat MAXSCROLLS, ring_info := ex_flat MAXRINGS,
    ws_info := ex_flat MAXSTICKS, weap_info := ex_flat MAXWEAPONS,
    arm_info := ex_flat MAXARMORS }

/-- The letters `a`, `b` and `d` are taken, `c` and everything from `e` on is free. -/
def ex_letters : Game :=
  { Game.init with pack_used := [true, true, false, true] ++ List.replicate 22 false }

/-- A hero of level 9 with 10 of 12 hit points, five quiet turns behind them and a ring of
regeneration on the left hand. -/
def ex_doctor : Game :=
  { Game.init with
    heap := fun a =>
      if a = 0 then { THING.zero with o_type := RING, o_count := 1, o_which := 9,
                                      o_packch := 97 }
      else THING.zero
    nthings := 1, pack := some 0, inpack := 1
    pack_used := true :: List.replicate 25 false
    cur_ring := fun hand => if hand = 0 then some 0 else none
    pstats := { s_str := 16, s_exp := 100, s_lvl := 9, s_arm := 10, s_hpt := 10,
                s_maxhp := 12 }
    quiet := 5, seed := 1 }

/-- A table of base armor classes for the eight kinds of armor. -/
def ex_a_class : List Int :=
  [8, 7, 7, 6, 5, 4, 4, 3]

/-- A suit of ring mail that protects one point better than its kind. -/
def ex_mail : THING :=
  { THING.zero with o_type := ARMOR, o_which := RING_MAIL, o_arm := 6, o_count := 1 }

/-- A ration of food. -/
def ex_ration : THING :=
  { THING.zero with o_type := FOOD, o_count := 1 }

/-- A generator of levels for the examples: the objects of the old level go, the hero is
put somewhere, the stairs have not been seen. -/
def ex_new_level (s : Game) : Game :=
  { s with lvl_obj := none, hero := ⟨3, 4⟩, seenstairs := false }

/-- On the stairs of level 1 with the amulet, the stairs seen. -/
def ex_stairs : Game :=
  { Game.init with places := fun _ => ⟨STAIRS, 0⟩, amulet := true, level := 1,
                   seenstairs := true }

/-- The same, levitating. -/
def ex_levit : Game :=
  { ex_stairs with t_flags := ISLEVIT }

/-- The player has typed `300j.`; the `3` has been read, the rest waits. -/
def ex_typed : Game :=
  { Game.init with keys := [48, 48, 106, 46] }

/-- A pack of two stacks: three rations (address 0, letter `a`) and ten arrows of group 2
(address 1, letter `b`). -/
def ex_stacks : Game :=
  { Game.init with
    heap := fun a =>
      if a = 0 then
        { THING.zero with l_next := some 1, o_type := FOOD, o_count := 3, o_packch := 97 }
      else if a = 1 then
        { THING.zero with l_prev := some 0, o_type := WEAPON, o_which := ARROW,
                          o_count := 10, o_group := 2, o_packch := 98 }
      else THING.zero
    nthings := 2, pack := some 0, inpack := 4
    pack_used := true :: true :: List.replicate 24 false }

/-- An `init_weapon` for the examples: the object becomes a weapon of the kind given, one
piece, or, for arrows, a handful in a group of their own. -/
def ex_init_weapon (weap : Nat) (which : Int) (g : Game) : Game :=
  g.poke weap (fun t =>
    { t with o_type := WEAPON, o_which := which, o_hplus := 0, o_dplus := 0,
             o_flags := if which = ARROW then ISMANY else 0,
             o_count := if which = ARROW then 8 else 1,
             o_group := if which = ARROW then 1 else 0 })

/-- The stat block the examples start from. -/
def ex_max_stats : stats :=
  { s_str := 16, s_exp := 0, s_lvl := 1, s_arm := 10, s_hpt := 12, s_maxhp := 12 }
/-! ## Definitions: more example states -/

/-- A full pack (`inpack` is 23): a stack of 13 potions (address 0, letter `a`) and ten
arrows of group 2 (address 1, letter `b`); five more arrows of group 2 (address 2) are
about to be added. -/
def ex_quiver : Game :=
  { Game.init with
    heap := fun a =>
      if a = 0 then
        { THING.zero with l_next := some 1, o_type := POTION, o_count := 13, o_packch := 97,
                          o_flags := ISFOUND }
      else if a = 1 then
        { THING.zero with l_prev := some 0, o_type := WEAPON, o_which := ARROW,
                          o_count := 10, o_group := 2, o_packch := 98, o_flags := ISFOUND }
      else if a = 2 then
        { THING.zero with o_type := WEAPON, o_which := ARROW, o_count := 5, o_group := 2 }
      else THING.zero
    nthings := 3, pack := some 0, inpack := 23
    pack_used := true :: true :: List.replicate 24 false }

/-- A pack of six entries, one of each of these kinds, in this order: food (address 0),
a potion (1), a weapon (2), a ring (3), a wand (4) and the amulet (5). -/
def ex_bag : Game :=
  { Game.init with
    heap := fun a =>
      if a = 0 then
        { THING.zero with l_next := some 1, o_type := FOOD, o_count := 1, o_packch := 97 }
      else if a = 1 then
        { THING.zero with l_next := some 2, l_prev := some 0, o_type := POTION,
                          o_count := 1, o_packch := 98 }
      else if a = 2 then
        { THING.zero with l_next := some 3, l_prev := some 1, o_type := WEAPON,
                          o_count := 1, o_packch := 99 }
      else if a = 3 then
        { THING.zero with l_next := some 4, l_prev := some 2, o_type := RING,
                          o_count := 1, o_packch := 100 }
      else if a = 4 then
        { THING.zero with l_next := some 5, l_prev := some 3, o_type := STICK,
                          o_count := 1, o_packch := 101 }
      else if a = 5 then
        { THING.zero with l_prev := some 4, o_type := AMULET, o_count := 1,
                          o_packch := 102 }
      else THING.zero
    nthings := 6, pack := some 0, inpack := 6, amulet := true
    pack_used := List.replicate 6 true ++ List.replicate 20 false }

/-- The version string `5.4.4` of the examples, with its terminating NUL. -/
def ex_version : List Nat := [53, 46, 52, 46, 52, 0]

/-- A terminal of 24 lines and 80 columns; the file restored from is a plain file with
one link, it can be unlinked, and `rs_restore_file` leaves the state alone. -/
def ex_terminal : Terminal :=
  { LINES := 24, COLS := 80, rs_restore_file := fun _ g => g, unlinked := true,
    st_nlink := 1, syml := false }

/-- The start of a file saved by a program of version `5.4.3`, under the keys `ro` and
`[1, 200, 3]`: the six bytes of the version string. -/
def ex_old_file : List Nat := [70, 251, 111, 192, 102, 147]

/-- A file saved by the program of version `5.4.4` on a terminal of 25 lines and 80
columns, under the keys `ro` and `[1, 200, 3]`: the version string and the header of 80
bytes, the 72 bytes behind the text `25 x 80` and its NUL being zero. -/
def ex_tall_file : List Nat :=
  [70, 251, 111, 192, 97, 147,
   65, 224, 123, 150, 117, 171, 15, 19, 7, 162, 129, 39, 235, 173, 179, 118, 61, 251, 151,
   241, 127, 10, 105, 143, 67, 5, 43, 222, 165, 67, 15, 73, 215, 146, 209, 23, 187, 157,
   131, 38, 13, 171, 103, 33, 79, 250, 185, 127, 19, 117, 251, 142, 245, 51, 223, 185, 167,
   66, 33, 199, 139, 205, 83, 22, 93, 155, 55, 17, 31, 170, 137, 47, 227, 165, 203, 126,
   197, 227, 175, 233]

/-- An instance of the routines of `Lib` for the examples: the output routines, the
scheduler and the other routines leave the state alone, `roll(number, sides)` gives
`number`, the least value of that many dice, `spread(nm)` gives `nm`, no monster is seen
or carries anything, and every place shows the floor. -/
def ex_lib : Lib :=
  { msg := fun g => g
    status := fun g => g
    show_win := fun g => g
    look := fun _ g => g
    call_it := fun _ _ g => g
    enter_room := fun g => g
    check_level := fun g => g
    teleport := fun g => g
    whatis := fun _ _ g => g
    new_monster := fun _ _ _ g => g
    roll := fun number _ g => (number, g)
    spread := fun nm g => (nm, g)
    randmonster := fun _ g => (65, g)
    add_haste := fun _ g => (true, g)
    fuse := fun _ _ _ _ g => g
    lengthen := fun _ _ g => g
    start_daemon := fun _ _ _ g => g
    kill_daemon := fun _ g => g
    extinguish := fun _ g => g
    add_str := fun s amt => (s + amt).toNat
    see_monst := fun _ _ => false
    seen_stairs := fun _ => false
    monster_magic := fun _ => false
    winat := fun _ _ _ => 46
    e_levels := [10, 20, 40, 80, 160, 320, 640, 1300, 2600, 5200]
    a_class := ex_a_class
    max_stats := ex_max_stats }

/-- A hero of level 3 with 10 of 20 hit points who is blind and carries a potion of
healing (address 0, `a`), a potion of extra healing (address 1, `b`) and a scroll of
monster confusion (address 2, `c`); `keys` are the keys waiting to be read. -/
def ex_cellar (keys : List Nat) : Game :=
  { Game.init with
    heap := fun a =>
      if a = 0 then
        { THING.zero with l_next := some 1, o_type := POTION, o_count := 1,
                          o_which := P_HEALING, o_packch := 97 }
      else if a = 1 then
        { THING.zero with l_next := some 2, l_prev := some 0, o_type := POTION,
                          o_count := 1, o_which := P_XHEAL, o_packch := 98 }
      else if a = 2 then
        { THING.zero with l_prev := some 1, o_type := SCROLL, o_count := 1,
                          o_which := S_CONFUSE, o_packch := 99 }
      else THING.zero
    nthings := 3, pack := some 0, inpack := 3
    pack_used := true :: true :: true :: List.replicate 23 false
    t_flags := ISBLIND
    pstats := { s_str := 16, s_exp := 25, s_lvl := 3, s_arm := 10, s_hpt := 10,
                s_maxhp := 20 }
    keys := keys }

/-! ## Properties: the stream cipher -/

theorem xor_mod_256 (a b : Nat) : (a ^^^ b) % 256 = (a % 256) ^^^ (b % 256) := by
  have h : (256 : Nat) = 2 ^ 8 := by norm_num
  rw [h]
  apply Nat.eq_of_testBit_eq
  intro i
  simp only [Nat.testBit_mod_two_pow, Nat.testBit_xor]
  by_cases hi : i < 8 <;> simp [hi]

theorem crypt_byte_inv (c k : Nat) (hc : c < 256) :
    (((c ^^^ k) % 256) ^^^ k) % 256 = c := by
  rw [xor_mod_256, Nat.mod_mod, ← xor_mod_256, Nat.xor_cancel_right, Nat.mod_eq_of_lt hc]

theorem deref_lt (key : List Nat) (i : Nat) (h : i < key.length) :
    deref key i = some (key.getD i 0) := by
  unfold deref
  rw [List.getElem?_append_left h, List.getD_eq_getElem?_getD]
  rw [List.getElem?_eq_getElem h]
  rfl

theorem deref_succ (key : List Nat) (i : Nat) (h : i < key.length) :
    ∃ n, deref key (i + 1) = some n ∧ (n ≠ 0 → i + 1 < key.length) := by
  unfold deref
  by_cases h1 : i + 1 < key.length
  · exact ⟨key[i + 1], by rw [List.getElem?_append_left h1, List.getElem?_eq_getElem h1],
      fun _ => h1⟩
  · have h2 : i + 1 = key.length := by omega
    refine ⟨0, ?_, fun h0 => absurd rfl h0⟩
    rw [h2, List.getElem?_append_right (le_refl _)]
    simp

/-- With both key offsets inside their keys the write loop emits one byte per input byte
and the read loop, started from the same offsets and feedback byte, gives the input back. -/
theorem loops_inverse (encstr statlist : List Nat) :
    ∀ (data : List Nat) (i1 i2 fb : Nat), (∀ b ∈ data, b < 256) →
      i1 < encstr.length → i2 < statlist.length →
      ∃ out, encwrite_loop encstr statlist data i1 i2 fb = some out ∧
        out.length = data.length ∧
        encread_loop encstr statlist out i1 i2 fb = some data := by
  intro data
  induction data with
  | nil => intro i1 i2 fb _ _ _; exact ⟨[], rfl, rfl, rfl⟩
  | cons c rest ih =>
    intro i1 i2 fb hb h1 h2
    obtain ⟨n1, hn1, hn1lt⟩ := deref_succ encstr i1 h1
    obtain ⟨n2, hn2, hn2lt⟩ := deref_succ statlist i2 h2
    have hj1 : (if n1 = 0 then 0 else i1 + 1) < encstr.length := by
      by_cases h0 : n1 = 0
      · simp only [h0, if_true]; omega
      · simp only [h0, if_false]; exact hn1lt h0
    have hj2 : (if n2 = 0 then 0 else i2 + 1) < statlist.length := by
      by_cases h0 : n2 = 0
      · simp only [h0, if_true]; omega
      · simp only [h0, if_false]; exact hn2lt h0
    have hrest : ∀ b ∈ rest, b < 256 := fun b hb1 => hb b (List.mem_cons_of_mem _ hb1)
    have hc : c < 256 := hb c (List.mem_cons_self _ _)
    obtain ⟨tl, htl, hlen, hback⟩ :=
      ih (if n1 = 0 then 0 else i1 + 1) (if n2 = 0 then 0 else i2 + 1)
        ((fb + (encstr.getD i1 0 * statlist.getD i2 0) % 256) % 256) hrest hj1 hj2
    refine ⟨((c ^^^ encstr.getD i1 0 ^^^ statlist.getD i2 0 ^^^ fb) % 256) :: tl, ?_, ?_, ?_⟩
    · simp only [encwrite_loop, deref_lt encstr i1 h1, deref_lt statlist i2 h2, hn1, hn2, htl]
    · simp [hlen]
    · simp only [encread_loop, deref_lt encstr i1 h1, deref_lt statlist i2 h2, hn1, hn2, hback]
      have e : c ^^^ encstr.getD i1 0 ^^^ statlist.getD i2 0 ^^^ fb
          = c ^^^ (encstr.getD i1 0 ^^^ statlist.getD i2 0 ^^^ fb) := by
        simp only [Nat.xor_assoc]
      rw [e, crypt_byte_inv c _ hc]

/-- Reading back, into a buffer at least as long, what was written: the first cells of
the buffer receive the data, the cells behind them and the rest of the stream are left
alone. -/
theorem encread_stream (encstr statlist data buf rest : List Nat)
    (h1 : encstr ≠ []) (h2 : statlist ≠ []) (hdata : ∀ b ∈ data, b < 256)
    (hbuf : data.length ≤ buf.length) :
    ∃ out, encwrite encstr statlist data = some (out, data.length) ∧
      encread encstr statlist buf data.length (out ++ rest)
        = some (data.length, data ++ buf.drop data.length, rest) := by
  obtain ⟨out, hw, hlen, hr⟩ := loops_inverse encstr statlist data 0 0 0 hdata
    (List.length_pos.mpr h1) (List.length_pos.mpr h2)
  refine ⟨out, ?_, ?_⟩
  · simp only [encwrite, hw, hlen]
  · unfold encread
    have hmin : min data.length (out ++ rest).length = data.length := by
      simp [hlen]
    have hnlt : ¬ buf.length < data.length := by omega
    simp only [hnlt, if_false, hmin]
    by_cases h0 : data.length = 0
    · have hd : data = [] := List.length_eq_zero.mp h0
      have ho : out = [] := List.length_eq_zero.mp (hlen.trans h0)
      subst hd ho
      simp
    · simp only [h0, if_false]
      have ht : List.take data.length (out ++ rest) = out := by
        rw [← hlen]; exact List.take_left' rfl
      have hdrop : List.drop data.length (out ++ rest) = rest := by
        rw [← hlen]; exact List.drop_left' rfl
      have ht2 : List.take data.length (out ++ List.drop data.length buf) = out := by
        rw [← hlen]; exact List.take_left' rfl
      have hd2 : List.drop data.length (out ++ List.drop data.length buf)
          = List.drop data.length buf := by
        rw [← hlen]; exact List.drop_left' rfl
      rw [ht, hdrop, ht2, hd2, hr]

/-- C1. For every byte sequence `data` and every pair of non-empty key strings `encstr`,
`statlist`: `encwrite` emits exactly `data.length` bytes and returns that count, and
`encread` of that many bytes from a stream that starts with the emitted bytes returns the
same count and leaves `data`, byte for byte, in the buffer (and the rest of the stream
unread). -/
theorem encread_encwrite (encstr statlist data buf rest : List Nat)
    (h1 : encstr ≠ []) (h2 : statlist ≠ []) (hdata : ∀ b ∈ data, b < 256)
    (hbuf : buf.length = data.length) :
    ∃ out, encwrite encstr statlist data = some (out, data.length) ∧
      out.length = data.length ∧
      encread encstr statlist buf data.length (out ++ rest)
        = some (data.length, data, rest) := by
  obtain ⟨out, hw, hlen, hr⟩ := loops_inverse encstr statlist data 0 0 0 hdata
    (List.length_pos.mpr h1) (List.length_pos.mpr h2)
  refine ⟨out, ?_, hlen, ?_⟩
  · simp only [encwrite, hw, hlen]
  · unfold encread
    have hmin : min data.length (out ++ rest).length = data.length := by
      simp [hlen]
    simp only [hbuf, lt_irrefl, if_false, hmin]
    by_cases h0 : data.length = 0
    · have hd : data = [] := List.length_eq_zero.mp h0
      have hb : buf = [] := List.length_eq_zero.mp (hbuf.trans h0)
      have ho : out = [] := List.length_eq_zero.mp (hlen.trans h0)
      subst hd hb ho
      simp
    · simp only [h0, if_false]
      have ht : List.take data.length (out ++ rest) = out := by
        rw [← hlen]; exact List.take_left' rfl
      have hdrop : List.drop data.length (out ++ rest) = rest := by
        rw [← hlen]; exact List.drop_left' rfl
      have hdb : List.drop data.length buf = [] := by
        rw [← hbuf]; exact List.drop_length buf
      rw [ht, hdrop, hdb, List.append_nil]
      have ht2 : List.take data.length out = out := by
        rw [← hlen]; exact List.take_length out
      have hd2 : List.drop data.length out = [] := by
        rw [← hlen]; exact List.drop_length out
      rw [ht2, hd2, hr]
      simp

theorem encread_encwrite_witness :
    ∃ out, encwrite [114, 111] [1, 200, 3] [0, 255, 65] = some (out, 3) ∧
      out.length = 3 ∧
      encread [114, 111] [1, 200, 3] [9, 9, 9] 3 (out ++ [7])
        = some (3, [0, 255, 65], [7]) :=
  encread_encwrite [114, 111] [1, 200, 3] [0, 255, 65] [9, 9, 9] [7]
    (by decide) (by decide) (by decide) (by decide)

/-! ## Properties: the score file -/

theorem digits_ms_lt (base : Nat) (hb : 2 ≤ base) :
    ∀ (fuel n : Nat), n ≤ fuel → ∀ d ∈ digits_ms base fuel n, d < base := by
  intro fuel
  induction fuel with
  | zero =>
    intro n hn d hd
    have h0 : n = 0 := by omega
    subst h0
    simp [digits_ms] at hd
    omega
  | succ fuel ih =>
    intro n hn d hd
    unfold digits_ms at hd
    by_cases hlt : n < base
    · simp only [hlt, if_true, List.mem_singleton] at hd
      omega
    · simp only [hlt, if_false, List.mem_append, List.mem_singleton] at hd
      have hdiv : n / base ≤ fuel := by
        have : n / base < n := Nat.div_lt_self (by omega) (by omega)
        omega
      rcases hd with hd | hd
      · exact ih _ hdiv d hd
      · rw [hd]; exact Nat.mod_lt _ (by omega)

theorem digits_ms_value (base : Nat) (hb : 2 ≤ base) :
    ∀ (fuel n : Nat), n ≤ fuel →
      (digits_ms base fuel n).foldl (fun a d => a * base + d) 0 = n := by
  intro fuel
  induction fuel with
  | zero =>
    intro n hn
    have h0 : n = 0 := by omega
    subst h0
    simp [digits_ms]
  | succ fuel ih =>
    intro n hn
    unfold digits_ms
    by_cases hlt : n < base
    · simp [hlt]
    · simp only [hlt, if_false, List.foldl_append, List.foldl_cons, List.foldl_nil]
      have hdiv : n / base ≤ fuel := by
        have : n / base < n := Nat.div_lt_self (by omega) (by omega)
        omega
      rw [ih _ hdiv]
      exact Nat.div_add_mod' n base

theorem digits_ms_length (base : Nat) (hb : 2 ≤ base) :
    ∀ (fuel n k : Nat), n ≤ fuel → n < base ^ (k + 1) →
      (digits_ms base fuel n).length ≤ k + 1 := by
  intro fuel
  induction fuel with
  | zero => intro n k _ _; simp [digits_ms]
  | succ fuel ih =>
    intro n k hn hk
    unfold digits_ms
    by_cases hlt : n < base
    · simp [hlt]
    · simp only [hlt, if_false, List.length_append, List.length_singleton]
      have hdiv : n / base ≤ fuel := by
        have : n / base < n := Nat.div_lt_self (by omega) (by omega)
        omega
      cases k with
      | zero => simp at hk; omega
      | succ k =>
        have hq : n / base < base ^ (k + 1) := by
          apply Nat.div_lt_of_lt_mul
          rw [← Nat.pow_succ']
          exact hk
        have := ih (n / base) k hdiv hq
        omega

theorem digits_ms_ne_nil (base fuel n : Nat) : digits_ms base fuel n ≠ [] := by
  cases fuel with
  | zero => simp [digits_ms]
  | succ fuel =>
    unfold digits_ms
    by_cases hlt : n < base <;> simp [hlt]

theorem digit_val_digit_char (base d : Nat) (hb : base ≤ 16) (hd : d < base) :
    digit_val base (digit_char d) = some d := by
  unfold digit_val digit_char
  by_cases h10 : d < 10
  · have h1 : 48 ≤ 48 + d ∧ 48 + d ≤ 57 := by omega
    simp only [h10, if_true, h1, and_self, Nat.add_sub_cancel_left, hd]
  · have h1 : ¬ (48 ≤ 87 + d ∧ 87 + d ≤ 57) := by omega
    have h2 : 97 ≤ 87 + d ∧ 87 + d ≤ 122 := by omega
    simp only [h10, if_false, h1, h2, and_self, if_true, Nat.add_sub_cancel_left, hd]

theorem digit_char_ge (d : Nat) : 48 ≤ digit_char d := by
  unfold digit_char
  by_cases h : d < 10
  · simp only [h, if_true]; omega
  · simp only [h, if_false]; omega

theorem digit_char_ne_x (d : Nat) (hd : d < 16) :
    digit_char d ≠ 120 ∧ digit_char d ≠ 88 := by
  unfold digit_char
  by_cases h : d < 10
  · simp only [h, if_true]; omega
  · simp only [h, if_false]; omega

theorem scan_digits_digits (base : Nat) (hb : base ≤ 16) :
    ∀ (ds : List Nat) (rest : List Nat) (acc : Nat), (∀ d ∈ ds, d < base) →
      scan_digits base (ds.map digit_char ++ rest) acc
        = scan_digits base rest (ds.foldl (fun a d => a * base + d) acc) := by
  intro ds
  induction ds with
  | nil => intro rest acc _; rfl
  | cons d ds ih =>
    intro rest acc h
    have hd : d < base := h d (List.mem_cons_self _ _)
    simp only [List.map_cons, List.cons_append, scan_digits, digit_val_digit_char base d hb hd,
      List.foldl_cons]
    exact ih rest _ (fun x hx => h x (List.mem_cons_of_mem _ hx))

theorem scan_digits_space (base acc : Nat) (r : List Nat) :
    scan_digits base (32 :: r) acc = (acc, 32 :: r) := by
  simp [scan_digits, digit_val]

theorem skip_space_of_ge (c : Nat) (r : List Nat) (h : 43 ≤ c) :
    skip_space (c :: r) = c :: r := by
  have : isspace c = false := by
    unfold isspace
    simp
    omega
  simp [skip_space, this]

theorem skip_space_space (r : List Nat) : skip_space (32 :: r) = skip_space r := by
  simp [skip_space, isspace]

/-- Scanning the digits `printf` wrote for `n`, followed by a space, reads `n` back. -/
theorem scan_magnitude_fmt_unsigned (base n : Nat) (hb : base = 10 ∨ base = 16)
    (r : List Nat) :
    scan_magnitude base (fmt_unsigned base n ++ 32 :: r) = some (n, 32 :: r) := by
  have hb2 : 2 ≤ base := by omega
  have hb16 : base ≤ 16 := by omega
  have hlt := digits_ms_lt base hb2 n n (le_refl _)
  have hval := digits_ms_value base hb2 n n (le_refl _)
  have hscan := scan_digits_digits base hb16 (digits_ms base n n) (32 :: r) 0 hlt
  rw [hval, scan_digits_space] at hscan
  unfold fmt_unsigned
  obtain ⟨d, ds, hds⟩ : ∃ d ds, digits_ms base n n = d :: ds := by
    cases h : digits_ms base n n with
    | nil => exact absurd h (digits_ms_ne_nil base n n)
    | cons d ds => exact ⟨d, ds, rfl⟩
  have hd : d < base := hlt d (by rw [hds]; exact List.mem_cons_self _ _)
  rw [hds] at hscan ⊢
  simp only [List.map_cons, List.cons_append] at hscan ⊢
  have hdv := digit_val_digit_char base d hb16 hd
  unfold scan_magnitude
  have hs3 : (match digit_char d :: (List.map digit_char ds ++ 32 :: r) with
      | 48 :: x :: d1 :: r1 =>
        if base = 16 ∧ (x = 120 ∨ x = 88) ∧ (digit_val 16 d1).isSome then d1 :: r1
        else digit_char d :: (List.map digit_char ds ++ 32 :: r)
      | _ => digit_char d :: (List.map digit_char ds ++ 32 :: r))
      = digit_char d :: (List.map digit_char ds ++ 32 :: r) := by
    split
    · rename_i x d1 r1 heq
      have hx : ¬ (x = 120 ∨ x = 88) := by
        simp only [List.cons.injEq] at heq
        obtain ⟨_, htl⟩ := heq
        cases ds with
        | nil =>
          simp only [List.map_nil, List.nil_append, List.cons.injEq] at htl
          omega
        | cons e es =>
          simp only [List.map_cons, List.cons_append, List.cons.injEq] at htl
          have he : e < 16 := by
            have := hlt e (by rw [hds]; simp)
            omega
          have := digit_char_ne_x e he
          omega
      simp [hx]
    · rfl
  simp only [hs3, hdv, Option.isSome_some, if_true, hscan]

theorem fmt_unsigned_head (base n : Nat) :
    ∃ c cs, fmt_unsigned base n = c :: cs ∧ 48 ≤ c := by
  unfold fmt_unsigned
  cases h : digits_ms base n n with
  | nil => exact absurd h (digits_ms_ne_nil base n n)
  | cons d ds => exact ⟨digit_char d, ds.map digit_char, rfl, digit_char_ge d⟩

theorem scan_number_fmt_unsigned (base n : Nat) (hb : base = 10 ∨ base = 16) (r : List Nat) :
    scan_number base (fmt_unsigned base n ++ 32 :: r) = some ((n : Int), 32 :: r) := by
  have hm := scan_magnitude_fmt_unsigned base n hb r
  obtain ⟨c, cs, hc, hge⟩ := fmt_unsigned_head base n
  rw [hc] at hm ⊢
  simp only [List.cons_append] at hm ⊢
  unfold scan_number
  rw [skip_space_of_ge _ _ (by omega)]
  split
  · rename_i heq; simp at heq; omega
  · rename_i heq; simp at heq; omega
  · rw [hm]

theorem scan_number_fmt_d (v : Int) (r : List Nat) :
    scan_number 10 (fmt_d v ++ 32 :: r) = some (v, 32 :: r) := by
  unfold fmt_d
  by_cases hv : v < 0
  · simp only [hv, if_true, List.cons_append]
    unfold scan_number
    rw [skip_space_of_ge _ _ (by omega)]
    simp only [scan_magnitude_fmt_unsigned 10 v.natAbs (Or.inl rfl) r]
    have : -((v.natAbs : Nat) : Int) = v := by omega
    rw [this]
  · simp only [hv, if_false]
    rw [scan_number_fmt_unsigned 10 v.natAbs (Or.inl rfl) r]
    have : ((v.natAbs : Nat) : Int) = v := by omega
    rw [this]

theorem fmt_unsigned_length (base n k : Nat) (hb : 2 ≤ base) (h : n < base ^ (k + 1)) :
    (fmt_unsigned base n).length ≤ k + 1 := by
  unfold fmt_unsigned
  rw [List.length_map]
  exact digits_ms_length base hb n n k (le_refl _) h

theorem fmt_d_length (v : Int) (h1 : -(2 ^ 31) ≤ v) (h2 : v < 2 ^ 31) :
    (fmt_d v).length ≤ 11 := by
  unfold fmt_d
  have hn : v.natAbs < 10 ^ (9 + 1) := by
    have : v.natAbs ≤ 2 ^ 31 := by omega
    have : (2 : Nat) ^ 31 < 10 ^ (9 + 1) := by norm_num
    omega
  have := fmt_unsigned_length 10 v.natAbs 9 (by omega) hn
  by_cases hv : v < 0
  · simp only [hv, if_true, List.length_cons]; omega
  · simp only [hv, if_false]; omega

theorem skip_space_fmt_unsigned (base n : Nat) (r : List Nat) :
    skip_space (fmt_unsigned base n ++ r) = fmt_unsigned base n ++ r := by
  obtain ⟨c, cs, hc, hge⟩ := fmt_unsigned_head base n
  rw [hc, List.cons_append]
  exact skip_space_of_ge _ _ (by omega)

theorem skip_space_fmt_d (v : Int) (r : List Nat) :
    skip_space (fmt_d v ++ r) = fmt_d v ++ r := by
  unfold fmt_d
  by_cases hv : v < 0
  · simp only [hv, if_true, List.cons_append]
    exact skip_space_of_ge _ _ (by omega)
  · simp only [hv, if_false]
    exact skip_space_fmt_unsigned 10 _ r

theorem store_unsigned_nat (bits n : Nat) (h : n < 2 ^ bits) :
    store_unsigned bits (n : Int) = some n := by
  unfold store_unsigned
  simp only [Int.natAbs_ofNat, h, if_true]
  congr 1
  have : ((n : Int) % (2 ^ bits : Int)) = (n : Int) := by
    apply Int.emod_eq_of_lt (by omega)
    exact_mod_cast h
  rw [this]
  rfl

theorem store_int_range (v : Int) (h1 : -(2 ^ 31) ≤ v) (h2 : v < 2 ^ 31) :
    store_int v = some v := by
  unfold store_int
  rw [if_pos ⟨h1, h2⟩]

theorem score_text_eq (t : SCORE) :
    score_text t = 32 :: (fmt_unsigned 10 t.sc_uid ++ 32 :: (fmt_d t.sc_score ++ 32 ::
      (fmt_unsigned 10 t.sc_flags ++ 32 :: (fmt_unsigned 10 t.sc_monster ++ 32 ::
      (fmt_d t.sc_level ++ 32 :: (fmt_unsigned 16 t.sc_time ++ [32, 10])))))) := by
  simp [score_text]

theorem fmt_unsigned_bounds (base n : Nat) (hb : 2 ≤ base) (hb16 : base ≤ 16) :
    ∀ c ∈ fmt_unsigned base n, 48 ≤ c ∧ c < 256 := by
  intro c hc
  unfold fmt_unsigned at hc
  rw [List.mem_map] at hc
  obtain ⟨d, hmem, hd⟩ := hc
  have hlt := digits_ms_lt base hb n n (le_refl _) d hmem
  rw [← hd]
  refine ⟨digit_char_ge d, ?_⟩
  unfold digit_char
  by_cases h : d < 10
  · simp only [h, if_true]; omega
  · simp only [h, if_false]; omega

theorem fmt_d_bounds (v : Int) : ∀ c ∈ fmt_d v, 45 ≤ c ∧ c < 256 := by
  intro c hc
  unfold fmt_d at hc
  by_cases hv : v < 0
  · simp only [hv, if_true, List.mem_cons] at hc
    rcases hc with hc | hc
    · omega
    · have := fmt_unsigned_bounds 10 v.natAbs (by omega) (by omega) c hc; omega
  · simp only [hv, if_false] at hc
    have := fmt_unsigned_bounds 10 v.natAbs (by omega) (by omega) c hc; omega

theorem score_text_bounds (t : SCORE) : ∀ c ∈ score_text t, 10 ≤ c ∧ c < 256 := by
  intro c hc
  rw [score_text_eq] at hc
  have hu10 := fun n => fmt_unsigned_bounds 10 n (by omega) (by omega) c
  have hu16 := fun n => fmt_unsigned_bounds 16 n (by omega) (by omega) c
  have hd := fun v => fmt_d_bounds v c
  simp only [List.mem_cons, List.mem_append, List.mem_singleton, List.not_mem_nil,
    or_false] at hc
  rcases hc with h | h | h | h | h | h | h | h | h | h | h | h | h | h
  · omega
  · have := hu10 _ h; omega
  · omega
  · have := hd _ h; omega
  · omega
  · have := hu10 _ h; omega
  · omega
  · have := hu10 _ h; omega
  · omega
  · have := hd _ h; omega
  · omega
  · have := hu16 _ h; omega
  · omega
  · omega

theorem score_text_length (t : SCORE) (ht : t.wf) : (score_text t).length ≤ 63 := by
  obtain ⟨h1, h2, h3, h4, h5, _, _, h8, h9, h10⟩ := ht
  rw [score_text_eq]
  have l1 := fmt_unsigned_length 10 t.sc_uid 9 (by omega) (by norm_num; omega)
  have l2 := fmt_d_length t.sc_score h2 h3
  have l3 := fmt_unsigned_length 10 t.sc_flags 9 (by omega) (by norm_num; omega)
  have l4 := fmt_unsigned_length 10 t.sc_monster 4 (by omega) (by norm_num; omega)
  have l5 := fmt_d_length t.sc_level h8 h9
  have l6 := fmt_unsigned_length 16 t.sc_time 7 (by omega) (by norm_num; omega)
  simp only [List.length_cons, List.length_append, List.length_nil]
  omega

theorem cstr_text (text : List Nat) (k : Nat) (h : ∀ c ∈ text, c ≠ 0) :
    cstr (text ++ List.replicate (k + 1) 0) = text := by
  unfold cstr
  rw [List.takeWhile_append_of_pos (fun a ha => by simpa using h a ha)]
  simp [List.replicate_succ]

/-- The line `wr_score` builds for a record fits the buffer, and `sscanf` on it assigns the
six numeric fields of the record. -/
theorem sscanf_sprintf (t old : SCORE) (ht : t.wf) :
    ∃ line, sprintf_score t = some line ∧ line.length = SCORELINE ∧
      (∀ b ∈ line, b < 256) ∧
      sscanf_score line old = some
        { sc_uid := t.sc_uid, sc_score := t.sc_score, sc_flags := t.sc_flags,
          sc_monster := t.sc_monster, sc_name := old.sc_name, sc_level := t.sc_level,
          sc_time := t.sc_time } := by
  have hlen := score_text_length t ht
  have hbounds := score_text_bounds t
  obtain ⟨h1, h2, h3, h4, h5, _, _, h8, h9, h10⟩ := ht
  refine ⟨score_text t ++ List.replicate (SCORELINE - (score_text t).length) 0, ?_, ?_, ?_, ?_⟩
  · unfold sprintf_score
    rw [if_pos (by unfold SCORELINE; omega)]
  · simp only [List.length_append, List.length_replicate]
    unfold SCORELINE; omega
  · intro b hb
    simp only [List.mem_append, List.mem_replicate] at hb
    rcases hb with hb | hb
    · exact (hbounds b hb).2
    · omega
  · obtain ⟨k, hk⟩ : ∃ k, SCORELINE - (score_text t).length = k + 1 :=
      ⟨SCORELINE - (score_text t).length - 1, by unfold SCORELINE; omega⟩
    unfold sscanf_score
    rw [hk, cstr_text _ _ (fun c hc => by have := hbounds c hc; omega), score_text_eq]
    simp only [skip_space_space, skip_space_fmt_unsigned, skip_space_fmt_d,
      scan_number_fmt_unsigned 10 _ (Or.inl rfl), scan_number_fmt_d,
      scan_number_fmt_unsigned 16 _ (Or.inr rfl),
      store_unsigned_nat 32 _ h1, store_unsigned_nat 32 _ h4, store_unsigned_nat 16 _ h5,
      store_unsigned_nat 32 _ h10, store_int_range _ h2 h3, store_int_range _ h8 h9]

/-- Writing the records of a table and reading the bytes back fills any array of the same
length with exactly those records. -/
theorem rd_wr_score_loop (encstr statlist : List Nat) (h1 : encstr ≠ []) (h2 : statlist ≠ []) :
    ∀ (tbl : List SCORE), (∀ t ∈ tbl, t.wf) →
      ∃ written, wr_score_loop encstr statlist tbl = some written ∧
        ∀ (init : List SCORE) (scoreline rest : List Nat),
          init.length = tbl.length → (∀ t ∈ init, t.sc_name.length = MAXSTR) →
          scoreline.length = SCORELINE →
          ∃ sl, sl.length = SCORELINE ∧
            rd_score_loop encstr statlist init scoreline (written ++ rest)
              = some (tbl, sl, rest) := by
  intro tbl
  induction tbl with
  | nil =>
    intro _
    refine ⟨[], rfl, ?_⟩
    intro init scoreline rest hlen _ hsl
    have : init = [] := List.length_eq_zero.mp hlen
    subst this
    exact ⟨scoreline, hsl, rfl⟩
  | cons t ts ih =>
    intro hwf
    have ht : t.wf := hwf t (List.mem_cons_self _ _)
    have hts : ∀ x ∈ ts, x.wf := fun x hx => hwf x (List.mem_cons_of_mem _ hx)
    have htn : t.sc_name.length = MAXSTR := ht.2.2.2.2.2.1
    have htb : ∀ b ∈ t.sc_name, b < 256 := ht.2.2.2.2.2.2.1
    have htake : t.sc_name.take MAXSTR = t.sc_name := by
      rw [← htn]; exact List.take_length _
    obtain ⟨wtl, hwtl, hrdtl⟩ := ih hts
    obtain ⟨line, hline, hll, hlb, _⟩ := sscanf_sprintf t t ht
    obtain ⟨lb, hlb1, _⟩ := encread_stream encstr statlist line line [] h1 h2 hlb
      (le_refl _)
    obtain ⟨nb, hnb, _⟩ := encread_stream encstr statlist t.sc_name t.sc_name [] h1 h2
      htb (le_refl _)
    refine ⟨nb ++ lb ++ wtl, ?_, ?_⟩
    · simp only [wr_score_loop, htake, hnb, hline, hlb1, hwtl]
    · intro init scoreline rest hlen hnames hsl
      cases init with
      | nil => simp at hlen
      | cons o os =>
        have hos : ∀ x ∈ os, x.sc_name.length = MAXSTR :=
          fun x hx => hnames x (List.mem_cons_of_mem _ hx)
        have ho : o.sc_name.length = MAXSTR := hnames o (List.mem_cons_self _ _)
        have hlen1 : os.length = ts.length := by simpa using hlen
        obtain ⟨line1, hline1, _, _, hscan⟩ :=
          sscanf_sprintf t { o with sc_name := t.sc_name } ht
        have hl1 : line1 = line := Option.some.inj (hline1.symm.trans hline)
        subst hl1
        obtain ⟨sl2, hsl2, hrd⟩ := hrdtl os line1 rest hlen1 hos hll
        obtain ⟨lb1, hlb2, hlr⟩ := encread_stream encstr statlist line1 scoreline
          (wtl ++ rest) h1 h2 hlb (le_of_eq (hll.trans hsl.symm))
        have e1 : lb1 = lb := by
          have := hlb2.symm.trans hlb1
          simpa using this
        subst e1
        obtain ⟨nb1, hnb2, hnr⟩ := encread_stream encstr statlist t.sc_name o.sc_name
          (lb1 ++ (wtl ++ rest)) h1 h2 htb (le_of_eq (htn.trans ho.symm))
        have e2 : nb1 = nb := by
          have := hnb2.symm.trans hnb
          simpa using this
        subst e2
        have hdn : List.drop t.sc_name.length o.sc_name = [] := by
          rw [htn, ← ho]; exact List.drop_length _
        have hdl : List.drop line1.length scoreline = [] := by
          rw [hll, ← hsl]; exact List.drop_length _
        rw [hdn, List.append_nil, htn] at hnr
        rw [hdl, List.append_nil, hll] at hlr
        refine ⟨sl2, hsl2, ?_⟩
        have happ : nb1 ++ lb1 ++ wtl ++ rest = nb1 ++ (lb1 ++ (wtl ++ rest)) := by
          simp only [List.append_assoc]
        rw [happ]
        simp only [rd_score_loop, hnr, hlr, hscan, hrd]

/-- C2. For every score table whose records hold values of their C types, with an open
score file and non-empty keys: `wr_score` writes the table, and `rd_score` on the file it
left fills any array of `numscores` records with exactly the records written, every field
equal (name, uid, score, flags, monster code, level and time). -/
theorem rd_score_wr_score (encstr statlist file : List Nat) (top_ten init : List SCORE)
    (scoreline : List Nat) (h1 : encstr ≠ []) (h2 : statlist ≠ [])
    (hwf : ∀ t ∈ top_ten, t.wf) (hlen : init.length = top_ten.length)
    (hnames : ∀ t ∈ init, t.sc_name.length = MAXSTR)
    (hsl : scoreline.length = SCORELINE) :
    ∃ file1, wr_score encstr statlist (some file) top_ten.length top_ten = some (some file1) ∧
      ∃ sl, rd_score encstr statlist (some file1) top_ten.length init scoreline
        = some (top_ten, sl) := by
  obtain ⟨written, hw, hr⟩ := rd_wr_score_loop encstr statlist h1 h2 top_ten hwf
  obtain ⟨sl, _, hrd⟩ := hr init scoreline (file.drop written.length) hlen hnames hsl
  refine ⟨written ++ file.drop written.length, ?_, sl, ?_⟩
  · simp only [wr_score, lt_irrefl, if_false, List.take_length, hw]
  · have htk : List.take top_ten.length init = init := by
      rw [← hlen]; exact List.take_length _
    have hdr : List.drop top_ten.length init = [] := by
      rw [← hlen]; exact List.drop_length _
    simp only [rd_score, hlen, lt_irrefl, if_false, htk, hdr, hrd, List.append_nil]

theorem rd_score_wr_score_witness :
    ∃ file1, wr_score [114, 111] [1, 200, 3] (some [1, 2, 3]) 1
        [⟨1000, -5, 3, 77, List.replicate 1024 65, 12, 1597636609⟩] = some (some file1) ∧
      ∃ sl, rd_score [114, 111] [1, 200, 3] (some file1) 1
          [⟨0, 0, 0, 0, List.replicate 1024 0, 0, 0⟩] (List.replicate 100 0)
        = some ([⟨1000, -5, 3, 77, List.replicate 1024 65, 12, 1597636609⟩], sl) :=
  rd_score_wr_score [114, 111] [1, 200, 3] [1, 2, 3]
    [⟨1000, -5, 3, 77, List.replicate 1024 65, 12, 1597636609⟩]
    [⟨0, 0, 0, 0, List.replicate 1024 0, 0, 0⟩] (List.replicate 100 0)
    (by decide) (by decide)
    (by
      intro t ht
      simp only [List.mem_singleton] at ht
      subst ht
      refine ⟨by decide, by decide, by decide, by decide, by decide, List.length_replicate _ _, ?_,
        by decide, by decide, by decide⟩
      intro b hb
      simp only [List.mem_replicate] at hb
      omega)
    rfl
    (by
      intro t ht
      simp only [List.mem_singleton] at ht
      subst ht
      exact List.length_replicate _ _)
    (List.length_replicate _ _)

/-! ## Properties: the pack -/

/-- The first inner loop does not move from an entry of the sub-kind looked for. -/
theorem walk_which_stay (heap : Nat → THING) (obj : THING) (rest : List Nat) (op : Nat)
    (lp : Option Nat)
    (c : ¬ ((heap op).o_type = obj.o_type ∧ (heap op).o_which ≠ obj.o_which)) :
    walk_which heap obj op lp rest = (op, lp, rest) := by
  cases rest with
  | nil => rw [walk_which, if_neg c]
  | cons n rest => rw [walk_which, if_neg c]

theorem chain_congr (h h1 : Nat → THING) :
    ∀ (fuel : Nat) (head : Option Nat) (l : List Nat), chain h fuel head = some l →
      (∀ a ∈ l, (h1 a).l_next = (h a).l_next) → chain h1 fuel head = some l := by
  intro fuel
  induction fuel with
  | zero =>
    intro head l hl _
    cases head with
    | none => simpa [chain] using hl
    | some a => simp [chain] at hl
  | succ fuel ih =>
    intro head l hl hsame
    cases head with
    | none => simpa [chain] using hl
    | some a =>
      simp only [chain] at hl ⊢
      cases hc : chain h fuel (h a).l_next with
      | none => rw [hc] at hl; simp at hl
      | some tl =>
        rw [hc] at hl
        simp only [Option.some.injEq] at hl
        subst hl
        rw [hsame a (List.mem_cons_self _ _)]
        rw [ih _ tl hc (fun b hb => hsame b (List.mem_cons_of_mem _ hb))]

/-- The first inner loop runs over entries of the type with another sub-kind and stops at
the first entry of the sub-kind looked for. -/
theorem walk_which_run (heap : Nat → THING) (obj : THING) (op : Nat) (post : List Nat)
    (hop : (heap op).o_type = obj.o_type ∧ (heap op).o_which = obj.o_which) :
    ∀ (mid : List Nat) (x : Nat) (lp : Option Nat),
      (heap x).o_type = obj.o_type ∧ (heap x).o_which ≠ obj.o_which →
      (∀ a ∈ mid, (heap a).o_type = obj.o_type ∧ (heap a).o_which ≠ obj.o_which) →
      (walk_which heap obj x lp (mid ++ op :: post)).1 = op := by
  intro mid
  induction mid with
  | nil =>
    intro x lp hx _
    have hstop : ¬ ((heap op).o_type = obj.o_type ∧ (heap op).o_which ≠ obj.o_which) :=
      fun h => h.2 hop.2
    rw [List.nil_append, walk_which, if_pos hx, walk_which_stay heap obj post op _ hstop]
  | cons m mid ih =>
    intro x lp hx hmid
    rw [List.cons_append, walk_which, if_pos hx]
    exact ih m (some x) (hmid m (List.mem_cons_self _ _))
      (fun a ha => hmid a (List.mem_cons_of_mem _ ha))

theorem scan_same_type_stack (heap : Nat → THING) (obj : THING) (x op : Nat)
    (lp : Option Nat) (rest : List Nat)
    (hw : (walk_which heap obj x lp rest).1 = op)
    (hop : (heap op).o_type = obj.o_type ∧ (heap op).o_which = obj.o_which)
    (hmult : ISMULT obj.o_type = true) :
    scan_same_type heap obj x lp rest = Scan.stack op := by
  unfold scan_same_type
  simp only [hw, hop, and_self, if_true, hmult]

/-- In a pack whose entries of the type of the item are adjacent, the search stops at the
first entry of the item's sub-kind; for a stackable type it answers "stack". -/
theorem scan_pack_stack (heap : Nat → THING) (obj : THING) (op : Nat)
    (pre mid post : List Nat) (hmult : ISMULT obj.o_type = true)
    (hpre : ∀ a ∈ pre, (heap a).o_type ≠ obj.o_type)
    (hmid : ∀ a ∈ mid, (heap a).o_type = obj.o_type ∧ (heap a).o_which ≠ obj.o_which)
    (hop : (heap op).o_type = obj.o_type ∧ (heap op).o_which = obj.o_which) :
    ∀ lp, scan_pack heap obj lp (pre ++ mid ++ op :: post) = Scan.stack op := by
  induction pre with
  | nil =>
    intro lp
    have hstop : ¬ ((heap op).o_type = obj.o_type ∧ (heap op).o_which ≠ obj.o_which) :=
      fun h => h.2 hop.2
    cases mid with
    | nil =>
      rw [List.nil_append, List.nil_append, scan_pack, if_neg (not_not.mpr hop.1)]
      apply scan_same_type_stack heap obj op op lp post _ hop hmult
      rw [walk_which_stay heap obj post op lp hstop]
    | cons m mid =>
      have hm := hmid m (List.mem_cons_self _ _)
      have hrun := walk_which_run heap obj op post hop mid m lp hm
        (fun a ha => hmid a (List.mem_cons_of_mem _ ha))
      rw [List.nil_append, List.cons_append, scan_pack, if_neg (not_not.mpr hm.1)]
      exact scan_same_type_stack heap obj m op lp _ hrun hop hmult
  | cons p pre ih =>
    intro lp
    have hp := hpre p (List.mem_cons_self _ _)
    rw [List.cons_append, List.cons_append, scan_pack, if_pos hp]
    exact ih (fun a ha => hpre a (List.mem_cons_of_mem _ ha)) (some p)

/-- What `add_pack` returns when the search answers "stack" and there is room. -/
theorem add_pack_stack_eq (g : Game) (arg : Option Nat) (obj op head : Nat) (silent : Bool)
    (l : List Nat)
    (harg : arg = some obj ∨ (arg = none ∧ find_obj g g.hero.y g.hero.x = some obj))
    (hpack : g.pack = some head) (hl : chain g.heap g.nthings (some head) = some l)
    (hscroll : ¬ ((g.heap obj).o_type = SCROLL ∧ (g.heap obj).o_which = S_SCARE ∧
      (g.heap obj).o_flags &&& ISFOUND ≠ 0))
    (hscan : scan_pack g.heap (g.heap obj) none l = Scan.stack op)
    (hroom : (pack_room arg.isNone obj g).1 = true) :
    add_pack arg silent g = some (dump_it obj op
      ((pack_room arg.isNone obj g).2.poke op
        (fun t => { t with o_count := t.o_count + 1 }))) := by
  rcases harg with harg | ⟨harg, hfind⟩
  · subst harg
    unfold add_pack
    simp only [hscroll, if_false, hpack, hl, hscan, hroom, Bool.not_true, Bool.false_eq_true]
  · subst harg
    unfold add_pack
    simp only [hfind, hscroll, if_false, hpack, hl, hscan, hroom, Bool.not_true,
      Bool.false_eq_true]

theorem add_pack_finish_fields (obj : Nat) (g : Game) :
    (add_pack_finish obj g).inpack = g.inpack ∧ (add_pack_finish obj g).pack = g.pack ∧
    (add_pack_finish obj g).nthings = g.nthings ∧ (add_pack_finish obj g).freed = g.freed ∧
    (add_pack_finish obj g).lvl_obj = g.lvl_obj ∧
    (add_pack_finish obj g).pack_used = g.pack_used ∧
    (add_pack_finish obj g).heap
      = Function.update g.heap obj
          { g.heap obj with o_flags := (g.heap obj).o_flags ||| ISFOUND } := by
  simp only [add_pack_finish, Game.poke]
  split <;> exact ⟨rfl, rfl, rfl, rfl, rfl, rfl, rfl⟩

theorem pack_room_fields (from_floor : Bool) (obj : Nat) (g : Game)
    (hroom : g.inpack < MAXPACK) :
    (pack_room from_floor obj g).1 = true ∧
    (pack_room from_floor obj g).2.inpack = g.inpack + 1 ∧
    (pack_room from_floor obj g).2.pack = g.pack ∧
    (pack_room from_floor obj g).2.nthings = g.nthings ∧
    (pack_room from_floor obj g).2.freed = g.freed ∧
    (pack_room from_floor obj g).2.pack_used = g.pack_used ∧
    (pack_room from_floor obj g).2.heap
      = (if from_floor then (_detach g.heap g.lvl_obj obj).2 else g.heap) ∧
    (pack_room from_floor obj g).2.lvl_obj
      = (if from_floor then (_detach g.heap g.lvl_obj obj).1 else g.lvl_obj) := by
  have hnot : ¬ (g.inpack + 1 > MAXPACK) := by omega
  unfold pack_room
  simp only [hnot, if_false]
  cases from_floor
  · exact ⟨rfl, rfl, rfl, rfl, rfl, rfl, rfl, rfl⟩
  · exact ⟨rfl, rfl, rfl, rfl, rfl, rfl, rfl, rfl⟩

/-- The links `l_next` that `_detach` changes are those of the item and of the entry
before it; the counts it leaves alone. -/
theorem _detachfields (heap : Nat → THING) (list : Option Nat) (item a : Nat) :
    ((_detach heap list item).2 a).o_count = (heap a).o_count ∧
    (a ≠ item → (∀ p, (heap item).l_prev = some p → a ≠ p) →
      ((_detach heap list item).2 a).l_next = (heap a).l_next) := by
  unfold _detach
  constructor
  · cases (heap item).l_prev <;> cases (heap item).l_next <;>
      simp only [Function.update_apply] <;> split_ifs <;> subst_vars <;> rfl
  · intro h1 h2
    cases hp : (heap item).l_prev with
    | none =>
      cases (heap item).l_next with
      | none => simp only [Function.update_apply, h1, if_false]
      | some n =>
        simp only [Function.update_apply, h1, if_false]
        by_cases e : a = n
        · subst e
          simp only [if_true]
        · simp only [e, if_false]
    | some p =>
      have h3 : a ≠ p := h2 p hp
      cases (heap item).l_next with
      | none => simp only [Function.update_apply, h1, h3, if_false]
      | some n =>
        simp only [Function.update_apply, h1, h3, if_false]
        by_cases e : a = n
        · subst e
          simp only [if_true, h3, if_false]
        · simp only [e, if_false]

/-- C4 (amended). With `inpack` below `MAXPACK`, adding a food item whose sub-kind is that
of a food entry `op` the search of the pack reaches (the pack holding its food entries
next to each other, those before `op` of other sub-kinds) leaves the pack list as it was,
one entry for both: the count of `op` goes up by exactly 1, which is the sum of the two
counts for an added item of count 1, `inpack` goes up by 1, and the added item is
discarded.  The item is handed in (`arg = some obj`) or picked up from the floor. -/
theorem add_pack_food_stacks (g : Game) (arg : Option Nat) (obj op head : Nat)
    (silent : Bool) (pre mid post : List Nat)
    (harg : arg = some obj ∨ (arg = none ∧ find_obj g g.hero.y g.hero.x = some obj ∧
      obj ∉ pre ++ mid ++ op :: post ∧
      ∀ p, (g.heap obj).l_prev = some p → p ∉ pre ++ mid ++ op :: post))
    (hpack : g.pack = some head)
    (hl : chain g.heap g.nthings (some head) = some (pre ++ mid ++ op :: post))
    (hfood : (g.heap obj).o_type = FOOD)
    (hpre : ∀ a ∈ pre, (g.heap a).o_type ≠ FOOD)
    (hmid : ∀ a ∈ mid, (g.heap a).o_type = FOOD ∧ (g.heap a).o_which ≠ (g.heap obj).o_which)
    (hop : (g.heap op).o_type = FOOD ∧ (g.heap op).o_which = (g.heap obj).o_which)
    (hroom : g.inpack < MAXPACK) :
    ∃ g1, add_pack arg silent g = some g1 ∧ g1.inpack = g.inpack + 1 ∧
      (g1.heap op).o_count = (g.heap op).o_count + 1 ∧
      g1.pack = g.pack ∧
      chain g1.heap g1.nthings g1.pack = some (pre ++ mid ++ op :: post) ∧
      obj ∈ g1.freed := by
  have hscan := scan_pack_stack g.heap (g.heap obj) op pre mid post
    (by rw [hfood]; rfl) (by rw [hfood]; exact hpre) (by rw [hfood]; exact hmid)
    (by rw [hfood]; exact hop) none
  have hscroll : ¬ ((g.heap obj).o_type = SCROLL ∧ (g.heap obj).o_which = S_SCARE ∧
      (g.heap obj).o_flags &&& ISFOUND ≠ 0) := by
    intro h
    rw [hfood] at h
    exact absurd h.1 (by decide)
  obtain ⟨r1, r2, r3, r4, r5, _, r7, _⟩ := pack_room_fields arg.isNone obj g hroom
  have harg1 : arg = some obj ∨ (arg = none ∧ find_obj g g.hero.y g.hero.x = some obj) := by
    rcases harg with h | h
    · exact Or.inl h
    · exact Or.inr ⟨h.1, h.2.1⟩
  -- the store after `pack_room` keeps the counts and the links of the pack
  have hcount : ((pack_room arg.isNone obj g).2.heap op).o_count = (g.heap op).o_count := by
    rw [r7]
    split
    · exact (_detachfields g.heap g.lvl_obj obj op).1
    · rfl
  have hlinks : ∀ a ∈ pre ++ mid ++ op :: post,
      ((pack_room arg.isNone obj g).2.heap a).l_next = (g.heap a).l_next := by
    intro a ha
    rw [r7]
    rcases harg with h | ⟨h, _, hobj, hprev⟩
    · subst h; rfl
    · subst h
      simp only [Option.isNone_none, if_true]
      apply (_detachfields g.heap g.lvl_obj obj a).2
      · intro e; subst e; exact hobj ha
      · intro p hp e; subst e; exact hprev a hp ha
  refine ⟨_, add_pack_stack_eq g arg obj op head silent _ harg1 hpack hl hscroll hscan r1,
    ?_, ?_, ?_, ?_, ?_⟩
  · rw [dump_it, (add_pack_finish_fields _ _).1]
    exact r2
  · rw [dump_it, (add_pack_finish_fields _ _).2.2.2.2.2.2]
    simp only [discard, Game.poke, Function.update_same]
    exact congrArg (· + 1) hcount
  · rw [dump_it, (add_pack_finish_fields _ _).2.1]
    exact r3
  · rw [dump_it, (add_pack_finish_fields _ _).2.1, (add_pack_finish_fields _ _).2.2.1,
      (add_pack_finish_fields _ _).2.2.2.2.2.2]
    simp only [discard, Game.poke]
    rw [r3, r4, hpack]
    apply chain_congr g.heap _ _ _ _ hl
    intro a ha
    by_cases e : a = op
    · subst e
      simp only [Function.update_same]
      exact hlinks a ha
    · simp only [Function.update_noteq e]
      exact hlinks a ha
  · rw [dump_it, (add_pack_finish_fields _ _).2.2.2.1]
    simp [discard]

/-- C4, as stated, fails: a food item of count 2 added to a pack holding one food ration of
the same sub-kind (`inpack` 1) still leaves one entry, but its count is 2, not 1 + 2, and
`inpack` has gone up to 2. -/
theorem add_pack_food_counterexample :
    ex_food.inpack = 1 ∧ (ex_food.heap 0).o_count = 1 ∧ (ex_food.heap 1).o_count = 2 ∧
    (ex_food.heap 0).o_type = FOOD ∧ (ex_food.heap 1).o_type = FOOD ∧
    (ex_food.heap 0).o_which = (ex_food.heap 1).o_which ∧
    (add_pack (some 1) true ex_food).map
        (fun g => (g.inpack, (g.heap 0).o_count, chain g.heap g.nthings g.pack))
      = some (2, 2, some [0]) := by
  decide

theorem add_pack_food_stacks_witness :
    ∃ g1, add_pack (some 1) true ex_food = some g1 ∧ g1.inpack = ex_food.inpack + 1 ∧
      (g1.heap 0).o_count = (ex_food.heap 0).o_count + 1 ∧
      g1.pack = ex_food.pack ∧
      chain g1.heap g1.nthings g1.pack = some ([] ++ [] ++ 0 :: []) ∧
      1 ∈ g1.freed :=
  add_pack_food_stacks ex_food (some 1) 1 0 0 true [] [] [] (Or.inl rfl) rfl (by decide)
    (by decide) (by decide) (by decide) (by decide) (by decide)

/-- C5 fails on the path of `add_pack` for an empty pack.  Picking up, with an empty pack,
the object the hero stands on (the head of the level list, address 0) makes it the head
of the pack without taking it off the level list: its `l_next` still leads to the other
object on the floor (address 1), which is thereby an entry of the pack list too.  That
object kept the letter `a` it had when it was dropped, and `pack_char` hands `a` out
again for the new entry: two entries of the pack list carry the letter `a`. -/
theorem add_pack_empty_pack_shares_letter :
    ex_dropped.pack = none ∧ ex_dropped.pack_used = List.replicate 26 false ∧
    chain ex_dropped.heap ex_dropped.nthings ex_dropped.lvl_obj = some [0, 1] ∧
    (add_pack none true ex_dropped).map
        (fun g => (chain g.heap g.nthings g.pack, (g.heap 0).o_packch, (g.heap 1).o_packch,
          chain g.heap g.nthings g.lvl_obj))
      = some (some [0, 1], 97, 97, some [0, 1]) := by
  decide

/-! ## Properties: hunger -/

/-- A draw changes nothing but the state of the random generator. -/
theorem rnd_fields (range : Nat) (g : Game) :
    (rnd range g).2.heap = g.heap ∧ (rnd range g).2.cur_ring = g.cur_ring ∧
    (rnd range g).2.food_left = g.food_left ∧
    (rnd range g).2.hungry_state = g.hungry_state ∧
    (rnd range g).2.amulet = g.amulet := by
  simp only [rnd, RN]
  exact ⟨trivial, trivial, trivial, trivial, trivial⟩

/-- On a hand whose ring is of a known kind, `ring_eat` returns, and changes nothing but
the state of the random generator. -/
theorem ring_eat_returns (hand : Nat) (g : Game) (hok : ring_kind_ok g hand) :
    ∃ e g1, ring_eat hand g = some (e, g1) ∧ g1.heap = g.heap ∧ g1.cur_ring = g.cur_ring ∧
      g1.food_left = g.food_left ∧ g1.hungry_state = g.hungry_state ∧
      g1.amulet = g.amulet := by
  unfold ring_eat
  cases hr : g.cur_ring hand with
  | none => exact ⟨0, g, rfl, rfl, rfl, rfl, rfl, rfl⟩
  | some ring =>
    obtain ⟨h0, h14⟩ := hok ring hr
    have hin : ¬ ((g.heap ring).o_which < 0 ∨
        (ring_eat_uses.length : Int) ≤ (g.heap ring).o_which) := by
      have : (ring_eat_uses.length : Int) = 14 := rfl
      omega
    have key : ∀ r : Int × Game, (r.2.heap = g.heap ∧ r.2.cur_ring = g.cur_ring ∧
        r.2.food_left = g.food_left ∧ r.2.hungry_state = g.hungry_state ∧
        r.2.amulet = g.amulet) →
        ∃ e g1, (if (g.heap ring).o_which = R_DIGEST then some (-r.1, r.2) else some r)
            = some (e, g1) ∧ g1.heap = g.heap ∧ g1.cur_ring = g.cur_ring ∧
          g1.food_left = g.food_left ∧ g1.hungry_state = g.hungry_state ∧
          g1.amulet = g.amulet := by
      intro r hr
      by_cases hd : (g.heap ring).o_which = R_DIGEST
      · rw [if_pos hd]; exact ⟨-r.1, r.2, rfl, hr⟩
      · rw [if_neg hd]; exact ⟨r.1, r.2, rfl, hr⟩
    simp only [hin, if_false]
    apply key
    by_cases hneg : ring_eat_uses.getD (g.heap ring).o_which.toNat 0 < 0
    · rw [if_pos hneg]
      exact rnd_fields (-(ring_eat_uses.getD (g.heap ring).o_which.toNat 0)).toNat g
    · rw [if_neg hneg]; exact ⟨rfl, rfl, rfl, rfl, rfl⟩

theorem stomach_finish_fields (orig : Int) (g : Game) :
    (stomach_finish orig g).food_left = g.food_left ∧
    (stomach_finish orig g).hungry_state = g.hungry_state := by
  unfold stomach_finish
  split <;> exact ⟨rfl, rfl⟩

theorem stomach_hunger_fields (oldfood : Int) (g : Game) :
    (stomach_hunger oldfood g).food_left = g.food_left ∧
    (stomach_hunger oldfood g).hungry_state =
      (if g.food_left < 150 ∧ 150 ≤ oldfood then 2
       else if g.food_left < 300 ∧ 300 ≤ oldfood then 1
       else g.hungry_state) := by
  unfold stomach_hunger
  have e1 : (g.food_left < MORETIME ∧ oldfood ≥ MORETIME)
      ↔ (g.food_left < 150 ∧ 150 ≤ oldfood) := by unfold MORETIME; exact Iff.rfl
  have e2 : (g.food_left < 2 * MORETIME ∧ oldfood ≥ 2 * MORETIME)
      ↔ (g.food_left < 300 ∧ 300 ≤ oldfood) := by unfold MORETIME; constructor <;> intro h <;> omega
  simp only [e1, e2]
  split_ifs <;> exact ⟨rfl, rfl⟩

/-- What `stomach` returns while there is food left. -/
theorem stomach_fed_eq (g g1 g2 : Game) (e1 e2 : Int) (hpos : g.food_left > 0)
    (h1 : ring_eat LEFT g = some (e1, g1)) (h2 : ring_eat RIGHT g1 = some (e2, g2)) :
    stomach g = some (Tick.alive (stomach_finish g.hungry_state (stomach_hunger g.food_left
      { g2 with food_left := g2.food_left - (e1 + e2 + 1 - (if g2.amulet then 1 else 0)) })))
    := by
  have hnot : ¬ g.food_left ≤ 0 := by omega
  unfold stomach
  simp only [hnot, if_false, h1, h2]

/-- C6. In a tick of `stomach` that starts with `food_left > 0` (the rings worn being of
known kinds) the daemon returns with the game going on, and `hungry_state` is 2 exactly
when `food_left` went from at least 150 to below 150, else 1 exactly when it went from
at least 300 to below 300, and is unchanged on every other such tick; in particular it
is not set again while `food_left` stays in the band 150..299. -/
theorem stomach_hungry_state (g : Game) (hpos : g.food_left > 0)
    (hl : ring_kind_ok g LEFT) (hr : ring_kind_ok g RIGHT) :
    ∃ g1, stomach g = some (Tick.alive g1) ∧
      g1.hungry_state =
        (if g1.food_left < 150 ∧ 150 ≤ g.food_left then 2
         else if g1.food_left < 300 ∧ 300 ≤ g.food_left then 1
         else g.hungry_state) ∧
      (150 ≤ g.food_left → g.food_left < 300 → 150 ≤ g1.food_left →
        g1.hungry_state = g.hungry_state) := by
  obtain ⟨e1, a1, h1, hh1, hc1, _, hs1, _⟩ := ring_eat_returns LEFT g hl
  have hr1 : ring_kind_ok a1 RIGHT := by
    intro r hr0
    rw [hc1] at hr0
    rw [hh1]
    exact hr r hr0
  obtain ⟨e2, a2, h2, _, _, _, hs2, _⟩ := ring_eat_returns RIGHT a1 hr1
  have hst : ∀ x : Game, x.hungry_state = g.hungry_state →
      (stomach_finish g.hungry_state (stomach_hunger g.food_left x)).hungry_state =
        (if (stomach_finish g.hungry_state (stomach_hunger g.food_left x)).food_left < 150 ∧
            150 ≤ g.food_left then 2
         else if (stomach_finish g.hungry_state (stomach_hunger g.food_left x)).food_left < 300
            ∧ 300 ≤ g.food_left then 1
         else g.hungry_state) := by
    intro x hx
    rw [(stomach_finish_fields _ _).2, (stomach_finish_fields _ _).1,
      (stomach_hunger_fields _ _).2, (stomach_hunger_fields _ _).1, hx]
  have hx : ({ a2 with food_left :=
      a2.food_left - (e1 + e2 + 1 - (if a2.amulet then 1 else 0)) } : Game).hungry_state
      = g.hungry_state := hs2.trans hs1
  refine ⟨_, stomach_fed_eq g a1 a2 e1 e2 hpos h1 h2, hst _ hx, ?_⟩
  intro ha hb hc
  rw [hst _ hx]
  have n1 : ¬ ((stomach_finish g.hungry_state (stomach_hunger g.food_left
      { a2 with food_left := a2.food_left - (e1 + e2 + 1 - (if a2.amulet then 1 else 0)) })
      ).food_left < 150 ∧ 150 ≤ g.food_left) := by omega
  have n2 : ¬ ((stomach_finish g.hungry_state (stomach_hunger g.food_left
      { a2 with food_left := a2.food_left - (e1 + e2 + 1 - (if a2.amulet then 1 else 0)) })
      ).food_left < 300 ∧ 300 ≤ g.food_left) := by omega
  rw [if_neg n1, if_neg n2]

/-- C7. In a tick of `stomach` that starts with `food_left <= 0` the daemon returns,
whatever rings are worn, with `food_left` one less than before, and it ended in
`death('s')` exactly when `food_left` was below `-STARVETIME` (-850) at the start. -/
theorem stomach_starving (g : Game) (h : g.food_left ≤ 0) :
    ∃ t, stomach g = some t ∧ t.game.food_left = g.food_left - 1 ∧
      (t.dead = true ↔ g.food_left < -850) ∧
      (g.food_left < -850 → t = Tick.died 115 { g with food_left := g.food_left - 1 }) := by
  unfold stomach
  simp only [h, if_true]
  by_cases hs : g.food_left < -STARVETIME
  · simp only [hs, if_true]
    refine ⟨_, rfl, rfl, ?_, fun _ => rfl⟩
    simp only [Tick.dead, true_iff]
    unfold STARVETIME at hs
    exact hs
  · have hs1 : ¬ g.food_left < -850 := by unfold STARVETIME at hs; exact hs
    simp only [hs, if_false]
    split
    · exact ⟨_, rfl, rfl, by simp [Tick.dead, hs1], fun h => absurd h hs1⟩
    · split
      · exact ⟨_, rfl, rfl, by simp [Tick.dead, hs1], fun h => absurd h hs1⟩
      · refine ⟨_, rfl, ?_, by simp [Tick.dead, hs1], fun h => absurd h hs1⟩
        simp only [Tick.game]
        rw [(stomach_finish_fields _ _).1]
        rfl

theorem stomach_hungry_state_witness :
    ∃ g1, stomach ex_hungry = some (Tick.alive g1) ∧
      g1.hungry_state =
        (if g1.food_left < 150 ∧ 150 ≤ ex_hungry.food_left then 2
         else if g1.food_left < 300 ∧ 300 ≤ ex_hungry.food_left then 1
         else ex_hungry.hungry_state) ∧
      (150 ≤ ex_hungry.food_left → ex_hungry.food_left < 300 → 150 ≤ g1.food_left →
        g1.hungry_state = ex_hungry.hungry_state) :=
  stomach_hungry_state ex_hungry (by decide)
    (fun r h => by cases h; decide) (fun r h => by cases h)

theorem stomach_starving_witness :
    ∃ t, stomach ex_starved = some t ∧ t.game.food_left = ex_starved.food_left - 1 ∧
      (t.dead = true ↔ ex_starved.food_left < -850) ∧
      (ex_starved.food_left < -850 →
        t = Tick.died 115 { ex_starved with food_left := ex_starved.food_left - 1 }) :=
  stomach_starving ex_starved (by decide)

/-! ## Properties: armor and rings -/

theorem or_and_self_flag (x m : Nat) : (x ||| m) &&& m = m := by
  apply Nat.eq_of_testBit_eq
  intro i
  simp only [Nat.testBit_and, Nat.testBit_or]
  cases x.testBit i <;> cases m.testBit i <;> rfl

/-- C8. Four runs of the armor commands.
(a) `wear` in `ga`, the player selecting `oa` (the dialogue leaving `ga1`) while armor is
worn: the command fails, `cur_armor` stays as it was and `after` is `FALSE`.
(b) `wear` in `gb`, the player selecting the suit of armor `ob` while no armor is worn,
the turn spent in `waste_time` leading to `gb2`: `cur_armor` points at `ob` and `ob` has
its `ISKNOW` flag set.
(c) `take_off` in `gc` with armor worn and `dropcheck` succeeding: `cur_armor` is absent.
(d) `take_off` in `gd` with armor worn and `dropcheck` failing: the state, and with it
`cur_armor`, is unchanged. -/
theorem armor_state_machine (env : Env)
    (ga ga1 : Game) (oa : Nat)
    (ha : env.get_item ARMOR ga = some (some oa, ga1)) (ha1 : ga1.cur_armor ≠ none)
    (gb gb1 gb2 : Game) (ob : Nat)
    (hb : env.get_item ARMOR gb = some (some ob, gb1)) (hb1 : gb1.cur_armor = none)
    (hb2 : (gb1.heap ob).o_type = ARMOR) (hb3 : waste_time env gb1 = some gb2)
    (gc gc1 : Game) (ac : Nat)
    (hc : gc.cur_armor = some ac) (hc1 : dropcheck env ac gc = some (true, gc1))
    (gd gd1 : Game) (ad : Nat)
    (hd : gd.cur_armor = some ad) (hd1 : dropcheck env ad gd = some (false, gd1)) :
    (∃ g, wear env ga = some g ∧ g.cur_armor = ga1.cur_armor ∧ g.after = false) ∧
    (∃ g, wear env gb = some g ∧ g.cur_armor = some ob ∧
      (g.heap ob).o_flags &&& ISKNOW ≠ 0) ∧
    (∃ g, take_off env gc = some g ∧ g.cur_armor = none) ∧
    (take_off env gd = some gd ∧ gd1 = gd) := by
  refine ⟨?_, ?_, ?_, ?_⟩
  · refine ⟨{ ga1 with after := false }, ?_, rfl, rfl⟩
    unfold wear
    simp only [ha, ha1, ne_eq, not_false_eq_true, if_true]
  · refine ⟨{ gb2.poke ob (fun t => { t with o_flags := t.o_flags ||| ISKNOW }) with
      cur_armor := some ob }, ?_, rfl, ?_⟩
    · unfold wear
      simp only [hb, hb1, ne_eq, not_true_eq_false, if_false, hb2, hb3]
    · simp only [Game.poke, Function.update_same]
      rw [or_and_self_flag]
      decide
  · refine ⟨{ gc1 with cur_armor := none }, ?_, rfl⟩
    unfold take_off
    simp only [hc, hc1]
  · have hs : gd1 = gd := by
      unfold dropcheck at hd1
      by_cases hst : env.stuck ad gd = true
      · simp only [hst, if_true, Option.some.injEq, Prod.mk.injEq, true_and] at hd1
        exact hd1.symm
      · simp only [hst, if_false] at hd1
        cases hrel : env.release ad gd with
        | none => rw [hrel] at hd1; simp at hd1
        | some x => rw [hrel] at hd1; simp at hd1
    subst hs
    refine ⟨?_, rfl⟩
    unfold take_off
    simp only [hd, hd1]

theorem ring_on_hand_cur_ring (env : Env)
    (hchg : ∀ a g, (env.chg_str a g).cur_ring = g.cur_ring)
    (hagg : ∀ g, (env.aggravate g).cur_ring = g.cur_ring)
    (obj ring : Nat) (g : Game) :
    (ring_on_hand env obj ring g).cur_ring = Function.update g.cur_ring ring (some obj) := by
  simp only [ring_on_hand]
  split_ifs
  · rw [hchg]
  · rfl
  · rw [hagg]
  · rfl

/-- C9. Rings go on the free hand.
In succession: in `g0`, no ring worn, the player selects the ring `r1` and answers the
hand prompt with `l`; then selects the ring `r2`; then the ring `r3` (`h0`, `h1`, `h2`
are the states the three selection dialogues leave, which do not touch the hands).  The
first `ring_on` puts `r1` on the left hand and leaves the right hand free; the second
puts `r2` on the right hand without reading a key and leaves `r1` on the left; the third
is refused and leaves both hands as they were.
In general: in `ga`/`gb` the player selects a ring while exactly the left/right hand is
free; the ring goes on that hand and the other hand is unchanged.
The effects of the strength and aggravation rings are assumed not to touch the hands. -/
theorem ring_hand_assignment (env : Env)
    (hchg : ∀ a g, (env.chg_str a g).cur_ring = g.cur_ring)
    (hagg : ∀ g, (env.aggravate g).cur_ring = g.cur_ring)
    (g0 h0 h1 h2 : Game) (r1 r2 r3 : Nat) (ks : List Nat)
    (hsel1 : env.get_item RING g0 = some (some r1, h0))
    (hfree : h0.cur_ring LEFT = none ∧ h0.cur_ring RIGHT = none)
    (ht1 : (h0.heap r1).o_type = RING) (hnc1 : env.is_current r1 h0 = false)
    (hkey : h0.keys = 108 :: ks)
    (hsel2 : env.get_item RING (ring_on_hand env r1 LEFT { h0 with keys := ks })
      = some (some r2, h1))
    (hfr2 : h1.cur_ring = (ring_on_hand env r1 LEFT { h0 with keys := ks }).cur_ring)
    (ht2 : (h1.heap r2).o_type = RING) (hnc2 : env.is_current r2 h1 = false)
    (hsel3 : env.get_item RING (ring_on_hand env r2 RIGHT h1) = some (some r3, h2))
    (hfr3 : h2.cur_ring = (ring_on_hand env r2 RIGHT h1).cur_ring)
    (ht3 : (h2.heap r3).o_type = RING) (hnc3 : env.is_current r3 h2 = false)
    (ga ga1 : Game) (ra wa : Nat)
    (hsela : env.get_item RING ga = some (some ra, ga1))
    (hta : (ga1.heap ra).o_type = RING) (hnca : env.is_current ra ga1 = false)
    (hla : ga1.cur_ring LEFT = none) (hra : ga1.cur_ring RIGHT = some wa)
    (gb gb1 : Game) (rb wb : Nat)
    (hselb : env.get_item RING gb = some (some rb, gb1))
    (htb : (gb1.heap rb).o_type = RING) (hncb : env.is_current rb gb1 = false)
    (hlb : gb1.cur_ring LEFT = some wb) (hrb : gb1.cur_ring RIGHT = none) :
    (∃ s1, ring_on env g0 = some s1 ∧ s1.cur_ring LEFT = some r1 ∧
      s1.cur_ring RIGHT = none ∧
      ∃ s2, ring_on env s1 = some s2 ∧ s2.cur_ring LEFT = some r1 ∧
        s2.cur_ring RIGHT = some r2 ∧
        ring_on env s2 = some h2 ∧ h2.cur_ring LEFT = some r1 ∧
        h2.cur_ring RIGHT = some r2) ∧
    (∃ s, ring_on env ga = some s ∧ s.cur_ring LEFT = some ra ∧
      s.cur_ring RIGHT = some wa) ∧
    (∃ s, ring_on env gb = some s ∧ s.cur_ring LEFT = some wb ∧
      s.cur_ring RIGHT = some rb) := by
  have hcr := ring_on_hand_cur_ring env hchg hagg
  have hLR : LEFT ≠ RIGHT := by decide
  have hRL : RIGHT ≠ LEFT := by decide
  -- the hands after the first and the second ring
  have c1L : (ring_on_hand env r1 LEFT { h0 with keys := ks }).cur_ring LEFT = some r1 := by
    rw [hcr]; exact Function.update_same _ _ _
  have c1R : (ring_on_hand env r1 LEFT { h0 with keys := ks }).cur_ring RIGHT = none := by
    rw [hcr, Function.update_noteq hRL]; exact hfree.2
  have c2L : (ring_on_hand env r2 RIGHT h1).cur_ring LEFT = some r1 := by
    rw [hcr, Function.update_noteq hLR, hfr2]; exact c1L
  have c2R : (ring_on_hand env r2 RIGHT h1).cur_ring RIGHT = some r2 := by
    rw [hcr]; exact Function.update_same _ _ _
  refine ⟨⟨_, ?_, c1L, c1R, _, ?_, c2L, c2R, ?_, ?_, ?_⟩,
    ⟨ring_on_hand env ra LEFT ga1, ?_, ?_, ?_⟩, ⟨ring_on_hand env rb RIGHT gb1, ?_, ?_, ?_⟩⟩
  · unfold ring_on
    simp only [hsel1, ht1, ne_eq, not_true_eq_false, if_false, hnc1, Bool.false_eq_true,
      hfree, and_self, if_true, hkey, gethand, gethand_loop]
    have e1 : (108 : Nat) ≠ ESCAPE := by decide
    simp only [e1, if_false, true_or, if_true]
    rfl
  · have l1 : h1.cur_ring LEFT ≠ none := by rw [hfr2, c1L]; simp
    have l2 : h1.cur_ring RIGHT = none := by rw [hfr2, c1R]
    unfold ring_on
    simp only [hsel2, ht2, ne_eq, not_true_eq_false, if_false, hnc2, Bool.false_eq_true,
      l1, false_and, l2, if_true]
  · have l1 : h2.cur_ring LEFT ≠ none := by rw [hfr3, c2L]; simp
    have l2 : h2.cur_ring RIGHT ≠ none := by rw [hfr3, c2R]; simp
    unfold ring_on
    simp only [hsel3, ht3, ne_eq, not_true_eq_false, if_false, hnc3, Bool.false_eq_true,
      l1, false_and, l2]
  · rw [hfr3]; exact c2L
  · rw [hfr3]; exact c2R
  · have l2 : ga1.cur_ring RIGHT ≠ none := by rw [hra]; simp
    unfold ring_on
    simp only [hsela, hta, ne_eq, not_true_eq_false, if_false, hnca, Bool.false_eq_true,
      hla, l2, and_false, if_true]
  · rw [hcr]; exact Function.update_same _ _ _
  · rw [hcr, Function.update_noteq hRL]; exact hra
  · have l1 : gb1.cur_ring LEFT ≠ none := by rw [hlb]; simp
    unfold ring_on
    simp only [hselb, htb, ne_eq, not_true_eq_false, if_false, hncb, Bool.false_eq_true,
      l1, false_and, hrb, if_true]
  · rw [hcr, Function.update_noteq hLR]; exact hlb
  · rw [hcr]; exact Function.update_same _ _ _

theorem armor_state_machine_witness :
    (∃ g, wear ex_env (ex_armor true false [98]) = some g ∧
      g.cur_armor = (ex_armor true false []).cur_armor ∧ g.after = false) ∧
    (∃ g, wear ex_env (ex_armor false false [97]) = some g ∧ g.cur_armor = some 0 ∧
      (g.heap 0).o_flags &&& ISKNOW ≠ 0) ∧
    (∃ g, take_off ex_env (ex_armor true false []) = some g ∧ g.cur_armor = none) ∧
    (take_off ex_env (ex_armor true true []) = some (ex_armor true true []) ∧
      ex_armor true true [] = ex_armor true true []) :=
  armor_state_machine ex_env
    (ex_armor true false [98]) (ex_armor true false []) 1 rfl (by decide)
    (ex_armor false false [97]) (ex_armor false false []) (ex_armor false false []) 0
    rfl rfl (by decide) rfl
    (ex_armor true false []) (ex_armor true false []) 0 rfl rfl
    (ex_armor true true []) (ex_armor true true []) 0 rfl rfl

theorem ring_hand_assignment_witness :
    (∃ s1, ring_on ex_env (ex_rings none none [97, 108, 98, 99]) = some s1 ∧
      s1.cur_ring LEFT = some 0 ∧ s1.cur_ring RIGHT = none ∧
      ∃ s2, ring_on ex_env s1 = some s2 ∧ s2.cur_ring LEFT = some 0 ∧
        s2.cur_ring RIGHT = some 1 ∧
        ring_on ex_env s2 = some ex_rings_h2 ∧
        ex_rings_h2.cur_ring LEFT = some 0 ∧ ex_rings_h2.cur_ring RIGHT = some 1) ∧
    (∃ s, ring_on ex_env (ex_rings none (some 2) [97]) = some s ∧
      s.cur_ring LEFT = some 0 ∧ s.cur_ring RIGHT = some 2) ∧
    (∃ s, ring_on ex_env (ex_rings (some 2) none [97]) = some s ∧
      s.cur_ring LEFT = some 2 ∧ s.cur_ring RIGHT = some 0) :=
  ring_hand_assignment ex_env (fun _ _ => rfl) (fun _ => rfl)
    (ex_rings none none [97, 108, 98, 99]) (ex_rings none none [108, 98, 99])
    ex_rings_h1 ex_rings_h2 0 1 2 [98, 99]
    rfl ⟨rfl, rfl⟩ rfl rfl rfl
    rfl rfl rfl rfl
    rfl rfl rfl rfl
    (ex_rings none (some 2) [97]) (ex_rings none (some 2) []) 0 2 rfl rfl rfl rfl rfl
    (ex_rings (some 2) none [97]) (ex_rings (some 2) none []) 0 2 rfl rfl rfl rfl rfl

/-! ## Properties: search -/

theorem deref_next (key : List Nat) (hk : ∀ b ∈ key, 0 < b) (i : Nat) (h : i < key.length) :
    ∃ n, deref key (i + 1) = some n ∧ (if n = 0 then 0 else i + 1) = (i + 1) % key.length := by
  unfold deref
  by_cases h1 : i + 1 < key.length
  · refine ⟨key[i + 1], by rw [List.getElem?_append_left h1, List.getElem?_eq_getElem h1], ?_⟩
    have hpos : 0 < key[i + 1] := hk _ (List.getElem_mem h1)
    rw [if_neg (by omega), Nat.mod_eq_of_lt h1]
  · have h2 : i + 1 = key.length := by omega
    refine ⟨0, ?_, ?_⟩
    · rw [h2, List.getElem?_append_right (le_refl _)]
      simp
    · rw [if_pos rfl, h2, Nat.mod_self]

theorem fb_spec_lt (k1 k2 : List Nat) (i : Nat) : fb_spec k1 k2 i < 256 := by
  cases i with
  | zero => simp [fb_spec]
  | succ n => simp only [fb_spec]; exact Nat.mod_lt _ (by norm_num)

theorem xor_lt_256 (a b : Nat) (ha : a < 256) (hb : b < 256) : a ^^^ b < 256 := by
  have h : (256 : Nat) = 2 ^ 8 := by norm_num
  rw [h] at ha hb ⊢
  exact Nat.xor_lt_two_pow ha hb

theorem getD_lt_256 (key : List Nat) (hk : ∀ b ∈ key, b < 256) (i : Nat) :
    key.getD i 0 < 256 := by
  by_cases h : i < key.length
  · rw [List.getD_eq_getElem _ _ h]; exact hk _ (List.getElem_mem h)
  · rw [List.getD_eq_default _ _ (by omega)]; norm_num

theorem encwrite_loop_stream (encstr statlist : List Nat)
    (h1 : 0 < encstr.length) (h2 : 0 < statlist.length)
    (hz1 : ∀ b ∈ encstr, 0 < b) (hz2 : ∀ b ∈ statlist, 0 < b)
    (hb1 : ∀ b ∈ encstr, b < 256) (hb2 : ∀ b ∈ statlist, b < 256) :
    ∀ (data : List Nat) (p : Nat), (∀ b ∈ data, b < 256) →
      ∃ out, encwrite_loop encstr statlist data (p % encstr.length) (p % statlist.length)
          (fb_spec encstr statlist p) = some out ∧
        out.length = data.length ∧
        ∀ j, j < data.length → out.getD j 0 = data.getD j 0
          ^^^ encstr.getD ((p + j) % encstr.length) 0
          ^^^ statlist.getD ((p + j) % statlist.length) 0
          ^^^ fb_spec encstr statlist (p + j) := by
  intro data
  induction data with
  | nil => intro p _; exact ⟨[], rfl, rfl, fun j hj => absurd hj (Nat.not_lt_zero _)⟩
  | cons c rest ih =>
    intro p hb
    have hi1 : p % encstr.length < encstr.length := Nat.mod_lt _ h1
    have hi2 : p % statlist.length < statlist.length := Nat.mod_lt _ h2
    obtain ⟨n1, hn1, hj1⟩ := deref_next encstr hz1 _ hi1
    obtain ⟨n2, hn2, hj2⟩ := deref_next statlist hz2 _ hi2
    rw [Nat.mod_add_mod] at hj1 hj2
    have hrest : ∀ b ∈ rest, b < 256 := fun b hb1 => hb b (List.mem_cons_of_mem _ hb1)
    have hc : c < 256 := hb c (List.mem_cons_self _ _)
    obtain ⟨tl, htl, hlen, hval⟩ := ih (p + 1) hrest
    have hfb : (fb_spec encstr statlist p
        + (encstr.getD (p % encstr.length) 0 * statlist.getD (p % statlist.length) 0) % 256)
          % 256 = fb_spec encstr statlist (p + 1) := by
      rw [Nat.add_mod_mod]; rfl
    have hout : (c ^^^ encstr.getD (p % encstr.length) 0
        ^^^ statlist.getD (p % statlist.length) 0 ^^^ fb_spec encstr statlist p) % 256
        = c ^^^ encstr.getD (p % encstr.length) 0
        ^^^ statlist.getD (p % statlist.length) 0 ^^^ fb_spec encstr statlist p :=
      Nat.mod_eq_of_lt (xor_lt_256 _ _ (xor_lt_256 _ _ (xor_lt_256 _ _ hc
        (getD_lt_256 _ hb1 _)) (getD_lt_256 _ hb2 _)) (fb_spec_lt _ _ _))
    refine ⟨((c ^^^ encstr.getD (p % encstr.length) 0
        ^^^ statlist.getD (p % statlist.length) 0 ^^^ fb_spec encstr statlist p) % 256) :: tl,
      ?_, ?_, ?_⟩
    · simp only [encwrite_loop, deref_lt encstr _ hi1, deref_lt statlist _ hi2, hn1, hn2,
        hj1, hj2, hfb, htl]
    · simp [hlen]
    · intro j hj
      cases j with
      | zero => simp only [List.getD_cons_zero, Nat.add_zero, hout]
      | succ k =>
        have hk : k < rest.length := by simpa using hj
        simp only [List.getD_cons_succ]
        rw [hval k hk, Nat.add_assoc, Nat.add_comm 1 k]

/-- C12. For keys `encstr` (length `n1`) and `statlist` (length `n2`) made of non-zero
bytes and every byte sequence `data`: `encwrite` emits, at every position `i`, the byte
`data[i] XOR encstr[i mod n1] XOR statlist[i mod n2] XOR fb(i)`, where `fb(0) = 0` and
`fb(i+1) = (fb(i) + encstr[i mod n1] * statlist[i mod n2]) mod 256`; the emitted byte
xor the data byte is the keystream byte, which is computed from the keys and the
position alone. -/
theorem encwrite_keystream (encstr statlist data : List Nat)
    (h1 : encstr ≠ []) (h2 : statlist ≠ [])
    (hk1 : ∀ b ∈ encstr, 0 < b ∧ b < 256) (hk2 : ∀ b ∈ statlist, 0 < b ∧ b < 256)
    (hdata : ∀ b ∈ data, b < 256) :
    ∃ out, encwrite encstr statlist data = some (out, data.length) ∧
      out.length = data.length ∧
      ∀ i, i < data.length →
        out.getD i 0 = data.getD i 0 ^^^ encstr.getD (i % encstr.length) 0
          ^^^ statlist.getD (i % statlist.length) 0 ^^^ fb_spec encstr statlist i ∧
        out.getD i 0 ^^^ data.getD i 0 = keystream_spec encstr statlist i := by
  obtain ⟨out, hw, hlen, hval⟩ := encwrite_loop_stream encstr statlist
    (List.length_pos.mpr h1) (List.length_pos.mpr h2)
    (fun b hb => (hk1 b hb).1) (fun b hb => (hk2 b hb).1)
    (fun b hb => (hk1 b hb).2) (fun b hb => (hk2 b hb).2) data 0 hdata
  simp only [Nat.zero_mod, Nat.zero_add, fb_spec] at hw hval
  refine ⟨out, ?_, hlen, ?_⟩
  · simp only [encwrite, hw, hlen]
  · intro i hi
    refine ⟨hval i hi, ?_⟩
    rw [hval i hi, keystream_spec, Nat.xor_assoc (data.getD i 0),
      Nat.xor_assoc (data.getD i 0), Nat.xor_comm (data.getD i 0), Nat.xor_cancel_right,
      Nat.xor_assoc]

theorem encwrite_keystream_witness :
    ∃ out, encwrite [114, 111] [1, 200, 3] [0, 255, 65, 66] = some (out, 4) ∧
      out.length = 4 ∧
      ∀ i, i < 4 →
        out.getD i 0 = [0, 255, 65, 66].getD i 0 ^^^ [114, 111].getD (i % 2) 0
          ^^^ [1, 200, 3].getD (i % 3) 0 ^^^ fb_spec [114, 111] [1, 200, 3] i ∧
        out.getD i 0 ^^^ [0, 255, 65, 66].getD i 0
          = keystream_spec [114, 111] [1, 200, 3] i :=
  encwrite_keystream [114, 111] [1, 200, 3] [0, 255, 65, 66]
    (by decide) (by decide) (by decide) (by decide) (by decide)
/-! ## Properties: the probability tables -/

theorem prefix_sum_zero (info : List obj_info) (e : obj_info) (h : info[0]? = some e) :
    prefix_sum info 0 = e.oi_prob := by
  cases info with
  | nil => simp at h
  | cons a l =>
    simp only [List.getElem?_cons_zero, Option.some.injEq] at h
    simp [prefix_sum, h]

theorem prefix_sum_succ (info : List obj_info) (i : Nat) (e : obj_info)
    (h : info[i + 1]? = some e) :
    prefix_sum info (i + 1) = prefix_sum info i + e.oi_prob := by
  unfold prefix_sum
  rw [List.take_succ, h]
  simp

theorem summed_one (info : List obj_info) (j : Nat) : summed info 1 j = info[j]? := by
  unfold summed
  cases h : info[j]? with
  | none => rfl
  | some e =>
    simp only [Option.map_some']
    by_cases hj : j < 1
    · have h0 : j = 0 := by omega
      subst h0
      rw [if_pos hj, prefix_sum_zero info e h]
    · rw [if_neg hj]

theorem sumprobs_loop_spec (info : List obj_info) :
    ∀ (n i : Nat) (cur : List obj_info), 1 ≤ i → (n ≠ 0 → i + n ≤ info.length) →
      (∀ j, 1 ≤ j → j < i + n → fits_int (prefix_sum info j)) →
      cur.length = info.length → (∀ j, cur[j]? = summed info i j) →
      ∃ out, sumprobs_loop n i cur = some out ∧ out.length = info.length ∧
        ∀ j, out[j]? = summed info (i + n) j := by
  intro n
  induction n with
  | zero => intro i cur _ _ _ hl hc; exact ⟨cur, rfl, hl, hc⟩
  | succ n ih =>
    intro i cur hi hb hfit hl hc
    have hb1 : i + (n + 1) ≤ info.length := hb (Nat.succ_ne_zero n)
    obtain ⟨p, hp⟩ : ∃ p, i = p + 1 := ⟨i - 1, by omega⟩
    subst hp
    have hi1 : p + 1 < info.length := by omega
    have hp1 : p < info.length := by omega
    have hcur : cur[p + 1]? = some (info[p + 1]) := by
      rw [hc, summed, List.getElem?_eq_getElem hi1, Option.map_some', if_neg (lt_irrefl _)]
    have hprev : cur[p]? = some { info[p] with oi_prob := prefix_sum info p } := by
      rw [hc, summed, List.getElem?_eq_getElem hp1, Option.map_some',
        if_pos (Nat.lt_succ_self p)]
    have hs : (info[p + 1]).oi_prob + prefix_sum info p = prefix_sum info (p + 1) := by
      rw [prefix_sum_succ info p _ (List.getElem?_eq_getElem hi1), add_comm]
    have hf : fits_int (prefix_sum info (p + 1)) := hfit (p + 1) (by omega) (by omega)
    obtain ⟨out, ho, hol, hov⟩ := ih (p + 1 + 1)
      (cur.set (p + 1) { info[p + 1] with oi_prob := prefix_sum info (p + 1) })
      (by omega) (fun _ => by omega) (fun j h1 hj => hfit j h1 (by omega))
      (by rw [List.length_set]; exact hl)
      (by
        intro j
        rw [List.getElem?_set]
        by_cases hj : p + 1 = j
        · subst hj
          rw [if_pos rfl, if_pos (by omega), summed, List.getElem?_eq_getElem hi1,
            Option.map_some', if_pos (Nat.lt_succ_self _)]
        · rw [if_neg hj, hc, summed, summed]
          cases info[j]? with
          | none => rfl
          | some e =>
            simp only [Option.map_some']
            by_cases hlt : j < p + 1
            · rw [if_pos hlt, if_pos (by omega)]
            · rw [if_neg hlt, if_neg (by omega)])
    refine ⟨out, ?_, hol, ?_⟩
    · simp only [sumprobs_loop, hcur, Nat.add_sub_cancel, hprev, hs, hf, if_true, ho]
    · intro j
      rw [hov j]
      have e : p + 1 + 1 + n = p + 1 + (n + 1) := by omega
      rw [e]

/-- What `sumprobs` does to a table that has `bound` entries or more, when the running
sums are values of an `int`: it returns, and entry `j` of the result is entry `j` of
the table with, below `bound`, the running sum as its probability. -/
theorem sumprobs_spec (info : List obj_info) (bound : Nat) (hb : bound ≤ info.length)
    (hfit : ∀ i, i < bound → fits_int (prefix_sum info i)) :
    ∃ out, sumprobs info bound = some out ∧ out.length = info.length ∧
      ∀ j, out[j]? = (info[j]?).map
        (fun e => if j < bound then { e with oi_prob := prefix_sum info j } else e) := by
  unfold sumprobs
  obtain ⟨out, ho, hol, hov⟩ := sumprobs_loop_spec info (bound - 1) 1 info (le_refl _)
    (fun _ => by omega) (fun j h1 hj => hfit j (by omega)) rfl
    (fun j => (summed_one info j).symm)
  refine ⟨out, ho, hol, ?_⟩
  intro j
  rw [hov j]
  by_cases h0 : bound = 0
  · subst h0
    rw [show 1 + (0 - 1) = 1 from rfl, summed_one]
    cases info[j]? with
    | none => rfl
    | some e => simp
  · rw [show 1 + (bound - 1) = bound by omega]
    rfl

/-- The table `sumprobs` returns ends at the total of the flat probabilities. -/
theorem sumprobs_last (info : List obj_info) (bound : Nat) (h0 : 0 < bound)
    (hb : bound ≤ info.length) (hfit : ∀ i, i < bound → fits_int (prefix_sum info i)) :
    ∃ out, sumprobs info bound = some out ∧
      last_prob out bound = some (total_prob info bound) := by
  obtain ⟨out, ho, _, hov⟩ := sumprobs_spec info bound hb hfit
  refine ⟨out, ho, ?_⟩
  have hlt : bound - 1 < info.length := by omega
  rw [last_prob, hov, List.getElem?_eq_getElem hlt, Option.map_some', Option.map_some',
    if_pos (by omega), prefix_sum, total_prob, Nat.sub_add_cancel h0]

/-- C11. For every table `info` with at least `bound` entries (the running sums being
values of an `int`), `sumprobs` returns a table of the same length in which entry `i`,
for `i < bound`, is the old entry with its probability replaced by the sum of the
original probabilities of the entries `0 .. i`, every later entry is untouched, and the
last of the `bound` entries holds the total of the flat probabilities.  For every seven
generation tables of the sizes of the game, `init_probs` returns, each table ends at the
total of its flat probabilities, and a table whose flat probabilities total 100 ends at
exactly 100. -/
theorem sumprobs_running_sums (info : List obj_info) (bound : Nat)
    (hb : bound ≤ info.length) (hfit : ∀ i, i < bound → fits_int (prefix_sum info i))
    (t : Tables)
    (ht : ∀ p ∈ t.all, p.2 ≤ p.1.length ∧ ∀ i, i < p.2 → fits_int (prefix_sum p.1 i))
    (k : Nat) (h100 : t.totals[k]? = some 100) :
    (∃ out, sumprobs info bound = some out ∧ out.length = info.length ∧
      (∀ i, i < bound →
        out[i]? = (info[i]?).map (fun e => { e with oi_prob := prefix_sum info i })) ∧
      (∀ i, bound ≤ i → out[i]? = info[i]?) ∧
      (∀ i, i + 1 = bound → (out[i]?).map obj_info.oi_prob = some (total_prob info bound))) ∧
    (∃ t1, init_probs t = some t1 ∧ t1.ends = t.totals.map some ∧
      t1.ends[k]? = some (some 100)) := by
  constructor
  · obtain ⟨out, ho, hol, hov⟩ := sumprobs_spec info bound hb hfit
    refine ⟨out, ho, hol, ?_, ?_, ?_⟩
    · intro i hi
      rw [hov i]
      cases info[i]? with
      | none => rfl
      | some e => simp only [Option.map_some', if_pos hi]
    · intro i hi
      rw [hov i]
      cases info[i]? with
      | none => rfl
      | some e => simp only [Option.map_some', if_neg (not_lt.mpr hi)]
    · intro i hi
      have hlt : i < info.length := by omega
      rw [hov i, List.getElem?_eq_getElem hlt, Option.map_some', Option.map_some',
        if_pos (by omega), prefix_sum, total_prob, hi]
  · have m : ∀ (tab : List obj_info) (b : Nat), (tab, b) ∈ t.all → 0 < b →
        ∃ out, sumprobs tab b = some out ∧
          last_prob out b = some (total_prob tab b) :=
      fun tab b hp h0 => sumprobs_last tab b h0 (ht (tab, b) hp).1 (ht (tab, b) hp).2
    obtain ⟨o1, h1, l1⟩ := m t.things NUMTHINGS (by simp [Tables.all]) (by decide)
    obtain ⟨o2, h2, l2⟩ := m t.pot_info MAXPOTIONS (by simp [Tables.all]) (by decide)
    obtain ⟨o3, h3, l3⟩ := m t.scr_info MAXSCROLLS (by simp [Tables.all]) (by decide)
    obtain ⟨o4, h4, l4⟩ := m t.ring_info MAXRINGS (by simp [Tables.all]) (by decide)
    obtain ⟨o5, h5, l5⟩ := m t.ws_info MAXSTICKS (by simp [Tables.all]) (by decide)
    obtain ⟨o6, h6, l6⟩ := m t.weap_info MAXWEAPONS (by simp [Tables.all]) (by decide)
    obtain ⟨o7, h7, l7⟩ := m t.arm_info MAXARMORS (by simp [Tables.all]) (by decide)
    have e : (Tables.mk o1 o2 o3 o4 o5 o6 o7).ends = t.totals.map some := by
      simp only [Tables.ends, Tables.totals, Tables.all, List.map, l1, l2, l3, l4, l5, l6,
        l7]
    refine ⟨Tables.mk o1 o2 o3 o4 o5 o6 o7, ?_, e, ?_⟩
    · simp only [init_probs, h1, h2, h3, h4, h5, h6, h7]
    · rw [e, List.getElem?_map, h100, Option.map_some']

theorem sumprobs_running_sums_witness :
    (∃ out, sumprobs ex_info 3 = some out ∧ out.length = ex_info.length ∧
      (∀ i, i < 3 →
        out[i]? = (ex_info[i]?).map (fun e => { e with oi_prob := prefix_sum ex_info i })) ∧
      (∀ i, 3 ≤ i → out[i]? = ex_info[i]?) ∧
      (∀ i, i + 1 = 3 → (out[i]?).map obj_info.oi_prob = some (total_prob ex_info 3))) ∧
    (∃ t1, init_probs ex_tables = some t1 ∧ t1.ends = ex_tables.totals.map some ∧
      t1.ends[4]? = some (some 100)) :=
  sumprobs_running_sums ex_info 3 (by decide) (by decide) ex_tables (by decide) 4
    (by decide)
/-! ## Properties: linked lists -/

theorem chain_linked (heap : Nat → THING) :
    ∀ (fuel : Nat) (head : Option Nat) (l : List Nat), chain heap fuel head = some l →
      linked heap head l ∧ l.length ≤ fuel := by
  intro fuel
  induction fuel with
  | zero =>
    intro head l hl
    cases head with
    | none =>
      simp only [chain, Option.some.injEq] at hl
      subst hl
      exact ⟨trivial, le_refl _⟩
    | some a => simp [chain] at hl
  | succ fuel ih =>
    intro head l hl
    cases head with
    | none =>
      simp only [chain, Option.some.injEq] at hl
      subst hl
      exact ⟨trivial, Nat.zero_le _⟩
    | some a =>
      simp only [chain] at hl
      cases hc : chain heap fuel (heap a).l_next with
      | none => rw [hc] at hl; simp at hl
      | some tl =>
        rw [hc] at hl
        simp only [Option.some.injEq] at hl
        subst hl
        obtain ⟨h1, h2⟩ := ih _ tl hc
        exact ⟨⟨rfl, h1⟩, Nat.succ_le_succ h2⟩

theorem linked_chain (heap : Nat → THING) :
    ∀ (l : List Nat) (fuel : Nat) (head : Option Nat), linked heap head l →
      l.length ≤ fuel → chain heap fuel head = some l := by
  intro l
  induction l with
  | nil =>
    intro fuel head hl _
    cases head with
    | none => cases fuel <;> rfl
    | some a => exact absurd hl (by simp [linked])
  | cons b tl ih =>
    intro fuel head hl hf
    cases head with
    | none => exact absurd hl (by simp [linked])
    | some a =>
      obtain ⟨hab, htl⟩ := hl
      subst hab
      cases fuel with
      | zero => simp at hf
      | succ fuel =>
        simp only [chain]
        rw [ih fuel _ htl (by simpa using hf)]

theorem linked_congr (heap heap1 : Nat → THING) :
    ∀ (l : List Nat) (head : Option Nat), linked heap head l →
      (∀ a ∈ l, (heap1 a).l_next = (heap a).l_next) → linked heap1 head l := by
  intro l
  induction l with
  | nil =>
    intro head hl _
    cases head with
    | none => trivial
    | some a => exact absurd hl (by simp [linked])
  | cons b tl ih =>
    intro head hl hs
    cases head with
    | none => exact absurd hl (by simp [linked])
    | some a =>
      obtain ⟨hab, htl⟩ := hl
      subst hab
      refine ⟨rfl, ?_⟩
      rw [hs a (List.mem_cons_self _ _)]
      exact ih _ htl (fun c hc => hs c (List.mem_cons_of_mem _ hc))

theorem linked_head (heap : Nat → THING) (head : Option Nat) (b : Nat) (tl : List Nat)
    (h : linked heap head (b :: tl)) : head = some b ∧ linked heap (heap b).l_next tl := by
  cases head with
  | none => exact absurd h (by simp [linked])
  | some a =>
    obtain ⟨hab, htl⟩ := h
    subst hab
    exact ⟨rfl, htl⟩

theorem linked_nil (heap : Nat → THING) (head : Option Nat) (h : linked heap head []) :
    head = none := by
  cases head with
  | none => rfl
  | some a => exact absurd h (by simp [linked])

theorem linked_suffix (heap : Nat → THING) :
    ∀ (pre : List Nat) (head : Option Nat) (x : Nat) (post : List Nat),
      linked heap head (pre ++ x :: post) → linked heap (some x) (x :: post) := by
  intro pre
  induction pre with
  | nil =>
    intro head x post h
    obtain ⟨h1, h2⟩ := linked_head heap head x post h
    exact ⟨rfl, h2⟩
  | cons p pre ih =>
    intro head x post h
    obtain ⟨_, h2⟩ := linked_head heap head p _ h
    exact ih _ x post h2

theorem linked_unique (heap : Nat → THING) :
    ∀ (l1 l2 : List Nat) (head : Option Nat), linked heap head l1 → linked heap head l2 →
      l1 = l2 := by
  intro l1
  induction l1 with
  | nil =>
    intro l2 head h1 h2
    have hn := linked_nil heap head h1
    subst hn
    cases l2 with
    | nil => rfl
    | cons b tl => exact absurd h2 (by simp [linked])
  | cons a tl ih =>
    intro l2 head h1 h2
    obtain ⟨hh, ht⟩ := linked_head heap head a tl h1
    subst hh
    cases l2 with
    | nil => exact absurd h2 (by simp [linked])
    | cons b tl2 =>
      obtain ⟨hab, ht2⟩ := h2
      subst hab
      rw [ih tl2 _ ht ht2]

theorem linked_nodup (heap : Nat → THING) :
    ∀ (l : List Nat) (head : Option Nat), linked heap head l → l.Nodup := by
  intro l
  induction l with
  | nil => intro _ _; exact List.nodup_nil
  | cons a tl ih =>
    intro head h
    obtain ⟨hh, ht⟩ := linked_head heap head a tl h
    subst hh
    refine List.nodup_cons.mpr ⟨?_, ih _ ht⟩
    intro hmem
    obtain ⟨pre, post, hsplit⟩ := List.append_of_mem hmem
    have hs : linked heap (some a) (a :: post) := by
      rw [hsplit] at ht
      exact linked_suffix heap pre _ a post ht
    have hw : linked heap (some a) (a :: tl) := ⟨rfl, ht⟩
    have e := linked_unique heap _ _ _ hs hw
    have hlen := congrArg List.length e
    rw [hsplit] at hlen
    simp at hlen
    omega

/-- Taking a node out of a linked list: the node before it, if any, is linked to the node
behind it (or the head moves on), and every other link is kept. -/
theorem linked_remove (heap heap1 : Nat → THING) (obj : Nat) (post : List Nat) :
    ∀ (pre : List Nat) (head : Option Nat), linked heap head (pre ++ obj :: post) →
      (∀ p, pre.getLast? = some p → (heap1 p).l_next = (heap obj).l_next) →
      (∀ a ∈ pre ++ post, pre.getLast? ≠ some a → (heap1 a).l_next = (heap a).l_next) →
      linked heap1 (if pre = [] then (heap obj).l_next else head) (pre ++ post) := by
  intro pre
  induction pre with
  | nil =>
    intro head h _ hsame
    obtain ⟨_, ht⟩ := linked_head heap head obj post h
    rw [if_pos rfl, List.nil_append]
    exact linked_congr heap heap1 post _ ht
      (fun a ha => hsame a (by simpa using ha) (by simp))
  | cons p pre ih =>
    intro head h hlast hsame
    have hnd := linked_nodup heap _ _ h
    obtain ⟨hh, ht⟩ := linked_head heap head p _ h
    subst hh
    rw [if_neg (List.cons_ne_nil _ _), List.cons_append]
    refine ⟨rfl, ?_⟩
    cases pre with
    | nil =>
      rw [hlast p rfl, List.nil_append]
      obtain ⟨_, hpost⟩ := linked_head heap _ obj post ht
      apply linked_congr heap heap1 post _ hpost
      intro a ha
      apply hsame a (by simp [ha])
      intro e
      simp only [List.getLast?_singleton, Option.some.injEq] at e
      subst e
      rw [List.cons_append, List.nil_append] at hnd
      have := (List.nodup_cons.mp hnd).1
      exact this (List.mem_cons_of_mem _ ha)
    | cons q pre =>
      have hp : (heap1 p).l_next = (heap p).l_next := by
        apply hsame p (by simp)
        intro e
        rw [List.getLast?_cons_cons] at e
        have hmem : p ∈ q :: pre := List.mem_of_getLast?_eq_some e
        rw [List.cons_append] at hnd
        exact (List.nodup_cons.mp hnd).1 (List.mem_append_left _ hmem)
      rw [hp]
      have := ih (heap p).l_next ht
        (fun x hx => hlast x (by rw [List.getLast?_cons_cons]; exact hx))
        (fun a ha hne => hsame a (by
            rw [List.cons_append]; exact List.mem_cons_of_mem _ ha)
          (by rw [List.getLast?_cons_cons]; exact hne))
      rw [if_neg (List.cons_ne_nil _ _)] at this
      exact this

/-- Linking a node in behind the last node of a linked list. -/
theorem linked_append (heap heap1 : Nat → THING) (obj lp : Nat) :
    ∀ (pre : List Nat) (head : Option Nat), linked heap head (pre ++ [lp]) →
      (heap1 lp).l_next = some obj → (heap1 obj).l_next = none →
      (∀ a ∈ pre, (heap1 a).l_next = (heap a).l_next) →
      linked heap1 head (pre ++ [lp] ++ [obj]) := by
  intro pre
  induction pre with
  | nil =>
    intro head h h1 h2 _
    obtain ⟨hh, _⟩ := linked_head heap head lp [] h
    subst hh
    refine ⟨rfl, ?_⟩
    rw [h1]
    refine ⟨rfl, ?_⟩
    rw [h2]
    trivial
  | cons p pre ih =>
    intro head h h1 h2 hsame
    obtain ⟨hh, ht⟩ := linked_head heap head p _ h
    subst hh
    refine ⟨rfl, ?_⟩
    rw [hsame p (List.mem_cons_self _ _)]
    exact ih _ ht h1 h2 (fun a ha => hsame a (List.mem_cons_of_mem _ ha))

theorem detach_links (heap : Nat → THING) (list : Option Nat) (item a : Nat) :
    (_detach heap list item).1 = (if list = some item then (heap item).l_next else list) ∧
    ((_detach heap list item).2 a).l_next =
      (if a = item then none
       else if (heap item).l_prev = some a then (heap item).l_next
       else (heap a).l_next) ∧
    ((_detach heap list item).2 a).o_count = (heap a).o_count ∧
    ((_detach heap list item).2 a).o_packch = (heap a).o_packch := by
  unfold _detach
  refine ⟨rfl, ?_, ?_, ?_⟩
  · cases hp : (heap item).l_prev <;> cases hn : (heap item).l_next <;>
      simp only [Function.update_apply] <;> split_ifs <;> simp_all
  · cases (heap item).l_prev <;> cases (heap item).l_next <;>
      simp only [Function.update_apply] <;> split_ifs <;> subst_vars <;> rfl
  · cases (heap item).l_prev <;> cases (heap item).l_next <;>
      simp only [Function.update_apply] <;> split_ifs <;> subst_vars <;> rfl
/-! ## Properties: pack letters and leaving the pack -/

/-- C16. Whenever at least one of the 26 slots of `pack_used` is unused, `pack_char`
returns the letter `a + i` for the lowest index `i` whose slot is unused (slot `i` is
unused and every slot below it is used), marks that slot used, leaves every other slot
as it was, and changes nothing else. -/
theorem pack_char_lowest (g : Game) (hlen : g.pack_used.length = 26)
    (hfree : false ∈ g.pack_used) :
    ∃ i g1, pack_char g = some (97 + i, g1) ∧ i < 26 ∧
      g.pack_used[i]? = some false ∧ (∀ j, j < i → g.pack_used[j]? = some true) ∧
      g1.pack_used[i]? = some true ∧
      (∀ j, j ≠ i → g1.pack_used[j]? = g.pack_used[j]?) ∧
      g1.pack_used.length = 26 ∧
      g1 = { g with pack_used := g1.pack_used } := by
  have hex : ∃ x ∈ g.pack_used, (fun b => !b) x = true := ⟨false, hfree, rfl⟩
  have hi : g.pack_used.findIdx (fun b => !b) < g.pack_used.length :=
    List.findIdx_lt_length_of_exists hex
  have hat : (!(g.pack_used[g.pack_used.findIdx (fun b => !b)])) = true :=
    @List.findIdx_getElem _ _ _ hi
  refine ⟨g.pack_used.findIdx (fun b => !b),
    { g with pack_used := g.pack_used.set (g.pack_used.findIdx (fun b => !b)) true },
    ?_, by omega, ?_, ?_, ?_, ?_, ?_, rfl⟩
  · simp only [pack_char, hi, if_true, Nat.add_comm]
  · rw [List.getElem?_eq_getElem hi]
    simpa using hat
  · intro j hj
    have hjl : j < g.pack_used.length := by omega
    have hn := List.not_of_lt_findIdx hj
    rw [List.getElem?_eq_getElem hjl]
    simpa using hn
  · simp only [List.getElem?_set, if_pos hi, if_true]
  · intro j hj
    simp only [List.getElem?_set, if_neg (Ne.symm hj)]
  · simp only [List.length_set, hlen]

theorem pack_char_lowest_witness :
    ∃ i g1, pack_char ex_letters = some (97 + i, g1) ∧ i < 26 ∧
      ex_letters.pack_used[i]? = some false ∧
      (∀ j, j < i → ex_letters.pack_used[j]? = some true) ∧
      g1.pack_used[i]? = some true ∧
      (∀ j, j ≠ i → g1.pack_used[j]? = ex_letters.pack_used[j]?) ∧
      g1.pack_used.length = 26 ∧
      g1 = { ex_letters with pack_used := g1.pack_used } :=
  pack_char_lowest ex_letters (by decide) (by decide)

theorem leave_one_fields (obj : Nat) (g : Game) :
    (leave_one obj g).heap = Function.update g.heap obj
      { g.heap obj with o_count := (g.heap obj).o_count - 1 } ∧
    (leave_one obj g).nthings = g.nthings ∧ (leave_one obj g).pack = g.pack ∧
    (leave_one obj g).pack_used = g.pack_used ∧
    (leave_one obj g).last_pick = some obj ∧
    (leave_one obj g).inpack
      = (if (g.heap obj).o_group ≠ 0 then g.inpack + 1 else g.inpack) := by
  unfold leave_one
  simp only [Game.poke, Function.update_same]
  split_ifs <;> exact ⟨rfl, rfl, rfl, rfl, rfl, rfl⟩

theorem copy_item_fields (obj : Nat) (g : Game) :
    (copy_item obj g).1 = g.nthings ∧
    (copy_item obj g).2.heap = Function.update g.heap g.nthings
      (if obj = g.nthings then { THING.zero with o_count := 1 }
       else { g.heap obj with o_count := 1, l_next := none, l_prev := none }) ∧
    (copy_item obj g).2.nthings = g.nthings + 1 ∧ (copy_item obj g).2.pack = g.pack ∧
    (copy_item obj g).2.pack_used = g.pack_used ∧
    (copy_item obj g).2.last_pick = g.last_pick ∧
    (copy_item obj g).2.inpack = g.inpack := by
  unfold copy_item new_item
  simp only [Game.poke, Function.update_same, Function.update_idem]
  refine ⟨trivial, ?_, trivial, trivial, trivial, trivial, trivial⟩
  by_cases e : obj = g.nthings
  · subst e
    simp only [Function.update_same, if_true]
    rfl
  · simp only [Function.update_noteq e, if_neg e]

theorem chain_update (g : Game) (l : List Nat) (heap1 : Nat → THING) (fuel : Nat)
    (hl : chain g.heap g.nthings g.pack = some l) (hf : g.nthings ≤ fuel)
    (hsame : ∀ a ∈ l, (heap1 a).l_next = (g.heap a).l_next) :
    chain heap1 fuel g.pack = some l := by
  obtain ⟨hlk, hlen⟩ := chain_linked _ _ _ _ hl
  exact linked_chain _ _ _ _ (linked_congr g.heap heap1 l _ hlk hsame) (by omega)

/-- One piece of a stack leaves the pack. -/
theorem leave_pack_keep (g : Game) (obj : Nat) (newobj : Bool) (l : List Nat)
    (hc : (g.heap obj).o_count > 1)
    (hl : chain g.heap g.nthings g.pack = some l) (hin : obj ∈ l)
    (halloc : ∀ a ∈ l, a < g.nthings) :
    ∃ nobj g1, leave_pack obj newobj false g = some (nobj, g1) ∧
      (g1.heap obj).o_count = (g.heap obj).o_count - 1 ∧
      (g1.heap obj).o_packch = (g.heap obj).o_packch ∧
      chain g1.heap g1.nthings g1.pack = some l ∧ g1.pack_used = g.pack_used ∧
      g1.last_pick = some obj ∧
      g1.inpack = (if (g.heap obj).o_group ≠ 0 then g.inpack else g.inpack - 1) ∧
      nobj = (if newobj then g.nthings else obj) ∧
      g1.heap nobj =
        (if newobj then
          { g.heap obj with o_count := 1, l_next := none, l_prev := none }
         else { g.heap obj with o_count := (g.heap obj).o_count - 1 }) := by
  have hne : obj ≠ g.nthings := fun e => absurd (halloc obj hin) (by omega)
  have hcond : (g.heap obj).o_count > 1 ∧ (!false) = true := ⟨hc, rfl⟩
  obtain ⟨f1, f2, f3, f4, f5, f6⟩ := leave_one_fields obj { g with inpack := g.inpack - 1 }
  have hin2 : (leave_one obj { g with inpack := g.inpack - 1 }).inpack
      = (if (g.heap obj).o_group ≠ 0 then g.inpack else g.inpack - 1) := by
    rw [f6]
    split_ifs
    · show g.inpack - 1 + 1 = g.inpack
      omega
    · rfl
  have hch1 : chain (leave_one obj { g with inpack := g.inpack - 1 }).heap g.nthings g.pack
      = some l := by
    apply chain_update g l _ _ hl (le_refl _)
    intro a _
    rw [f1]
    by_cases e : a = obj
    · subst e; simp only [Function.update_same]
    · simp only [Function.update_noteq e]
  cases newobj with
  | false =>
    refine ⟨obj, leave_one obj { g with inpack := g.inpack - 1 }, ?_, ?_⟩
    · simp only [leave_pack, hcond, and_self, if_true, Bool.false_eq_true, if_false]
    · rw [f1, f2, f3, f4, f5, hin2] at *
      simp only [Function.update_same, Bool.false_eq_true, if_false]
      exact ⟨trivial, trivial, hch1, trivial, trivial, trivial, trivial, trivial⟩
  | true =>
    obtain ⟨k1, k2, k3, k4, k5, k6, k7⟩ :=
      copy_item_fields obj (leave_one obj { g with inpack := g.inpack - 1 })
    refine ⟨(copy_item obj (leave_one obj { g with inpack := g.inpack - 1 })).1,
      (copy_item obj (leave_one obj { g with inpack := g.inpack - 1 })).2, ?_, ?_⟩
    · simp only [leave_pack, hcond, and_self, if_true]
    · rw [k1, k2, k3, k4, k5, k6, k7, f2, f3, f4, f5, hin2, f1]
      simp only [if_neg hne, if_true, Function.update_same, Function.update_noteq hne]
      refine ⟨trivial, trivial, ?_, trivial, trivial, trivial, trivial, trivial⟩
      apply chain_update g l _ _ hl (Nat.le_succ _)
      intro a ha
      have e1 : a ≠ g.nthings := fun e => absurd (halloc a ha) (by omega)
      simp only [Function.update_noteq e1]
      by_cases e : a = obj
      · subst e; simp only [Function.update_same]
      · simp only [Function.update_noteq e]

/-- The whole entry leaves the pack. -/
theorem leave_pack_whole (g : Game) (obj : Nat) (newobj all : Bool) (pre post : List Nat)
    (hc : (g.heap obj).o_count ≤ 1 ∨ all = true)
    (hl : chain g.heap g.nthings g.pack = some (pre ++ obj :: post))
    (hprev : (g.heap obj).l_prev = pre.getLast?)
    (hch : 97 ≤ (g.heap obj).o_packch ∧ (g.heap obj).o_packch < 97 + 26)
    (hlen : g.pack_used.length = 26) :
    ∃ g1, leave_pack obj newobj all g = some (obj, g1) ∧
      chain g1.heap g1.nthings g1.pack = some (pre ++ post) ∧
      (g1.heap obj).l_next = none ∧
      g1.pack_used = g.pack_used.set ((g.heap obj).o_packch - 97) false ∧
      g1.pack_used[(g.heap obj).o_packch - 97]? = some false ∧
      g1.last_pick = none ∧ g1.inpack = g.inpack - 1 ∧
      (g1.heap obj).o_count = (g.heap obj).o_count ∧
      (g1.heap obj).o_packch = (g.heap obj).o_packch := by
  obtain ⟨hlk, hfuel⟩ := chain_linked _ _ _ _ hl
  have hnd := linked_nodup _ _ _ hlk
  have hcond : ¬ ((g.heap obj).o_count > 1 ∧ (!all) = true) := by
    intro h
    rcases hc with h1 | h1
    · omega
    · rw [h1] at h; exact Bool.noConfusion h.2
  have hrange : ¬ ((g.heap obj).o_packch < 97 ∨ 97 + g.pack_used.length ≤ (g.heap obj).o_packch) := by
    omega
  have hobj_pre : obj ∉ pre := by
    intro h
    have := List.nodup_append.mp hnd
    exact this.2.2 h (List.mem_cons_self _ _)
  have hd := fun a => detach_links g.heap g.pack obj a
  obtain ⟨g2, hall, e1, e2, e3, e4, e5, e6⟩ : ∃ g2,
      leave_all obj { g with inpack := g.inpack - 1 } = some g2 ∧
      g2.heap = (_detach g.heap g.pack obj).2 ∧ g2.pack = (_detach g.heap g.pack obj).1 ∧
      g2.pack_used = g.pack_used.set ((g.heap obj).o_packch - 97) false ∧
      g2.last_pick = none ∧ g2.inpack = g.inpack - 1 ∧ g2.nthings = g.nthings := by
    have hall : leave_all obj { g with inpack := g.inpack - 1 }
        = some { g with
            inpack := g.inpack - 1
            last_pick := none
            pack_used := g.pack_used.set ((g.heap obj).o_packch - 97) false
            heap := (_detach g.heap g.pack obj).2
            pack := (_detach g.heap g.pack obj).1 } := by
      simp only [leave_all, hrange, if_false]
    exact ⟨_, hall, rfl, rfl, rfl, rfl, rfl, rfl⟩
  refine ⟨g2, by simp only [leave_pack, hcond, if_false, hall], ?_, ?_, e3, ?_, e4, e5, ?_, ?_⟩
  · rw [e1, e2, e6]
    apply linked_chain
    · rw [(hd obj).1]
      have hhead : (if g.pack = some obj then (g.heap obj).l_next else g.pack)
          = (if pre = [] then (g.heap obj).l_next else g.pack) := by
        cases pre with
        | nil =>
          obtain ⟨hh, _⟩ := linked_head _ _ _ _ hlk
          rw [if_pos hh, if_pos rfl]
        | cons p pre =>
          obtain ⟨hh, _⟩ := linked_head _ _ _ _ hlk
          have hpo : p ≠ obj := by
            intro e
            apply hobj_pre
            rw [e]
            exact List.mem_cons_self _ _
          rw [hh, if_neg (by simpa using hpo), if_neg (List.cons_ne_nil _ _)]
      rw [hhead]
      apply linked_remove g.heap _ obj post pre g.pack hlk
      · intro p hp
        have hpo : p ≠ obj := fun e => hobj_pre (e ▸ List.mem_of_getLast?_eq_some hp)
        rw [(hd p).2.1, if_neg hpo, hprev, if_pos hp]
      · intro a ha hne
        have hao : a ≠ obj := by
          intro e
          subst e
          rcases List.mem_append.mp ha with h | h
          · exact hobj_pre h
          · have := List.nodup_append.mp hnd
            exact (List.nodup_cons.mp this.2.1).1 h
        rw [(hd a).2.1, if_neg hao, hprev, if_neg hne]
    · have : (pre ++ post).length ≤ (pre ++ obj :: post).length := by simp
      omega
  · rw [e1, (hd obj).2.1, if_pos rfl]
  · rw [e3, List.getElem?_set, if_pos rfl, if_pos (by omega)]
  · rw [e1]; exact (hd obj).2.2.1
  · rw [e1]; exact (hd obj).2.2.2

/-- C15. `leave_pack(obj, newobj, all)` for an entry `obj` of the pack.  When the count of
`obj` is greater than 1 and `all` is false: the count drops by exactly 1, the pack list
and the table of letters are as before (so `obj` stays in the pack with its letter
marked used), `last_pick` is `obj`, `inpack` drops by 1, or is unchanged when `obj` has a
group id, and the item returned is `obj` itself or, with `newobj`, a new object that is
a copy of `obj` with count 1 and no list links.  Otherwise (the count is at most 1, or
`all` is true) `obj` is returned, it is detached from the pack list and has no successor
any more, its slot of `pack_used` is cleared, `last_pick` is `NULL` and `inpack` drops
by 1. -/
theorem leave_pack_contract
    (g1 : Game) (obj1 : Nat) (newobj : Bool) (l1 : List Nat)
    (hc1 : (g1.heap obj1).o_count > 1)
    (hl1 : chain g1.heap g1.nthings g1.pack = some l1) (hin1 : obj1 ∈ l1)
    (halloc1 : ∀ a ∈ l1, a < g1.nthings)
    (g2 : Game) (obj2 : Nat) (nw all : Bool) (pre post : List Nat)
    (hc2 : (g2.heap obj2).o_count ≤ 1 ∨ all = true)
    (hl2 : chain g2.heap g2.nthings g2.pack = some (pre ++ obj2 :: post))
    (hprev : (g2.heap obj2).l_prev = pre.getLast?)
    (hch : 97 ≤ (g2.heap obj2).o_packch ∧ (g2.heap obj2).o_packch < 97 + 26)
    (hlen : g2.pack_used.length = 26) :
    (∃ nobj g, leave_pack obj1 newobj false g1 = some (nobj, g) ∧
      (g.heap obj1).o_count = (g1.heap obj1).o_count - 1 ∧
      (g.heap obj1).o_packch = (g1.heap obj1).o_packch ∧
      chain g.heap g.nthings g.pack = some l1 ∧ g.pack_used = g1.pack_used ∧
      g.last_pick = some obj1 ∧
      g.inpack = (if (g1.heap obj1).o_group ≠ 0 then g1.inpack else g1.inpack - 1) ∧
      nobj = (if newobj then g1.nthings else obj1) ∧
      g.heap nobj =
        (if newobj then
          { g1.heap obj1 with o_count := 1, l_next := none, l_prev := none }
         else { g1.heap obj1 with o_count := (g1.heap obj1).o_count - 1 })) ∧
    (∃ g, leave_pack obj2 nw all g2 = some (obj2, g) ∧
      chain g.heap g.nthings g.pack = some (pre ++ post) ∧
      (g.heap obj2).l_next = none ∧
      g.pack_used = g2.pack_used.set ((g2.heap obj2).o_packch - 97) false ∧
      g.pack_used[(g2.heap obj2).o_packch - 97]? = some false ∧
      g.last_pick = none ∧ g.inpack = g2.inpack - 1 ∧
      (g.heap obj2).o_count = (g2.heap obj2).o_count ∧
      (g.heap obj2).o_packch = (g2.heap obj2).o_packch) :=
  ⟨leave_pack_keep g1 obj1 newobj l1 hc1 hl1 hin1 halloc1,
   leave_pack_whole g2 obj2 nw all pre post hc2 hl2 hprev hch hlen⟩

theorem leave_pack_contract_witness :
    (∃ nobj g, leave_pack 1 true false ex_stacks = some (nobj, g) ∧
      (g.heap 1).o_count = (ex_stacks.heap 1).o_count - 1 ∧
      (g.heap 1).o_packch = (ex_stacks.heap 1).o_packch ∧
      chain g.heap g.nthings g.pack = some [0, 1] ∧ g.pack_used = ex_stacks.pack_used ∧
      g.last_pick = some 1 ∧
      g.inpack = (if (ex_stacks.heap 1).o_group ≠ 0 then ex_stacks.inpack
        else ex_stacks.inpack - 1) ∧
      nobj = (if true then ex_stacks.nthings else 1) ∧
      g.heap nobj =
        (if true then
          { ex_stacks.heap 1 with o_count := 1, l_next := none, l_prev := none }
         else { ex_stacks.heap 1 with o_count := (ex_stacks.heap 1).o_count - 1 })) ∧
    (∃ g, leave_pack 1 false false (ex_rings none none []) = some (1, g) ∧
      chain g.heap g.nthings g.pack = some ([0] ++ [2]) ∧
      (g.heap 1).l_next = none ∧
      g.pack_used = (ex_rings none none []).pack_used.set
        (((ex_rings none none []).heap 1).o_packch - 97) false ∧
      g.pack_used[((ex_rings none none []).heap 1).o_packch - 97]? = some false ∧
      g.last_pick = none ∧ g.inpack = (ex_rings none none []).inpack - 1 ∧
      (g.heap 1).o_count = ((ex_rings none none []).heap 1).o_count ∧
      (g.heap 1).o_packch = ((ex_rings none none []).heap 1).o_packch) :=
  leave_pack_contract ex_stacks 1 true [0, 1] (by decide) (by decide) (by decide)
    (by decide) (ex_rings none none []) 1 false false [0] [2] (by decide) (by decide)
    (by decide) (by decide) (by decide)
/-! ## Properties: the food a ring uses -/

theorem which_cases (w : Int) (h : 0 ≤ w ∧ w < 14) :
    w = 0 ∨ w = 1 ∨ w = 2 ∨ w = 3 ∨ w = 4 ∨ w = 5 ∨ w = 6 ∨ w = 7 ∨ w = 8 ∨ w = 9 ∨
      w = 10 ∨ w = 11 ∨ w = 12 ∨ w = 13 := by
  omega

theorem ring_eat_uses_vals :
    ring_eat_uses.getD (Int.toNat 0) 0 = 1 ∧ ring_eat_uses.getD (Int.toNat 1) 0 = 1 ∧
    ring_eat_uses.getD (Int.toNat 2) 0 = 1 ∧ ring_eat_uses.getD (Int.toNat 3) 0 = -3 ∧
    ring_eat_uses.getD (Int.toNat 4) 0 = -5 ∧ ring_eat_uses.getD (Int.toNat 5) 0 = 0 ∧
    ring_eat_uses.getD (Int.toNat 6) 0 = 0 ∧ ring_eat_uses.getD (Int.toNat 7) 0 = -3 ∧
    ring_eat_uses.getD (Int.toNat 8) 0 = -3 ∧ ring_eat_uses.getD (Int.toNat 9) 0 = 2 ∧
    ring_eat_uses.getD (Int.toNat 10) 0 = -2 ∧ ring_eat_uses.getD (Int.toNat 11) 0 = 0 ∧
    ring_eat_uses.getD (Int.toNat 12) 0 = 1 ∧ ring_eat_uses.getD (Int.toNat 13) 0 = 1 := by
  decide

/-- The value of `ring_eat` for a ring of a known kind: the table value when that is not
negative, and else the 0/1 draw, negated for the digestion ring. -/
theorem ring_eat_value (g : Game) (hand ring : Nat) (hr : g.cur_ring hand = some ring)
    (hk : 0 ≤ (g.heap ring).o_which ∧ (g.heap ring).o_which < 14) :
    ring_eat hand g = some (ring_eat_spec (g.heap ring).o_which (fun n => (rnd n g).1),
      if 0 ≤ ring_eat_uses.getD (g.heap ring).o_which.toNat 0 then g
      else (rnd (-(ring_eat_uses.getD (g.heap ring).o_which.toNat 0)).toNat g).2) ∧
    (0 ≤ ring_eat_uses.getD (g.heap ring).o_which.toNat 0 →
      ring_eat_spec (g.heap ring).o_which (fun n => (rnd n g).1)
        = ring_eat_uses.getD (g.heap ring).o_which.toNat 0) ∧
    -1 ≤ ring_eat_spec (g.heap ring).o_which (fun n => (rnd n g).1) ∧
    ring_eat_spec (g.heap ring).o_which (fun n => (rnd n g).1) ≤ 2 := by
  rcases which_cases _ hk with h | h | h | h | h | h | h | h | h | h | h | h | h | h <;>
    simp only [ring_eat, hr, h, ring_eat_uses_vals, ring_eat_spec, R_DIGEST] <;>
    norm_num [ring_eat_uses] <;> split_ifs <;> simp_all

/-- For a kind whose table value is not negative the specification's value is that
constant, whatever the draws are. -/
theorem ring_eat_spec_const (w : Int) (hk : 0 ≤ w ∧ w < 14)
    (hv : 0 ≤ ring_eat_uses.getD w.toNat 0) (draw : Nat → Nat) :
    ring_eat_spec w draw = ring_eat_uses.getD w.toNat 0 := by
  rcases which_cases _ hk with h | h | h | h | h | h | h | h | h | h | h | h | h | h <;>
    subst h <;> first | rfl | exact absurd hv (by decide)

/-- C14. `ring_eat(hand)` returns 0 when no ring is worn on that hand.  For a worn ring
whose table value is not negative it returns that constant from every state of the
random generator, without drawing: 1 for protection, add-strength, sustain-strength,
stealth and sustain-armor, 2 for regeneration, 0 for the no-op, aggravate and teleport
rings.  For a negative table value `-n` it returns 1 if `rnd(n) == 0` and 0 otherwise
(`n = 3` for search, add-hit and add-damage, 5 for see-invisible), and for digestion
(`n = 2`) that result negated.  The result always lies between -1 and 2. -/
theorem ring_eat_contract
    (g0 : Game) (hand0 : Nat) (h0 : g0.cur_ring hand0 = none)
    (g1 : Game) (hand1 r1 : Nat) (hr1 : g1.cur_ring hand1 = some r1)
    (hk1 : 0 ≤ (g1.heap r1).o_which ∧ (g1.heap r1).o_which < 14)
    (hv1 : 0 ≤ ring_eat_uses.getD (g1.heap r1).o_which.toNat 0) (s : Nat)
    (g2 : Game) (hand2 r2 : Nat) (hr2 : g2.cur_ring hand2 = some r2)
    (hk2 : 0 ≤ (g2.heap r2).o_which ∧ (g2.heap r2).o_which < 14)
    (hv2 : ring_eat_uses.getD (g2.heap r2).o_which.toNat 0 < 0)
    (g3 : Game) (hand3 : Nat) (hok : ring_kind_ok g3 hand3) :
    ring_eat hand0 g0 = some (0, g0) ∧
    (ring_eat hand1 { g1 with seed := s }
        = some (ring_eat_uses.getD (g1.heap r1).o_which.toNat 0, { g1 with seed := s }) ∧
      ∀ draw, ring_eat_spec (g1.heap r1).o_which draw
        = ring_eat_uses.getD (g1.heap r1).o_which.toNat 0) ∧
    ring_eat hand2 g2
      = some (ring_eat_spec (g2.heap r2).o_which (fun n => (rnd n g2).1),
          (rnd (-(ring_eat_uses.getD (g2.heap r2).o_which.toNat 0)).toNat g2).2) ∧
    ∃ v g4, ring_eat hand3 g3 = some (v, g4) ∧ -1 ≤ v ∧ v ≤ 2 := by
  refine ⟨?_, ⟨?_, ?_⟩, ?_, ?_⟩
  · simp only [ring_eat, h0]
  · have h := (ring_eat_value { g1 with seed := s } hand1 r1 hr1 hk1).1
    rw [if_pos hv1] at h
    rw [h, ring_eat_spec_const _ hk1 hv1]
  · exact ring_eat_spec_const _ hk1 hv1
  · have h := (ring_eat_value g2 hand2 r2 hr2 hk2).1
    rw [if_neg (not_le.mpr hv2)] at h
    exact h
  · cases hr : g3.cur_ring hand3 with
    | none => exact ⟨0, g3, by simp only [ring_eat, hr], by decide, by decide⟩
    | some r =>
      have h := ring_eat_value g3 hand3 r hr (hok r hr)
      exact ⟨_, _, h.1, h.2.2.1, h.2.2.2⟩

theorem ring_eat_contract_witness :
    ring_eat 0 (ex_rings none (some 1) []) = some (0, ex_rings none (some 1) []) ∧
    (ring_eat 0 { ex_rings (some 2) (some 1) [] with seed := 7 }
        = some (ring_eat_uses.getD ((ex_rings (some 2) (some 1) []).heap 2).o_which.toNat 0,
            { ex_rings (some 2) (some 1) [] with seed := 7 }) ∧
      ∀ draw, ring_eat_spec ((ex_rings (some 2) (some 1) []).heap 2).o_which draw
        = ring_eat_uses.getD ((ex_rings (some 2) (some 1) []).heap 2).o_which.toNat 0) ∧
    ring_eat 1 (ex_rings (some 2) (some 1) [])
      = some (ring_eat_spec ((ex_rings (some 2) (some 1) []).heap 1).o_which
            (fun n => (rnd n (ex_rings (some 2) (some 1) [])).1),
          (rnd (-(ring_eat_uses.getD
            ((ex_rings (some 2) (some 1) []).heap 1).o_which.toNat 0)).toNat
            (ex_rings (some 2) (some 1) [])).2) ∧
    ∃ v g4, ring_eat 1 (ex_rings (some 2) (some 1) []) = some (v, g4) ∧ -1 ≤ v ∧ v ≤ 2 :=
  ring_eat_contract (ex_rings none (some 1) []) 0 rfl
    (ex_rings (some 2) (some 1) []) 0 2 rfl (by decide) (by decide) 7
    (ex_rings (some 2) (some 1) []) 1 1 rfl (by decide) (by decide)
    (ex_rings (some 2) (some 1) []) 1 (fun r h => by cases h; decide)
/-! ## Properties: the healing daemon -/

theorem rnd_stats (n : Nat) (g : Game) (q : Int) :
    (rnd n { g with quiet := q }).1 = (rnd n g).1 ∧
    (rnd n { g with quiet := q }).2.pstats = g.pstats ∧
    (rnd n { g with quiet := q }).2.quiet = q ∧
    (rnd n { g with quiet := q }).2.heap = g.heap ∧
    (rnd n { g with quiet := q }).2.cur_ring = g.cur_ring := by
  simp only [rnd, RN]
  exact ⟨trivial, trivial, trivial, trivial, trivial⟩

theorem doctor_rest_fields (g : Game) :
    (doctor_rest { g with quiet := g.quiet + 1 }).pstats.s_hpt
      = g.pstats.s_hpt + doctor_h g ∧
    (doctor_rest { g with quiet := g.quiet + 1 }).pstats.s_maxhp = g.pstats.s_maxhp ∧
    (doctor_rest { g with quiet := g.quiet + 1 }).heap = g.heap ∧
    (doctor_rest { g with quiet := g.quiet + 1 }).cur_ring = g.cur_ring ∧
    (doctor_rest { g with quiet := g.quiet + 1 }).quiet = g.quiet + 1 := by
  unfold doctor_rest doctor_h
  simp only []
  by_cases h8 : g.pstats.s_lvl < 8
  · by_cases hq : g.quiet + 1 + g.pstats.s_lvl * 2 > 20
    · have hq2 : g.quiet + 1 + 2 * g.pstats.s_lvl > 20 := by omega
      rw [if_pos h8, if_pos hq, if_pos ⟨h8, hq2⟩]
      exact ⟨rfl, rfl, rfl, rfl, rfl⟩
    · have hq2 : ¬ (g.pstats.s_lvl < 8 ∧ g.quiet + 1 + 2 * g.pstats.s_lvl > 20) := by omega
      have h3 : ¬ (g.pstats.s_lvl ≥ 8 ∧ g.quiet + 1 ≥ 3) := by omega
      rw [if_pos h8, if_neg hq, if_neg hq2, if_neg h3, add_zero]
      exact ⟨rfl, rfl, rfl, rfl, rfl⟩
  · have hq2 : ¬ (g.pstats.s_lvl < 8 ∧ g.quiet + 1 + 2 * g.pstats.s_lvl > 20) := by omega
    by_cases hq : g.quiet + 1 ≥ 3
    · have h3 : g.pstats.s_lvl ≥ 8 ∧ g.quiet + 1 ≥ 3 := by omega
      obtain ⟨r1, r2, r3, r4, r5⟩ := rnd_stats (g.pstats.s_lvl - 7).toNat g (g.quiet + 1)
      rw [if_neg h8, if_pos hq, if_neg hq2, if_pos h3]
      simp only [heal, r1, r2, r3, r4, r5]
      exact ⟨trivial, trivial, trivial, trivial, trivial⟩
    · have h3 : ¬ (g.pstats.s_lvl ≥ 8 ∧ g.quiet + 1 ≥ 3) := by omega
      rw [if_neg h8, if_neg hq, if_neg hq2, if_neg h3, add_zero]
      exact ⟨rfl, rfl, rfl, rfl, rfl⟩

theorem doctor_h_nonneg (g : Game) : 0 ≤ doctor_h g := by
  unfold doctor_h
  simp only
  split_ifs
  · decide
  · omega
  · decide

theorem ISRING_congr (g g1 : Game) (hh : g1.heap = g.heap) (hc : g1.cur_ring = g.cur_ring)
    (h : Nat) (r : Int) : ISRING g1 h r = ISRING g h r := by
  simp only [ISRING, hh, hc]

theorem doctor_rings_fields (g2 : Game) :
    (doctor_rings g2).pstats.s_hpt = g2.pstats.s_hpt + doctor_r g2 ∧
    (doctor_rings g2).pstats.s_maxhp = g2.pstats.s_maxhp ∧
    (doctor_rings g2).quiet = g2.quiet := by
  unfold doctor_rings doctor_r
  simp only []
  by_cases hl : ISRING g2 LEFT R_REGEN = true
  · rw [if_pos hl, if_pos hl]
    have e : ISRING (heal 1 g2) RIGHT R_REGEN = ISRING g2 RIGHT R_REGEN := rfl
    rw [e]
    by_cases hr : ISRING g2 RIGHT R_REGEN = true
    · rw [if_pos hr, if_pos hr]
      exact ⟨by simp only [heal]; omega, rfl, rfl⟩
    · rw [if_neg hr, if_neg hr]
      exact ⟨by simp only [heal]; omega, rfl, rfl⟩
  · rw [if_neg hl, if_neg hl]
    by_cases hr : ISRING g2 RIGHT R_REGEN = true
    · rw [if_pos hr, if_pos hr]
      exact ⟨by simp only [heal]; omega, rfl, rfl⟩
    · rw [if_neg hr, if_neg hr]
      exact ⟨by omega, rfl, rfl⟩

theorem doctor_r_nonneg (g : Game) : 0 ≤ doctor_r g := by
  unfold doctor_r
  split_ifs <;> decide

/-- C13. Provided the hit points do not exceed `max_hp` beforehand, one call of `doctor()`
leaves the hit points at `min(max_hp, old + h + r)`, where, with `q` the quiet counter
after its increment, `h` is 1 if the level is below 8 and `q + 2 * level > 20`, is
`rnd(level - 7) + 1` if the level is 8 or more and `q >= 3`, and is 0 otherwise, and `r`
is the number of hands that wear a regeneration ring; `max_hp` is not changed, the hit
points do not exceed it and do not decrease, and `quiet` ends at 0 when `h + r > 0` and
at `q` otherwise. -/
theorem doctor_contract (g : Game) (hle : g.pstats.s_hpt ≤ g.pstats.s_maxhp) :
    (doctor g).pstats.s_hpt
      = min g.pstats.s_maxhp (g.pstats.s_hpt + doctor_h g + doctor_r g) ∧
    (doctor g).pstats.s_maxhp = g.pstats.s_maxhp ∧
    (doctor g).pstats.s_hpt ≤ g.pstats.s_maxhp ∧
    g.pstats.s_hpt ≤ (doctor g).pstats.s_hpt ∧
    (doctor g).quiet = (if doctor_h g + doctor_r g > 0 then 0 else g.quiet + 1) := by
  obtain ⟨f1, f2, f3, f4, f5⟩ := doctor_rest_fields g
  obtain ⟨k1, k2, k3⟩ := doctor_rings_fields (doctor_rest { g with quiet := g.quiet + 1 })
  have er : doctor_r (doctor_rest { g with quiet := g.quiet + 1 }) = doctor_r g := by
    simp only [doctor_r, ISRING_congr g _ f3 f4]
  rw [er, f1] at k1
  rw [f2] at k2
  rw [f5] at k3
  have hh := doctor_h_nonneg g
  have hr := doctor_r_nonneg g
  unfold doctor
  simp only []
  by_cases hc : g.pstats.s_hpt
      ≠ (doctor_rings (doctor_rest { g with quiet := g.quiet + 1 })).pstats.s_hpt
  · rw [if_pos hc]
    have hpos : doctor_h g + doctor_r g > 0 := by
      rw [k1] at hc
      omega
    rw [if_pos hpos]
    by_cases hm : (doctor_rings (doctor_rest { g with quiet := g.quiet + 1 })).pstats.s_hpt
        > (doctor_rings (doctor_rest { g with quiet := g.quiet + 1 })).pstats.s_maxhp
    · rw [if_pos hm]
      simp only []
      rw [k1, k2] at hm
      rw [k2]
      refine ⟨?_, rfl, le_refl _, hle, trivial⟩
      rw [min_eq_left (by omega)]
    · rw [if_neg hm]
      simp only []
      rw [k1, k2] at hm
      rw [k1, k2]
      refine ⟨?_, rfl, by omega, by omega, trivial⟩
      rw [min_eq_right (by omega)]
  · rw [if_neg hc]
    have hz : doctor_h g + doctor_r g = 0 := by
      rw [k1] at hc
      omega
    have hnp : ¬ doctor_h g + doctor_r g > 0 := by omega
    rw [if_neg hnp, k1, k2, k3]
    refine ⟨?_, rfl, by omega, by omega, rfl⟩
    rw [min_eq_right (by omega)]

theorem doctor_contract_witness :
    (doctor ex_doctor).pstats.s_hpt
      = min ex_doctor.pstats.s_maxhp
          (ex_doctor.pstats.s_hpt + doctor_h ex_doctor + doctor_r ex_doctor) ∧
    (doctor ex_doctor).pstats.s_maxhp = ex_doctor.pstats.s_maxhp ∧
    (doctor ex_doctor).pstats.s_hpt ≤ ex_doctor.pstats.s_maxhp ∧
    ex_doctor.pstats.s_hpt ≤ (doctor ex_doctor).pstats.s_hpt ∧
    (doctor ex_doctor).quiet
      = (if doctor_h ex_doctor + doctor_r ex_doctor > 0 then 0 else ex_doctor.quiet + 1) :=
  doctor_contract ex_doctor (by decide)
/-! ## Properties: `is_magic` -/

/-- C19. `is_magic(obj)` returns (for armor without `ISPROT`, when `o_which` is an index
of `a_class`), and it is true exactly when `obj` is a potion, scroll, wand or staff, ring
or the amulet, or is armor that has the `ISPROT` flag or whose `o_arm` differs from
`a_class[o_which]`, or is a weapon with a non-zero `o_hplus` or `o_dplus`; it is false
for every other object, in particular for food and gold. -/
theorem is_magic_iff (a_class : List Int) (obj : THING)
    (harm : obj.o_type = ARMOR →
      0 ≤ obj.o_which ∧ obj.o_which < (a_class.length : Int))
    (other : THING) (hother : other.o_type = FOOD ∨ other.o_type = GOLD) :
    (∃ b, is_magic a_class obj = some b ∧ (b = true ↔ is_magic_spec a_class obj)) ∧
    is_magic a_class other = some false := by
  constructor
  · unfold is_magic is_magic_spec
    by_cases ha : obj.o_type = ARMOR
    · have hw := harm ha
      have hin : ¬ (obj.o_which < 0 ∨ (a_class.length : Int) ≤ obj.o_which) := by omega
      rw [if_pos ha]
      by_cases hp : obj.o_flags &&& ISPROT ≠ 0
      · rw [if_pos hp]
        exact ⟨true, rfl, fun _ => Or.inr (Or.inl ⟨ha, Or.inl hp⟩), fun _ => rfl⟩
      · rw [if_neg hp, if_neg hin]
        refine ⟨_, rfl, ?_⟩
        simp only [decide_eq_true_eq, ha]
        constructor
        · intro h; exact Or.inr (Or.inl ⟨trivial, Or.inr h⟩)
        · intro h
          rcases h with h | h | h
          · exact absurd h (by decide)
          · rcases h.2 with h2 | h2
            · exact absurd h2 hp
            · exact h2
          · exact absurd h.1 (by decide)
    · rw [if_neg ha]
      by_cases hwp : obj.o_type = WEAPON
      · rw [if_pos hwp]
        refine ⟨_, rfl, ?_⟩
        simp only [Bool.or_eq_true, decide_eq_true_eq, hwp]
        constructor
        · intro h; exact Or.inr (Or.inr ⟨trivial, h⟩)
        · intro h
          rcases h with h | h | h
          · exact absurd h (by decide)
          · exact absurd h.1 (by decide)
          · exact h.2
      · rw [if_neg hwp]
        by_cases hm : obj.o_type = POTION ∨ obj.o_type = SCROLL ∨ obj.o_type = STICK ∨
            obj.o_type = RING ∨ obj.o_type = AMULET
        · rw [if_pos hm]
          exact ⟨true, rfl, fun _ => Or.inl hm, fun _ => rfl⟩
        · rw [if_neg hm]
          refine ⟨false, rfl, ?_⟩
          constructor
          · intro h; exact absurd h (by decide)
          · intro h
            rcases h with h | h | h
            · exact absurd h hm
            · exact absurd h.1 ha
            · exact absurd h.1 hwp
  · unfold is_magic
    rcases hother with h | h
    · rw [h, if_neg (by decide), if_neg (by decide), if_neg (by decide)]
    · rw [h, if_neg (by decide), if_neg (by decide), if_neg (by decide)]

theorem is_magic_iff_witness :
    (∃ b, is_magic ex_a_class ex_mail = some b ∧
      (b = true ↔ is_magic_spec ex_a_class ex_mail)) ∧
    is_magic ex_a_class ex_ration = some false :=
  is_magic_iff ex_a_class ex_mail (fun _ => by decide) ex_ration (Or.inl rfl)
/-! ## Properties: going down and up a level -/

/-- C18. Let the generator of levels leave the level number alone.  `d_level` raises the
level by exactly 1 if and only if the player is not levitating and stands on a stairs
cell, and then `seenstairs` is cleared before the new level is made; otherwise it
changes nothing.  `u_level` lowers the level by exactly 1 if and only if the player is
not levitating, stands on a stairs cell and carries the amulet; it ends in the winning
ending exactly when moreover the new level is 0; otherwise it changes nothing.  In
particular the level is unchanged whenever the player is levitating. -/
theorem level_change (new_level : Game → Game)
    (hnl : ∀ s, (new_level s).level = s.level) (g : Game)
    (gl : Game) (hlev : levit_check gl = true) :
    (d_level new_level g =
      if levit_check g = false ∧ chat g g.hero.y g.hero.x = STAIRS then
        new_level { g with level := g.level + 1, seenstairs := false }
      else g) ∧
    ((d_level new_level g).level = g.level + 1 ↔
      levit_check g = false ∧ chat g g.hero.y g.hero.x = STAIRS) ∧
    ((d_level new_level g).level =
      if levit_check g = false ∧ chat g g.hero.y g.hero.x = STAIRS then g.level + 1
      else g.level) ∧
    (u_level new_level g =
      if levit_check g = false ∧ chat g g.hero.y g.hero.x = STAIRS ∧ g.amulet = true then
        if g.level - 1 = 0 then Climb.won { g with level := g.level - 1 }
        else Climb.on (new_level { g with level := g.level - 1 })
      else Climb.on g) ∧
    ((u_level new_level g).game.level = g.level - 1 ↔
      levit_check g = false ∧ chat g g.hero.y g.hero.x = STAIRS ∧ g.amulet = true) ∧
    ((u_level new_level g).winner = true ↔
      (levit_check g = false ∧ chat g g.hero.y g.hero.x = STAIRS ∧ g.amulet = true) ∧
        g.level - 1 = 0) ∧
    ((u_level new_level g).game.level =
      if levit_check g = false ∧ chat g g.hero.y g.hero.x = STAIRS ∧ g.amulet = true then
        g.level - 1
      else g.level) ∧
    d_level new_level gl = gl ∧ u_level new_level gl = Climb.on gl := by
  have hd : d_level new_level g =
      if levit_check g = false ∧ chat g g.hero.y g.hero.x = STAIRS then
        new_level { g with level := g.level + 1, seenstairs := false }
      else g := by
    unfold d_level
    by_cases hl : levit_check g = true
    · rw [if_pos hl, if_neg (by rw [hl]; exact fun h => Bool.noConfusion h.1)]
    · have hl2 : levit_check g = false := by simpa using hl
      by_cases hs : chat g g.hero.y g.hero.x = STAIRS
      · rw [if_neg hl, if_neg (not_not.mpr hs), if_pos ⟨hl2, hs⟩]
      · rw [if_neg hl, if_pos hs, if_neg (fun h => hs h.2)]
  have hu : u_level new_level g =
      if levit_check g = false ∧ chat g g.hero.y g.hero.x = STAIRS ∧ g.amulet = true then
        if g.level - 1 = 0 then Climb.won { g with level := g.level - 1 }
        else Climb.on (new_level { g with level := g.level - 1 })
      else Climb.on g := by
    unfold u_level
    by_cases hl : levit_check g = true
    · rw [if_pos hl, if_neg (by rw [hl]; exact fun h => Bool.noConfusion h.1)]
    · have hl2 : levit_check g = false := by simpa using hl
      by_cases hs : chat g g.hero.y g.hero.x = STAIRS
      · by_cases ha : g.amulet = true
        · rw [if_neg hl, if_pos hs, if_pos ha]
          exact (if_pos ⟨hl2, hs, ha⟩).symm
        · rw [if_neg hl, if_pos hs, if_neg ha, if_neg (fun h => ha h.2.2)]
      · rw [if_neg hl, if_neg hs, if_neg (fun h => hs h.2.1)]
  have hdl : (d_level new_level g).level =
      if levit_check g = false ∧ chat g g.hero.y g.hero.x = STAIRS then g.level + 1
      else g.level := by
    rw [hd]
    split_ifs
    · rw [hnl]
    · rfl
  have hul : (u_level new_level g).game.level =
      if levit_check g = false ∧ chat g g.hero.y g.hero.x = STAIRS ∧ g.amulet = true then
        g.level - 1
      else g.level := by
    rw [hu]
    split_ifs
    · rfl
    · simp only [Climb.game]; rw [hnl]
    · rfl
  refine ⟨hd, ?_, hdl, hu, ?_, ?_, hul, ?_, ?_⟩
  · rw [hdl]
    split_ifs with h
    · exact ⟨fun _ => h, fun _ => rfl⟩
    · exact ⟨fun e => absurd e (by omega), fun e => absurd e h⟩
  · rw [hul]
    split_ifs with h
    · exact ⟨fun _ => h, fun _ => rfl⟩
    · exact ⟨fun e => absurd e (by omega), fun e => absurd e h⟩
  · rw [hu]
    split_ifs with h h0
    · exact ⟨fun _ => ⟨h, h0⟩, fun _ => rfl⟩
    · exact ⟨fun e => Bool.noConfusion e, fun e => absurd e.2 h0⟩
    · exact ⟨fun e => Bool.noConfusion e, fun e => absurd e.1 h⟩
  · unfold d_level
    rw [if_pos hlev]
  · unfold u_level
    rw [if_pos hlev]

theorem level_change_witness :
    (d_level ex_new_level ex_stairs =
      if levit_check ex_stairs = false ∧
          chat ex_stairs ex_stairs.hero.y ex_stairs.hero.x = STAIRS then
        ex_new_level { ex_stairs with level := ex_stairs.level + 1, seenstairs := false }
      else ex_stairs) ∧
    ((d_level ex_new_level ex_stairs).level = ex_stairs.level + 1 ↔
      levit_check ex_stairs = false ∧
        chat ex_stairs ex_stairs.hero.y ex_stairs.hero.x = STAIRS) ∧
    ((d_level ex_new_level ex_stairs).level =
      if levit_check ex_stairs = false ∧
          chat ex_stairs ex_stairs.hero.y ex_stairs.hero.x = STAIRS then
        ex_stairs.level + 1
      else ex_stairs.level) ∧
    (u_level ex_new_level ex_stairs =
      if levit_check ex_stairs = false ∧
          chat ex_stairs ex_stairs.hero.y ex_stairs.hero.x = STAIRS ∧
          ex_stairs.amulet = true then
        if ex_stairs.level - 1 = 0 then
          Climb.won { ex_stairs with level := ex_stairs.level - 1 }
        else Climb.on (ex_new_level { ex_stairs with level := ex_stairs.level - 1 })
      else Climb.on ex_stairs) ∧
    ((u_level ex_new_level ex_stairs).game.level = ex_stairs.level - 1 ↔
      levit_check ex_stairs = false ∧
        chat ex_stairs ex_stairs.hero.y ex_stairs.hero.x = STAIRS ∧
        ex_stairs.amulet = true) ∧
    ((u_level ex_new_level ex_stairs).winner = true ↔
      (levit_check ex_stairs = false ∧
        chat ex_stairs ex_stairs.hero.y ex_stairs.hero.x = STAIRS ∧
        ex_stairs.amulet = true) ∧ ex_stairs.level - 1 = 0) ∧
    ((u_level ex_new_level ex_stairs).game.level =
      if levit_check ex_stairs = false ∧
          chat ex_stairs ex_stairs.hero.y ex_stairs.hero.x = STAIRS ∧
          ex_stairs.amulet = true then
        ex_stairs.level - 1
      else ex_stairs.level) ∧
    d_level ex_new_level ex_levit = ex_levit ∧
    u_level ex_new_level ex_levit = Climb.on ex_levit :=
  level_change ex_new_level (fun _ => rfl) ex_stairs ex_levit (by decide)
/-! ## Properties: the repeat count -/

theorem count_loop_stop (keys : List Nat) (t : Nat) (c : Int) (ht : isdigit t = false) :
    count_loop keys t c = some (t, c, keys) := by
  cases keys with
  | nil => simp only [count_loop, ht]; rfl
  | cons k ks => simp only [count_loop, ht]; rfl

theorem isdigit_ge (d : Nat) (h : isdigit d = true) : 48 ≤ d := by
  simp only [isdigit, decide_eq_true_eq] at h
  exact h.1

theorem count_loop_digits (t : Nat) (rest : List Nat) (ht : isdigit t = false) :
    ∀ (ds : List Nat) (d acc : Nat), isdigit d = true → (∀ x ∈ ds, isdigit x = true) →
      count_loop (ds ++ t :: rest) d ((min acc 255 : Nat) : Int)
        = some (t, ((min (ds.foldl (fun n x => n * 10 + (x - 48)) (acc * 10 + (d - 48))) 255
            : Nat) : Int), rest) := by
  intro ds
  induction ds with
  | nil =>
    intro d acc hd _
    have h48 := isdigit_ge d hd
    simp only [List.nil_append, count_loop, hd, if_true, List.foldl_nil]
    rw [count_loop_stop rest t _ ht]
    have e : (if ((min acc 255 : Nat) : Int) * 10 + ((d : Int) - 48) > 255 then (255 : Int)
        else ((min acc 255 : Nat) : Int) * 10 + ((d : Int) - 48))
        = ((min (acc * 10 + (d - 48)) 255 : Nat) : Int) := by
      split_ifs <;> omega
    rw [e]
  | cons x xs ih =>
    intro d acc hd hds
    have h48 := isdigit_ge d hd
    have hx : isdigit x = true := hds x (List.mem_cons_self _ _)
    have hxs : ∀ y ∈ xs, isdigit y = true := fun y hy => hds y (List.mem_cons_of_mem _ hy)
    simp only [List.cons_append, count_loop, hd, if_true, List.foldl_cons]
    have e : (if ((min acc 255 : Nat) : Int) * 10 + ((d : Int) - 48) > 255 then (255 : Int)
        else ((min acc 255 : Nat) : Int) * 10 + ((d : Int) - 48))
        = ((min (acc * 10 + (d - 48)) 255 : Nat) : Int) := by
      split_ifs <;> omega
    rw [e]
    exact ih x (acc * 10 + (d - 48)) hx hxs

/-- C17. A digit `d` and further digits `ds` are typed, then the character `t` that is no
digit.  The loop of `command()` that reads the count is left with `t` as the character
read and with the count `min(n, 255)`, `n` being the decimal value of the digit string;
`t` becomes the command character (it is returned and kept in `countch`), the keys
behind it are still unread, and the count is kept for a command that can be repeated
and set to 0 for any other. -/
theorem command_count_digits (d : Nat) (ds : List Nat) (t : Nat) (rest : List Nat)
    (g : Game) (hd : isdigit d = true) (hds : ∀ x ∈ ds, isdigit x = true)
    (ht : isdigit t = false) (hk : g.keys = ds ++ t :: rest) :
    count_loop g.keys d 0
      = some (t, ((min (decimal_value (d :: ds)) 255 : Nat) : Int), rest) ∧
    ∃ g1, command_count d g = some (t, g1) ∧ g1.countch = t ∧ g1.keys = rest ∧
      g1.newcount = true ∧
      g1.count = if t ∈ repeatable then ((min (decimal_value (d :: ds)) 255 : Nat) : Int)
        else 0 := by
  have h := count_loop_digits t rest ht ds d 0 hd hds
  have h0 : ((min 0 255 : Nat) : Int) = 0 := rfl
  have hv : decimal_value (d :: ds)
      = ds.foldl (fun n x => n * 10 + (x - 48)) (0 * 10 + (d - 48)) := rfl
  rw [h0, ← hv, ← hk] at h
  refine ⟨h, ?_⟩
  unfold command_count
  simp only [hd, if_true, h]
  by_cases hm : t ∈ repeatable
  · rw [if_pos hm, if_pos hm]
    exact ⟨_, rfl, rfl, rfl, rfl, rfl⟩
  · rw [if_neg hm, if_neg hm]
    exact ⟨_, rfl, rfl, rfl, rfl, rfl⟩

theorem command_count_digits_witness :
    count_loop ex_typed.keys 51 0
      = some (106, ((min (decimal_value (51 :: [48, 48])) 255 : Nat) : Int), [46]) ∧
    ∃ g1, command_count 51 ex_typed = some (106, g1) ∧ g1.countch = 106 ∧
      g1.keys = [46] ∧ g1.newcount = true ∧
      g1.count = if 106 ∈ repeatable then
          ((min (decimal_value (51 :: [48, 48])) 255 : Nat) : Int)
        else 0 :=
  command_count_digits 51 [48, 48] 106 [46] ex_typed (by decide) (by decide) (by decide)
    rfl
/-! ## Properties: the starting pack -/

theorem linked_last_next (heap : Nat → THING) (lp : Nat) :
    ∀ (pre : List Nat) (head : Option Nat), linked heap head (pre ++ [lp]) →
      (heap lp).l_next = none := by
  intro pre
  induction pre with
  | nil =>
    intro head h
    obtain ⟨_, ht⟩ := linked_head heap head lp [] h
    exact linked_nil heap _ ht
  | cons p pre ih =>
    intro head h
    obtain ⟨_, ht⟩ := linked_head heap head p _ h
    exact ih _ ht

theorem add_pack_append (g : Game) (obj head lp : Nat) (pre : List Nat) (silent : Bool)
    (i : Nat) (hpack : g.pack = some head)
    (hl : chain g.heap g.nthings (some head) = some (pre ++ [lp]))
    (hobj : obj ∉ pre ++ [lp]) (hfuel : (pre ++ [lp]).length < g.nthings)
    (hscan : scan_pack g.heap (g.heap obj) none (pre ++ [lp]) = Scan.insert (some lp))
    (hscroll : (g.heap obj).o_type ≠ SCROLL) (hamu : (g.heap obj).o_type ≠ AMULET)
    (hroom : g.inpack < MAXPACK)
    (hi : g.pack_used.findIdx (fun b => !b) = i) (hilt : i < g.pack_used.length) :
    ∃ g1, add_pack (some obj) silent g = some g1 ∧
      g1.pack = some head ∧ g1.nthings = g.nthings ∧
      chain g1.heap g1.nthings g1.pack = some (pre ++ [lp] ++ [obj]) ∧
      g1.inpack = g.inpack + 1 ∧ g1.pack_used = g.pack_used.set i true ∧
      g1.seed = g.seed ∧
      (∀ a, (g1.heap a).o_type = (g.heap a).o_type ∧
        (g1.heap a).o_which = (g.heap a).o_which ∧
        (g1.heap a).o_count = (g.heap a).o_count) := by
  obtain ⟨hlk, hlen⟩ := chain_linked _ _ _ _ hl
  have hnext : (g.heap lp).l_next = none := linked_last_next _ _ _ _ hlk
  have hlpo : lp ≠ obj := by
    intro e
    apply hobj
    rw [← e]
    simp
  have hsc : ¬ ((g.heap obj).o_type = SCROLL ∧ (g.heap obj).o_which = S_SCARE ∧
      (g.heap obj).o_flags &&& ISFOUND ≠ 0) := fun h => hscroll h.1
  have hnot : ¬ (g.inpack + 1 > MAXPACK) := by omega
  unfold add_pack
  simp only [Option.isNone_some, hsc, if_false, hpack, hl, hscan, pack_room, hnot,
    Bool.false_eq_true, Bool.not_true, pack_char, hi, hilt, if_true, Game.poke,
    Function.update_same, Function.update_noteq hlpo, hnext, Function.update_idem]
  refine ⟨_, rfl, ?_, ?_, ?_, ?_, ?_, ?_, ?_⟩
  · rw [(add_pack_finish_fields _ _).2.1]
  · rw [(add_pack_finish_fields _ _).2.2.1]
  · rw [(add_pack_finish_fields _ _).2.1, (add_pack_finish_fields _ _).2.2.1,
      (add_pack_finish_fields _ _).2.2.2.2.2.2]
    apply linked_chain
    · apply linked_append g.heap _ obj lp pre (some head) hlk
      · simp only [Function.update_apply, if_neg hlpo, if_true]
      · simp only [Function.update_apply, if_neg hlpo.symm, if_true]
      · intro a ha
        have hao : a ≠ obj := fun e => hobj (e ▸ List.mem_append_left _ ha)
        have hnd := linked_nodup _ _ _ hlk
        have hal : a ≠ lp := by
          intro e
          exact (List.nodup_append.mp hnd).2.2 ha (by simp [e])
        simp only [Function.update_apply, if_neg hao, if_neg hal]
    · simp only [List.length_append, List.length_singleton] at hfuel ⊢
      omega
  · rw [(add_pack_finish_fields _ _).1]
  · rw [(add_pack_finish_fields _ _).2.2.2.2.2.1]
  · simp only [add_pack_finish, Game.poke]
    split <;> rfl
  · intro a
    rw [(add_pack_finish_fields _ _).2.2.2.2.2.2]
    by_cases hao : a = obj
    · subst hao
      simp only [Function.update_apply, if_neg hlpo.symm, if_true]
      exact ⟨trivial, trivial, trivial⟩
    · by_cases hal : a = lp
      · subst hal
        simp only [Function.update_apply, if_neg hao, if_true]
        exact ⟨trivial, trivial, trivial⟩
      · simp only [Function.update_apply, if_neg hao, if_neg hal]
        exact ⟨trivial, trivial, trivial⟩

/-- The first inner loop runs to the end of a pack whose remaining entries are all of the
type of the item and of other sub-kinds. -/
theorem walk_which_all (heap : Nat → THING) (obj : THING) :
    ∀ (mid : List Nat) (m : Nat) (lp : Option Nat),
      (∀ a ∈ m :: mid, (heap a).o_type = obj.o_type ∧ (heap a).o_which ≠ obj.o_which) →
      ∃ x, (m :: mid).getLast? = some x ∧ walk_which heap obj m lp mid = (x, some x, []) := by
  intro mid
  induction mid with
  | nil =>
    intro m lp h
    refine ⟨m, rfl, ?_⟩
    rw [walk_which, if_pos (h m (List.mem_cons_self _ _))]
  | cons n mid ih =>
    intro m lp h
    obtain ⟨x, hx, hw⟩ := ih n (some m) (fun a ha => h a (List.mem_cons_of_mem _ ha))
    refine ⟨x, ?_, ?_⟩
    · rw [List.getLast?_cons_cons]; exact hx
    · rw [walk_which, if_pos (h m (List.mem_cons_self _ _))]; exact hw

/-- In a pack that ends with its entries of the type of the item, none of them of the
sub-kind of the item, the search answers "link it in behind the last entry". -/
theorem scan_pack_behind (heap : Nat → THING) (obj : THING) (post : List Nat)
    (hpost : ∀ a ∈ post, (heap a).o_type = obj.o_type ∧ (heap a).o_which ≠ obj.o_which) :
    ∀ (pre : List Nat) (lp0 : Option Nat) (x : Nat),
      (∀ a ∈ pre, (heap a).o_type ≠ obj.o_type) →
      (pre ++ post).getLast? = some x →
      scan_pack heap obj lp0 (pre ++ post) = Scan.insert (some x) := by
  intro pre
  induction pre with
  | nil =>
    intro lp0 x _ hlast
    cases post with
    | nil => simp at hlast
    | cons m mid =>
      obtain ⟨y, hy, hw⟩ := walk_which_all heap obj mid m lp0 hpost
      rw [List.nil_append] at hlast ⊢
      have hxy : y = x := by
        rw [hy] at hlast
        exact Option.some.inj hlast
      subst hxy
      have hm := hpost m (List.mem_cons_self _ _)
      have hyin : y ∈ m :: mid := List.mem_of_getLast?_eq_some hy
      have hyp := hpost y hyin
      rw [scan_pack, if_neg (not_not.mpr hm.1), scan_same_type]
      simp only [hw]
      rw [if_neg (fun h => hyp.2 h.2)]
  | cons p pre ih =>
    intro lp0 x hpre hlast
    have hp := hpre p (List.mem_cons_self _ _)
    rw [List.cons_append, scan_pack, if_pos hp]
    cases hrest : pre ++ post with
    | nil =>
      rw [List.cons_append, hrest] at hlast
      simp only [List.getLast?_singleton, Option.some.injEq] at hlast
      subst hlast
      rfl
    | cons q rest =>
      rw [← hrest]
      apply ih (some p) x (fun a ha => hpre a (List.mem_cons_of_mem _ ha))
      rw [List.cons_append, hrest, List.getLast?_cons_cons] at hlast
      rw [hrest]
      exact hlast

theorem pack_used_next : ∀ n, n < 26 →
    (List.replicate n true ++ List.replicate (26 - n) false).findIdx (fun b => !b) = n ∧
    n < (List.replicate n true ++ List.replicate (26 - n) false).length ∧
    (List.replicate n true ++ List.replicate (26 - n) false).set n true
      = List.replicate (n + 1) true ++ List.replicate (26 - (n + 1)) false := by
  decide

theorem range_split (p n : Nat) (hp : p ≤ n) :
    List.range n = List.range' 0 p ++ List.range' p (n - p) := by
  have h := List.range'_append 0 p (n - p) 1
  rw [Nat.one_mul, Nat.zero_add] at h
  rw [List.range_eq_range', h]
  congr 1
  omega

/-- One more object goes behind the starting pack. -/
theorem stage_append (n : Nat) (g gp : Game) (silent : Bool) (hn : 1 ≤ n) (hn2 : n < 23)
    (hinv : starting_pack n g) (hgp : fresh_at n g gp)
    (p : Nat) (hp : p ≤ n)
    (hpre : ∀ a, a < p → (g.heap a).o_type ≠ (gp.heap n).o_type)
    (hpost : ∀ a, p ≤ a → a < n → (g.heap a).o_type = (gp.heap n).o_type ∧
      (g.heap a).o_which ≠ (gp.heap n).o_which)
    (hscroll : (gp.heap n).o_type ≠ SCROLL) (hamu : (gp.heap n).o_type ≠ AMULET) :
    ∃ g1, add_pack (some n) silent gp = some g1 ∧ starting_pack (n + 1) g1 ∧
      g1.seed = gp.seed ∧
      (∀ a, (g1.heap a).o_type = (gp.heap a).o_type ∧
        (g1.heap a).o_which = (gp.heap a).o_which ∧
        (g1.heap a).o_count = (gp.heap a).o_count) ∧
      (∀ a, a ≠ n → (g1.heap a).o_type = (g.heap a).o_type ∧
        (g1.heap a).o_which = (g.heap a).o_which) := by
  obtain ⟨i1, i2, i3, i4, i5⟩ := hinv
  obtain ⟨f1, f2, f3, f4, f5⟩ := hgp
  obtain ⟨m, rfl⟩ : ∃ m, n = m + 1 := ⟨n - 1, by omega⟩
  have hrange : List.range (m + 1) = List.range m ++ [m] := List.range_succ m
  have hmem : ∀ a ∈ List.range (m + 1), a ≠ m + 1 := by
    intro a ha
    have := List.mem_range.mp ha
    omega
  rw [i1] at i3
  have hl : chain gp.heap gp.nthings (some 0) = some (List.range m ++ [m]) := by
    rw [← hrange, f1]
    rw [i2] at i3
    obtain ⟨hlk, hlen⟩ := chain_linked _ _ _ _ i3
    exact linked_chain _ _ _ _
      (linked_congr g.heap gp.heap _ _ hlk (fun a ha => by rw [f5 a (hmem a ha)]))
      (by omega)
  have hnotin : m + 1 ∉ List.range m ++ [m] := by
    rw [← hrange]
    intro h
    exact hmem _ h rfl
  have hfuel : (List.range m ++ [m]).length < gp.nthings := by
    rw [← hrange, List.length_range, f1]
    omega
  have hscan : scan_pack gp.heap (gp.heap (m + 1)) none (List.range m ++ [m])
      = Scan.insert (some m) := by
    rw [← hrange, range_split p (m + 1) hp]
    apply scan_pack_behind
    · intro a ha
      obtain ⟨h1, h2⟩ := List.mem_range'_1.mp ha
      rw [f5 a (by omega)]
      exact hpost a h1 (by omega)
    · intro a ha
      obtain ⟨_, h2⟩ := List.mem_range'_1.mp ha
      rw [f5 a (by omega)]
      exact hpre a (by omega)
    · rw [← range_split p (m + 1) hp, hrange]
      simp
  obtain ⟨u1, u2, u3⟩ := pack_used_next (m + 1) (by omega)
  have hroom : gp.inpack < MAXPACK := by
    rw [f3, i4]
    have : MAXPACK = 23 := rfl
    rw [this]
    exact_mod_cast hn2
  obtain ⟨g1, e0, e1, e2, e3, e4, e5, e6, e7⟩ :=
    add_pack_append gp (m + 1) 0 m (List.range m) silent (m + 1) (f2.trans i2) hl hnotin hfuel
      hscan hscroll hamu hroom (by rw [f4, i5]; exact u1) (by rw [f4, i5]; exact u2)
  refine ⟨g1, e0, ⟨?_, e1, ?_, ?_, ?_⟩, e6, e7,
    fun a ha => by rw [(e7 a).1, (e7 a).2.1, f5 a ha]; exact ⟨rfl, rfl⟩⟩
  · rw [e2, f1]
  · rw [e2, e1] at e3
    rw [e2, e1, e3, ← hrange, List.range_succ (m + 1)]
  · rw [e4, f3, i4]
    push_cast
    rfl
  · rw [e5, f4, i5, u3]

theorem fresh_new_item (g : Game) (n : Nat) (hn : g.nthings = n) :
    (new_item g).1 = n ∧ fresh_at n g (new_item g).2 ∧ (new_item g).2.seed = g.seed := by
  subst hn
  refine ⟨rfl, ⟨rfl, rfl, rfl, rfl, ?_⟩, rfl⟩
  intro a ha
  simp only [new_item, Function.update_noteq ha]

theorem fresh_poke (n : Nat) (g gp : Game) (f : THING → THING) (h : fresh_at n g gp) :
    fresh_at n g (gp.poke n f) := by
  obtain ⟨f1, f2, f3, f4, f5⟩ := h
  refine ⟨f1, f2, f3, f4, ?_⟩
  intro a ha
  simp only [Game.poke, Function.update_noteq ha]
  exact f5 a ha

theorem fresh_init_weapon (init_weapon : Nat → Int → Game → Game)
    (hiw : init_weapon_ok init_weapon) (n : Nat) (which : Int) (g gp : Game)
    (h : fresh_at n g gp) : fresh_at n g (init_weapon n which gp) := by
  obtain ⟨f1, f2, f3, f4, f5⟩ := h
  obtain ⟨e, _, _⟩ := hiw n which gp
  rw [e]
  refine ⟨f1, f2, f3, f4, ?_⟩
  intro a ha
  simp only [Function.update_noteq ha]
  exact f5 a ha

theorem poke_heap_same (g : Game) (n : Nat) (f : THING → THING) :
    (g.poke n f).heap n = f (g.heap n) := by
  simp only [Game.poke, Function.update_same]

/-- The first object goes into the empty pack. -/
theorem add_pack_first (g : Game) (obj i : Nat) (silent : Bool) (hpack : g.pack = none)
    (hnext : (g.heap obj).l_next = none) (hfuel : 0 < g.nthings)
    (hscroll : (g.heap obj).o_type ≠ SCROLL)
    (hi : g.pack_used.findIdx (fun b => !b) = i) (hilt : i < g.pack_used.length) :
    ∃ g1, add_pack (some obj) silent g = some g1 ∧
      g1.pack = some obj ∧ g1.nthings = g.nthings ∧
      chain g1.heap g1.nthings g1.pack = some [obj] ∧
      g1.inpack = g.inpack + 1 ∧ g1.pack_used = g.pack_used.set i true ∧
      g1.seed = g.seed ∧
      (∀ a, (g1.heap a).o_type = (g.heap a).o_type ∧
        (g1.heap a).o_which = (g.heap a).o_which ∧
        (g1.heap a).o_count = (g.heap a).o_count) := by
  have hsc : ¬ ((g.heap obj).o_type = SCROLL ∧ (g.heap obj).o_which = S_SCARE ∧
      (g.heap obj).o_flags &&& ISFOUND ≠ 0) := fun h => hscroll h.1
  unfold add_pack
  simp only [hsc, if_false, hpack, pack_char, hi, hilt, if_true, Game.poke,
    Function.update_same]
  refine ⟨_, rfl, ?_, ?_, ?_, ?_, ?_, ?_, ?_⟩
  · rw [(add_pack_finish_fields _ _).2.1]
  · rw [(add_pack_finish_fields _ _).2.2.1]
  · rw [(add_pack_finish_fields _ _).2.1, (add_pack_finish_fields _ _).2.2.1,
      (add_pack_finish_fields _ _).2.2.2.2.2.2]
    apply linked_chain
    · refine ⟨rfl, ?_⟩
      simp only [Function.update_same, hnext]
      trivial
    · exact hfuel
  · rw [(add_pack_finish_fields _ _).1]
  · rw [(add_pack_finish_fields _ _).2.2.2.2.2.1]
  · simp only [add_pack_finish, Game.poke]
    split <;> rfl
  · intro a
    rw [(add_pack_finish_fields _ _).2.2.2.2.2.2]
    by_cases hao : a = obj
    · subst hao
      simp only [Function.update_apply, if_true]
      exact ⟨trivial, trivial, trivial⟩
    · simp only [Function.update_apply, if_neg hao]
      exact ⟨trivial, trivial, trivial⟩

theorem new_item_zero (g : Game) : (new_item g).2.heap g.nthings = THING.zero := by
  simp only [new_item, Function.update_same]

theorem make_food_spec (g : Game) (n : Nat) (hn : g.nthings = n) :
    (make_food g).1 = n ∧ fresh_at n g (make_food g).2 ∧
    ((make_food g).2.heap n).o_type = FOOD ∧ ((make_food g).2.heap n).l_next = none ∧
    (make_food g).2.seed = g.seed := by
  obtain ⟨h1, hfresh, hseed⟩ := fresh_new_item g n hn
  have hz := new_item_zero g
  rw [hn] at hz
  simp only [make_food, h1]
  refine ⟨trivial, fresh_poke n g _ _ (fresh_poke n g _ _ hfresh), ?_, ?_, hseed⟩
  · simp only [poke_heap_same]
  · simp only [poke_heap_same, hz]
    rfl

theorem give_food_spec (g : Game) (hn : g.nthings = 0) (hp : g.pack = none)
    (hin : g.inpack = 0) (hpu : g.pack_used = List.replicate 26 false) :
    ∃ g1, give_food g = some g1 ∧ starting_pack 1 g1 ∧ (g1.heap 0).o_type = FOOD ∧
      g1.seed = g.seed := by
  obtain ⟨h1, ⟨f1, f2, f3, f4, _⟩, hty, hnx, hseed⟩ := make_food_spec g 0 hn
  obtain ⟨u1, u2, u3⟩ := pack_used_next 0 (by decide)
  obtain ⟨g1, e0, e1, e2, e3, e4, e5, e6, e7⟩ :=
    add_pack_first (make_food g).2 0 0 true (f2.trans hp) hnx (by rw [f1]; decide)
      (by rw [hty]; decide) (by rw [f4, hpu]; exact u1) (by rw [f4, hpu]; exact u2)
  refine ⟨g1, ?_, ⟨?_, e1, ?_, ?_, ?_⟩, ?_, ?_⟩
  · rw [give_food, h1]; exact e0
  · rw [e2]; exact f1
  · rw [e3]; rfl
  · rw [e4, f3, hin]; rfl
  · rw [e5, f4, hpu]; exact u3
  · rw [(e7 0).1, hty]
  · rw [e6]; exact hseed

theorem fresh_cur_armor (n : Nat) (g gp : Game) (x : Option Nat) (h : fresh_at n g gp) :
    fresh_at n g { gp with cur_armor := x } :=
  ⟨h.1, h.2.1, h.2.2.1, h.2.2.2.1, h.2.2.2.2⟩

theorem make_armor_spec (a_class : List Int) (hac : RING_MAIL.toNat < a_class.length)
    (g : Game) (n : Nat) (hn : g.nthings = n) :
    ∃ gp, make_armor a_class g = some (n, gp) ∧ fresh_at n g gp ∧
      (gp.heap n).o_type = ARMOR ∧ gp.seed = g.seed := by
  obtain ⟨h1, hfresh, hseed⟩ := fresh_new_item g n hn
  have hget : a_class[RING_MAIL.toNat]? = some (a_class.get ⟨RING_MAIL.toNat, hac⟩) :=
    List.getElem?_eq_getElem hac
  simp only [make_armor, h1, hget]
  refine ⟨_, rfl, ?_, ?_, hseed⟩
  · exact fresh_cur_armor n g _ _ (fresh_poke n g _ _ (fresh_poke n g _ _
      (fresh_poke n g _ _ (fresh_poke n g _ _ (fresh_poke n g _ _ hfresh)))))
  · simp only [poke_heap_same]

theorem give_armor_spec (a_class : List Int) (hac : RING_MAIL.toNat < a_class.length)
    (g : Game) (hinv : starting_pack 1 g) (t0 : (g.heap 0).o_type = FOOD) :
    ∃ g1, give_armor a_class g = some g1 ∧ starting_pack 2 g1 ∧
      (g1.heap 0).o_type = FOOD ∧ (g1.heap 1).o_type = ARMOR ∧ g1.seed = g.seed := by
  obtain ⟨gp, hm, hgp, hty, hseed⟩ := make_armor_spec a_class hac g 1 hinv.1
  obtain ⟨g1, e0, e1, e2, e3, e4⟩ := stage_append 1 g gp true (le_refl _) (by decide) hinv hgp
    1 (le_refl _)
    (fun a ha => by
      have : a = 0 := by omega
      subst this
      rw [t0, hty]
      decide)
    (fun a h1 h2 => absurd h2 (by omega))
    (by rw [hty]; decide) (by rw [hty]; decide)
  refine ⟨g1, ?_, e1, ?_, ?_, ?_⟩
  · simp only [give_armor, hm]; exact e0
  · rw [(e4 0 (by decide)).1, t0]
  · rw [(e3 1).1, hty]
  · rw [e2]; exact hseed

theorem fresh_rnd (n k : Nat) (g gp : Game) (h : fresh_at n g gp) :
    fresh_at n g (rnd k gp).2 := by
  have e : (rnd k gp).2 = { gp with seed := (rnd k gp).2.seed } := by
    simp only [rnd, RN]
  rw [e]
  exact ⟨h.1, h.2.1, h.2.2.1, h.2.2.2.1, h.2.2.2.2⟩

theorem rnd_heap (k : Nat) (g : Game) : (rnd k g).2.heap = g.heap := by
  simp only [rnd, RN]

theorem make_mace_spec (init_weapon : Nat → Int → Game → Game)
    (hiw : init_weapon_ok init_weapon) (g : Game) (n : Nat) (hn : g.nthings = n) :
    (make_mace init_weapon g).1 = n ∧ fresh_at n g (make_mace init_weapon g).2 ∧
    ((make_mace init_weapon g).2.heap n).o_type = WEAPON ∧
    ((make_mace init_weapon g).2.heap n).o_which = MACE ∧
    (make_mace init_weapon g).2.seed = (init_weapon n MACE (new_item g).2).seed := by
  obtain ⟨h1, hfresh, _⟩ := fresh_new_item g n hn
  obtain ⟨_, c2, c3⟩ := hiw n MACE (new_item g).2
  simp only [make_mace, h1]
  refine ⟨trivial, fresh_poke n g _ _ (fresh_poke n g _ _ (fresh_poke n g _ _
    (fresh_init_weapon init_weapon hiw n MACE g _ hfresh))), ?_, ?_, rfl⟩
  · simp only [poke_heap_same]; exact c2
  · simp only [poke_heap_same]; exact c3

theorem make_bow_spec (init_weapon : Nat → Int → Game → Game)
    (hiw : init_weapon_ok init_weapon) (g : Game) (n : Nat) (hn : g.nthings = n) :
    (make_bow init_weapon g).1 = n ∧ fresh_at n g (make_bow init_weapon g).2 ∧
    ((make_bow init_weapon g).2.heap n).o_type = WEAPON ∧
    ((make_bow init_weapon g).2.heap n).o_which = BOW ∧
    (make_bow init_weapon g).2.seed = (init_weapon n BOW (new_item g).2).seed := by
  obtain ⟨h1, hfresh, _⟩ := fresh_new_item g n hn
  obtain ⟨_, c2, c3⟩ := hiw n BOW (new_item g).2
  simp only [make_bow, h1]
  refine ⟨trivial, fresh_poke n g _ _ (fresh_poke n g _ _
    (fresh_init_weapon init_weapon hiw n BOW g _ hfresh)), ?_, ?_, rfl⟩
  · simp only [poke_heap_same]; exact c2
  · simp only [poke_heap_same]; exact c3

theorem make_arrows_spec (init_weapon : Nat → Int → Game → Game)
    (hiw : init_weapon_ok init_weapon) (g : Game) (n : Nat) (hn : g.nthings = n) :
    (make_arrows init_weapon g).1 = n ∧ fresh_at n g (make_arrows init_weapon g).2 ∧
    ((make_arrows init_weapon g).2.heap n).o_type = WEAPON ∧
    ((make_arrows init_weapon g).2.heap n).o_which = ARROW ∧
    ((make_arrows init_weapon g).2.heap n).o_count
      = ((rnd 15 (init_weapon n ARROW (new_item g).2)).1 : Int) + 25 := by
  obtain ⟨h1, hfresh, _⟩ := fresh_new_item g n hn
  obtain ⟨_, c2, c3⟩ := hiw n ARROW (new_item g).2
  simp only [make_arrows, h1]
  refine ⟨trivial, fresh_poke n g _ _ (fresh_poke n g _ _ (fresh_rnd n 15 g _
    (fresh_init_weapon init_weapon hiw n ARROW g _ hfresh))), ?_, ?_, ?_⟩
  · simp only [poke_heap_same, rnd_heap]; exact c2
  · simp only [poke_heap_same, rnd_heap]; exact c3
  · simp only [poke_heap_same]

theorem give_mace_spec (init_weapon : Nat → Int → Game → Game)
    (hiw : init_weapon_ok init_weapon) (g : Game) (hinv : starting_pack 2 g)
    (t0 : (g.heap 0).o_type = FOOD) (t1 : (g.heap 1).o_type = ARMOR) :
    ∃ g1, give_mace init_weapon g = some g1 ∧ starting_pack 3 g1 ∧
      (g1.heap 0).o_type = FOOD ∧ (g1.heap 1).o_type = ARMOR ∧
      (g1.heap 2).o_type = WEAPON ∧ (g1.heap 2).o_which = MACE ∧
      g1.seed = (init_weapon 2 MACE (new_item g).2).seed := by
  obtain ⟨h1, hgp, hty, hwh, hseed⟩ := make_mace_spec init_weapon hiw g 2 hinv.1
  obtain ⟨g1, e0, e1, e2, e3, e4⟩ := stage_append 2 g (make_mace init_weapon g).2 true
    (by decide) (by decide) hinv hgp 2 (le_refl _)
    (fun a ha => by
      have : a = 0 ∨ a = 1 := by omega
      rcases this with h | h
      · subst h; rw [t0, hty]; decide
      · subst h; rw [t1, hty]; decide)
    (fun a h1 h2 => absurd h2 (by omega))
    (by rw [hty]; decide) (by rw [hty]; decide)
  rw [← h1] at e0
  refine ⟨{ g1 with cur_weapon := some (make_mace init_weapon g).1 }, ?_,
    ⟨e1.1, e1.2.1, e1.2.2.1, e1.2.2.2.1, e1.2.2.2.2⟩, ?_, ?_, ?_, ?_, ?_⟩
  · simp only [give_mace, e0]
  · exact (e4 0 (by decide)).1.trans t0
  · exact (e4 1 (by decide)).1.trans t1
  · exact (e3 2).1.trans hty
  · exact (e3 2).2.1.trans hwh
  · exact e2.trans hseed

theorem give_bow_spec (init_weapon : Nat → Int → Game → Game)
    (hiw : init_weapon_ok init_weapon) (g : Game) (hinv : starting_pack 3 g)
    (t0 : (g.heap 0).o_type = FOOD) (t1 : (g.heap 1).o_type = ARMOR)
    (t2 : (g.heap 2).o_type = WEAPON) (w2 : (g.heap 2).o_which = MACE) :
    ∃ g1, give_bow init_weapon g = some g1 ∧ starting_pack 4 g1 ∧
      (g1.heap 0).o_type = FOOD ∧ (g1.heap 1).o_type = ARMOR ∧
      (g1.heap 2).o_type = WEAPON ∧ (g1.heap 2).o_which = MACE ∧
      (g1.heap 3).o_type = WEAPON ∧ (g1.heap 3).o_which = BOW ∧
      g1.seed = (init_weapon 3 BOW (new_item g).2).seed := by
  obtain ⟨h1, hgp, hty, hwh, hseed⟩ := make_bow_spec init_weapon hiw g 3 hinv.1
  obtain ⟨g1, e0, e1, e2, e3, e4⟩ := stage_append 3 g (make_bow init_weapon g).2 true
    (by decide) (by decide) hinv hgp 2 (by decide)
    (fun a ha => by
      have : a = 0 ∨ a = 1 := by omega
      rcases this with h | h
      · subst h; rw [t0, hty]; decide
      · subst h; rw [t1, hty]; decide)
    (fun a h1 h2 => by
      have : a = 2 := by omega
      subst this
      rw [t2, w2, hty, hwh]
      exact ⟨rfl, by decide⟩)
    (by rw [hty]; decide) (by rw [hty]; decide)
  rw [← h1] at e0
  refine ⟨g1, e0, e1, ?_, ?_, ?_, ?_, ?_, ?_, ?_⟩
  · exact (e4 0 (by decide)).1.trans t0
  · exact (e4 1 (by decide)).1.trans t1
  · exact (e4 2 (by decide)).1.trans t2
  · exact (e4 2 (by decide)).2.trans w2
  · exact (e3 3).1.trans hty
  · exact (e3 3).2.1.trans hwh
  · exact e2.trans hseed

theorem give_arrows_spec (init_weapon : Nat → Int → Game → Game)
    (hiw : init_weapon_ok init_weapon) (g : Game) (hinv : starting_pack 4 g)
    (t0 : (g.heap 0).o_type = FOOD) (t1 : (g.heap 1).o_type = ARMOR)
    (t2 : (g.heap 2).o_type = WEAPON) (w2 : (g.heap 2).o_which = MACE)
    (t3 : (g.heap 3).o_type = WEAPON) (w3 : (g.heap 3).o_which = BOW) :
    ∃ g1, give_arrows init_weapon g = some g1 ∧ starting_pack 5 g1 ∧
      (g1.heap 0).o_type = FOOD ∧ (g1.heap 1).o_type = ARMOR ∧
      (g1.heap 2).o_which = MACE ∧ (g1.heap 3).o_which = BOW ∧
      (g1.heap 4).o_type = WEAPON ∧ (g1.heap 4).o_which = ARROW ∧
      (g1.heap 4).o_count
        = ((rnd 15 (init_weapon 4 ARROW (new_item g).2)).1 : Int) + 25 := by
  obtain ⟨h1, hgp, hty, hwh, hcount⟩ := make_arrows_spec init_weapon hiw g 4 hinv.1
  obtain ⟨g1, e0, e1, e2, e3, e4⟩ := stage_append 4 g (make_arrows init_weapon g).2 true
    (by decide) (by decide) hinv hgp 2 (by decide)
    (fun a ha => by
      have : a = 0 ∨ a = 1 := by omega
      rcases this with h | h
      · subst h; rw [t0, hty]; decide
      · subst h; rw [t1, hty]; decide)
    (fun a h1 h2 => by
      have : a = 2 ∨ a = 3 := by omega
      rcases this with h | h
      · subst h
        rw [t2, w2, hty, hwh]
        exact ⟨rfl, by decide⟩
      · subst h
        rw [t3, w3, hty, hwh]
        exact ⟨rfl, by decide⟩)
    (by rw [hty]; decide) (by rw [hty]; decide)
  rw [← h1] at e0
  refine ⟨g1, e0, e1, ?_, ?_, ?_, ?_, ?_, ?_, ?_⟩
  · exact (e4 0 (by decide)).1.trans t0
  · exact (e4 1 (by decide)).1.trans t1
  · exact (e4 2 (by decide)).2.trans w2
  · exact (e4 3 (by decide)).2.trans w3
  · exact (e3 4).1.trans hty
  · exact (e3 4).2.1.trans hwh
  · exact (e3 4).2.2.trans hcount

theorem new_item_seed (g : Game) : (new_item g).2.seed = g.seed := rfl

/-- The run of `init_player` from a state in which nothing has been made and nothing is
carried: the five objects end up in the pack in the order in which they are made, and
the count of the arrows is the one drawn. -/
theorem init_player_spec (max_stats : stats) (a_class : List Int)
    (hac : RING_MAIL.toNat < a_class.length)
    (init_weapon : Nat → Int → Game → Game) (hiw : init_weapon_ok init_weapon)
    (g : Game) (hn : g.nthings = 0) (hp : g.pack = none) (hin : g.inpack = 0)
    (hpu : g.pack_used = List.replicate 26 false) :
    ∃ g1 s, init_player max_stats a_class init_weapon g = some g1 ∧
      starting_pack 5 g1 ∧
      (g1.heap 0).o_type = FOOD ∧ (g1.heap 1).o_type = ARMOR ∧
      (g1.heap 2).o_which = MACE ∧ (g1.heap 3).o_which = BOW ∧
      (g1.heap 4).o_type = WEAPON ∧ (g1.heap 4).o_which = ARROW ∧
      (g1.heap 4).o_count = ((rnd 15 s).1 : Int) + 25 ∧
      ((∀ w k t, (init_weapon w k t).seed = t.seed) → s.seed = g.seed) := by
  obtain ⟨s1, a0, a1, a2, a3⟩ :=
    give_food_spec { g with pstats := max_stats, food_left := HUNGERTIME } hn hp hin hpu
  obtain ⟨s2, b0, b1, b2, b3, b4⟩ := give_armor_spec a_class hac s1 a1 a2
  obtain ⟨s3, c0, c1, c2, c3, c4, c5, c6⟩ := give_mace_spec init_weapon hiw s2 b1 b2 b3
  obtain ⟨s4, d0, d1, d2, d3, d4, d5, d6, d7, d8⟩ :=
    give_bow_spec init_weapon hiw s3 c1 c2 c3 c4 c5
  obtain ⟨s5, e0, e1, e2, e3, e4, e5, e6, e7, e8⟩ :=
    give_arrows_spec init_weapon hiw s4 d1 d2 d3 d4 d5 d6 d7
  refine ⟨s5, init_weapon 4 ARROW (new_item s4).2, ?_, e1, e2, e3, e4, e5, e6, e7, e8, ?_⟩
  · simp only [init_player, a0, b0, c0, d0, e0]
  · intro hk
    rw [hk, new_item_seed, d8, hk, new_item_seed, c6, hk, new_item_seed, b4, a3]

theorem ex_init_weapon_ok : init_weapon_ok ex_init_weapon := by
  intro weap which g
  refine ⟨?_, ?_, ?_⟩
  · simp only [ex_init_weapon, Game.poke, Function.update_same]
  · simp only [ex_init_weapon, poke_heap_same]
  · simp only [ex_init_weapon, poke_heap_same]

theorem rnd_lt (k : Nat) (hk : 0 < k) (s : Game) : (rnd k s).1 < k := by
  simp only [rnd]
  exact Nat.mod_lt _ hk

theorem range_five : List.range 5 = [0, 1, 2, 3, 4] := by decide

/-- C20 (counterexample). With the generator in the state 531 the value drawn by
`rnd(15)` is 0, and `init_player` puts a stack of 25 arrows in the starting pack: fewer
than 26. -/
theorem init_player_arrows_counterexample :
    ∃ g1, init_player ex_max_stats ex_a_class ex_init_weapon { Game.init with seed := 531 }
        = some g1 ∧
      chain g1.heap g1.nthings g1.pack = some [0, 1, 2, 3, 4] ∧
      (g1.heap 4).o_type = WEAPON ∧ (g1.heap 4).o_which = ARROW ∧
      (g1.heap 4).o_count = 25 ∧
      ¬ (26 ≤ (g1.heap 4).o_count ∧ (g1.heap 4).o_count ≤ 40) := by
  obtain ⟨g1, s, h0, h1, _, _, _, _, h6, h7, h8, h9⟩ :=
    init_player_spec ex_max_stats ex_a_class (by decide) ex_init_weapon ex_init_weapon_ok
      { Game.init with seed := 531 } rfl rfl rfl rfl
  have hs : s.seed = 531 := h9 (fun _ _ _ => rfl)
  have hr : (rnd 15 s).1 = 0 := by
    simp only [rnd, RN, hs]
    decide
  have hc : (g1.heap 4).o_count = 25 := by
    rw [h8, hr]
    rfl
  refine ⟨g1, h0, ?_, h6, h7, hc, ?_⟩
  · rw [h1.2.2.1, range_five]
  · rw [hc]
    decide

/-- C20 (amended). For every state of the random generator: started with nothing made and
nothing carried, `init_player` returns, the pack then holds the five objects in the
order in which they were made, the last of them is the one stack of arrows, and its
count lies between 25 and 39 inclusive.  Assumed of the routines that are not among the
sources: `a_class` has an entry for ring mail, and `init_weapon` writes only the object
it is given, which it makes a weapon of the kind asked for. -/
theorem init_player_arrows (max_stats : stats) (a_class : List Int)
    (hac : RING_MAIL.toNat < a_class.length)
    (init_weapon : Nat → Int → Game → Game) (hiw : init_weapon_ok init_weapon)
    (g : Game) (hn : g.nthings = 0) (hp : g.pack = none) (hin : g.inpack = 0)
    (hpu : g.pack_used = List.replicate 26 false) :
    ∃ g1, init_player max_stats a_class init_weapon g = some g1 ∧
      chain g1.heap g1.nthings g1.pack = some [0, 1, 2, 3, 4] ∧
      (g1.heap 4).o_type = WEAPON ∧ (g1.heap 4).o_which = ARROW ∧
      (∀ a, a < 4 → ¬ ((g1.heap a).o_type = WEAPON ∧ (g1.heap a).o_which = ARROW)) ∧
      25 ≤ (g1.heap 4).o_count ∧ (g1.heap 4).o_count ≤ 39 := by
  obtain ⟨g1, s, h0, h1, h2, h3, h4, h5, h6, h7, h8, _⟩ :=
    init_player_spec max_stats a_class hac init_weapon hiw g hn hp hin hpu
  have hlt := rnd_lt 15 (by decide) s
  refine ⟨g1, h0, ?_, h6, h7, ?_, ?_, ?_⟩
  · rw [h1.2.2.1, range_five]
  · intro a ha hw
    have : a = 0 ∨ a = 1 ∨ a = 2 ∨ a = 3 := by omega
    rcases this with h | h | h | h
    · subst h; rw [h2] at hw; exact absurd hw.1 (by decide)
    · subst h; rw [h3] at hw; exact absurd hw.1 (by decide)
    · subst h; rw [h4] at hw; exact absurd hw.2 (by decide)
    · subst h; rw [h5] at hw; exact absurd hw.2 (by decide)
  · rw [h8]; omega
  · rw [h8]; omega

theorem init_player_arrows_witness :
    ∃ g1, init_player ex_max_stats ex_a_class ex_init_weapon { Game.init with seed := 82 }
        = some g1 ∧
      chain g1.heap g1.nthings g1.pack = some [0, 1, 2, 3, 4] ∧
      (g1.heap 4).o_type = WEAPON ∧ (g1.heap 4).o_which = ARROW ∧
      (∀ a, a < 4 → ¬ ((g1.heap a).o_type = WEAPON ∧ (g1.heap a).o_which = ARROW)) ∧
      25 ≤ (g1.heap 4).o_count ∧ (g1.heap 4).o_count ≤ 39 :=
  init_player_arrows ex_max_stats ex_a_class (by decide) ex_init_weapon ex_init_weapon_ok
    { Game.init with seed := 82 } rfl rfl rfl rfl
/-! ## Properties: the names of the scrolls -/

set_option maxRecDepth 100000 in
/-- Every entry of `sylls` has one to four characters. -/
theorem syllable_length : ∀ i, i < sylls.length →
    1 ≤ (syllable i).length ∧ (syllable i).length ≤ 4 := by
  decide

set_option maxRecDepth 100000 in
theorem sylls_length : sylls.length = 147 := by
  decide

/-- The loop over the syllables of a word only adds to the buffer, at most four
characters a syllable, never past `MAXNAME`, and adds the first syllable when the buffer
has room for four characters. -/
theorem name_sylls_length (draw : Nat → Nat) :
    ∀ (nsyl : Nat) (buf : List Nat) (k : Nat),
      buf.length ≤ (name_sylls draw nsyl buf k).1.length ∧
      (name_sylls draw nsyl buf k).1.length ≤ buf.length + 4 * nsyl ∧
      (name_sylls draw nsyl buf k).1.length ≤ max buf.length 40 ∧
      (1 ≤ nsyl → buf.length + 4 ≤ 40 →
        buf.length + 1 ≤ (name_sylls draw nsyl buf k).1.length) := by
  intro nsyl
  induction nsyl with
  | zero =>
    intro buf k
    simp only [name_sylls]
    omega
  | succ n ih =>
    intro buf k
    have hlt : draw k % sylls.length < sylls.length :=
      Nat.mod_lt _ (by rw [sylls_length]; omega)
    have hs := syllable_length _ hlt
    simp only [name_sylls, rnd_at, MAXNAME]
    split
    · rename_i hbig
      simp only []
      omega
    · rename_i hfit
      have h := ih (buf ++ syllable (draw k % sylls.length)) (k + 1)
      rw [List.length_append] at h
      omega

/-- The loop over the words: `n` words written behind a buffer of `c` characters leave
between `c + n` and `c + 13 * n` characters, never more than 41 when `c + 13 * (n - 1)`
is at most 40, and at least `c + n + 1` when the first word has room. -/
theorem name_words_length (draw : Nat → Nat) :
    ∀ (n : Nat) (buf : List Nat) (k : Nat),
      buf.length + n ≤ (name_words draw n buf k).1.length ∧
      (name_words draw n buf k).1.length ≤ buf.length + 13 * n ∧
      (1 ≤ n → (name_words draw n buf k).1.length ≤ max (buf.length + 13 * (n - 1)) 40 + 1) ∧
      (1 ≤ n → buf.length ≤ 36 → buf.length + n + 1 ≤ (name_words draw n buf k).1.length)
    := by
  intro n
  induction n with
  | zero =>
    intro buf k
    simp only [name_words]
    omega
  | succ n ih =>
    intro buf k
    have hw := name_sylls_length draw (draw k % 3 + 1) buf (k + 1)
    have hnext := ih ((name_sylls draw (draw k % 3 + 1) buf (k + 1)).1 ++ [32])
      (name_sylls draw (draw k % 3 + 1) buf (k + 1)).2
    rw [List.length_append, List.length_singleton] at hnext
    have hmod : draw k % 3 < 3 := Nat.mod_lt _ (by decide)
    simp only [name_words, rnd_at]
    rcases Nat.eq_zero_or_pos n with h0 | hpos
    · subst h0
      simp only [name_words] at hnext ⊢
      rw [List.length_append, List.length_singleton]
      omega
    · omega

/-- A name has at least one and at most `MAXNAME` characters. -/
theorem make_name_length (draw : Nat → Nat) (k : Nat) :
    1 ≤ (make_name draw k).1.length ∧ (make_name draw k).1.length ≤ MAXNAME := by
  have hmod : draw k % 3 < 3 := Nat.mod_lt _ (by decide)
  have h := name_words_length draw (draw k % 3 + 2) [] (k + 1)
  simp only [make_name, rnd_at, List.length_dropLast, MAXNAME]
  simp only [List.length_nil] at h
  omega

/-- The loop of `init_names` adds `n` names, each made by `make_name`. -/
theorem init_names_loop_spec (draw : Nat → Nat) :
    ∀ (n : Nat) (s_names : List (List Nat)) (k : Nat),
      (init_names_loop draw n s_names k).1.length = s_names.length + n ∧
      ∀ s ∈ (init_names_loop draw n s_names k).1,
        s ∈ s_names ∨ ∃ j, s = (make_name draw j).1 := by
  intro n
  induction n with
  | zero =>
    intro s_names k
    simp only [init_names_loop]
    exact ⟨rfl, fun s hs => Or.inl hs⟩
  | succ n ih =>
    intro s_names k
    have h := ih (s_names ++ [(make_name draw k).1]) (make_name draw k).2
    simp only [init_names_loop]
    refine ⟨?_, ?_⟩
    · rw [h.1, List.length_append, List.length_singleton]
      omega
    · intro s hs
      rcases h.2 s hs with hmem | hnew
      · rcases List.mem_append.mp hmem with h1 | h1
        · exact Or.inl h1
        · exact Or.inr ⟨k, List.mem_singleton.mp h1⟩
      · exact Or.inr hnew

/-- C21. For every sequence `draw` of values the random generator gives, from every
position `k` in it, `init_names` produces `MAXSCROLLS` (18) names, and each of them has
at least one and at most `MAXNAME` (40) characters. -/
theorem init_names_lengths (draw : Nat → Nat) (k : Nat) :
    (init_names draw k).1.length = 18 ∧
    ∀ s ∈ (init_names draw k).1, 1 ≤ s.length ∧ s.length ≤ 40 := by
  have h := init_names_loop_spec draw MAXSCROLLS [] k
  refine ⟨h.1, ?_⟩
  intro s hs
  rcases h.2 s hs with hmem | ⟨j, hj⟩
  · exact absurd hmem (List.not_mem_nil s)
  · rw [hj]
    exact make_name_length draw j

theorem init_names_head (draw : Nat → Nat) :
    ∀ (n : Nat) (a : List Nat) (l : List (List Nat)) (k : Nat),
      (init_names_loop draw n (a :: l) k).1.head? = some a := by
  intro n
  induction n with
  | zero => intro a l k; rfl
  | succ n ih =>
    intro a l k
    simp only [init_names_loop, List.cons_append]
    exact ih a _ _

/-- The first name `init_names` produces is the one `make_name` makes first. -/
theorem init_names_first (draw : Nat → Nat) (k : Nat) :
    (init_names draw k).1.head? = some (make_name draw k).1 := by
  show (init_names_loop draw (17 + 1) [] k).1.head? = _
  rw [init_names_loop]
  exact init_names_head draw 17 _ _ _

set_option maxRecDepth 100000 in
theorem make_name_42989472 :
    (make_name (RN_values 42989472) 0).1 =
      [116, 104, 101, 114, 98, 106, 111, 114, 98, 106, 111, 114, 32,
       119, 101, 114, 103, 99, 111, 109, 112, 115, 110, 97, 32,
       107, 108, 105, 115, 110, 101, 115, 97, 114, 122, 101, 32] := by
  decide

/-- C26 fails when the last word of a name is left empty.  With the generator in the
state 42989472 the first name is made of four words; the first three are `therbjorbjor`,
`wergcompsna` and `klisnesarze`, 37 characters with their spaces, and the syllable drawn
for the fourth word, `glen`, does not fit in the 40.  The space behind the empty fourth
word is taken off and the space behind the third word stays: the first name `init_names`
produces is `therbjorbjor wergcompsna klisnesarze ` and ends with a space. -/
theorem init_names_trailing_space :
    (init_names (RN_values 42989472) 0).1.head? =
      some ([116, 104, 101, 114, 98, 106, 111, 114, 98, 106, 111, 114, 32,
       119, 101, 114, 103, 99, 111, 109, 112, 115, 110, 97, 32,
       107, 108, 105, 115, 110, 101, 115, 97, 114, 122, 101, 32]) ∧
    (List.getLast? [116, 104, 101, 114, 98, 106, 111, 114, 98, 106, 111, 114, 32,
       119, 101, 114, 103, 99, 111, 109, 112, 115, 110, 97, 32,
       107, 108, 105, 115, 110, 101, 115, 97, 114, 122, 101, 32]) = some 32 := by
  refine ⟨?_, rfl⟩
  rw [← make_name_42989472]
  exact init_names_first _ 0

/-! ## Properties: the colours of the potions -/

/-- The entries of `rainbow` are pairwise different. -/
theorem rainbow_inj :
    ∀ i < 27, ∀ j < 27, rainbow.getD i "" = rainbow.getD j "" → i = j := by
  decide

theorem rainbow_mem : ∀ i < 27, rainbow.getD i "" ∈ rainbow := by
  decide

theorem NCOLORS_eq : NCOLORS = 27 := rfl

/-- What the search for an unused colour returns is an index of `rainbow` that was not in
use. -/
theorem unused_color_spec (draw : Nat → Nat) (used : List Bool) :
    ∀ (fuel k j k1 : Nat), unused_color draw used fuel k = some (j, k1) →
      j < 27 ∧ used.getD j false = false := by
  intro fuel
  induction fuel with
  | zero =>
    intro k j k1 h
    simp [unused_color] at h
  | succ fuel ih =>
    intro k j k1 h
    simp only [unused_color, rnd_at] at h
    split at h
    · exact ih _ _ _ h
    · rename_i hfree
      simp only [Option.some.injEq, Prod.mk.injEq] at h
      rw [← h.1]
      refine ⟨?_, ?_⟩
      · rw [NCOLORS_eq]; exact Nat.mod_lt _ (by decide)
      · simpa using hfree

/-- The search for an unused colour returns when one of its first `fuel` draws gives a
colour that is not in use. -/
theorem unused_color_some (draw : Nat → Nat) (used : List Bool) :
    ∀ (fuel k : Nat), (∃ n < fuel, used.getD (draw (k + n) % NCOLORS) false = false) →
      ∃ j k1, unused_color draw used fuel k = some (j, k1) := by
  intro fuel
  induction fuel with
  | zero =>
    intro k h
    obtain ⟨n, hn, _⟩ := h
    omega
  | succ fuel ih =>
    intro k h
    obtain ⟨n, hn, hfree⟩ := h
    simp only [unused_color, rnd_at]
    split
    · rename_i hused
      apply ih
      cases n with
      | zero =>
        rw [Nat.add_zero] at hfree
        rw [hfree] at hused
        exact absurd hused (by decide)
      | succ m =>
        refine ⟨m, by omega, ?_⟩
        rw [Nat.add_assoc, Nat.add_comm 1 m]
        exact hfree
    · exact ⟨_, _, rfl⟩

theorem set_getD (used : List Bool) (j i : Nat) :
    (used.set j true).getD i false
      = (if j = i ∧ j < used.length then true else used.getD i false) := by
  rw [List.getD_eq_getElem?_getD, List.getElem?_set, List.getD_eq_getElem?_getD]
  by_cases e : j = i
  · subst e
    by_cases hl : j < used.length
    · simp [hl]
    · have hnone : used[j]? = none := List.getElem?_eq_none (by omega)
      simp [hl, hnone]
  · simp [e]

theorem count_set_true (used : List Bool) (j : Nat) :
    (used.set j true).count true ≤ used.count true + 1 := by
  by_cases hl : j < used.length
  · rw [List.count_set true true used j hl]
    simp only [beq_self_eq_true, if_true]
    omega
  · rw [List.set_eq_of_length_le (by omega)]
    omega

theorem false_mem_of_count (used : List Bool) (h : used.count true < used.length) :
    false ∈ used := by
  by_contra hno
  have hall : ∀ b ∈ used, true = b := by
    intro b hb
    cases b with
    | true => rfl
    | false => exact absurd hb hno
  have := List.count_eq_length.mpr hall
  omega

/-- The loop of `init_colors`, when it returns: the names it adds are entries of `rainbow`
that differ from each other and from the names given out before. -/
theorem init_colors_loop_spec (draw : Nat → Nat) (fuel : Nat) :
    ∀ (n : Nat) (used : List Bool) (cols : List String) (k : Nat) (res : List String)
      (k1 : Nat), used.length = 27 → cols.Nodup →
      (∀ c ∈ cols, c ∈ rainbow ∧ ∃ j < 27, c = rainbow.getD j "" ∧ used.getD j false = true) →
      init_colors_loop draw fuel n used cols k = some (res, k1) →
      res.length = cols.length + n ∧ res.Nodup ∧ ∀ c ∈ res, c ∈ rainbow := by
  intro n
  induction n with
  | zero =>
    intro used cols k res k1 _ hnd hin h
    simp only [init_colors_loop, Option.some.injEq, Prod.mk.injEq] at h
    rw [← h.1]
    exact ⟨rfl, hnd, fun c hc => (hin c hc).1⟩
  | succ n ih =>
    intro used cols k res k1 hlen hnd hin h
    simp only [init_colors_loop] at h
    cases hp : unused_color draw used fuel k with
    | none => rw [hp] at h; simp at h
    | some r =>
      obtain ⟨j, k2⟩ := r
      rw [hp] at h
      simp only at h
      obtain ⟨hj, hfree⟩ := unused_color_spec draw used fuel k j k2 hp
      have hnew : rainbow.getD j "" ∉ cols := by
        intro hmem
        obtain ⟨_, j1, hj1, he, hu⟩ := hin _ hmem
        have := rainbow_inj j hj j1 hj1 he
        subst this
        rw [hfree] at hu
        exact absurd hu (by decide)
      have h3 := ih (used.set j true) (cols ++ [rainbow.getD j ""]) k2 res k1
        (by rw [List.length_set]; exact hlen)
        (by
          rw [List.nodup_append]
          refine ⟨hnd, List.nodup_singleton _, ?_⟩
          intro a ha hb
          rw [List.mem_singleton] at hb
          subst hb
          exact hnew ha)
        (by
          intro c hc
          rcases List.mem_append.mp hc with hc | hc
          · obtain ⟨hr, j1, hj1, he, hu⟩ := hin c hc
            refine ⟨hr, j1, hj1, he, ?_⟩
            rw [set_getD]
            split
            · rfl
            · exact hu
          · rw [List.mem_singleton] at hc
            subst hc
            refine ⟨rainbow_mem j hj, j, hj, rfl, ?_⟩
            rw [set_getD, if_pos ⟨rfl, by omega⟩])
        h
      rw [List.length_append, List.length_singleton] at h3
      refine ⟨by omega, h3.2⟩

/-- The loop of `init_colors` returns when every search for an unused colour meets one
within `fuel` draws. -/
theorem init_colors_loop_some (draw : Nat → Nat) (fuel : Nat)
    (hdraw : ∀ (p : Nat) (used : List Bool), used.length = NCOLORS → false ∈ used →
      ∃ n < fuel, used.getD (draw (p + n) % NCOLORS) false = false) :
    ∀ (n : Nat) (used : List Bool) (cols : List String) (k : Nat),
      used.length = 27 → used.count true + n ≤ 27 →
      ∃ res k1, init_colors_loop draw fuel n used cols k = some (res, k1) := by
  intro n
  induction n with
  | zero =>
    intro used cols k _ _
    exact ⟨cols, k, rfl⟩
  | succ n ih =>
    intro used cols k hlen hcount
    have hfalse : false ∈ used := false_mem_of_count used (by omega)
    obtain ⟨j, k2, hp⟩ := unused_color_some draw used fuel k (hdraw k used hlen hfalse)
    simp only [init_colors_loop, hp]
    apply ih
    · rw [List.length_set]; exact hlen
    · have := count_set_true used j
      omega

/-- C22. Whatever values `draw` the random generator gives, from every position `k`:
when `init_colors` finishes, `p_colors` holds 14 names that are pairwise different,
each one an entry of `rainbow`; and it does finish when every search for an unused colour
meets one within `fuel` draws. -/
theorem init_colors_distinct (draw : Nat → Nat) (fuel k : Nat) :
    (∀ p_colors k1, init_colors draw fuel k = some (p_colors, k1) →
      p_colors.length = 14 ∧ p_colors.Pairwise (fun a b => a ≠ b) ∧
      ∀ c ∈ p_colors, c ∈ rainbow) ∧
    ((∀ (p : Nat) (used : List Bool), used.length = NCOLORS → false ∈ used →
        ∃ n < fuel, used.getD (draw (p + n) % NCOLORS) false = false) →
      ∃ p_colors k1, init_colors draw fuel k = some (p_colors, k1)) := by
  refine ⟨?_, ?_⟩
  · intro p_colors k1 h
    have h1 := init_colors_loop_spec draw fuel MAXPOTIONS (List.replicate NCOLORS false) []
      k p_colors k1 (by decide) List.nodup_nil
      (fun c hc => absurd hc (List.not_mem_nil c)) h
    exact ⟨h1.1, h1.2.1, h1.2.2⟩
  · intro hdraw
    exact init_colors_loop_some draw fuel hdraw MAXPOTIONS (List.replicate NCOLORS false) []
      k (by decide) (by decide)

theorem init_colors_distinct_witness :
    init_colors (fun k => k) 27 0 = some (rainbow.take 14, 14) ∧
    ((rainbow.take 14).length = 14 ∧ (rainbow.take 14).Pairwise (fun a b => a ≠ b) ∧
      ∀ c ∈ rainbow.take 14, c ∈ rainbow) ∧
    ∃ p_colors k1, init_colors (fun k => k) 27 0 = some (p_colors, k1) :=
  ⟨by decide, (init_colors_distinct (fun k => k) 27 0).1 (rainbow.take 14) 14 (by decide),
    (init_colors_distinct (fun k => k) 27 0).2 (by
      intro p used hlen hmem
      obtain ⟨i, hi, he⟩ := List.mem_iff_getElem.mp hmem
      have hlen27 : used.length = 27 := hlen
      refine ⟨(i + 27 - p % 27) % 27, Nat.mod_lt _ (by decide), ?_⟩
      have hidx : (p + (i + 27 - p % 27) % 27) % NCOLORS = i := by
        rw [NCOLORS_eq]
        omega
      rw [hidx, List.getD_eq_getElem used false hi]
      exact he)⟩

/-! ## Properties: the inventory -/

/-- The loop of `inventory` when no call of `add_line` returns `ESCAPE`: every entry
ahead that is not passed over is listed. -/
theorem inventory_loop_all (heap : Nat → THING) (type : Int) :
    ∀ (nodes listed : List Nat),
      inventory_loop heap (fun _ _ => false) type nodes listed
        = (listed ++ nodes.filter (fun a => !inventory_skip type (heap a).o_type),
           (listed ++ nodes.filter (fun a => !inventory_skip type (heap a).o_type)).length
             != 0) := by
  intro nodes
  induction nodes with
  | nil =>
    intro listed
    simp only [inventory_loop, List.filter_nil, List.append_nil]
  | cons a rest ih =>
    intro listed
    by_cases hs : inventory_skip type (heap a).o_type = true
    · simp only [inventory_loop, hs, if_true, List.filter_cons, Bool.not_true,
        Bool.false_eq_true, if_false]
      exact ih listed
    · simp only [inventory_loop, hs, if_false, Bool.false_eq_true, List.filter_cons,
        Bool.not_eq_true', Bool.not_eq_true] at *
      rw [ih (listed ++ [a])]
      simp only [hs, Bool.not_false, if_true, List.append_assoc, List.singleton_append]

/-- The value the loop of `inventory` returns is `TRUE` exactly when an entry was
listed. -/
theorem inventory_loop_result (heap : Nat → THING) (add_line : List Nat → Nat → Bool)
    (type : Int) :
    ∀ (nodes listed : List Nat),
      ((inventory_loop heap add_line type nodes listed).2 = true ↔
        (inventory_loop heap add_line type nodes listed).1 ≠ []) := by
  intro nodes
  induction nodes with
  | nil =>
    intro listed
    cases listed <;> simp [inventory_loop]
  | cons a rest ih =>
    intro listed
    simp only [inventory_loop]
    split
    · exact ih listed
    · split
      · simp
      · exact ih (listed ++ [a])

theorem inventory_skip_callable (o_type : Int) :
    (!inventory_skip CALLABLE o_type) = (o_type != FOOD && o_type != AMULET) := by
  unfold inventory_skip CALLABLE
  by_cases h1 : o_type = FOOD
  · subst h1; decide
  · by_cases h2 : o_type = AMULET
    · subst h2; decide
    · have e1 : (o_type != FOOD) = true := by simpa using h1
      have e2 : (o_type != AMULET) = true := by simpa using h2
      simp [e1, e2]

theorem inventory_skip_r_or_s (o_type : Int) (hkind : 0 ≤ o_type) :
    (!inventory_skip R_OR_S o_type) = (o_type == RING || o_type == STICK) := by
  unfold inventory_skip R_OR_S CALLABLE
  by_cases h1 : o_type = RING
  · subst h1; decide
  · by_cases h2 : o_type = STICK
    · subst h2; decide
    · have e1 : (o_type == RING) = false := by simpa using h1
      have e2 : (o_type == STICK) = false := by simpa using h2
      have e3 : ((-2 : Int) != o_type) = true := by
        simp only [bne_iff_ne, ne_eq]
        omega
      simp [e1, e2, e3]

/-- C23 (counterexample). From the pack of `ex_bag`, which holds food, a potion, a
weapon, a ring, a wand and the amulet in this order, `inventory(pack, CALLABLE)` lists the
potion, the weapon, the ring and the wand: the weapon is listed, the food and the amulet
are not, while the kinds the specification gives for "callable" select the food, the
potion, the ring, the wand and the amulet. -/
theorem inventory_callable_counterexample :
    inventory ex_bag.heap (fun _ _ => false) ex_bag.nthings ex_bag.pack CALLABLE
      = some ([1, 2, 3, 4], true) ∧
    [0, 1, 2, 3, 4, 5].filter (fun a => callable_spec (ex_bag.heap a).o_type)
      = [0, 1, 3, 4, 5] := by
  decide

/-- C23 (amended). For a list that ends, no call of `add_line` returning `ESCAPE`:
`inventory(list, CALLABLE)` lists, in order, exactly the entries whose kind is neither
food nor amulet, and `inventory(list, R_OR_S)` (the kinds being characters) exactly the
rings and the wands or staffs.  Whatever `add_line` returns, for every `type`, the value
returned is `TRUE` if and only if at least one entry was listed. -/
theorem inventory_lists (heap : Nat → THING) (fuel : Nat) (list : Option Nat)
    (nodes : List Nat) (hl : chain heap fuel list = some nodes)
    (hkind : ∀ a ∈ nodes, 0 ≤ (heap a).o_type) :
    (inventory heap (fun _ _ => false) fuel list CALLABLE).map (fun r => r.1)
      = some (nodes.filter
          (fun a => (heap a).o_type != FOOD && (heap a).o_type != AMULET)) ∧
    (inventory heap (fun _ _ => false) fuel list R_OR_S).map (fun r => r.1)
      = some (nodes.filter
          (fun a => (heap a).o_type == RING || (heap a).o_type == STICK)) ∧
    (∀ (add_line : List Nat → Nat → Bool) (type : Int),
      ∃ listed b, inventory heap add_line fuel list type = some (listed, b) ∧
        (b = true ↔ listed ≠ [])) := by
  refine ⟨?_, ?_, ?_⟩
  · simp only [inventory, hl, inventory_loop_all, List.nil_append, Option.map_some']
    congr 1
    apply List.filter_congr
    intro a _
    exact inventory_skip_callable _
  · simp only [inventory, hl, inventory_loop_all, List.nil_append, Option.map_some']
    congr 1
    apply List.filter_congr
    intro a ha
    exact inventory_skip_r_or_s _ (hkind a ha)
  · intro add_line type
    refine ⟨_, _, ?_, inventory_loop_result heap add_line type nodes []⟩
    simp only [inventory, hl]

theorem inventory_lists_witness :
    (inventory ex_bag.heap (fun _ _ => false) 6 (some 0) CALLABLE).map (fun r => r.1)
      = some ([0, 1, 2, 3, 4, 5].filter (fun a => (ex_bag.heap a).o_type != FOOD &&
          (ex_bag.heap a).o_type != AMULET)) ∧
    (inventory ex_bag.heap (fun _ _ => false) 6 (some 0) R_OR_S).map (fun r => r.1)
      = some ([0, 1, 2, 3, 4, 5].filter (fun a => (ex_bag.heap a).o_type == RING ||
          (ex_bag.heap a).o_type == STICK)) ∧
    (∀ (add_line : List Nat → Nat → Bool) (type : Int),
      ∃ listed b, inventory ex_bag.heap add_line 6 (some 0) type = some (listed, b) ∧
        (b = true ↔ listed ≠ [])) :=
  inventory_lists ex_bag.heap 6 (some 0) [0, 1, 2, 3, 4, 5] (by decide) (by decide)

/-! ## Properties: picking up with an empty pack -/

/-- C25 fails on the path of `add_pack` for an empty pack.  With `pack == NULL`, the call
`add_pack(NULL, silent)` for an object `obj` lying where the hero stands (not a scare
scroll that was found before, a pack letter being free) succeeds: `obj` heads the pack
and `inpack` has gone up by 1.  But the level list is what it was, head and nodes, and
`obj` is one of them: the item is on the level list and on the pack list at once. -/
theorem add_pack_empty_pack_keeps_floor (g : Game) (obj : Nat) (silent : Bool)
    (l : List Nat) (hpack : g.pack = none)
    (hfind : find_obj g g.hero.y g.hero.x = some obj)
    (hlvl : chain g.heap g.nthings g.lvl_obj = some l)
    (hscroll : ¬ ((g.heap obj).o_type = SCROLL ∧ (g.heap obj).o_which = S_SCARE ∧
      (g.heap obj).o_flags &&& ISFOUND ≠ 0))
    (hfree : g.pack_used.findIdx (fun b => !b) < g.pack_used.length) :
    ∃ g1, add_pack none silent g = some g1 ∧ g1.pack = some obj ∧
      g1.inpack = g.inpack + 1 ∧ g1.lvl_obj = g.lvl_obj ∧
      chain g1.heap g1.nthings g1.lvl_obj = some l ∧ obj ∈ l := by
  have hmem : obj ∈ l := by
    unfold find_obj at hfind
    rw [hlvl] at hfind
    exact List.mem_of_find?_eq_some hfind
  unfold add_pack
  simp only [hfind, hscroll, if_false, hpack, pack_char, hfree, if_true]
  refine ⟨_, rfl, ?_, ?_, ?_, ?_, hmem⟩
  · rw [(add_pack_finish_fields _ _).2.1]
    rfl
  · rw [(add_pack_finish_fields _ _).1]
    rfl
  · rw [(add_pack_finish_fields _ _).2.2.2.2.1]
    rfl
  · rw [(add_pack_finish_fields _ _).2.2.2.2.1, (add_pack_finish_fields _ _).2.2.1,
      (add_pack_finish_fields _ _).2.2.2.2.2.2]
    apply chain_congr g.heap _ _ _ _ hlvl
    intro a _
    simp only [Game.poke]
    by_cases e : a = obj
    · subst e
      simp only [Function.update_same]
    · simp only [Function.update_noteq e]

theorem add_pack_empty_pack_keeps_floor_witness :
    ∃ g1, add_pack none true ex_dropped = some g1 ∧ g1.pack = some 0 ∧
      g1.inpack = ex_dropped.inpack + 1 ∧ g1.lvl_obj = ex_dropped.lvl_obj ∧
      chain g1.heap g1.nthings g1.lvl_obj = some [0, 1] ∧ 0 ∈ [0, 1] :=
  add_pack_empty_pack_keeps_floor ex_dropped 0 true [0, 1] rfl (by decide) (by decide)
    (by decide) (by decide)

/-! ## Properties: merging an item of a group -/

/-- The first inner loop runs over entries of the type with another sub-kind, stops at the
first entry `y` that is not one, and leaves the list behind `y`. -/
theorem walk_which_rest (heap : Nat → THING) (obj : THING) (y : Nat) (post : List Nat)
    (hy : ¬ ((heap y).o_type = obj.o_type ∧ (heap y).o_which ≠ obj.o_which)) :
    ∀ (mid : List Nat) (x : Nat) (lp : Option Nat),
      (heap x).o_type = obj.o_type ∧ (heap x).o_which ≠ obj.o_which →
      (∀ a ∈ mid, (heap a).o_type = obj.o_type ∧ (heap a).o_which ≠ obj.o_which) →
      (walk_which heap obj x lp (mid ++ y :: post)).1 = y ∧
      (walk_which heap obj x lp (mid ++ y :: post)).2.2 = post := by
  intro mid
  induction mid with
  | nil =>
    intro x lp hx _
    rw [List.nil_append, walk_which, if_pos hx, walk_which_stay heap obj post y _ hy]
    exact ⟨rfl, rfl⟩
  | cons m mid ih =>
    intro x lp hx hmid
    rw [List.cons_append, walk_which, if_pos hx]
    exact ih m (some x) (hmid m (List.mem_cons_self _ _))
      (fun a ha => hmid a (List.mem_cons_of_mem _ ha))

/-- The second inner loop runs over entries of the sub-kind with another group and stops
at the first entry of the group looked for. -/
theorem walk_group_run (heap : Nat → THING) (obj : THING) (op : Nat) (post : List Nat)
    (hop : (heap op).o_type = obj.o_type ∧ (heap op).o_which = obj.o_which ∧
      (heap op).o_group = obj.o_group) :
    ∀ (grp : List Nat) (x : Nat) (lp : Option Nat),
      (∀ a ∈ x :: grp, (heap a).o_type = obj.o_type ∧ (heap a).o_which = obj.o_which ∧
        (heap a).o_group ≠ obj.o_group) →
      (walk_group heap obj x lp (grp ++ op :: post)).1 = op := by
  have hstop : ¬ ((heap op).o_type = obj.o_type ∧ (heap op).o_which = obj.o_which ∧
      (heap op).o_group ≠ obj.o_group) := fun h => h.2.2 hop.2.2
  intro grp
  induction grp with
  | nil =>
    intro x lp hx
    rw [List.nil_append, walk_group, if_pos (hx x (List.mem_cons_self _ _))]
    cases post with
    | nil => rw [walk_group, if_neg hstop]
    | cons n post => rw [walk_group, if_neg hstop]
  | cons m grp ih =>
    intro x lp hx
    rw [List.cons_append, walk_group, if_pos (hx x (List.mem_cons_self _ _))]
    exact ih m (some x) (fun a ha => hx a (List.mem_cons_of_mem _ ha))

/-- The second inner loop does not move from an entry of the group looked for. -/
theorem walk_group_stay (heap : Nat → THING) (obj : THING) (rest : List Nat) (op : Nat)
    (lp : Option Nat)
    (c : ¬ ((heap op).o_type = obj.o_type ∧ (heap op).o_which = obj.o_which ∧
      (heap op).o_group ≠ obj.o_group)) :
    walk_group heap obj op lp rest = (op, lp, rest) := by
  cases rest with
  | nil => rw [walk_group, if_neg c]
  | cons n rest => rw [walk_group, if_neg c]

/-- Once the first inner loop has stopped at `y`, the first entry of the item's sub-kind,
with the entries of other groups and then `op` of the item's group ahead, the search
answers "group". -/
theorem scan_same_type_group (heap : Nat → THING) (obj : THING) (x y op : Nat)
    (lp : Option Nat) (rest grp post : List Nat)
    (hw : (walk_which heap obj x lp rest).1 = y)
    (hr : y :: (walk_which heap obj x lp rest).2.2 = grp ++ op :: post)
    (hgrp : ∀ a ∈ grp, (heap a).o_type = obj.o_type ∧ (heap a).o_which = obj.o_which ∧
      (heap a).o_group ≠ obj.o_group)
    (hop : (heap op).o_type = obj.o_type ∧ (heap op).o_which = obj.o_which ∧
      (heap op).o_group = obj.o_group)
    (hmult : ISMULT obj.o_type = false) (hgroup : obj.o_group ≠ 0) :
    scan_same_type heap obj x lp rest = Scan.group op := by
  have hstop : ¬ ((heap op).o_type = obj.o_type ∧ (heap op).o_which = obj.o_which ∧
      (heap op).o_group ≠ obj.o_group) := fun h => h.2.2 hop.2.2
  have hy : (heap y).o_type = obj.o_type ∧ (heap y).o_which = obj.o_which := by
    cases grp with
    | nil =>
      rw [List.nil_append] at hr
      rw [(List.cons.inj hr).1]
      exact ⟨hop.1, hop.2.1⟩
    | cons m grp =>
      rw [List.cons_append] at hr
      rw [(List.cons.inj hr).1]
      exact ⟨(hgrp m (List.mem_cons_self _ _)).1, (hgrp m (List.mem_cons_self _ _)).2.1⟩
  have hv : (walk_group heap obj y (some y) (walk_which heap obj x lp rest).2.2).1 = op := by
    cases grp with
    | nil =>
      rw [List.nil_append] at hr
      rw [(List.cons.inj hr).1, walk_group_stay heap obj _ op _ hstop]
    | cons m grp =>
      rw [List.cons_append] at hr
      rw [(List.cons.inj hr).1, (List.cons.inj hr).2]
      exact walk_group_run heap obj op post hop grp m (some m) hgrp
  unfold scan_same_type
  simp only [hw, hy, and_self, if_true, hmult, Bool.false_eq_true, if_false, hgroup, ne_eq,
    not_false_eq_true, hv, hop]

/-- In a pack whose entries of the type of the item are adjacent, those of its sub-kind
adjacent among them, the search for an item of a group (of a type that is not stackable)
stops at the first entry of its sub-kind and group and answers "group". -/
theorem scan_pack_group (heap : Nat → THING) (obj : THING) (op : Nat)
    (pre mid grp post : List Nat) (hmult : ISMULT obj.o_type = false)
    (hgroup : obj.o_group ≠ 0)
    (hpre : ∀ a ∈ pre, (heap a).o_type ≠ obj.o_type)
    (hmid : ∀ a ∈ mid, (heap a).o_type = obj.o_type ∧ (heap a).o_which ≠ obj.o_which)
    (hgrp : ∀ a ∈ grp, (heap a).o_type = obj.o_type ∧ (heap a).o_which = obj.o_which ∧
      (heap a).o_group ≠ obj.o_group)
    (hop : (heap op).o_type = obj.o_type ∧ (heap op).o_which = obj.o_which ∧
      (heap op).o_group = obj.o_group) :
    ∀ lp, scan_pack heap obj lp (pre ++ mid ++ grp ++ op :: post) = Scan.group op := by
  induction pre with
  | nil =>
    intro lp
    rw [List.nil_append]
    cases mid with
    | nil =>
      rw [List.nil_append]
      cases hg : grp ++ op :: post with
      | nil => cases grp <;> simp at hg
      | cons y rest =>
        have hy : (heap y).o_type = obj.o_type ∧ (heap y).o_which = obj.o_which := by
          cases grp with
          | nil =>
            rw [List.nil_append] at hg
            rw [← (List.cons.inj hg).1]
            exact ⟨hop.1, hop.2.1⟩
          | cons m grp =>
            rw [List.cons_append] at hg
            rw [← (List.cons.inj hg).1]
            exact ⟨(hgrp m (List.mem_cons_self _ _)).1,
              (hgrp m (List.mem_cons_self _ _)).2.1⟩
        have hstay := walk_which_stay heap obj rest y lp (fun h => h.2 hy.2)
        rw [scan_pack, if_neg (not_not.mpr hy.1)]
        apply scan_same_type_group heap obj y y op lp rest grp post _ _ hgrp hop hmult hgroup
        · rw [hstay]
        · rw [hstay]; exact hg.symm
    | cons m mid =>
      have hm := hmid m (List.mem_cons_self _ _)
      cases hg : grp ++ op :: post with
      | nil => cases grp <;> simp at hg
      | cons y rest =>
        have hy : (heap y).o_type = obj.o_type ∧ (heap y).o_which = obj.o_which := by
          cases grp with
          | nil =>
            rw [List.nil_append] at hg
            rw [← (List.cons.inj hg).1]
            exact ⟨hop.1, hop.2.1⟩
          | cons m grp =>
            rw [List.cons_append] at hg
            rw [← (List.cons.inj hg).1]
            exact ⟨(hgrp m (List.mem_cons_self _ _)).1,
              (hgrp m (List.mem_cons_self _ _)).2.1⟩
        have hrun := walk_which_rest heap obj y rest (fun h => h.2 hy.2) mid m lp hm
          (fun a ha => hmid a (List.mem_cons_of_mem _ ha))
        rw [List.append_assoc, hg, List.cons_append, scan_pack, if_neg (not_not.mpr hm.1)]
        apply scan_same_type_group heap obj m y op lp _ grp post hrun.1 _ hgrp hop hmult
          hgroup
        rw [hrun.2]; exact hg.symm
  | cons p pre ih =>
    intro lp
    have hp := hpre p (List.mem_cons_self _ _)
    rw [List.cons_append, List.cons_append, List.cons_append, scan_pack, if_pos hp]
    exact ih (fun a ha => hpre a (List.mem_cons_of_mem _ ha)) (some p)

/-- What `add_pack` returns when the search answers "group". -/
theorem add_pack_group_eq (g : Game) (arg : Option Nat) (obj op head : Nat) (silent : Bool)
    (l : List Nat)
    (harg : arg = some obj ∨ (arg = none ∧ find_obj g g.hero.y g.hero.x = some obj))
    (hpack : g.pack = some head) (hl : chain g.heap g.nthings (some head) = some l)
    (hscroll : ¬ ((g.heap obj).o_type = SCROLL ∧ (g.heap obj).o_which = S_SCARE ∧
      (g.heap obj).o_flags &&& ISFOUND ≠ 0))
    (hscan : scan_pack g.heap (g.heap obj) none l = Scan.group op)
    (hroom : (pack_room arg.isNone obj { g.poke op (fun t =>
      { t with o_count := t.o_count + (g.heap obj).o_count }) with
        inpack := g.inpack - 1 }).1 = true) :
    add_pack arg silent g = some (dump_it obj op
      (pack_room arg.isNone obj { g.poke op (fun t =>
        { t with o_count := t.o_count + (g.heap obj).o_count }) with
          inpack := g.inpack - 1 }).2) := by
  have hroom1 : (pack_room arg.isNone obj { g.poke op (fun t =>
      { t with o_count := t.o_count + (g.heap obj).o_count }) with
        inpack := (g.poke op (fun t =>
      { t with o_count := t.o_count + (g.heap obj).o_count })).inpack - 1 }).1 = true := hroom
  rcases harg with harg | ⟨harg, hfind⟩
  · subst harg
    unfold add_pack
    simp only [hscroll, if_false, hpack, hl, hscan, hroom1, Bool.not_true,
      Bool.false_eq_true]
    rfl
  · subst harg
    unfold add_pack
    simp only [hfind, hscroll, if_false, hpack, hl, hscan, hroom1, Bool.not_true,
      Bool.false_eq_true]
    rfl

/-- C29. With `inpack` at most `MAXPACK`, also equal to it, `add_pack` of an item of a
group (non-zero group id, of a type that is not stackable) whose type, sub-kind and group
are those of an entry `op` the search of the pack reaches (the entries of its type
adjacent in the pack list, those of its sub-kind adjacent among them) is not refused: it
returns with the count of `op` grown by the count of the item, `inpack` unchanged, the
pack list as it was, and the item discarded.  The item is handed in (`arg = some obj`)
or picked up from the floor. -/
theorem add_pack_group_merge (g : Game) (arg : Option Nat) (obj op head : Nat)
    (silent : Bool) (pre mid grp post : List Nat)
    (harg : arg = some obj ∨ (arg = none ∧ find_obj g g.hero.y g.hero.x = some obj ∧
      obj ∉ pre ++ mid ++ grp ++ op :: post ∧
      ∀ p, (g.heap obj).l_prev = some p → p ∉ pre ++ mid ++ grp ++ op :: post))
    (hpack : g.pack = some head)
    (hl : chain g.heap g.nthings (some head) = some (pre ++ mid ++ grp ++ op :: post))
    (hmult : ISMULT (g.heap obj).o_type = false)
    (hgroup : (g.heap obj).o_group ≠ 0)
    (hpre : ∀ a ∈ pre, (g.heap a).o_type ≠ (g.heap obj).o_type)
    (hmid : ∀ a ∈ mid, (g.heap a).o_type = (g.heap obj).o_type ∧
      (g.heap a).o_which ≠ (g.heap obj).o_which)
    (hgrp : ∀ a ∈ grp, (g.heap a).o_type = (g.heap obj).o_type ∧
      (g.heap a).o_which = (g.heap obj).o_which ∧ (g.heap a).o_group ≠ (g.heap obj).o_group)
    (hop : (g.heap op).o_type = (g.heap obj).o_type ∧
      (g.heap op).o_which = (g.heap obj).o_which ∧ (g.heap op).o_group = (g.heap obj).o_group)
    (hroom : g.inpack ≤ MAXPACK) :
    ∃ g1, add_pack arg silent g = some g1 ∧ g1.inpack = g.inpack ∧
      (g1.heap op).o_count = (g.heap op).o_count + (g.heap obj).o_count ∧
      g1.pack = g.pack ∧
      chain g1.heap g1.nthings g1.pack = some (pre ++ mid ++ grp ++ op :: post) ∧
      obj ∈ g1.freed := by
  have hscan := scan_pack_group g.heap (g.heap obj) op pre mid grp post hmult hgroup hpre
    hmid hgrp hop none
  have hscroll : ¬ ((g.heap obj).o_type = SCROLL ∧ (g.heap obj).o_which = S_SCARE ∧
      (g.heap obj).o_flags &&& ISFOUND ≠ 0) := by
    intro h
    rw [h.1] at hmult
    exact absurd hmult (by decide)
  have hroom2 : ({ g.poke op (fun t =>
      { t with o_count := t.o_count + (g.heap obj).o_count }) with
        inpack := g.inpack - 1 } : Game).inpack < MAXPACK := by
    show g.inpack - 1 < MAXPACK
    omega
  obtain ⟨r1, r2, r3, r4, r5, _, r7, _⟩ := pack_room_fields arg.isNone obj _ hroom2
  have harg1 : arg = some obj ∨ (arg = none ∧ find_obj g g.hero.y g.hero.x = some obj) := by
    rcases harg with h | h
    · exact Or.inl h
    · exact Or.inr ⟨h.1, h.2.1⟩
  have hpoke : ∀ a, ((g.poke op (fun t =>
      { t with o_count := t.o_count + (g.heap obj).o_count })).heap a).l_next
        = (g.heap a).l_next ∧
      ((g.poke op (fun t =>
      { t with o_count := t.o_count + (g.heap obj).o_count })).heap a).l_prev
        = (g.heap a).l_prev := by
    intro a
    simp only [Game.poke]
    by_cases e : a = op
    · subst e; simp only [Function.update_same, and_self]
    · simp only [Function.update_noteq e, and_self]
  have hcount : ((pack_room arg.isNone obj { g.poke op (fun t =>
      { t with o_count := t.o_count + (g.heap obj).o_count }) with
        inpack := g.inpack - 1 }).2.heap op).o_count
      = (g.heap op).o_count + (g.heap obj).o_count := by
    rw [r7]
    have hc : ((g.poke op (fun t =>
        { t with o_count := t.o_count + (g.heap obj).o_count })).heap op).o_count
        = (g.heap op).o_count + (g.heap obj).o_count := by
      simp only [Game.poke, Function.update_same]
    split
    · exact ((_detachfields _ _ obj op).1).trans hc
    · exact hc
  have hlinks : ∀ a ∈ pre ++ mid ++ grp ++ op :: post,
      ((pack_room arg.isNone obj { g.poke op (fun t =>
      { t with o_count := t.o_count + (g.heap obj).o_count }) with
        inpack := g.inpack - 1 }).2.heap a).l_next = (g.heap a).l_next := by
    intro a ha
    rw [r7]
    rcases harg with h | ⟨h, _, hobj, hprev⟩
    · subst h; exact (hpoke a).1
    · subst h
      simp only [Option.isNone_none, if_true]
      refine Eq.trans ((_detachfields _ _ obj a).2 ?_ ?_) (hpoke a).1
      · intro e; subst e; exact hobj ha
      · intro p hp e
        subst e
        exact hprev a ((hpoke obj).2.symm.trans hp) ha
  refine ⟨_, add_pack_group_eq g arg obj op head silent _ harg1 hpack hl hscroll hscan r1,
    ?_, ?_, ?_, ?_, ?_⟩
  · rw [dump_it, (add_pack_finish_fields _ _).1]
    show (pack_room _ _ _).2.inpack = g.inpack
    rw [r2]
    show g.inpack - 1 + 1 = g.inpack
    omega
  · rw [dump_it, (add_pack_finish_fields _ _).2.2.2.2.2.2]
    simp only [discard, Function.update_same]
    exact hcount
  · rw [dump_it, (add_pack_finish_fields _ _).2.1]
    exact r3
  · rw [dump_it, (add_pack_finish_fields _ _).2.1, (add_pack_finish_fields _ _).2.2.1,
      (add_pack_finish_fields _ _).2.2.2.2.2.2]
    simp only [discard]
    rw [r3, r4]
    show chain _ g.nthings g.pack = _
    rw [hpack]
    apply chain_congr g.heap _ _ _ _ hl
    intro a ha
    by_cases e : a = op
    · subst e
      simp only [Function.update_same]
      exact hlinks a ha
    · simp only [Function.update_noteq e]
      exact hlinks a ha
  · rw [dump_it, (add_pack_finish_fields _ _).2.2.2.1]
    simp [discard]

theorem add_pack_group_merge_witness :
    ex_quiver.inpack = MAXPACK ∧
    ∃ g1, add_pack (some 2) true ex_quiver = some g1 ∧ g1.inpack = ex_quiver.inpack ∧
      (g1.heap 1).o_count = (ex_quiver.heap 1).o_count + (ex_quiver.heap 2).o_count ∧
      g1.pack = ex_quiver.pack ∧
      chain g1.heap g1.nthings g1.pack = some ([0] ++ [] ++ [] ++ 1 :: []) ∧
      2 ∈ g1.freed :=
  ⟨rfl, add_pack_group_merge ex_quiver (some 2) 2 1 0 true [0] [] [] [] (Or.inl rfl) rfl
    (by decide) (by decide) (by decide) (by decide) (by decide) (by decide) (by decide)
    (by decide)⟩

/-! ## Properties: the food used in one tick -/

/-- On a hand whose ring is of a known kind, `ring_eat` returns a value between -1 and 2
and changes nothing but the state of the random generator. -/
theorem ring_eat_bounds (hand : Nat) (g : Game) (hok : ring_kind_ok g hand) :
    ∃ e g1, ring_eat hand g = some (e, g1) ∧ -1 ≤ e ∧ e ≤ 2 ∧ g1.heap = g.heap ∧
      g1.cur_ring = g.cur_ring ∧ g1.food_left = g.food_left ∧ g1.amulet = g.amulet := by
  obtain ⟨e, g1, h, hh, hc, hf, _, ha⟩ := ring_eat_returns hand g hok
  refine ⟨e, g1, h, ?_, ?_, hh, hc, hf, ha⟩
  · cases hr : g.cur_ring hand with
    | none =>
      simp only [ring_eat, hr, Option.some.injEq, Prod.mk.injEq] at h
      omega
    | some r =>
      have hv := ring_eat_value g hand r hr (hok r hr)
      rw [hv.1] at h
      simp only [Option.some.injEq, Prod.mk.injEq] at h
      have := hv.2.2.1
      omega
  · cases hr : g.cur_ring hand with
    | none =>
      simp only [ring_eat, hr, Option.some.injEq, Prod.mk.injEq] at h
      omega
    | some r =>
      have hv := ring_eat_value g hand r hr (hok r hr)
      rw [hv.1] at h
      simp only [Option.some.injEq, Prod.mk.injEq] at h
      have := hv.2.2.2
      omega

/-- C30. In a tick of `stomach` that starts with `food_left > 0` (the rings worn being of
known kinds) both calls of `ring_eat` return, the daemon returns with the game going on,
and the new `food_left` is the old one minus `1 + ring_eat(LEFT) + ring_eat(RIGHT) -
amulet`, the amulet counting 0 or 1; so it lies between the old value minus 5 and the old
value plus 2, and no tick takes `food_left` from at least 300 to below 150. -/
theorem stomach_food_step (g : Game) (hpos : g.food_left > 0)
    (hl : ring_kind_ok g LEFT) (hr : ring_kind_ok g RIGHT) :
    ∃ e1 g1 e2 g2 g3, ring_eat LEFT g = some (e1, g1) ∧ ring_eat RIGHT g1 = some (e2, g2) ∧
      stomach g = some (Tick.alive g3) ∧
      g3.food_left = g.food_left - (1 + e1 + e2 - (if g.amulet then 1 else 0)) ∧
      g.food_left - 5 ≤ g3.food_left ∧ g3.food_left ≤ g.food_left + 2 ∧
      ¬ (300 ≤ g.food_left ∧ g3.food_left < 150) := by
  obtain ⟨e1, a1, h1, lo1, hi1, hh1, hc1, hf1, ha1⟩ := ring_eat_bounds LEFT g hl
  have hr1 : ring_kind_ok a1 RIGHT := by
    intro r hr0
    rw [hc1] at hr0
    rw [hh1]
    exact hr r hr0
  obtain ⟨e2, a2, h2, lo2, hi2, _, _, hf2, ha2⟩ := ring_eat_bounds RIGHT a1 hr1
  have hfood : (stomach_finish g.hungry_state (stomach_hunger g.food_left
      { a2 with food_left := a2.food_left - (e1 + e2 + 1 - (if a2.amulet then 1 else 0)) })
      ).food_left = g.food_left - (1 + e1 + e2 - (if g.amulet then 1 else 0)) := by
    rw [(stomach_finish_fields _ _).1, (stomach_hunger_fields _ _).1]
    show a2.food_left - (e1 + e2 + 1 - (if a2.amulet then 1 else 0)) = _
    rw [hf2, hf1, ha2, ha1]
    omega
  have ham : (if g.amulet then (1 : Int) else 0) = 0 ∨ (if g.amulet then (1 : Int) else 0) = 1 := by
    split <;> simp
  refine ⟨e1, a1, e2, a2, _, h1, h2, stomach_fed_eq g a1 a2 e1 e2 hpos h1 h2, hfood, ?_, ?_, ?_⟩
  · rw [hfood]; omega
  · rw [hfood]; omega
  · rw [hfood]; omega

theorem stomach_food_step_witness :
    ∃ e1 g1 e2 g2 g3, ring_eat LEFT ex_hungry = some (e1, g1) ∧
      ring_eat RIGHT g1 = some (e2, g2) ∧
      stomach ex_hungry = some (Tick.alive g3) ∧
      g3.food_left = ex_hungry.food_left - (1 + e1 + e2 - (if ex_hungry.amulet then 1 else 0)) ∧
      ex_hungry.food_left - 5 ≤ g3.food_left ∧ g3.food_left ≤ ex_hungry.food_left + 2 ∧
      ¬ (300 ≤ ex_hungry.food_left ∧ g3.food_left < 150) :=
  stomach_food_step ex_hungry (by decide)
    (fun r h => by cases h; decide) (fun r h => by cases h)

/-! ## Properties: restoring a saved game -/

theorem scan_digits_stop (base acc t : Nat) (r : List Nat) (ht : digit_val base t = none) :
    scan_digits base (t :: r) acc = (acc, t :: r) := by
  simp [scan_digits, ht]

theorem scan_magnitude_ten (s : List Nat) :
    scan_magnitude 10 s = (match s with
      | [] => none
      | c :: _ => if (digit_val 10 c).isSome then some (scan_digits 10 s 0) else none) := by
  unfold scan_magnitude
  have h10 : ¬ ((10 : Nat) = 16) := by decide
  split
  · simp only [h10, false_and, if_false]
  · rfl

/-- Scanning the decimal digits `printf` wrote for `n`, followed by a character that is no
digit, reads `n` back. -/
theorem scan_magnitude_decimal (n t : Nat) (r : List Nat) (ht : digit_val 10 t = none) :
    scan_magnitude 10 (fmt_unsigned 10 n ++ t :: r) = some (n, t :: r) := by
  have hlt := digits_ms_lt 10 (by omega) n n (le_refl _)
  have hval := digits_ms_value 10 (by omega) n n (le_refl _)
  have hscan := scan_digits_digits 10 (by omega) (digits_ms 10 n n) (t :: r) 0 hlt
  rw [hval, scan_digits_stop 10 n t r ht] at hscan
  unfold fmt_unsigned
  obtain ⟨d, ds, hds⟩ : ∃ d ds, digits_ms 10 n n = d :: ds := by
    cases h : digits_ms 10 n n with
    | nil => exact absurd h (digits_ms_ne_nil 10 n n)
    | cons d ds => exact ⟨d, ds, rfl⟩
  have hd : d < 10 := hlt d (by rw [hds]; exact List.mem_cons_self _ _)
  rw [hds] at hscan ⊢
  simp only [List.map_cons, List.cons_append] at hscan ⊢
  have hdv := digit_val_digit_char 10 d (by omega) hd
  rw [scan_magnitude_ten]
  simp only [hdv, Option.isSome_some, if_true, hscan]

/-- Scanning what `printf` wrote for `%d`, followed by a character that is no digit, reads
the value back. -/
theorem scan_number_decimal (v : Int) (t : Nat) (r : List Nat)
    (ht : digit_val 10 t = none) :
    scan_number 10 (fmt_d v ++ t :: r) = some (v, t :: r) := by
  unfold fmt_d
  by_cases hv : v < 0
  · simp only [hv, if_true, List.cons_append]
    unfold scan_number
    rw [skip_space_of_ge _ _ (by omega)]
    simp only [scan_magnitude_decimal v.natAbs t r ht]
    have : -((v.natAbs : Nat) : Int) = v := by omega
    rw [this]
  · simp only [hv, if_false]
    have hm := scan_magnitude_decimal v.natAbs t r ht
    obtain ⟨c, cs, hc, hge⟩ := fmt_unsigned_head 10 v.natAbs
    rw [hc] at hm ⊢
    simp only [List.cons_append] at hm ⊢
    unfold scan_number
    rw [skip_space_of_ge _ _ (by omega)]
    have : ((v.natAbs : Nat) : Int) = v := by omega
    split
    · rename_i heq; simp at heq; omega
    · rename_i heq; simp at heq; omega
    · rw [hm]
      show some (((v.natAbs : Nat) : Int), t :: r) = _
      rw [this]

theorem cstr_append_zero (a rest : List Nat) (ha : ∀ b ∈ a, b ≠ 0) :
    cstr (a ++ 0 :: rest) = a := by
  unfold cstr
  induction a with
  | nil => simp [List.takeWhile]
  | cons c cs ih =>
    have hc : (c != 0) = true := by
      simpa using ha c (List.mem_cons_self _ _)
    rw [List.cons_append, List.takeWhile_cons, hc, if_pos rfl,
      ih (fun b hb => ha b (List.mem_cons_of_mem _ hb))]

theorem cstr_ne_zero (s : List Nat) : ∀ b ∈ cstr s, b ≠ 0 := by
  intro b hb
  have := List.mem_takeWhile_imp hb
  simpa using this

/-- An array that holds a NUL starts with its string and the NUL. -/
theorem take_strlen (s : List Nat) (h : strlen s < s.length) :
    s.take (strlen s + 1) = cstr s ++ [0] := by
  unfold strlen cstr at *
  induction s with
  | nil => simp at h
  | cons c cs ih =>
    by_cases hc : c = 0
    · subst hc
      simp [List.takeWhile]
    · have hp : (c != 0) = true := by simpa using hc
      simp only [List.takeWhile, hp, List.length_cons, List.take_succ_cons, List.cons_append,
        List.cons.injEq, true_and] at h ⊢
      exact ih (by omega)

theorem fmt_unsigned_bytes (n : Nat) : ∀ b ∈ fmt_unsigned 10 n, 48 ≤ b ∧ b ≤ 57 := by
  intro b hb
  unfold fmt_unsigned at hb
  obtain ⟨d, hd, he⟩ := List.mem_map.mp hb
  have hlt := digits_ms_lt 10 (by omega) n n (le_refl _) d hd
  rw [← he]
  unfold digit_char
  simp only [hlt, if_true]
  omega

theorem fmt_d_bytes (v : Int) : ∀ b ∈ fmt_d v, 45 ≤ b ∧ b ≤ 57 := by
  intro b hb
  unfold fmt_d at hb
  split at hb
  · rcases List.mem_cons.mp hb with h | h
    · omega
    · have := fmt_unsigned_bytes _ b h
      omega
  · have := fmt_unsigned_bytes _ b hb
    omega

theorem size_text_bytes (L C : Int) : ∀ b ∈ size_text L C, b ≠ 0 ∧ b < 256 := by
  intro b hb
  unfold size_text at hb
  simp only [List.mem_append, List.mem_cons, List.mem_singleton, List.not_mem_nil,
    or_false] at hb
  rcases hb with ((h | h | h | h) | h) | h
  · have := fmt_d_bytes L b h; omega
  · omega
  · omega
  · omega
  · have := fmt_d_bytes C b h; omega
  · omega

theorem size_text_length (L C : Int) (hL : -(2 ^ 31) ≤ L ∧ L < 2 ^ 31)
    (hC : -(2 ^ 31) ≤ C ∧ C < 2 ^ 31) : (size_text L C).length ≤ 26 := by
  have h1 := fmt_d_length L hL.1 hL.2
  have h2 := fmt_d_length C hC.1 hC.2
  unfold size_text
  simp only [List.length_append, List.length_cons, List.length_nil]
  omega

/-- The call of `sscanf` reads back the two numbers `sprintf` wrote. -/
theorem sscanf_size_text (L C : Int) (rest : List Nat) (lines cols : Int)
    (hL : -(2 ^ 31) ≤ L ∧ L < 2 ^ 31) (hC : -(2 ^ 31) ≤ C ∧ C < 2 ^ 31) :
    sscanf_size (size_text L C ++ 0 :: rest) lines cols = some (L, C) := by
  have hmem : ¬ (0 ∉ size_text L C ++ 0 :: rest) := by simp
  have hstr : cstr (size_text L C ++ 0 :: rest) = size_text L C :=
    cstr_append_zero _ _ (fun b hb => (size_text_bytes L C b hb).1)
  have htext : size_text L C = fmt_d L ++ 32 :: (120 :: 32 :: (fmt_d C ++ [10])) := by
    unfold size_text
    simp
  have h1 := scan_number_fmt_d L (120 :: 32 :: (fmt_d C ++ [10]))
  have h2 : skip_space (32 :: 120 :: 32 :: (fmt_d C ++ [10]))
      = 120 :: 32 :: (fmt_d C ++ [10]) := by
    rw [skip_space_space, skip_space_of_ge _ _ (by omega)]
  have h3 : skip_space (32 :: (fmt_d C ++ [10])) = fmt_d C ++ [10] := by
    rw [skip_space_space, skip_space_fmt_d]
  have h4 := scan_number_decimal C 10 [] (by decide)
  have sL : store_int L = some L := by
    unfold store_int
    simp only [hL, and_self, if_true]
  have sC : store_int C = some C := by
    unfold store_int
    simp only [hC, and_self, if_true]
  unfold sscanf_size
  rw [if_neg hmem, hstr, htext, h1]
  simp only [sL, h2, h3, h4, sC]

/-- What `restore` does with a file that `save_file` wrote for `L` lines and `C` columns:
the version and the header are read back, and the game is restored from the rest of the
file unless the terminal has fewer lines or columns. -/
theorem restore_save_file (term : Terminal) (encstr statlist version : List Nat) (g : Game)
    (sbuf rbuf data : List Nat) (L C lines cols : Int)
    (hver : strlen version < version.length)
    (h1 : encstr ≠ []) (h2 : statlist ≠ [])
    (hvb : ∀ b ∈ version, b < 256) (hsb : sbuf.length = 80) (hsbb : ∀ b ∈ sbuf, b < 256)
    (hrb : rbuf.length = MAXSTR) (hvl : strlen version + 1 ≤ MAXSTR)
    (hL : -(2 ^ 31) ≤ L ∧ L < 2 ^ 31) (hC : -(2 ^ 31) ≤ C ∧ C < 2 ^ 31) :
    ∃ file, save_file encstr statlist version sbuf L C data = some file ∧
      restore term encstr statlist version (some file) rbuf lines cols g
        = some (if L > term.LINES ∨ C > term.COLS then Restored.refused g
                else restore_game term data g) := by
  have hM : MAXSTR = 1024 := rfl
  -- the version string with its NUL
  have hv := take_strlen version hver
  have hvlen : (version.take (strlen version + 1)).length = strlen version + 1 := by
    rw [List.length_take]; omega
  have hvbytes : ∀ b ∈ version.take (strlen version + 1), b < 256 :=
    fun b hb => hvb b (List.mem_of_mem_take hb)
  -- the header
  have hlen := size_text_length L C hL hC
  have hsp : sprintf_size sbuf L C
      = some (size_text L C ++ [0] ++ sbuf.drop ((size_text L C).length + 1)) := by
    unfold sprintf_size
    rw [if_pos (by omega)]
  have hhlen : (size_text L C ++ [0] ++ sbuf.drop ((size_text L C).length + 1)).length
      = 80 := by
    simp only [List.length_append, List.length_drop, List.length_singleton]
    omega
  have hhbytes : ∀ b ∈ size_text L C ++ [0] ++ sbuf.drop ((size_text L C).length + 1),
      b < 256 := by
    intro b hb
    simp only [List.mem_append, List.mem_singleton] at hb
    rcases hb with (h | h) | h
    · exact (size_text_bytes L C b h).2
    · omega
    · exact hsbb b (List.mem_of_mem_drop h)
  -- the buffer of `restore` after the first read
  have hb1len : (version.take (strlen version + 1)
      ++ rbuf.drop (strlen version + 1)).length = 1024 := by
    rw [List.length_append, List.length_drop, hvlen]
    omega
  obtain ⟨out2, hw2, hr2⟩ := encread_stream encstr statlist
    (size_text L C ++ [0] ++ sbuf.drop ((size_text L C).length + 1))
    (version.take (strlen version + 1)
      ++ rbuf.drop (strlen version + 1)) data h1 h2 hhbytes
    (by rw [hhlen, hb1len]; omega)
  obtain ⟨out1, hw1, hr1⟩ := encread_stream encstr statlist
    (version.take (strlen version + 1)) rbuf (out2 ++ data) h1 h2 hvbytes
    (by rw [hvlen]; omega)
  rw [hvlen] at hr1
  rw [hhlen] at hr2
  have hcstr : cstr (version.take (strlen version + 1)
      ++ rbuf.drop (strlen version + 1)) = cstr version := by
    rw [hv, List.append_assoc, List.singleton_append]
    exact cstr_append_zero _ _ (cstr_ne_zero version)
  have hscan : sscanf_size (size_text L C ++ [0] ++ sbuf.drop ((size_text L C).length + 1)
      ++ (version.take (strlen version + 1)
        ++ rbuf.drop (strlen version + 1)).drop 80) lines cols
      = some (L, C) := by
    rw [List.append_assoc, List.append_assoc, List.singleton_append]
    exact sscanf_size_text L C _ lines cols hL hC
  refine ⟨out1 ++ out2 ++ data, ?_, ?_⟩
  · unfold save_file
    have hg : ¬ (version.length < strlen version + 1 ∨ sbuf.length ≠ 80) := by omega
    simp only [hg, if_false, hw1, hsp, hw2]
  · unfold restore
    have hg : ¬ (version.length < strlen version + 1) := by omega
    simp only [hg, if_false, List.append_assoc] at hr1 ⊢
    rw [hr1]
    simp only [hcstr, ne_eq, not_true_eq_false, if_false]
    rw [hr2]
    simp only [hscan]
    by_cases hl : L > term.LINES
    · simp only [hl, if_true, true_or]
    · by_cases hc : C > term.COLS
      · simp only [hl, hc, if_false, if_true, or_true]
      · simp only [hl, hc, if_false, or_self]

/-- C24. `restore` on a file that can be opened.
When the string decrypted from the start of the file differs from `version`, it returns
`FALSE` with the game state as it was.  When the version agrees and the lines or the
columns read from the 80-byte header exceed `LINES` or `COLS`, it returns `FALSE` too,
before anything is restored.  And for a file that `save_file` wrote for `L` lines and `C`
columns (the keys not empty, the arrays of their declared sizes, holding bytes): on
every terminal with `LINES >= L` and `COLS >= C` the version and the size check pass and
the game is restored from the rest of the file, and on a terminal with fewer lines or
columns `restore` returns `FALSE`. -/
theorem restore_rejects (term : Terminal) (encstr statlist version : List Nat) (g : Game)
    (hver : strlen version < version.length)
    (inf buf : List Nat) (lines cols : Int) (n : Nat) (buf1 inf1 : List Nat)
    (hread : encread encstr statlist buf (strlen version + 1) inf = some (n, buf1, inf1))
    (hdiff : cstr buf1 ≠ cstr version)
    (infb bufb : List Nat) (linesb colsb : Int) (nb n2 : Nat)
    (buf1b inf1b buf2 inf2 : List Nat) (l c : Int)
    (hreadb : encread encstr statlist bufb (strlen version + 1) infb
      = some (nb, buf1b, inf1b))
    (hsame : cstr buf1b = cstr version)
    (hhead : encread encstr statlist buf1b 80 inf1b = some (n2, buf2, inf2))
    (hscan : sscanf_size buf2 linesb colsb = some (l, c))
    (hbig : l > term.LINES ∨ c > term.COLS)
    (sbuf rbuf data : List Nat) (L C lines0 cols0 : Int)
    (h1 : encstr ≠ []) (h2 : statlist ≠ [])
    (hvb : ∀ b ∈ version, b < 256) (hsb : sbuf.length = 80) (hsbb : ∀ b ∈ sbuf, b < 256)
    (hrb : rbuf.length = MAXSTR) (hvl : strlen version + 1 ≤ MAXSTR)
    (hL : -(2 ^ 31) ≤ L ∧ L < 2 ^ 31) (hC : -(2 ^ 31) ≤ C ∧ C < 2 ^ 31) :
    restore term encstr statlist version (some inf) buf lines cols g
      = some (Restored.refused g) ∧
    restore term encstr statlist version (some infb) bufb linesb colsb g
      = some (Restored.refused g) ∧
    ∃ file, save_file encstr statlist version sbuf L C data = some file ∧
      (L ≤ term.LINES → C ≤ term.COLS →
        restore term encstr statlist version (some file) rbuf lines0 cols0 g
          = some (restore_game term data g)) ∧
      (L > term.LINES ∨ C > term.COLS →
        restore term encstr statlist version (some file) rbuf lines0 cols0 g
          = some (Restored.refused g)) := by
  have hg : ¬ (version.length < strlen version + 1) := by omega
  refine ⟨?_, ?_, ?_⟩
  · unfold restore
    simp only [hg, if_false, hread, hdiff, ne_eq, not_false_eq_true, if_true]
  · unfold restore
    simp only [hg, if_false, hreadb, hsame, ne_eq, not_true_eq_false, hhead, hscan]
    rcases hbig with hb | hb
    · simp only [hb, if_true]
    · simp only [hb, if_true, ite_self]
  · obtain ⟨file, hs, hr⟩ := restore_save_file term encstr statlist version g sbuf rbuf data
      L C lines0 cols0 hver h1 h2 hvb hsb hsbb hrb hvl hL hC
    refine ⟨file, hs, ?_, ?_⟩
    · intro hl hc
      rw [hr, if_neg (by omega)]
    · intro hb
      rw [hr, if_pos hb]

theorem restore_rejects_witness :
    restore ex_terminal [114, 111] [1, 200, 3] ex_version (some ex_old_file)
        [0, 0, 0, 0, 0, 0] 0 0 Game.init
      = some (Restored.refused Game.init) ∧
    restore ex_terminal [114, 111] [1, 200, 3] ex_version (some ex_tall_file)
        (List.replicate 80 0) 0 0 Game.init
      = some (Restored.refused Game.init) ∧
    ∃ file, save_file [114, 111] [1, 200, 3] ex_version (List.replicate 80 0) 24 80 [7]
        = some file ∧
      (24 ≤ ex_terminal.LINES → 80 ≤ ex_terminal.COLS →
        restore ex_terminal [114, 111] [1, 200, 3] ex_version (some file)
            (List.replicate 1024 0) 0 0 Game.init
          = some (restore_game ex_terminal [7] Game.init)) ∧
      (24 > ex_terminal.LINES ∨ 80 > ex_terminal.COLS →
        restore ex_terminal [114, 111] [1, 200, 3] ex_version (some file)
            (List.replicate 1024 0) 0 0 Game.init
          = some (Restored.refused Game.init)) :=
  restore_rejects ex_terminal [114, 111] [1, 200, 3] ex_version Game.init (by decide)
    ex_old_file [0, 0, 0, 0, 0, 0] 0 0 6 [53, 46, 52, 46, 51, 0] [] (by decide) (by decide)
    ex_tall_file (List.replicate 80 0) 0 0 6 80
    ([53, 46, 52, 46, 52, 0] ++ List.replicate 74 0) (ex_tall_file.drop 6)
    ([50, 53, 32, 120, 32, 56, 48, 10] ++ List.replicate 72 0) [] 25 80
    (by decide) (by decide) (by decide) (by decide) (by decide)
    (List.replicate 80 0) (List.replicate 1024 0) [7] 24 80 0 0
    (by decide) (by decide) (by decide) (by decide) (by decide) (List.length_replicate 1024 0)
    (by decide) (by decide) (by decide)

/-! ## Properties: the potions of healing -/

theorem and_or_zero (a f m : Nat) (ha : a &&& m = 0) (hf : f &&& m = 0) :
    (a ||| f) &&& m = 0 := by
  apply Nat.eq_of_testBit_eq
  intro i
  have h1 := congrArg (fun n => n.testBit i) ha
  have h2 := congrArg (fun n => n.testBit i) hf
  simp only [Nat.testBit_and, Nat.zero_testBit] at h1 h2
  simp only [Nat.testBit_and, Nat.testBit_or, Nat.zero_testBit]
  cases ha1 : a.testBit i <;> cases hf1 : f.testBit i <;> cases hm : m.testBit i <;>
    simp_all

theorem and_and_zero (a k m : Nat) (ha : a &&& m = 0) : (a &&& k) &&& m = 0 := by
  apply Nat.eq_of_testBit_eq
  intro i
  have h1 := congrArg (fun n => n.testBit i) ha
  simp only [Nat.testBit_and, Nat.zero_testBit] at h1
  simp only [Nat.testBit_and, Nat.zero_testBit]
  cases ha1 : a.testBit i <;> cases hk : k.testBit i <;> cases hm : m.testBit i <;>
    simp_all

/-- The test of `command` fails exactly when none of the five flags is set. -/
theorem corrupted_iff (g : Game) :
    corrupted g = false ↔ g.t_flags &&& 0o112240 = 0 := by
  unfold corrupted Game.on
  have hm : ISSLOW ||| ISGREED ||| ISINVIS ||| ISREGEN ||| ISTARGET = 0o112240 := by decide
  rw [hm]
  simp

theorem corrupted_same (g g1 : Game) (h : g1.t_flags = g.t_flags)
    (hc : corrupted g = false) : corrupted g1 = false := by
  rw [corrupted_iff] at hc ⊢
  rw [h]; exact hc

theorem corrupted_flag_on (f : Nat) (hf : f &&& 0o112240 = 0) (g : Game)
    (hc : corrupted g = false) : corrupted (flag_on f g) = false := by
  rw [corrupted_iff] at hc ⊢
  exact and_or_zero _ _ _ hc hf

theorem corrupted_flag_off (f : Nat) (g : Game) (hc : corrupted g = false) :
    corrupted (flag_off f g) = false := by
  rw [corrupted_iff] at hc ⊢
  exact and_and_zero _ _ _ hc

/-- The two fields of the player's record the properties below are about. -/
theorem rnd_player (n : Nat) (g : Game) :
    (rnd n g).2.t_flags = g.t_flags ∧ (rnd n g).2.pstats = g.pstats := by
  simp only [rnd, RN, and_self]

theorem _detach_which (heap : Nat → THING) (list : Option Nat) (item a : Nat) :
    ((_detach heap list item).2 a).o_which = (heap a).o_which ∧
    ((_detach heap list item).2 a).o_type = (heap a).o_type := by
  unfold _detach
  cases (heap item).l_prev <;> cases (heap item).l_next <;>
    simp only [Function.update_apply] <;> split_ifs <;> subst_vars <;> exact ⟨rfl, rfl⟩

/-- Taking an object out of the pack, `newobj` being `FALSE`, leaves the player's flags
and stats and the kind of every object as they were. -/
theorem leave_pack_player (obj : Nat) (all : Bool) (g g1 : Game) (o : Nat)
    (h : leave_pack obj false all g = some (o, g1)) :
    g1.t_flags = g.t_flags ∧ g1.pstats = g.pstats ∧
    ∀ a, (g1.heap a).o_which = (g.heap a).o_which ∧ (g1.heap a).o_type = (g.heap a).o_type
    := by
  unfold leave_pack at h
  simp only [Bool.false_eq_true, if_false] at h
  split at h
  · simp only [Option.some.injEq, Prod.mk.injEq] at h
    rw [← h.2]
    unfold leave_one
    simp only [Game.poke]
    split
    · refine ⟨rfl, rfl, ?_⟩
      intro a
      by_cases e : a = obj
      · subst e; simp only [Function.update_same, and_self]
      · simp only [Function.update_noteq e, and_self]
    · refine ⟨rfl, rfl, ?_⟩
      intro a
      by_cases e : a = obj
      · subst e; simp only [Function.update_same, and_self]
      · simp only [Function.update_noteq e, and_self]
  · unfold leave_all at h
    simp only at h
    split at h
    · simp at h
    · rename_i g2 hg2
      simp only [Option.some.injEq, Prod.mk.injEq] at h
      rw [← h.2]
      split at hg2
      · simp at hg2
      · simp only [Option.some.injEq] at hg2
        rw [← hg2]
        refine ⟨rfl, rfl, ?_⟩
        intro a
        exact _detach_which g.heap g.pack obj a

theorem flag_off_pstats (f : Nat) (g : Game) : (flag_off f g).pstats = g.pstats := rfl

theorem sight_pstats (lib : Lib) (hk : lib.keeps_stats) (g : Game) :
    (sight lib g).pstats = g.pstats := by
  obtain ⟨hmsg, _, _, henter, _, _, hext⟩ := hk
  unfold sight
  split
  · simp only []
    rw [hmsg]
    split
    · rw [henter, flag_off_pstats, hext]
    · rw [flag_off_pstats, hext]
  · rfl

theorem come_down_pstats (lib : Lib) (hk : lib.keeps_stats) (g : Game) :
    (come_down lib g).pstats = g.pstats := by
  obtain ⟨hmsg, _, _, _, _, hkill, _⟩ := hk
  unfold come_down
  split
  · rfl
  · simp only []
    split
    · rw [flag_off_pstats, hkill]
    · rw [hmsg, flag_off_pstats, hkill]

/-- What `quaff` returns for a potion that is chosen and leaves the pack. -/
theorem quaff_eq (env : Env) (lib : Lib) (g g1 g3 g4 : Game) (obj o3 : Nat)
    (hsel : env.get_item POTION g = some (some obj, g1))
    (hpot : (g1.heap obj).o_type = POTION)
    (hleave : leave_pack obj false false
      (if g1.cur_weapon = some obj then { g1 with cur_weapon := none } else g1)
      = some (o3, g3))
    (hsw : quaff_switch env lib
      ((if g1.cur_weapon = some obj then { g1 with cur_weapon := none } else g1).on ISHALU)
      (g3.heap obj).o_which g3 = some g4) :
    ∃ g5, quaff env lib g = some g5 ∧
      (g5 = lib.call_it POTION (g4.heap obj).o_which (lib.status g4) ∨
       g5 = discard obj (lib.call_it POTION (g4.heap obj).o_which (lib.status g4))) := by
  unfold quaff
  simp only [hsel, hpot, ne_eq, not_true_eq_false, if_false, hleave, hsw]
  exact ⟨_, rfl, (ite_eq_or_eq _ _ _).symm⟩

theorem quaff_switch_healing (env : Env) (lib : Lib) (trip : Bool) (g : Game) :
    quaff_switch env lib trip P_HEALING g
      = some (lib.msg (sight lib (quaff_healing lib g))) := by
  unfold quaff_switch
  rw [if_neg (by decide), if_neg (by decide), if_pos rfl]

theorem quaff_switch_xheal (env : Env) (lib : Lib) (trip : Bool) (g : Game) :
    quaff_switch env lib trip P_XHEAL g
      = some (lib.msg (come_down lib (sight lib (quaff_xheal lib g)))) := by
  unfold quaff_switch
  rw [if_neg (by decide), if_neg (by decide), if_neg (by decide), if_neg (by decide),
    if_neg (by decide), if_neg (by decide), if_neg (by decide), if_neg (by decide),
    if_neg (by decide), if_pos rfl]

/-- The stats after the statements of the case `P_HEALING`. -/
theorem quaff_healing_stats (lib : Lib) (hk : lib.keeps_stats) (g : Game) :
    (quaff_healing lib g).pstats.s_hpt
      = (if g.pstats.s_hpt + (lib.roll g.pstats.s_lvl 4 g).1 ≤ g.pstats.s_maxhp then
          g.pstats.s_hpt + (lib.roll g.pstats.s_lvl 4 g).1
         else g.pstats.s_maxhp + 1) ∧
    (quaff_healing lib g).pstats.s_maxhp
      = (if g.pstats.s_hpt + (lib.roll g.pstats.s_lvl 4 g).1 ≤ g.pstats.s_maxhp then
          g.pstats.s_maxhp
         else g.pstats.s_maxhp + 1) := by
  have hroll := hk.2.2.2.2.1 g.pstats.s_lvl 4 g
  unfold quaff_healing
  simp only [heal, hroll]
  split_ifs <;> first | exact ⟨rfl, rfl⟩ | omega

/-- The stats after the statements of the case `P_XHEAL`. -/
theorem quaff_xheal_stats (lib : Lib) (hk : lib.keeps_stats) (g : Game) :
    (quaff_xheal lib g).pstats.s_hpt
      = (if g.pstats.s_hpt + (lib.roll g.pstats.s_lvl 8 g).1 ≤ g.pstats.s_maxhp then
          g.pstats.s_hpt + (lib.roll g.pstats.s_lvl 8 g).1
         else if g.pstats.s_hpt + (lib.roll g.pstats.s_lvl 8 g).1
            > g.pstats.s_maxhp + g.pstats.s_lvl + 1 then g.pstats.s_maxhp + 2
         else g.pstats.s_maxhp + 1) ∧
    (quaff_xheal lib g).pstats.s_maxhp
      = (if g.pstats.s_hpt + (lib.roll g.pstats.s_lvl 8 g).1 ≤ g.pstats.s_maxhp then
          g.pstats.s_maxhp
         else if g.pstats.s_hpt + (lib.roll g.pstats.s_lvl 8 g).1
            > g.pstats.s_maxhp + g.pstats.s_lvl + 1 then g.pstats.s_maxhp + 2
         else g.pstats.s_maxhp + 1) := by
  have hroll := hk.2.2.2.2.1 g.pstats.s_lvl 8 g
  unfold quaff_xheal
  simp only [heal, hroll]
  split_ifs <;> first | exact ⟨rfl, rfl⟩ | omega | (constructor <;> simp only [] <;> omega)

/-- The stats when `quaff` returns after one of the two healing cases are those the
statements of the case left. -/
theorem quaff_stats (env : Env) (lib : Lib) (hk : lib.keeps_stats) (g g1 g3 g4 : Game)
    (obj o3 : Nat)
    (hsel : env.get_item POTION g = some (some obj, g1))
    (hpot : (g1.heap obj).o_type = POTION)
    (hleave : leave_pack obj false false
      (if g1.cur_weapon = some obj then { g1 with cur_weapon := none } else g1)
      = some (o3, g3))
    (hsw : quaff_switch env lib
      ((if g1.cur_weapon = some obj then { g1 with cur_weapon := none } else g1).on ISHALU)
      (g3.heap obj).o_which g3 = some g4) :
    ∃ g5, quaff env lib g = some g5 ∧ g5.pstats = g4.pstats := by
  obtain ⟨g5, h5, hor⟩ := quaff_eq env lib g g1 g3 g4 obj o3 hsel hpot hleave hsw
  refine ⟨g5, h5, ?_⟩
  rcases hor with h | h
  · rw [h, hk.2.2.1, hk.2.1]
  · rw [h]
    show (lib.call_it POTION (g4.heap obj).o_which (lib.status g4)).pstats = _
    rw [hk.2.2.1, hk.2.1]

/-- C27. Quaffing a potion of healing, or of extra healing, with hit points at most
`max_hp` (the potion is chosen and can be taken out of the pack; the routines met leave
the stats alone and a roll of a non-negative number of dice is not negative).  `quaff`
returns, and with `r` the value of `roll(level, 4)`, or of `roll(level, 8)` for extra
healing: if `old + r <= max_hp` the hit points become `old + r` and `max_hp` is unchanged;
otherwise `max_hp` rises by 1, for extra healing by 2 when `old + r > max_hp + level + 1`,
and the hit points are the new `max_hp`.  In every case the hit points end at most
`max_hp`, and neither they nor `max_hp` are lower than before. -/
theorem quaff_heals (env : Env) (lib : Lib) (hk : lib.keeps_stats)
    (hroll : ∀ n s g, 0 ≤ n → 0 ≤ (lib.roll n s g).1)
    (g g1 : Game) (obj : Nat)
    (hsel : env.get_item POTION g = some (some obj, g1)) (hst : g1.pstats = g.pstats)
    (hpot : (g1.heap obj).o_type = POTION) (hwhich : (g1.heap obj).o_which = P_HEALING)
    (hleave : (leave_pack obj false false
      (if g1.cur_weapon = some obj then { g1 with cur_weapon := none } else g1)).isSome)
    (hle : g.pstats.s_hpt ≤ g.pstats.s_maxhp) (hlvl : 0 ≤ g.pstats.s_lvl)
    (x x1 : Game) (xobj : Nat)
    (xsel : env.get_item POTION x = some (some xobj, x1)) (xst : x1.pstats = x.pstats)
    (xpot : (x1.heap xobj).o_type = POTION) (xwhich : (x1.heap xobj).o_which = P_XHEAL)
    (xleave : (leave_pack xobj false false
      (if x1.cur_weapon = some xobj then { x1 with cur_weapon := none } else x1)).isSome)
    (xle : x.pstats.s_hpt ≤ x.pstats.s_maxhp) (xlvl : 0 ≤ x.pstats.s_lvl) :
    (∃ g3 g5, quaff env lib g = some g5 ∧ 0 ≤ (lib.roll g.pstats.s_lvl 4 g3).1 ∧
      (g.pstats.s_hpt + (lib.roll g.pstats.s_lvl 4 g3).1 ≤ g.pstats.s_maxhp →
        g5.pstats.s_hpt = g.pstats.s_hpt + (lib.roll g.pstats.s_lvl 4 g3).1 ∧
        g5.pstats.s_maxhp = g.pstats.s_maxhp) ∧
      (g.pstats.s_hpt + (lib.roll g.pstats.s_lvl 4 g3).1 > g.pstats.s_maxhp →
        g5.pstats.s_maxhp = g.pstats.s_maxhp + 1 ∧
        g5.pstats.s_hpt = g.pstats.s_maxhp + 1) ∧
      g5.pstats.s_hpt ≤ g5.pstats.s_maxhp ∧ g.pstats.s_hpt ≤ g5.pstats.s_hpt ∧
      g.pstats.s_maxhp ≤ g5.pstats.s_maxhp) ∧
    (∃ x3 x5, quaff env lib x = some x5 ∧ 0 ≤ (lib.roll x.pstats.s_lvl 8 x3).1 ∧
      (x.pstats.s_hpt + (lib.roll x.pstats.s_lvl 8 x3).1 ≤ x.pstats.s_maxhp →
        x5.pstats.s_hpt = x.pstats.s_hpt + (lib.roll x.pstats.s_lvl 8 x3).1 ∧
        x5.pstats.s_maxhp = x.pstats.s_maxhp) ∧
      (x.pstats.s_hpt + (lib.roll x.pstats.s_lvl 8 x3).1 > x.pstats.s_maxhp →
        x.pstats.s_hpt + (lib.roll x.pstats.s_lvl 8 x3).1
          ≤ x.pstats.s_maxhp + x.pstats.s_lvl + 1 →
        x5.pstats.s_maxhp = x.pstats.s_maxhp + 1 ∧
        x5.pstats.s_hpt = x.pstats.s_maxhp + 1) ∧
      (x.pstats.s_hpt + (lib.roll x.pstats.s_lvl 8 x3).1
          > x.pstats.s_maxhp + x.pstats.s_lvl + 1 →
        x5.pstats.s_maxhp = x.pstats.s_maxhp + 2 ∧
        x5.pstats.s_hpt = x.pstats.s_maxhp + 2) ∧
      x5.pstats.s_hpt ≤ x5.pstats.s_maxhp ∧ x.pstats.s_hpt ≤ x5.pstats.s_hpt ∧
      x.pstats.s_maxhp ≤ x5.pstats.s_maxhp) := by
  constructor
  · obtain ⟨⟨o3, g3⟩, hl⟩ := Option.isSome_iff_exists.mp hleave
    obtain ⟨hf3, hp3, hw3⟩ := leave_pack_player obj false _ g3 o3 hl
    have hp : g3.pstats = g.pstats := by
      rw [hp3, ← hst]
      split <;> rfl
    have hw : (g3.heap obj).o_which = P_HEALING := by
      rw [(hw3 obj).1, ← hwhich]
      split <;> rfl
    obtain ⟨g5, h5, hs5⟩ := quaff_stats env lib hk g g1 g3 _ obj o3 hsel hpot hl
      (by rw [hw]; exact quaff_switch_healing env lib _ g3)
    have hs := quaff_healing_stats lib hk g3
    rw [hk.1, sight_pstats lib hk] at hs5
    rw [hp] at hs
    have hr := hroll g.pstats.s_lvl 4 g3 hlvl
    have e1 := hs.1
    have e2 := hs.2
    rw [← hs5] at e1 e2
    by_cases c : g.pstats.s_hpt + (lib.roll g.pstats.s_lvl 4 g3).1 ≤ g.pstats.s_maxhp
    · rw [if_pos c] at e1 e2
      exact ⟨g3, g5, h5, hr, fun _ => ⟨e1, e2⟩, fun h => by omega, by omega, by omega,
        by omega⟩
    · rw [if_neg c] at e1 e2
      exact ⟨g3, g5, h5, hr, fun h => absurd h c, fun _ => ⟨e2, e1⟩, by omega, by omega,
        by omega⟩
  · obtain ⟨⟨o3, x3⟩, hl⟩ := Option.isSome_iff_exists.mp xleave
    obtain ⟨hf3, hp3, hw3⟩ := leave_pack_player xobj false _ x3 o3 hl
    have hp : x3.pstats = x.pstats := by
      rw [hp3, ← xst]
      split <;> rfl
    have hw : (x3.heap xobj).o_which = P_XHEAL := by
      rw [(hw3 xobj).1, ← xwhich]
      split <;> rfl
    obtain ⟨x5, h5, hs5⟩ := quaff_stats env lib hk x x1 x3 _ xobj o3 xsel xpot hl
      (by rw [hw]; exact quaff_switch_xheal env lib _ x3)
    have hs := quaff_xheal_stats lib hk x3
    rw [hk.1, come_down_pstats lib hk, sight_pstats lib hk] at hs5
    rw [hp] at hs
    have hr := hroll x.pstats.s_lvl 8 x3 xlvl
    have e1 := hs.1
    have e2 := hs.2
    rw [← hs5] at e1 e2
    by_cases c : x.pstats.s_hpt + (lib.roll x.pstats.s_lvl 8 x3).1 ≤ x.pstats.s_maxhp
    · rw [if_pos c] at e1 e2
      exact ⟨x3, x5, h5, hr, fun _ => ⟨e1, e2⟩, fun h => by omega, fun h => by omega,
        by omega, by omega, by omega⟩
    · rw [if_neg c] at e1 e2
      by_cases d : x.pstats.s_hpt + (lib.roll x.pstats.s_lvl 8 x3).1
          > x.pstats.s_maxhp + x.pstats.s_lvl + 1
      · rw [if_pos d] at e1 e2
        exact ⟨x3, x5, h5, hr, fun h => absurd h c, fun _ h => by omega,
          fun _ => ⟨e2, e1⟩, by omega, by omega, by omega⟩
      · rw [if_neg d] at e1 e2
        exact ⟨x3, x5, h5, hr, fun h => absurd h c, fun _ _ => ⟨e2, e1⟩,
          fun h => absurd h d, by omega, by omega, by omega⟩

theorem ex_lib_keeps_stats : ex_lib.keeps_stats :=
  ⟨fun _ => rfl, fun _ => rfl, fun _ _ _ => rfl, fun _ => rfl, fun _ _ _ => rfl,
    fun _ _ => rfl, fun _ _ => rfl⟩

theorem quaff_heals_witness :
    (∃ g3 g5, quaff ex_env ex_lib (ex_cellar [97]) = some g5 ∧
      0 ≤ (ex_lib.roll (ex_cellar [97]).pstats.s_lvl 4 g3).1 ∧
      ((ex_cellar [97]).pstats.s_hpt + (ex_lib.roll (ex_cellar [97]).pstats.s_lvl 4 g3).1
          ≤ (ex_cellar [97]).pstats.s_maxhp →
        g5.pstats.s_hpt = (ex_cellar [97]).pstats.s_hpt
          + (ex_lib.roll (ex_cellar [97]).pstats.s_lvl 4 g3).1 ∧
        g5.pstats.s_maxhp = (ex_cellar [97]).pstats.s_maxhp) ∧
      ((ex_cellar [97]).pstats.s_hpt + (ex_lib.roll (ex_cellar [97]).pstats.s_lvl 4 g3).1
          > (ex_cellar [97]).pstats.s_maxhp →
        g5.pstats.s_maxhp = (ex_cellar [97]).pstats.s_maxhp + 1 ∧
        g5.pstats.s_hpt = (ex_cellar [97]).pstats.s_maxhp + 1) ∧
      g5.pstats.s_hpt ≤ g5.pstats.s_maxhp ∧
      (ex_cellar [97]).pstats.s_hpt ≤ g5.pstats.s_hpt ∧
      (ex_cellar [97]).pstats.s_maxhp ≤ g5.pstats.s_maxhp) ∧
    (∃ x3 x5, quaff ex_env ex_lib (ex_cellar [98]) = some x5 ∧
      0 ≤ (ex_lib.roll (ex_cellar [98]).pstats.s_lvl 8 x3).1 ∧
      ((ex_cellar [98]).pstats.s_hpt + (ex_lib.roll (ex_cellar [98]).pstats.s_lvl 8 x3).1
          ≤ (ex_cellar [98]).pstats.s_maxhp →
        x5.pstats.s_hpt = (ex_cellar [98]).pstats.s_hpt
          + (ex_lib.roll (ex_cellar [98]).pstats.s_lvl 8 x3).1 ∧
        x5.pstats.s_maxhp = (ex_cellar [98]).pstats.s_maxhp) ∧
      ((ex_cellar [98]).pstats.s_hpt + (ex_lib.roll (ex_cellar [98]).pstats.s_lvl 8 x3).1
          > (ex_cellar [98]).pstats.s_maxhp →
        (ex_cellar [98]).pstats.s_hpt + (ex_lib.roll (ex_cellar [98]).pstats.s_lvl 8 x3).1
          ≤ (ex_cellar [98]).pstats.s_maxhp + (ex_cellar [98]).pstats.s_lvl + 1 →
        x5.pstats.s_maxhp = (ex_cellar [98]).pstats.s_maxhp + 1 ∧
        x5.pstats.s_hpt = (ex_cellar [98]).pstats.s_maxhp + 1) ∧
      ((ex_cellar [98]).pstats.s_hpt + (ex_lib.roll (ex_cellar [98]).pstats.s_lvl 8 x3).1
          > (ex_cellar [98]).pstats.s_maxhp + (ex_cellar [98]).pstats.s_lvl + 1 →
        x5.pstats.s_maxhp = (ex_cellar [98]).pstats.s_maxhp + 2 ∧
        x5.pstats.s_hpt = (ex_cellar [98]).pstats.s_maxhp + 2) ∧
      x5.pstats.s_hpt ≤ x5.pstats.s_maxhp ∧
      (ex_cellar [98]).pstats.s_hpt ≤ x5.pstats.s_hpt ∧
      (ex_cellar [98]).pstats.s_maxhp ≤ x5.pstats.s_maxhp) :=
  quaff_heals ex_env ex_lib ex_lib_keeps_stats (fun _ _ _ h => h)
    (ex_cellar [97]) { ex_cellar [97] with keys := [] } 0 rfl rfl (by decide) (by decide)
    (by decide) (by decide) (by decide)
    (ex_cellar [98]) { ex_cellar [98] with keys := [] } 1 rfl rfl (by decide) (by decide)
    (by decide) (by decide) (by decide)

/-! ## Properties: the flags of the player -/

theorem unconfuse_clean (lib : Lib) (hl : lib.keeps (fun g => corrupted g = false))
    (g : Game) (h : corrupted g = false) : corrupted (unconfuse lib g) = false :=
  hl.1 _ (corrupted_flag_off _ g h)

theorem unsee_clean (g : Game) (h : corrupted g = false) : corrupted (unsee g) = false :=
  corrupted_flag_off _ g h

theorem nohaste_clean (lib : Lib) (hl : lib.keeps (fun g => corrupted g = false))
    (g : Game) (h : corrupted g = false) : corrupted (nohaste lib g) = false :=
  hl.1 _ (corrupted_flag_off _ g h)

theorem land_clean (lib : Lib) (hl : lib.keeps (fun g => corrupted g = false))
    (g : Game) (h : corrupted g = false) : corrupted (land lib g) = false :=
  hl.1 _ (corrupted_flag_off _ g h)

theorem sight_clean (lib : Lib) (hl : lib.keeps (fun g => corrupted g = false))
    (g : Game) (h : corrupted g = false) : corrupted (sight lib g) = false := by
  obtain ⟨hmsg, _, _, _, _, henter, _, _, _, _, _, _, _, _, _, _, _, _, hext⟩ := hl
  unfold sight
  split
  · simp only []
    apply hmsg
    have h1 := corrupted_flag_off ISBLIND _ (hext Callback.sight g h)
    split
    · exact henter _ h1
    · exact h1
  · exact h

theorem come_down_clean (lib : Lib) (hl : lib.keeps (fun g => corrupted g = false))
    (g : Game) (h : corrupted g = false) : corrupted (come_down lib g) = false := by
  obtain ⟨hmsg, _, _, _, _, _, _, _, _, _, _, _, _, _, _, _, _, hkill, _⟩ := hl
  unfold come_down
  split
  · exact h
  · simp only []
    have h1 := corrupted_flag_off ISHALU _ (hkill Callback.visuals g h)
    split
    · exact h1
    · exact hmsg _ h1

theorem invis_on_clean (g : Game) (h : corrupted g = false) :
    corrupted (invis_on g) = false :=
  corrupted_flag_on CANSEE (by decide) g h

theorem turn_see_loop_clean (lib : Lib) (turn_off : Bool) :
    ∀ (l : List Nat) (s : Nat × Game), corrupted s.2 = false →
      corrupted (l.foldl (turn_see_step lib turn_off) s).2 = false := by
  intro l
  induction l with
  | nil => intro s h; exact h
  | cons i l ih =>
    intro s h
    rw [List.foldl_cons]
    apply ih
    unfold turn_see_step
    split
    · exact h
    · simp only []
      split
      · exact h
      · exact corrupted_same _ _ (rnd_player 26 s.2).1 h

theorem turn_see_clean (lib : Lib) (turn_off : Bool) (g : Game)
    (h : corrupted g = false) : corrupted (turn_see lib turn_off g).2 = false := by
  have h1 := turn_see_loop_clean lib turn_off (List.range g.mlist.length) (0, g) h
  unfold turn_see
  simp only []
  split
  · exact corrupted_flag_off _ _ h1
  · exact corrupted_flag_on SEEMONST (by decide) _ h1

/-- None of the flags of the table `p_actions` is one of the five. -/
theorem p_actions_flags (i : Nat) :
    (p_actions.getD i ⟨0, Callback.null, 0, Text.null, Text.null⟩).pa_flags &&& 0o112240 = 0 := by
  by_cases h : i < 14
  · interval_cases i <;> decide
  · have hlen : p_actions.length = 14 := rfl
    have hd : p_actions.getD i ⟨0, Callback.null, 0, Text.null, Text.null⟩ = ⟨0, Callback.null, 0, Text.null, Text.null⟩ :=
      List.getD_eq_default _ _ (by rw [hlen]; omega)
    rw [hd]
    rfl

/-- A result behind a test that ends in `none` is the value of the other branch. -/
theorem some_of_ite_none {c : Prop} [Decidable c] {a b : Game}
    (h : (if c then none else some a) = some b) : a = b := by
  by_cases hc : c
  · rw [if_pos hc] at h
    exact absurd h (by simp)
  · rw [if_neg hc] at h
    exact Option.some.inj h

theorem do_pot_clean (lib : Lib) (hl : lib.keeps (fun g => corrupted g = false))
    (type : Int) (knowit : Bool) (g g1 : Game) (h : corrupted g = false)
    (hr : do_pot lib type knowit g = some g1) : corrupted g1 = false := by
  obtain ⟨hmsg, _, _, hlook, _, _, _, _, _, _, _, hspread, _, _, hfuse, hlen, _, _, _⟩ := hl
  unfold do_pot at hr
  by_cases c : type < 0 ∨ (p_actions.length : Int) ≤ type
  · rw [if_pos c] at hr
    exact absurd hr (by simp)
  rw [if_neg c] at hr
  dsimp only at hr
  have hr2 := some_of_ite_none hr
  rw [← hr2]
  apply hmsg
  split
  · apply hlook
    apply hfuse
    apply hspread
    exact corrupted_flag_on _ (p_actions_flags _) _ (hspread _ _ h)
  · apply hlen
    exact hspread _ _ h

theorem quaff_restore_flags (lib : Lib) (g : Game) :
    (quaff_restore lib g).t_flags = g.t_flags := by
  have h1 : ∀ hand x, (str_less_ring lib hand x).t_flags = x.t_flags := by
    intro hand x; unfold str_less_ring; split <;> rfl
  have h2 : ∀ hand x, (str_with_ring lib hand x).t_flags = x.t_flags := by
    intro hand x; unfold str_with_ring; split <;> rfl
  have h3 : ∀ x, (str_restored lib x).t_flags = x.t_flags := by
    intro x; unfold str_restored; split <;> rfl
  unfold quaff_restore
  rw [h2, h2, h3, h1, h1]

theorem quaff_switch_clean (env : Env) (lib : Lib)
    (he : env.keeps (fun g => corrupted g = false))
    (hl : lib.keeps (fun g => corrupted g = false))
    (trip : Bool) (which : Int) (g g1 : Game) (h : corrupted g = false)
    (hr : quaff_switch env lib trip which g = some g1) : corrupted g1 = false := by
  have hl0 := hl
  obtain ⟨hmsg, _, hshow, _, _, _, hcheck, _, _, _, hroll, hspread, _, hhaste, hfuse, _,
    hstart, _, _⟩ := hl
  obtain ⟨_, hchg, _⟩ := he
  unfold quaff_switch at hr
  by_cases c0 : which = P_CONFUSE
  · rw [if_pos c0] at hr
    exact do_pot_clean lib hl0 _ _ g g1 h hr
  rw [if_neg c0] at hr
  by_cases c1 : which = P_POISON
  · rw [if_pos c1] at hr
    split at hr
    · simp only [Option.some.injEq] at hr
      rw [← hr]; exact hmsg _ h
    · simp only [Option.some.injEq] at hr
      rw [← hr]
      apply come_down_clean lib hl0
      apply hmsg
      apply hchg
      exact corrupted_same _ _ (rnd_player 3 g).1 h
  rw [if_neg c1] at hr
  by_cases c2 : which = P_HEALING
  · rw [if_pos c2] at hr
    simp only [Option.some.injEq] at hr
    rw [← hr]
    apply hmsg
    apply sight_clean lib hl0
    unfold quaff_healing
    simp only []
    split
    · exact corrupted_same _ (lib.roll g.pstats.s_lvl 4 g).2 rfl (hroll _ _ g h)
    · exact corrupted_same _ (lib.roll g.pstats.s_lvl 4 g).2 rfl (hroll _ _ g h)
  rw [if_neg c2] at hr
  by_cases c3 : which = P_STRENGTH
  · rw [if_pos c3] at hr
    simp only [Option.some.injEq] at hr
    rw [← hr]
    exact hmsg _ (hchg _ _ h)
  rw [if_neg c3] at hr
  by_cases c4 : which = P_MFIND
  · rw [if_pos c4] at hr
    simp only [Option.some.injEq] at hr
    rw [← hr]
    have h1 : corrupted (turn_see lib false (lib.fuse Callback.turn_see 1 HUHDURATION
        (lib.spread 2 (flag_on SEEMONST g)).1 (lib.spread 2 (flag_on SEEMONST g)).2)).2
        = false := by
      apply turn_see_clean
      apply hfuse
      apply hspread
      exact corrupted_flag_on SEEMONST (by decide) g h
    split
    · exact hmsg _ h1
    · exact h1
  rw [if_neg c4] at hr
  by_cases c5 : which = P_TFIND
  · rw [if_pos c5] at hr
    split at hr
    · simp at hr
    · simp only [Option.some.injEq] at hr
      rw [← hr]
      split
      · exact hshow _ h
      · exact hmsg _ h
  rw [if_neg c5] at hr
  by_cases c6 : which = P_LSD
  · rw [if_pos c6] at hr
    apply do_pot_clean lib hl0 _ _ _ g1 _ hr
    split
    · simp only []
      apply corrupted_same _ (lib.start_daemon Callback.visuals 0
        (lib.spread 1 (if g.on SEEMONST = true then (turn_see lib false g).2 else g)).1
        (lib.spread 1 (if g.on SEEMONST = true then (turn_see lib false g).2 else g)).2) rfl
      apply hstart
      apply hspread
      split
      · exact turn_see_clean lib false g h
      · exact h
    · exact h
  rw [if_neg c6] at hr
  by_cases c7 : which = P_SEEINVIS
  · rw [if_pos c7] at hr
    simp only [] at hr
    split at hr
    · simp at hr
    · rename_i g2 hg2
      simp only [Option.some.injEq] at hr
      rw [← hr]
      apply sight_clean lib hl0
      have h2 := do_pot_clean lib hl0 _ _ g g2 h hg2
      split
      · exact invis_on_clean _ h2
      · exact h2
  rw [if_neg c7] at hr
  by_cases c8 : which = P_RAISE
  · rw [if_pos c8] at hr
    unfold raise_level at hr
    split at hr
    · simp at hr
    · simp only [Option.some.injEq] at hr
      rw [← hr]
      apply hcheck
      exact corrupted_same _ (lib.msg g) rfl (hmsg _ h)
  rw [if_neg c8] at hr
  by_cases c9 : which = P_XHEAL
  · rw [if_pos c9] at hr
    simp only [Option.some.injEq] at hr
    rw [← hr]
    apply hmsg
    apply come_down_clean lib hl0
    apply sight_clean lib hl0
    unfold quaff_xheal
    simp only []
    split
    · split
      · exact corrupted_same _ (lib.roll g.pstats.s_lvl 8 g).2 rfl (hroll _ _ g h)
      · exact corrupted_same _ (lib.roll g.pstats.s_lvl 8 g).2 rfl (hroll _ _ g h)
    · exact corrupted_same _ (lib.roll g.pstats.s_lvl 8 g).2 rfl (hroll _ _ g h)
  rw [if_neg c9] at hr
  by_cases c10 : which = P_HASTE
  · rw [if_pos c10] at hr
    simp only [Option.some.injEq] at hr
    rw [← hr]
    have h1 := hhaste true { g with after := false } (corrupted_same _ g rfl h)
    split
    · exact hmsg _ h1
    · exact h1
  rw [if_neg c10] at hr
  by_cases c11 : which = P_RESTORE
  · rw [if_pos c11] at hr
    simp only [Option.some.injEq] at hr
    rw [← hr]
    apply hmsg
    exact corrupted_same g _ (quaff_restore_flags lib g) h
  rw [if_neg c11] at hr
  by_cases c12 : which = P_BLIND
  · rw [if_pos c12] at hr
    exact do_pot_clean lib hl0 _ _ g g1 h hr
  rw [if_neg c12] at hr
  by_cases c13 : which = P_LEVIT
  · rw [if_pos c13] at hr
    exact do_pot_clean lib hl0 _ _ g g1 h hr
  rw [if_neg c13] at hr
  simp only [Option.some.injEq] at hr
  rw [← hr]; exact h

theorem ite_clean (c : Prop) [Decidable c] (a b : Game) (ha : corrupted a = false)
    (hb : corrupted b = false) : corrupted (if c then a else b) = false := by
  split <;> assumption

theorem quaff_clean (env : Env) (lib : Lib)
    (he : env.keeps (fun g => corrupted g = false))
    (hl : lib.keeps (fun g => corrupted g = false))
    (g g1 : Game) (h : corrupted g = false)
    (hr : quaff env lib g = some g1) : corrupted g1 = false := by
  unfold quaff at hr
  cases hsel : env.get_item POTION g with
  | none => rw [hsel] at hr; simp at hr
  | some r =>
    obtain ⟨o, s1⟩ := r
    have hs1 : corrupted s1 = false := he.1 POTION g o s1 h hsel
    rw [hsel] at hr
    cases o with
    | none =>
      simp only [Option.some.injEq] at hr
      rw [← hr]; exact hs1
    | some obj =>
      simp only [] at hr
      by_cases hp : (s1.heap obj).o_type ≠ POTION
      · rw [if_pos hp] at hr
        simp only [Option.some.injEq] at hr
        rw [← hr]; exact hl.1 _ hs1
      · rw [if_neg hp] at hr
        have hs2 : corrupted (if s1.cur_weapon = some obj then
            { s1 with cur_weapon := none } else s1) = false := by
          split
          · exact corrupted_same s1 _ rfl hs1
          · exact hs1
        cases hlv : leave_pack obj false false (if s1.cur_weapon = some obj then
            { s1 with cur_weapon := none } else s1) with
        | none => rw [hlv] at hr; simp at hr
        | some r3 =>
          obtain ⟨o3, s3⟩ := r3
          rw [hlv] at hr
          simp only [] at hr
          have hs3 : corrupted s3 = false :=
            corrupted_same _ s3 (leave_pack_player obj false _ s3 o3 hlv).1 hs2
          cases hsw : quaff_switch env lib
              ((if s1.cur_weapon = some obj then
                { s1 with cur_weapon := none } else s1).on ISHALU)
              (s3.heap obj).o_which s3 with
          | none => rw [hsw] at hr; simp at hr
          | some s4 =>
            rw [hsw] at hr
            simp only [Option.some.injEq] at hr
            have hs4 := quaff_switch_clean env lib he hl _ _ s3 s4 hs3 hsw
            have hs5 : corrupted (lib.call_it POTION (s4.heap obj).o_which
                (lib.status s4)) = false := hl.2.2.2.2.1 _ _ _ (hl.2.1 _ hs4)
            rw [← hr]
            exact ite_clean _ _ _ (corrupted_same _ (discard obj _) rfl hs5) hs5

theorem pick_color_clean (col : String) (g : Game) (h : corrupted g = false) :
    corrupted (pick_color col g).2 = false := by
  unfold pick_color
  split
  · exact corrupted_same g _ (rnd_player NCOLORS g).1 h
  · exact h

theorem poke_clean (a : Nat) (f : THING → THING) (g : Game) (h : corrupted g = false) :
    corrupted (g.poke a f) = false :=
  corrupted_same g _ rfl h

theorem uncurse_clean (obj : Option Nat) (g : Game) (h : corrupted g = false) :
    corrupted (uncurse obj g) = false := by
  cases obj with
  | none => exact h
  | some o => exact corrupted_same g _ rfl h

theorem create_step_clean (lib : Lib) :
    ∀ (cells : List (Int × Int)) (s : Option (Int × coord × Game)),
      (∀ i mp g, s = some (i, mp, g) → corrupted g = false) →
      ∀ i mp g, cells.foldl (create_step lib) s = some (i, mp, g) →
        corrupted g = false := by
  intro cells
  induction cells with
  | nil => intro s hs i mp g h; exact hs i mp g h
  | cons p cells ih =>
    intro s hs
    rw [List.foldl_cons]
    apply ih
    intro i mp g hstep
    cases s with
    | none => simp [create_step] at hstep
    | some r =>
      obtain ⟨i0, mp0, g0⟩ := r
      have h0 : corrupted g0 = false := hs i0 mp0 g0 rfl
      have hrnd : corrupted (rnd (i0 + 1).toNat g0).2 = false :=
        corrupted_same g0 _ (rnd_player _ g0).1 h0
      unfold create_step at hstep
      simp only [] at hstep
      split at hstep
      · simp only [Option.some.injEq, Prod.mk.injEq] at hstep
        rw [← hstep.2.2]; exact h0
      · split at hstep
        · split at hstep
          · split at hstep
            · simp at hstep
            · split at hstep
              · simp only [Option.some.injEq, Prod.mk.injEq] at hstep
                rw [← hstep.2.2]; exact h0
              · simp only [Option.some.injEq, Prod.mk.injEq] at hstep
                rw [← hstep.2.2]; exact hrnd
          · simp only [Option.some.injEq, Prod.mk.injEq] at hstep
            rw [← hstep.2.2]; exact hrnd
        · simp only [Option.some.injEq, Prod.mk.injEq] at hstep
          rw [← hstep.2.2]; exact h0

theorem scroll_create_clean (lib : Lib) (hl : lib.keeps (fun g => corrupted g = false))
    (mp : coord) (g g1 : Game) (h : corrupted g = false)
    (hr : scroll_create lib mp g = some g1) : corrupted g1 = false := by
  unfold scroll_create at hr
  simp only [] at hr
  split at hr
  · simp at hr
  · rename_i i mp1 s1 hfold
    have hs1 : corrupted s1 = false := by
      apply create_step_clean lib _ (some (0, mp, g)) _ i mp1 s1 hfold
      intro i0 mp0 g0 he
      simp only [Option.some.injEq, Prod.mk.injEq] at he
      rw [← he.2.2]; exact h
    split at hr
    · simp only [Option.some.injEq] at hr
      rw [← hr]; exact hl.1 _ hs1
    · simp only [Option.some.injEq] at hr
      rw [← hr]
      apply hl.2.2.2.2.2.2.2.2.2.1
      apply hl.2.2.2.2.2.2.2.2.2.2.2.2.1
      exact corrupted_same s1 _ rfl hs1

theorem no_command_clean (g : Game) (n : Int) (h : corrupted g = false) :
    corrupted { g with no_command := n } = false :=
  corrupted_same g _ rfl h

theorem read_switch_clean (env : Env) (lib : Lib)
    (he : env.keeps (fun g => corrupted g = false))
    (hl : lib.keeps (fun g => corrupted g = false))
    (mp : coord) (which : Int) (g g1 : Game) (h : corrupted g = false)
    (hr : read_switch env lib mp which g = some g1) : corrupted g1 = false := by
  have hl0 := hl
  obtain ⟨hmsg, _, hshow, _, _, _, _, htele, hwhatis, _, _, hspread, _, _, _, _, _, _, _⟩
    := hl
  obtain ⟨_, _, haggr⟩ := he
  unfold read_switch at hr
  by_cases c0 : which = S_CONFUSE
  · rw [if_pos c0] at hr
    simp only [Option.some.injEq] at hr
    rw [← hr]
    exact hmsg _ (pick_color_clean _ _ (corrupted_flag_on CANHUH (by rfl) g h))
  rw [if_neg c0] at hr
  by_cases c1 : which = S_ARMOR
  · rw [if_pos c1] at hr
    split at hr
    · simp only [Option.some.injEq] at hr
      rw [← hr]; exact h
    · simp only [Option.some.injEq] at hr
      rw [← hr]
      exact hmsg _ (pick_color_clean _ _ (corrupted_same g _ rfl h))
  rw [if_neg c1] at hr
  by_cases c2 : which = S_HOLD
  · rw [if_pos c2] at hr
    simp only [Option.some.injEq] at hr
    rw [← hr]; exact hmsg _ h
  rw [if_neg c2] at hr
  by_cases c3 : which = S_SLEEP
  · rw [if_pos c3] at hr
    simp only [Option.some.injEq] at hr
    rw [← hr]
    have h1 : corrupted (lib.spread 5 g).2 = false := hspread 5 g h
    have h2 : corrupted (rnd (lib.spread 5 g).1.toNat (lib.spread 5 g).2).2 = false :=
      corrupted_same (lib.spread 5 g).2 _ (rnd_player _ _).1 h1
    apply hmsg
    apply corrupted_flag_off
    exact no_command_clean _ _ h2
  rw [if_neg c3] at hr
  by_cases c4 : which = S_CREATE
  · rw [if_pos c4] at hr
    exact scroll_create_clean lib hl0 mp g g1 h hr
  rw [if_neg c4] at hr
  by_cases c5 : which = S_ID_POTION ∨ which = S_ID_SCROLL ∨ which = S_ID_WEAPON ∨
      which = S_ID_ARMOR ∨ which = S_ID_R_OR_S
  · rw [if_pos c5] at hr
    simp only [Option.some.injEq] at hr
    rw [← hr]
    exact hwhatis _ _ _ (hmsg _ h)
  rw [if_neg c5] at hr
  by_cases c6 : which = S_MAP
  · rw [if_pos c6] at hr
    simp only [Option.some.injEq] at hr
    rw [← hr]
    exact corrupted_same (lib.msg g) _ rfl (hmsg _ h)
  rw [if_neg c6] at hr
  by_cases c7 : which = S_FDET
  · rw [if_pos c7] at hr
    split at hr
    · simp at hr
    · simp only [Option.some.injEq] at hr
      rw [← hr]
      exact ite_clean _ _ _ (hshow _ h) (hmsg _ h)
  rw [if_neg c7] at hr
  by_cases c8 : which = S_TELEP
  · rw [if_pos c8] at hr
    simp only [Option.some.injEq] at hr
    rw [← hr]; exact htele _ h
  rw [if_neg c8] at hr
  by_cases c9 : which = S_ENCH
  · rw [if_pos c9] at hr
    split at hr
    · simp only [Option.some.injEq] at hr
      rw [← hr]; exact hmsg _ h
    · rename_i w _
      by_cases hw : (g.heap w).o_type ≠ WEAPON
      · rw [if_pos hw] at hr
        simp only [Option.some.injEq] at hr
        rw [← hr]; exact hmsg _ h
      · rw [if_neg hw] at hr
        simp only [Option.some.injEq] at hr
        rw [← hr]
        apply hmsg
        apply pick_color_clean
        have h1 : corrupted (rnd 2 (uncurse_obj w g)).2 = false :=
          corrupted_same g _ (rnd_player 2 _).1 h
        exact ite_clean _ _ _ (poke_clean _ _ _ h1) (poke_clean _ _ _ h1)
  rw [if_neg c9] at hr
  by_cases c10 : which = S_SCARE
  · rw [if_pos c10] at hr
    simp only [Option.some.injEq] at hr
    rw [← hr]; exact hmsg _ h
  rw [if_neg c10] at hr
  by_cases c11 : which = S_REMOVE
  · rw [if_pos c11] at hr
    simp only [Option.some.injEq] at hr
    rw [← hr]
    apply hmsg
    apply uncurse_clean
    apply uncurse_clean
    apply uncurse_clean
    apply uncurse_clean
    exact h
  rw [if_neg c11] at hr
  by_cases c12 : which = S_AGGR
  · rw [if_pos c12] at hr
    simp only [Option.some.injEq] at hr
    rw [← hr]; exact hmsg _ (haggr _ h)
  rw [if_neg c12] at hr
  by_cases c13 : which = S_PROTECT
  · rw [if_pos c13] at hr
    split at hr
    · simp only [Option.some.injEq] at hr
      rw [← hr]; exact hmsg _ h
    · simp only [Option.some.injEq] at hr
      rw [← hr]
      exact hmsg _ (pick_color_clean _ _ (poke_clean _ _ _ h))
  rw [if_neg c13] at hr
  simp only [Option.some.injEq] at hr
  rw [← hr]; exact h

theorem read_scroll_clean (env : Env) (lib : Lib)
    (he : env.keeps (fun g => corrupted g = false))
    (hl : lib.keeps (fun g => corrupted g = false))
    (mp : coord) (g g1 : Game) (h : corrupted g = false)
    (hr : read_scroll env lib mp g = some g1) : corrupted g1 = false := by
  unfold read_scroll at hr
  cases hsel : env.get_item SCROLL g with
  | none => rw [hsel] at hr; simp at hr
  | some r =>
    obtain ⟨o, s1⟩ := r
    have hs1 : corrupted s1 = false := he.1 SCROLL g o s1 h hsel
    rw [hsel] at hr
    cases o with
    | none =>
      simp only [Option.some.injEq] at hr
      rw [← hr]; exact hs1
    | some obj =>
      simp only [] at hr
      by_cases hp : (s1.heap obj).o_type ≠ SCROLL
      · rw [if_pos hp] at hr
        simp only [Option.some.injEq] at hr
        rw [← hr]; exact hl.1 _ hs1
      · rw [if_neg hp] at hr
        have hs2 : corrupted (if s1.cur_weapon = some obj then
            { s1 with cur_weapon := none } else s1) = false :=
          ite_clean _ _ _ (corrupted_same s1 _ rfl hs1) hs1
        cases hlv : leave_pack obj false false (if s1.cur_weapon = some obj then
            { s1 with cur_weapon := none } else s1) with
        | none => rw [hlv] at hr; simp at hr
        | some r3 =>
          obtain ⟨o3, s3⟩ := r3
          rw [hlv] at hr
          simp only [] at hr
          have hs3 : corrupted s3 = false :=
            corrupted_same _ s3 (leave_pack_player obj false _ s3 o3 hlv).1 hs2
          cases hsw : read_switch env lib mp (s3.heap obj).o_which s3 with
          | none => rw [hsw] at hr; simp at hr
          | some s4 =>
            rw [hsw] at hr
            simp only [Option.some.injEq] at hr
            have hs4 := read_switch_clean env lib he hl mp _ s3 s4 hs3 hsw
            have hs5 : corrupted (lib.call_it SCROLL (s4.heap obj).o_which
                (lib.status (lib.look true s4))) = false :=
              hl.2.2.2.2.1 _ _ _ (hl.2.1 _ (hl.2.2.2.1 _ _ hs4))
            rw [← hr]
            exact ite_clean _ _ _ (corrupted_same _ (discard obj _) rfl hs5) hs5

theorem ring_eat_flags (hand : Nat) (g g1 : Game) (e : Int)
    (h : ring_eat hand g = some (e, g1)) : g1.t_flags = g.t_flags := by
  have key : ∀ (c : Prop) [Decidable c] (a b : Int) (n : Nat),
      (if c then (a, (rnd n g).2) else (b, g)).2.t_flags = g.t_flags := by
    intro c _ a b n
    split
    · exact (rnd_player n g).1
    · rfl
  unfold ring_eat at h
  split at h
  · simp only [Option.some.injEq, Prod.mk.injEq] at h
    rw [← h.2]
  · simp only [] at h
    split at h
    · simp at h
    · split at h
      · simp only [Option.some.injEq, Prod.mk.injEq] at h
        rw [← h.2]
        exact key _ _ _ _
      · simp only [Option.some.injEq] at h
        have h2 := congrArg (fun r => r.2) h
        simp only [] at h2
        rw [← h2]
        exact key _ _ _ _

theorem stomach_finish_clean (orig : Int) (g : Game) (h : corrupted g = false) :
    corrupted (stomach_finish orig g) = false := by
  unfold stomach_finish
  split
  · exact corrupted_flag_off ISRUN g h
  · exact h

theorem stomach_hunger_flags (oldfood : Int) (g : Game) :
    (stomach_hunger oldfood g).t_flags = g.t_flags := by
  unfold stomach_hunger
  split
  · rfl
  · split <;> rfl

theorem stomach_clean (g : Game) (t : Tick) (h : corrupted g = false)
    (hr : stomach g = some t) : corrupted t.game = false := by
  unfold stomach at hr
  simp only [] at hr
  by_cases hf : g.food_left ≤ 0
  · rw [if_pos hf] at hr
    by_cases hs : g.food_left < -STARVETIME
    · rw [if_pos hs] at hr
      simp only [Option.some.injEq] at hr
      rw [← hr]; exact corrupted_same g _ rfl h
    · rw [if_neg hs] at hr
      by_cases hn : g.no_command ≠ 0
      · rw [if_pos hn] at hr
        simp only [Option.some.injEq] at hr
        rw [← hr]; exact corrupted_same g _ rfl h
      · rw [if_neg hn] at hr
        have h5 : corrupted (rnd 5 { g with food_left := g.food_left - 1 }).2 = false :=
          corrupted_same g _ (rnd_player 5 _).1 h
        split at hr
        · simp only [Option.some.injEq] at hr
          rw [← hr]; exact h5
        · simp only [Option.some.injEq] at hr
          rw [← hr]
          simp only [Tick.game]
          apply stomach_finish_clean
          have h8 : corrupted (rnd 8 (rnd 5 { g with food_left := g.food_left - 1 }).2).2
              = false := corrupted_same _ _ (rnd_player 8 _).1 h5
          exact corrupted_same (rnd 8 (rnd 5 { g with food_left := g.food_left - 1 }).2).2
            _ rfl h8
  · rw [if_neg hf] at hr
    cases h1 : ring_eat LEFT g with
    | none => rw [h1] at hr; simp at hr
    | some r1 =>
      obtain ⟨e1, s1⟩ := r1
      rw [h1] at hr
      simp only [] at hr
      cases h2 : ring_eat RIGHT s1 with
      | none => rw [h2] at hr; simp at hr
      | some r2 =>
        obtain ⟨e2, s2⟩ := r2
        rw [h2] at hr
        simp only [Option.some.injEq] at hr
        rw [← hr]
        simp only [Tick.game]
        apply stomach_finish_clean
        have hs2 : s2.t_flags = g.t_flags := by
          rw [ring_eat_flags RIGHT s1 s2 e2 h2, ring_eat_flags LEFT g s1 e1 h1]
        refine corrupted_same g _ ?_ h
        rw [stomach_hunger_flags]
        exact hs2

theorem ring_on_hand_clean (env : Env) (he : env.keeps (fun g => corrupted g = false))
    (obj ring : Nat) (g : Game) (h : corrupted g = false) :
    corrupted (ring_on_hand env obj ring g) = false := by
  obtain ⟨_, hchg, haggr⟩ := he
  have h1 : corrupted { g with cur_ring := Function.update g.cur_ring ring (some obj) }
      = false := corrupted_same g _ rfl h
  unfold ring_on_hand
  simp only []
  split
  · exact hchg _ _ h1
  · split
    · exact invis_on_clean _ h1
    · split
      · exact haggr _ h1
      · exact h1

theorem ring_on_clean (env : Env) (he : env.keeps (fun g => corrupted g = false))
    (g g1 : Game) (h : corrupted g = false) (hr : ring_on env g = some g1) :
    corrupted g1 = false := by
  unfold ring_on at hr
  cases hsel : env.get_item RING g with
  | none => rw [hsel] at hr; simp at hr
  | some r =>
    obtain ⟨o, s1⟩ := r
    have hs1 : corrupted s1 = false := he.1 RING g o s1 h hsel
    rw [hsel] at hr
    cases o with
    | none =>
      simp only [Option.some.injEq] at hr
      rw [← hr]; exact hs1
    | some obj =>
      simp only [] at hr
      split at hr
      · simp only [Option.some.injEq] at hr
        rw [← hr]; exact hs1
      · split at hr
        · simp only [Option.some.injEq] at hr
          rw [← hr]; exact hs1
        · split at hr
          · split at hr
            · simp at hr
            · rename_i ring keys _
              split at hr
              · simp only [Option.some.injEq] at hr
                rw [← hr]; exact corrupted_same s1 _ rfl hs1
              · simp only [Option.some.injEq] at hr
                rw [← hr]
                exact ring_on_hand_clean env he _ _ _ (corrupted_same s1 _ rfl hs1)
          · split at hr
            · simp only [Option.some.injEq] at hr
              rw [← hr]
              exact ring_on_hand_clean env he _ _ _ hs1
            · split at hr
              · simp only [Option.some.injEq] at hr
                rw [← hr]
                exact ring_on_hand_clean env he _ _ _ hs1
              · simp only [Option.some.injEq] at hr
                rw [← hr]; exact hs1

/-- C28. A state in which none of the flags `ISSLOW`, `ISGREED`, `ISINVIS`, `ISREGEN`,
`ISTARGET` is set on the player (`corrupted` is the test of `command` for them) is taken
to such a state by each of the callbacks `unconfuse`, `unsee`, `sight`, `nohaste`,
`stomach`, `come_down` and `land`, by `do_pot`, `quaff`, `read_scroll`, `ring_on` and
`turn_see`, whenever they return: the statements of these routines set and clear other
flags only.  The routines they call whose text is not among the sources, the output
routines and the selection dialogue are assumed to take such states to such states. -/
theorem player_flags_clean (env : Env) (lib : Lib)
    (he : env.keeps (fun g => corrupted g = false))
    (hl : lib.keeps (fun g => corrupted g = false))
    (g : Game) (h : corrupted g = false) :
    corrupted (unconfuse lib g) = false ∧ corrupted (unsee g) = false ∧
    corrupted (sight lib g) = false ∧ corrupted (nohaste lib g) = false ∧
    (∀ t, stomach g = some t → corrupted t.game = false) ∧
    corrupted (come_down lib g) = false ∧ corrupted (land lib g) = false ∧
    (∀ type knowit g1, do_pot lib type knowit g = some g1 → corrupted g1 = false) ∧
    (∀ g1, quaff env lib g = some g1 → corrupted g1 = false) ∧
    (∀ mp g1, read_scroll env lib mp g = some g1 → corrupted g1 = false) ∧
    (∀ g1, ring_on env g = some g1 → corrupted g1 = false) ∧
    (∀ turn_off, corrupted (turn_see lib turn_off g).2 = false) :=
  ⟨unconfuse_clean lib hl g h, unsee_clean g h, sight_clean lib hl g h,
    nohaste_clean lib hl g h, fun t ht => stomach_clean g t h ht,
    come_down_clean lib hl g h, land_clean lib hl g h,
    fun type knowit g1 hr => do_pot_clean lib hl type knowit g g1 h hr,
    fun g1 hr => quaff_clean env lib he hl g g1 h hr,
    fun mp g1 hr => read_scroll_clean env lib he hl mp g g1 h hr,
    fun g1 hr => ring_on_clean env he g g1 h hr,
    fun turn_off => turn_see_clean lib turn_off g h⟩

theorem ex_env_keeps (P : Game → Prop)
    (hP : ∀ g ks a, P g → P { g with keys := ks, after := a }) :
    ex_env.keeps P := by
  refine ⟨?_, fun _ _ h => h, fun _ h => h⟩
  intro t g r g1 h hsel
  unfold ex_env at hsel
  simp only [] at hsel
  cases hk : g.keys with
  | nil => rw [hk] at hsel; simp at hsel
  | cons k ks =>
    rw [hk] at hsel
    simp only [] at hsel
    split at hsel
    · simp only [Option.some.injEq, Prod.mk.injEq] at hsel
      rw [← hsel.2]
      exact hP g ks false h
    · simp only [Option.some.injEq, Prod.mk.injEq] at hsel
      rw [← hsel.2]
      exact hP g ks g.after h

theorem ex_lib_keeps (P : Game → Prop) : ex_lib.keeps P :=
  ⟨fun _ h => h, fun _ h => h, fun _ h => h, fun _ _ h => h, fun _ _ _ h => h,
    fun _ h => h, fun _ h => h, fun _ h => h, fun _ _ _ h => h, fun _ _ _ _ h => h,
    fun _ _ _ h => h, fun _ _ h => h, fun _ _ h => h, fun _ _ h => h,
    fun _ _ _ _ _ h => h, fun _ _ _ h => h, fun _ _ _ _ h => h, fun _ _ h => h,
    fun _ _ h => h⟩

theorem player_flags_clean_witness :
    (∃ g1, quaff ex_env ex_lib (ex_cellar [97]) = some g1 ∧ corrupted g1 = false) ∧
    (∃ g1, read_scroll ex_env ex_lib ⟨0, 0⟩ (ex_cellar [99]) = some g1 ∧
      corrupted g1 = false) ∧
    corrupted (sight ex_lib (ex_cellar [])) = false ∧
    corrupted (turn_see ex_lib false (ex_cellar [])).2 = false ∧
    (∃ g1, do_pot ex_lib P_CONFUSE true (ex_cellar []) = some g1 ∧ corrupted g1 = false) :=
  ⟨(Option.isSome_iff_exists.mp (by decide :
      (quaff ex_env ex_lib (ex_cellar [97])).isSome = true)).imp
      (fun g1 hq => ⟨hq, (player_flags_clean ex_env ex_lib
        (ex_env_keeps _ (fun g _ _ hg => corrupted_same g _ rfl hg)) (ex_lib_keeps _)
        (ex_cellar [97]) rfl).2.2.2.2.2.2.2.2.1 g1 hq⟩),
    (Option.isSome_iff_exists.mp (by decide :
      (read_scroll ex_env ex_lib ⟨0, 0⟩ (ex_cellar [99])).isSome = true)).imp
      (fun g1 hq => ⟨hq, (player_flags_clean ex_env ex_lib
        (ex_env_keeps _ (fun g _ _ hg => corrupted_same g _ rfl hg)) (ex_lib_keeps _)
        (ex_cellar [99]) rfl).2.2.2.2.2.2.2.2.2.1 ⟨0, 0⟩ g1 hq⟩),
    (player_flags_clean ex_env ex_lib
      (ex_env_keeps _ (fun g _ _ hg => corrupted_same g _ rfl hg)) (ex_lib_keeps _)
      (ex_cellar []) rfl).2.2.1,
    (player_flags_clean ex_env ex_lib
      (ex_env_keeps _ (fun g _ _ hg => corrupted_same g _ rfl hg)) (ex_lib_keeps _)
      (ex_cellar []) rfl).2.2.2.2.2.2.2.2.2.2.2 false,
    (Option.isSome_iff_exists.mp (by decide :
      (do_pot ex_lib P_CONFUSE true (ex_cellar [])).isSome = true)).imp
      (fun g1 hq => ⟨hq, (player_flags_clean ex_env ex_lib
        (ex_env_keeps _ (fun g _ _ hg => corrupted_same g _ rfl hg)) (ex_lib_keeps _)
        (ex_cellar []) rfl).2.2.2.2.2.2.2.1 P_CONFUSE true g1 hq⟩)⟩

end Rogue
